import Mathlib

/-!
# Smart-GPU-PV: configuration orchestrator

A shallow embedding of `GPUPVConfigurator.cpp` (with the helpers of `Utils.cpp`,
`PowerShellExecutor.cpp` and `VMManager.cpp` it relies on) and of the matching functions
of `GPUManager.cpp`, and theorems about them.

* A `std::string` is the list of its `char`s (`Str`).
* Every function that talks to the host (PowerShell, WMI) runs against a `Host`:
  a deterministic machine with its own state that answers each command.  A run
  returns the value, the new host state and the list of events it produced
  (commands with their replies, progress lines sent to the callback).
-/

namespace SmartGPUPV

/-! ## Strings -/

/-- A `std::string`, as the list of its chars. -/
abbrev Str := List Char

/-- The literal `UTF8(s)` / `"s"` of the source. -/
abbrev lit (s : String) : Str := s.toList

/-- The result of `s.find(pat)`: the least offset at which `pat` occurs (`none` is `npos`). -/
def find (pat : Str) : Str → Option Nat
  | [] => if pat.isEmpty then some 0 else none
  | c :: cs =>
    if pat.isPrefixOf (c :: cs) then some 0
    else (find pat cs).map (fun i => i + 1)

/-- The result of `s.find(pat, pos)`. -/
def findFrom (pat s : Str) (pos : Nat) : Option Nat :=
  if pos ≤ s.length then (find pat (s.drop pos)).map (fun i => i + pos) else none

/-- Test `s.find(pat) != npos`. -/
def contains (s pat : Str) : Bool := (find pat s).isSome

/-- The result of `s.substr(pos, n)`. -/
def substr (s : Str) (pos n : Nat) : Str := (s.drop pos).take n

/-- First offset whose char satisfies `p` (`none` is `npos`). -/
def findIdx (p : Char → Bool) : Str → Option Nat
  | [] => none
  | c :: cs => if p c then some 0 else (findIdx p cs).map (fun i => i + 1)

/-- Last offset whose char satisfies `p` (`none` is `npos`). -/
def findLastIdx (p : Char → Bool) : Str → Option Nat
  | [] => none
  | c :: cs =>
    match findLastIdx p cs with
    | some i => some (i + 1)
    | none => if p c then some 0 else none

/-- The result of `s.find_first_not_of(set, pos)`. -/
def find_first_not_of (s set : Str) (pos : Nat) : Option Nat :=
  (findIdx (fun c => !set.contains c) (s.drop pos)).map (fun i => i + pos)

/-- The result of `s.find_last_not_of(set)`. -/
def find_last_not_of (s set : Str) : Option Nat :=
  findLastIdx (fun c => !set.contains c) s

/-- The result of `s.find_first_of(set, pos)`. -/
def find_first_of (s set : Str) (pos : Nat) : Option Nat :=
  (findIdx (fun c => set.contains c) (s.drop pos)).map (fun i => i + pos)

/-- The characters `Utils::Trim` strips. -/
def blanks : Str := [' ', '\t', '\r', '\n']

/-- Embedding of `Utils::Trim`. -/
def Trim (str : Str) : Str :=
  match find_first_not_of str blanks 0 with
  | none => []
  | some nFirst =>
    match find_last_not_of str blanks with
    | none => []
    | some nLast => substr str nFirst (nLast - nFirst + 1)

/-- Loop of `Utils::Split`: `cur` is the token being read, reversed. -/
def splitLoop (d : Char) : Str → Str → List Str
  | [], cur => if cur.isEmpty then [] else [cur.reverse]
  | c :: cs, cur =>
    if c = d then cur.reverse :: splitLoop d cs []
    else splitLoop d cs (c :: cur)

/-- Embedding of `Utils::Split` (repeated `std::getline` with a delimiter). -/
def Split (str : Str) (cDelimiter : Char) : List Str := splitLoop cDelimiter str []

/-- The predicate `isspace` of the C locale. -/
def isspace (c : Char) : Bool :=
  c = ' ' || c = '\t' || c = '\n' || c = '\r' || c.toNat = 11 || c.toNat = 12

/-- The predicate `isalpha` of the C locale. -/
def isalpha (c : Char) : Bool :=
  (65 ≤ c.toNat && c.toNat ≤ 90) || (97 ≤ c.toNat && c.toNat ≤ 122)

/-- Value of a digit in the given base, if it is one. -/
def digitVal (base : Nat) (c : Char) : Option Nat :=
  let n := c.toNat
  let v :=
    if 48 ≤ n && n ≤ 57 then some (n - 48)
    else if 97 ≤ n && n ≤ 122 then some (n - 87)
    else if 65 ≤ n && n ≤ 90 then some (n - 55)
    else none
  match v with
  | some d => if d < base then some d else none
  | none => none

/-- Longest run of digits at the front of `s`, read in `base`: the value and the number of digits. -/
def readDigits (base : Nat) : Str → Nat → Nat → Nat × Nat
  | [], acc, k => (acc, k)
  | c :: cs, acc, k =>
    match digitVal base c with
    | some d => readDigits base cs (acc * base + d) (k + 1)
    | none => (acc, k)

/-- Strip the optional sign `strtol`/`strtoull` accept; the flag says the sign was `-`. -/
def readSign : Str → Bool × Str
  | '-' :: cs => (true, cs)
  | '+' :: cs => (false, cs)
  | s => (false, s)

/-- Embedding of `std::stoull(s)` (base 10): `none` when it throws
(`invalid_argument` without digits, `out_of_range` above 2^64 - 1).  A leading
`-` negates modulo 2^64, as `strtoull` does. -/
def stoull (s : Str) : Option Nat :=
  let body := readSign (s.dropWhile isspace)
  let r := readDigits 10 body.2 0 0
  if r.2 = 0 then none
  else if 2 ^ 64 ≤ r.1 then none
  else some (if body.1 then (2 ^ 64 - r.1) % 2 ^ 64 else r.1)

/-- Strip the optional `0x`/`0X` that `strtol` accepts in base 16 (only before a hex digit). -/
def readHexMark : Str → Str
  | '0' :: x :: d :: cs =>
    if (x = 'x' || x = 'X') && (digitVal 16 d).isSome then d :: cs else '0' :: x :: d :: cs
  | s => s

/-- Embedding of `std::stoi(s, nullptr, 16)` on the four chars after a backslash-u:
`none` when it throws for lack of digits (four hex digits never leave the range of
`int`). -/
def stoi16 (s : Str) : Option Int :=
  let body := readSign (s.dropWhile isspace)
  let r := readDigits 16 (readHexMark body.2) 0 0
  if r.2 = 0 then none
  else some (if body.1 then - (r.1 : Int) else (r.1 : Int))

/-- The char `static_cast<char>(n)`: the byte `n mod 256`. -/
def byteChar (n : Int) : Char := Char.ofNat (n % 256).toNat

/-- The bytes `UnescapeJsonString` appends for the code `nCode` read after a backslash-u. -/
def utf8OfCode (nCode : Int) : Str :=
  if nCode < 128 then [byteChar nCode]
  else if nCode < 0x800 then
    [byteChar (0xC0 + nCode / 64), byteChar (0x80 + nCode % 64)]
  else
    [byteChar (0xE0 + nCode / 4096), byteChar (0x80 + (nCode / 64) % 64),
     byteChar (0x80 + nCode % 64)]

/-- Embedding of `UnescapeJsonString`; `fuel` bounds the number of loop rounds
(`str.length` rounds always suffice). -/
def unescapeLoop : Nat → Str → Str
  | 0, _ => []
  | _ + 1, [] => []
  | fuel + 1, c :: rest =>
    if c = '\\' then
      match rest with
      | [] => [c]
      | cNext :: rest2 =>
        if cNext = '"' then '"' :: unescapeLoop fuel rest2
        else if cNext = '\\' then '\\' :: unescapeLoop fuel rest2
        else if cNext = '/' then '/' :: unescapeLoop fuel rest2
        else if cNext = 'b' then Char.ofNat 8 :: unescapeLoop fuel rest2
        else if cNext = 'f' then Char.ofNat 12 :: unescapeLoop fuel rest2
        else if cNext = 'n' then '\n' :: unescapeLoop fuel rest2
        else if cNext = 'r' then '\r' :: unescapeLoop fuel rest2
        else if cNext = 't' then '\t' :: unescapeLoop fuel rest2
        else if cNext = 'u' then
          if 4 ≤ rest2.length then
            match stoi16 (rest2.take 4) with
            | some nCode => utf8OfCode nCode ++ unescapeLoop fuel (rest2.drop 4)
            | none => '\\' :: 'u' :: unescapeLoop fuel rest2
          else '\\' :: 'u' :: unescapeLoop fuel rest2
        else '\\' :: unescapeLoop fuel rest
    else c :: unescapeLoop fuel rest

/-- Embedding of `UnescapeJsonString`. -/
def UnescapeJsonString (str : Str) : Str := unescapeLoop str.length str

/-- The scan of `ExtractJsonValue` for the closing quote of a string value: the
offset, within the text after the opening quote, of the first double quote that
is preceded by an even number of consecutive backslashes (`run` counts the
backslashes seen so far, `k` is the current offset). -/
def closingQuote : Str → Nat → Nat → Option Nat
  | [], _, _ => none
  | c :: cs, run, k =>
    if c = '"' then
      if run % 2 = 0 then some k else closingQuote cs 0 (k + 1)
    else if c = '\\' then closingQuote cs (run + 1) (k + 1)
    else closingQuote cs 0 (k + 1)

/-- Embedding of `Utils::ExtractJsonValue`. -/
def ExtractJsonValue (strJson strKey : Str) : Str :=
  let strSearchKey := ['"'] ++ strKey ++ ['"']
  match find strSearchKey strJson with
  | none => []
  | some nKeyPos =>
    match findFrom [':'] strJson nKeyPos with
    | none => []
    | some nColonPos =>
      match find_first_not_of strJson blanks (nColonPos + 1) with
      | none => []
      | some nValueStart =>
        if (strJson.drop nValueStart).head? = some '"' then
          match closingQuote (strJson.drop (nValueStart + 1)) 0 0 with
          | some k => UnescapeJsonString (substr strJson (nValueStart + 1) k)
          | none => []
        else
          let nValueEnd :=
            match find_first_of strJson [',', '\x7d', '\r', '\n'] nValueStart with
            | some e => e
            | none => strJson.length
          Trim (substr strJson nValueStart (nValueEnd - nValueStart))

/-! ## GPUManager -/

/-- The struct `GPUInfo`. -/
structure GPUInfo where
  strFriendlyName : Str := []
  strInstancePath : Str := []
  ui64VramBytes : Nat := 0
  strPnpDeviceID : Str := []
  strDriverPath : Str := []
  strDisplayText : Str := []
  deriving DecidableEq, Repr

/-- The value of `a - b` computed in `size_t`, for `a` and `b` below 2^64. -/
def sizeDiff (a b : Nat) : Nat := if b ≤ a then a - b else 2 ^ 64 - (b - a)

/-- The offset of the marker `ExtractHardwareID` selects (lines 266 to 269): that of the
first `PCI\`, and without one that of the first `PCI#`. -/
def pciMarker (pnpDeviceID : Str) : Option Nat :=
  match find (lit "PCI\\") pnpDeviceID with
  | some pciPos => some pciPos
  | none => find (lit "PCI#") pnpDeviceID

/-- Lines 275 to 290 of `ExtractHardwareID`: the vendor and device part of `hwId`, the
text that follows the marker. -/
def vendorDevice (hwId : Str) : Str :=
  match find (lit "VEN_") hwId, find (lit "&DEV_") hwId with
  | some venPos, some devPos =>
    match findFrom (lit "&") hwId (devPos + 1) with
    | some endPos => substr hwId venPos (sizeDiff endPos venPos)
    | none => hwId.drop venPos
  | _, _ => []

/-- Embedding of `GPUManager::ExtractHardwareID`. -/
def ExtractHardwareID (pnpDeviceID : Str) : Str :=
  match pciMarker pnpDeviceID with
  | none => []
  | some pciPos => vendorDevice (pnpDeviceID.drop (pciPos + 4))

/-- The name column of a display text: 30 chars and `...`, or the name padded to 33. -/
def shortGPUName (name : Str) : Str :=
  if name.length > 30 then substr name 0 30 ++ lit "..."
  else name ++ List.replicate (30 + 3 - name.length) ' '

/-- The path shown in a display text: the path, or its first 20 chars and `...`. -/
def shortPath (path : Str) : Str :=
  if path.length > 20 then substr path 0 20 ++ lit "..." else path

/-- The display text of a record, given the text `vramSize` that `Utils::FormatVRAMSize`
returns for its VRAM. -/
def displayText (vramSize name path : Str) : Str :=
  shortGPUName name ++ lit "\t [ VRAM:" ++ vramSize ++ lit "  Path:" ++ shortPath path ++ lit " ] "

/-- The test of `MatchGPUInfo` (line 228) for a detail whose PnP id is not empty: its
hardware id is not empty and occurs in `pathHwId`. -/
def hwIdMatches (pathHwId : Str) (detail : GPUInfo) : Bool :=
  !(ExtractHardwareID detail.strPnpDeviceID).isEmpty &&
    contains pathHwId (ExtractHardwareID detail.strPnpDeviceID)

/-- The inner loop of `MatchGPUInfo` (lines 221 to 254) over the details still to try: the
record pushed for `path`, if any.  `FormatVRAMSize` stands for `Utils::FormatVRAMSize`
(`sprintf_s` with `%.0fMB`). -/
def matchDetail (FormatVRAMSize : Nat → Str) (path pathHwId : Str) :
    List GPUInfo → Option GPUInfo
  | [] => none
  | detail :: rest =>
    if detail.strPnpDeviceID.isEmpty then matchDetail FormatVRAMSize path pathHwId rest
    else if hwIdMatches pathHwId detail then
      some { detail with
        strInstancePath := path
        strDisplayText :=
          displayText (FormatVRAMSize detail.ui64VramBytes) detail.strFriendlyName path }
    else matchDetail FormatVRAMSize path pathHwId rest

/-- Embedding of `GPUManager::MatchGPUInfo`: the loop over the paths, `result` being the
vector built so far. -/
def MatchGPUInfo (FormatVRAMSize : Nat → Str) (paths : List Str) (details : List GPUInfo) :
    List GPUInfo :=
  paths.foldl (fun result path =>
    match find (lit "PCI#") path with
    | none => result
    | some pciPos =>
      match matchDetail FormatVRAMSize path (path.drop pciPos) details with
      | some matched => result ++ [matched]
      | none => result) []

/-- The inner loop of `GetPartitionableGPUsViaWMI` (lines 50 to 59): the first DXGI record
whose hardware id is not empty and occurs in `hwId`. -/
def findDxgi (hwId : Str) : List GPUInfo → Option GPUInfo
  | [] => none
  | dxgiGpu :: rest =>
    if !(ExtractHardwareID dxgiGpu.strPnpDeviceID).isEmpty &&
        contains hwId (ExtractHardwareID dxgiGpu.strPnpDeviceID) then some dxgiGpu
    else findDxgi hwId rest

/-- The record `MatchGPUInfo` pushes for `path` and the detail it matched: the detail,
with `path` as its instance path and the display text built from both. -/
def mergedRecord (FormatVRAMSize : Nat → Str) (path : Str) (detail : GPUInfo) : GPUInfo :=
  { detail with
    strInstancePath := path
    strDisplayText :=
      displayText (FormatVRAMSize detail.ui64VramBytes) detail.strFriendlyName path }

/-- A path matches a detail: the path contains `PCI#`, the detail has a PnP id, and the
hardware id of that PnP id is not empty and occurs in the path from its first `PCI#` on. -/
def pathMatches (path : Str) (detail : GPUInfo) : Bool :=
  match find (lit "PCI#") path with
  | none => false
  | some pciPos => !detail.strPnpDeviceID.isEmpty && hwIdMatches (path.drop pciPos) detail

/-- The list the specification describes: for each path in order, the record merged from
the path and the first detail, in list order, that matches it; nothing for a path that no
detail matches. -/
def MatchGPUInfoSpec (FormatVRAMSize : Nat → Str) (paths : List Str) (details : List GPUInfo) :
    List GPUInfo :=
  paths.filterMap (fun path =>
    (details.find? (pathMatches path)).map (mergedRecord FormatVRAMSize path))

/-- The text `Utils::FormatVRAMSize` returns for a whole number of MiB; used in examples. -/
def wholeMB (bytes : Nat) : Str := Nat.toDigits 10 (bytes / 1048576) ++ lit "MB"

/-- The instance path of the specification's example. -/
def samplePath : Str := lit "\\\\?\\PCI#VEN_10DE&DEV_28A1&SUBSYS_00000000"

/-- A PnP id in the standard form, of the same device as `samplePath`. -/
def samplePnp : Str := lit "PCI\\VEN_10DE&DEV_28A1&SUBSYS_16F01043&REV_A1\\4&2B5F3E1&0&0008"

/-! ## The host interface -/

/-- The PowerShell command lines the configurator builds, one constructor per command
text; the arguments are the strings spliced into the text. -/
inductive Cmd
  /-- Text `Get-VMGpuPartitionAdapter -VMName 'vm' -ErrorAction SilentlyContinue |
  Select-Object InstancePath, MinPartitionVRAM | ConvertTo-Json`. -/
  | getAdapter (vm : Str)
  /-- Text `(Get-VM -VMName 'vm').GuestControlledCacheTypes`. -/
  | getCacheTypes (vm : Str)
  /-- Text `Remove-VMGpuPartitionAdapter -VMName 'vm' -ErrorAction SilentlyContinue`. -/
  | removeAdapter (vm : Str)
  /-- Text `Add-VMGpuPartitionAdapter -VMName 'vm' -InstancePath 'path'`. -/
  | addAdapter (vm path : Str)
  /-- Text `Set-VMGpuPartitionAdapter -VMName 'vm' -MinPartitionR min -MaxPartitionR max
  -OptimalPartitionR opt` for the resource type `R`. -/
  | setPartition (vm resType : Str) (min max opt : Nat)
  /-- Text `Set-VM -VMName 'vm' -GuestControlledCacheTypes $true` (or `$false`). -/
  | setCacheTypes (vm : Str) (enabled : Bool)
  /-- Text `Set-VMFirmware -VMName 'vm' -EnableSecureBoot Off`. -/
  | secureBootOff (vm : Str)
  /-- Text `Set-VM -VMName 'vm' -LowMemoryMappedIoSpace 1GB`. -/
  | setLowMmioSpace (vm : Str)
  /-- Text `Set-VM -VMName 'vm' -HighMemoryMappedIoSpace 32GB`. -/
  | setHighMmioSpace (vm : Str)
  /-- Text `Stop-VM -Name 'vm' -Force -WarningAction SilentlyContinue`. -/
  | stopVM (vm : Str)
  /-- Text `(Get-VM -Name 'vm').State.ToString()`. -/
  | getVMState (vm : Str)
  /-- The mount script of `MountVMDisk`. -/
  | mountDisk (vm : Str)
  /-- The dismount script of `DismountVMDisk`. -/
  | dismountDisk (vm : Str)
  /-- Name lookup 1 of `CopyDriverFiles`: from the adapter of the VM. -/
  | gpuNameOfAdapter (vm : Str)
  /-- Name lookup 2 of `CopyDriverFiles`: through `Msvm_PartitionableGpu`. -/
  | gpuNameOfPartitionable (vm : Str)
  /-- Name lookup 3 of `CopyDriverFiles`: any healthy NVIDIA device. -/
  | gpuNameAnyNvidia
  /-- The script of `CopyGPUServiceDriver`. -/
  | copyServiceDriver (gpuName driveLetter : Str)
  /-- The script of `CopyPnPDriverFiles`. -/
  | copyPnPDriverFiles (escapedGpuName driveLetter : Str)
  /-- The script of `CopyNvidiaSpecialFiles`. -/
  | copyNvidiaSpecial (driveLetter : Str)
  /-- The verification script of `CopyDriverFiles`. -/
  | verifyDriverFiles (driveLetter gpuName : Str)
  /-- The script of `VerifyGPUDeviceInVM`. -/
  | verifyDeviceInVM (vm gpuCoreName : Str)
  deriving DecidableEq, Repr

/-- What `PowerShellExecutor::ExecuteWithCheck` hands back: whether the exit code was 0,
and the values left in `strOutput` and `strError`. -/
structure Reply where
  ok : Bool
  output : Str
  error : Str
  deriving DecidableEq, Repr

/-- Outcome of `VMManager::StopVMViaWMI`: it throws, or returns a flag (with the message it
stored in `error` when the flag is false). -/
inductive WmiResult
  | threw
  | returned (ok : Bool) (err : Str)
  deriving DecidableEq, Repr

/-- The machine the configurator talks to: from a state, every PowerShell command and the
WMI stop request produce an answer and a new state. -/
structure Host (σ : Type) where
  exec : Cmd → σ → Reply × σ
  wmiStop : Str → σ → WmiResult × σ

/-- Embedding of `GPUPVBackup`. -/
structure GPUPVBackup where
  bHasAdapter : Bool := false
  strInstancePath : Str := []
  ui64VramBytes : Nat := 0
  bGuestControlledCacheTypes : Bool := false
  deriving DecidableEq, Repr

/-- The five steps of the enable path of `ConfigureGPUPV` whose result it tests. -/
inductive Step
  | addAdapter
  | resources
  | cacheTypes
  | mmio
  | drivers
  deriving DecidableEq, Repr

/-- What a run leaves in its log.  `say`, `ps` and `wmi` are the interactions with the
outside; `backup`, `restore` and `step` record, for the statements below, that
`BackupState` returned, that `RestoreState` was entered, and the result a step returned
to `ConfigureGPUPV`. -/
inductive Event
  | say (msg : Str)
  | ps (c : Cmd) (r : Reply)
  | wmi (vm : Str) (r : WmiResult)
  | backup (b : GPUPVBackup)
  | restore (b : GPUPVBackup)
  | step (s : Step) (ok : Bool)
  deriving DecidableEq, Repr

/-- Result of running a piece of the program: value, new host state, events in order. -/
structure Res (σ α : Type) where
  val : α
  st : σ
  ev : List Event

/-- A piece of the program, run from a host state. -/
def Exec (σ α : Type) : Type := σ → Res σ α

/-- Return a value without touching the host. -/
def Exec.pure {σ α : Type} (a : α) : Exec σ α := fun s => ⟨a, s, []⟩

/-- Run `m`, then `f` on its value from the state `m` left; the events concatenate. -/
def Exec.bind {σ α β : Type} (m : Exec σ α) (f : α → Exec σ β) : Exec σ β :=
  fun s => ⟨(f (m s).val (m s).st).val, (f (m s).val (m s).st).st,
    (m s).ev ++ (f (m s).val (m s).st).ev⟩

instance {σ : Type} : Monad (Exec σ) where
  pure := Exec.pure
  bind := Exec.bind

/-- Record one event. -/
def emit {σ : Type} (e : Event) : Exec σ Unit := fun s => ⟨(), s, [e]⟩

/-- The call `callback(msg)`. -/
def say {σ : Type} (msg : Str) : Exec σ Unit := emit (Event.say msg)

/-- Embedding of `PowerShellExecutor::ExecuteWithCheck` on the command `c`. -/
def ExecuteWithCheck {σ : Type} (h : Host σ) (c : Cmd) : Exec σ Reply :=
  fun s => ⟨(h.exec c s).1, (h.exec c s).2, [Event.ps c (h.exec c s).1]⟩

/-- Embedding of `PowerShellExecutor::Execute`: the output, the rest is dropped. -/
def Execute {σ : Type} (h : Host σ) (c : Cmd) : Exec σ Str := do
  let r ← ExecuteWithCheck h c
  pure r.output

/-- The value `strError` has after a failed call whose caller substitutes `dflt` for an
empty message. -/
def orDefault (error dflt : Str) : Str := if error.isEmpty then dflt else error

/-! ## GPUPVConfigurator -/

/-- Embedding of `GPUPVConfigurator::BackupState`. -/
def BackupState {σ : Type} (h : Host σ) (vmName : Str) : Exec σ GPUPVBackup := do
  let output ← Execute h (Cmd.getAdapter vmName)
  let backup : GPUPVBackup :=
    if !output.isEmpty then
      { bHasAdapter := true
        strInstancePath := ExtractJsonValue output (lit "InstancePath")
        ui64VramBytes :=
          match stoull (ExtractJsonValue output (lit "MinPartitionVRAM")) with
          | some v => v
          | none => 0
        bGuestControlledCacheTypes := false }
    else {}
  let output ← Execute h (Cmd.getCacheTypes vmName)
  let backup := { backup with bGuestControlledCacheTypes := Trim output == lit "True" }
  emit (Event.backup backup)
  pure backup

/-- Embedding of `GPUPVConfigurator::AddGPUPartitionAdapter`: the flag it returns and the
value it leaves in `error`. -/
def AddGPUPartitionAdapter {σ : Type} (h : Host σ) (vmName gpuInstancePath : Str) :
    Exec σ (Bool × Str) := do
  let r ← ExecuteWithCheck h (Cmd.addAdapter vmName gpuInstancePath)
  if !r.ok then pure (false, orDefault r.error (lit "添加GPU分区适配器失败\n"))
  else pure (true, r.error)

/-- The array `resourceTypes` of `ConfigureGPUResources`. -/
def resourceTypes : List Str := [lit "VRAM", lit "Encode", lit "Decode", lit "Compute"]

/-- The loop of `ConfigureGPUResources` over the resource types still to do; `error` is
the current value of the out-parameter. -/
def configureLoop {σ : Type} (h : Host σ) (vmName : Str) (vramBytes : Nat) :
    List Str → Str → Exec σ (Bool × Str)
  | [], error => pure (true, error)
  | resType :: rest, _ => do
    let r ← ExecuteWithCheck h (Cmd.setPartition vmName resType 1 vramBytes vramBytes)
    if !r.ok then pure (false, orDefault r.error (lit "配置GPU资源失败: " ++ resType))
    else configureLoop h vmName vramBytes rest r.error

/-- Embedding of `GPUPVConfigurator::ConfigureGPUResources`. -/
def ConfigureGPUResources {σ : Type} (h : Host σ) (vmName : Str) (vramBytes : Nat)
    (error : Str) : Exec σ (Bool × Str) :=
  configureLoop h vmName vramBytes resourceTypes error

/-- Embedding of `GPUPVConfigurator::EnableGuestControlledCacheTypes`. -/
def EnableGuestControlledCacheTypes {σ : Type} (h : Host σ) (vmName : Str) :
    Exec σ (Bool × Str) := do
  let r ← ExecuteWithCheck h (Cmd.setCacheTypes vmName true)
  if !r.ok then pure (false, orDefault r.error (lit "启用GuestControlledCacheTypes失败"))
  else pure (true, r.error)

/-- Embedding of `GPUPVConfigurator::ConfigureMMIOSpace`. -/
def ConfigureMMIOSpace {σ : Type} (h : Host σ) (vmName : Str) : Exec σ (Bool × Str) := do
  let r1 ← ExecuteWithCheck h (Cmd.setLowMmioSpace vmName)
  if !r1.ok then pure (false, orDefault r1.error (lit "设置LowMemoryMappedIoSpace失败"))
  else do
    let r2 ← ExecuteWithCheck h (Cmd.setHighMmioSpace vmName)
    if !r2.ok then pure (false, orDefault r2.error (lit "设置HighMemoryMappedIoSpace失败"))
    else pure (true, r2.error)

/-- Embedding of `GPUPVConfigurator::RestoreState`. -/
def RestoreState {σ : Type} (h : Host σ) (vmName : Str) (backup : GPUPVBackup) :
    Exec σ Unit := do
  emit (Event.restore backup)
  let _ ← Execute h (Cmd.removeAdapter vmName)
  (if backup.bHasAdapter && !backup.strInstancePath.isEmpty then do
    say (lit "正在回滚：恢复GPU分区适配器...\n")
    let a ← AddGPUPartitionAdapter h vmName backup.strInstancePath
    if a.1 then
      if backup.ui64VramBytes > 0 then do
        let _ ← ConfigureGPUResources h vmName backup.ui64VramBytes a.2
        pure ()
      else pure ()
    else say (lit "回滚警告：无法恢复适配器 - " ++ a.2 ++ lit "\n")
  else pure ())
  say (lit "正在回滚：恢复GuestControlledCacheTypes设置...\n")
  let _ ← Execute h (Cmd.setCacheTypes vmName backup.bGuestControlledCacheTypes)
  pure ()

/-- Embedding of `VMManager::StopVMViaPowerShell`. -/
def StopVMViaPowerShell {σ : Type} (h : Host σ) (vmName : Str) : Exec σ (Bool × Str) := do
  let r ← ExecuteWithCheck h (Cmd.stopVM vmName)
  if !r.ok then pure (false, orDefault r.error (lit "停止虚拟机失败"))
  else pure (true, r.error)

/-- The call of `VMManager::StopVMViaWMI`, answered by the host. -/
def StopVMViaWMI {σ : Type} (h : Host σ) (vmName : Str) : Exec σ WmiResult :=
  fun s => ⟨(h.wmiStop vmName s).1, (h.wmiStop vmName s).2,
    [Event.wmi vmName (h.wmiStop vmName s).1]⟩

/-- Embedding of `VMManager::StopVM`: the WMI path, and the PowerShell path when that
throws. -/
def StopVM {σ : Type} (h : Host σ) (vmName : Str) (error : Str) : Exec σ (Bool × Str) := do
  let w ← StopVMViaWMI h vmName
  match w with
  | WmiResult.returned ok err => pure (ok, if ok then error else err)
  | WmiResult.threw => StopVMViaPowerShell h vmName

/-- Embedding of `VMManager::GetVMState`. -/
def GetVMState {σ : Type} (h : Host σ) (vmName : Str) : Exec σ Str := do
  let output ← Execute h (Cmd.getVMState vmName)
  pure (Trim output)

/-- Embedding of `GPUPVConfigurator::DismountVMDisk`. -/
def DismountVMDisk {σ : Type} (h : Host σ) (vmName : Str) : Exec σ (Bool × Str) := do
  let r ← ExecuteWithCheck h (Cmd.dismountDisk vmName)
  if !r.ok then
    pure (false, orDefault r.error
      (lit "卸载虚拟机磁盘失败（可能被占用，请手动在磁盘管理中卸载）"))
  else pure (true, r.error)

/-- The letter `MountVMDisk` keeps from the trimmed output: the output itself when it has
at most one char, else its last alphabetic char when there is one. -/
def pickDriveLetter (driveLetter : Str) : Str :=
  if driveLetter.length > 1 then
    match findLastIdx isalpha driveLetter with
    | some lastAlpha => substr driveLetter lastAlpha 1
    | none => driveLetter
  else driveLetter

/-- Embedding of `GPUPVConfigurator::MountVMDisk`: the drive (empty on failure) and the
value left in `error`. -/
def MountVMDisk {σ : Type} (h : Host σ) (vmName : Str) : Exec σ (Str × Str) := do
  let r ← ExecuteWithCheck h (Cmd.mountDisk vmName)
  if !r.ok then
    let error := orDefault r.error (lit "挂载虚拟机磁盘失败")
    pure ([], if !r.output.isEmpty then error ++ lit " (" ++ Trim r.output ++ lit ")" else error)
  else do
    let driveLetter := pickDriveLetter (Trim r.output)
    if driveLetter.isEmpty || driveLetter.length ≠ 1 then do
      let _ ← DismountVMDisk h vmName
      pure ([], lit "无法获取有效系统盘符")
    else pure (driveLetter ++ lit ":", r.error)

/-- Report every non-empty trimmed line (loop of `CopyGPUServiceDriver`). -/
def sayLines {σ : Type} : List Str → Exec σ Unit
  | [] => pure ()
  | line :: rest => do
    (if !(Trim line).isEmpty then say (Trim line ++ lit "\n") else pure ())
    sayLines rest

/-- Embedding of `GPUPVConfigurator::CopyGPUServiceDriver`. -/
def CopyGPUServiceDriver {σ : Type} (h : Host σ) (gpuName driveLetter : Str) :
    Exec σ (Bool × Str) := do
  let r ← ExecuteWithCheck h (Cmd.copyServiceDriver gpuName driveLetter)
  if r.ok then do
    sayLines (Split r.output '\n')
    pure (true, r.error)
  else do
    say (lit "警告：服务驱动目录复制失败 - " ++ r.error ++ lit "\n")
    pure (false, r.error)

/-- The quote-doubling loop of `CopyPnPDriverFiles`. -/
def escapeQuotes : Str → Str
  | [] => []
  | c :: cs => if c = '\x27' then '\x27' :: '\x27' :: escapeQuotes cs else c :: escapeQuotes cs

/-- Report the `[PACKAGE]` and `[FILE]` lines (loop of `CopyPnPDriverFiles`). -/
def sayCopied {σ : Type} : List Str → Exec σ Unit
  | [] => pure ()
  | line :: rest => do
    (if find (lit "[PACKAGE]") (Trim line) = some 0 || find (lit "[FILE]") (Trim line) = some 0
    then say (Trim line ++ lit "\n") else pure ())
    sayCopied rest

/-- Embedding of `GPUPVConfigurator::CopyPnPDriverFiles`; `error` is the incoming value of
the out-parameter. -/
def CopyPnPDriverFiles {σ : Type} (h : Host σ) (gpuName driveLetter : Str) :
    Exec σ (Bool × Str) := do
  say (lit "正在枚举和复制所有驱动文件...\n")
  let r ← ExecuteWithCheck h (Cmd.copyPnPDriverFiles (escapeQuotes gpuName) driveLetter)
  if !r.ok then pure (false, orDefault r.error (lit "驱动文件复制失败"))
  else do
    sayCopied (Split r.output '\n')
    if !contains r.output (lit "SUCCESS") && contains r.output (lit "ERROR") then
      pure (false, lit "驱动复制过程中断，未找到所有文件")
    else if !contains r.output (lit "SUCCESS") && r.output.isEmpty then
      pure (false, lit "未找到相关驱动文件")
    else do
      say (lit "所有驱动文件复制完成\n")
      pure (true, r.error)

/-- Embedding of `GPUPVConfigurator::CopyNvidiaSpecialFiles`. -/
def CopyNvidiaSpecialFiles {σ : Type} (h : Host σ) (driveLetter : Str) : Exec σ Bool := do
  let _ ← Execute h (Cmd.copyNvidiaSpecial driveLetter)
  pure true

/-- Report the `[FOUND]` and `[MISSING]` lines (loop of `CopyDriverFiles`). -/
def sayVerified {σ : Type} : List Str → Exec σ Unit
  | [] => pure ()
  | line :: rest => do
    (if find (lit "[FOUND]") (Trim line) = some 0 then
      say (lit "✓ " ++ (Trim line).drop 7 ++ lit "\n")
    else if find (lit "[MISSING]") (Trim line) = some 0 then
      say (lit "✗ " ++ (Trim line).drop 9 ++ lit "\n")
    else pure ())
    sayVerified rest

/-- The message `CopyDriverFiles` stores when no GPU name could be found. -/
def noGpuNameMessage : Str :=
  lit ("无法确定目标GPU名称，无法执行驱动精确拷贝。\n" ++ "请确保：\n" ++
    "1. 虚拟机已配置GPU分区适配器\n" ++ "2. 主机上GPU驱动已正确安装\n" ++
    "3. GPU设备在设备管理器中显示正常")

/-- The three name lookups of `CopyDriverFiles`, each tried when the one before gave an
empty name. -/
def resolveGpuName {σ : Type} (h : Host σ) (vmName : Str) : Exec σ Str := do
  let out1 ← Execute h (Cmd.gpuNameOfAdapter vmName)
  if (Trim out1).isEmpty then do
    say (lit "警告：无法从VM配置获取GPU名称，尝试从主机GPU列表获取...\n")
    let out2 ← Execute h (Cmd.gpuNameOfPartitionable vmName)
    if (Trim out2).isEmpty then do
      say (lit "警告：无法精确匹配GPU，尝试查找所有NVIDIA GPU...\n")
      let out3 ← Execute h Cmd.gpuNameAnyNvidia
      pure (Trim out3)
    else pure (Trim out2)
  else pure (Trim out1)

/-- Steps 3 to 7 of `CopyDriverFiles`, once the disk is mounted on `driveLetter` and the
name `gpuName` is known; `error` is the current value of the out-parameter. -/
def copyAndVerify {σ : Type} (h : Host σ) (vmName driveLetter gpuName error : Str) :
    Exec σ (Bool × Str) := do
  say (lit "目标GPU: " ++ gpuName ++ lit "\n")
  say (lit "正在拷贝GPU服务驱动...\n")
  let c1 ← CopyGPUServiceDriver h gpuName driveLetter
  let error ←
    (if !c1.1 then do
      say (lit "警告：GPU服务驱动拷贝失败 - " ++ c1.2 ++ lit "\n")
      pure (if error.isEmpty then c1.2 else error)
    else pure error)
  say (lit "正在拷贝PnP驱动文件...\n")
  let c2 ← CopyPnPDriverFiles h gpuName driveLetter
  (if !c2.1 then say (lit "警告：PnP驱动文件拷贝不完整 - " ++ c2.2 ++ lit "\n") else pure ())
  (if contains gpuName (lit "NVIDIA") then do
    say (lit "正在处理NVIDIA特殊文件...\n")
    let _ ← CopyNvidiaSpecialFiles h driveLetter
    pure ()
  else pure ())
  say (lit "正在验证驱动文件...\n")
  let verifyOutput ← Execute h (Cmd.verifyDriverFiles driveLetter gpuName)
  sayVerified (Split verifyOutput '\n')
  let error ←
    (if contains verifyOutput (lit "VERIFY_OK") then do
      say (lit "验证通过：所有关键驱动文件已存在\n")
      pure error
    else if contains verifyOutput (lit "VERIFY_PARTIAL") then do
      say (lit "警告：部分驱动文件缺失，但关键文件已存在\n")
      pure error
    else do
      say (lit "错误：验证失败，关键驱动文件缺失\n")
      pure ((if !error.isEmpty then error ++ lit "\n" else error) ++
        lit "驱动文件验证失败，请检查HostDriverStore目录"))
  say (lit "正在卸载虚拟机磁盘...\n")
  let d ← DismountVMDisk h vmName
  if !d.1 then pure (false, d.2)
  else pure (true, error)

/-- Embedding of `GPUPVConfigurator::CopyDriverFiles` (the parameter `driverPath` is not
used by the source).  When no name is found the source stores `noGpuNameMessage` in
`error` and then passes `error` to `DismountVMDisk`, whose `ExecuteWithCheck` overwrites
it: the value left is the one `DismountVMDisk` leaves. -/
def CopyDriverFiles {σ : Type} (h : Host σ) (vmName : Str) : Exec σ (Bool × Str) := do
  say (lit "正在挂载虚拟机磁盘...\n")
  let m ← MountVMDisk h vmName
  if m.1.isEmpty then pure (false, m.2)
  else do
    say (lit "虚拟机磁盘已挂载到: " ++ m.1 ++ lit "\n")
    let gpuName ← resolveGpuName h vmName
    if gpuName.isEmpty then do
      let _error := noGpuNameMessage
      let d ← DismountVMDisk h vmName
      pure (false, d.2)
    else copyAndVerify h vmName m.1 gpuName m.2

/-- The name `VerifyGPUDeviceInVM` searches for: `gpuName` cut at its first ` Laptop`, then
at its first ` Mobile`. -/
def gpuCoreName (gpuName : Str) : Str :=
  let cut1 :=
    match find (lit " Laptop") gpuName with
    | some pos => substr gpuName 0 pos
    | none => gpuName
  match find (lit " Mobile") cut1 with
  | some pos => substr cut1 0 pos
  | none => cut1

/-- Embedding of `GPUPVConfigurator::VerifyGPUDeviceInVM`.  The value is `none` when
`output.substr(pos + 14)` throws `std::out_of_range`, which happens when the output ends
with the 13 chars `DEVICE_ERROR:`. -/
def VerifyGPUDeviceInVM {σ : Type} (h : Host σ) (vmName gpuName : Str) :
    Exec σ (Option Bool) := do
  let output ← Execute h (Cmd.verifyDeviceInVM vmName (gpuCoreName gpuName))
  match find (lit "DEVICE_OK:") output with
  | some pos => do
    say (lit "设备状态正常: " ++ Trim (output.drop (pos + 10)) ++ lit "\n")
    pure (some true)
  | none =>
    match find (lit "DEVICE_ERROR:") output with
    | some pos =>
      if pos + 14 ≤ output.length then do
        say (lit "设备状态异常: " ++ Trim (output.drop (pos + 14)) ++ lit "\n")
        pure (some false)
      else pure none
    | none =>
      if contains output (lit "DEVICE_NOT_FOUND") then do
        say (lit "警告：在虚拟机中未找到GPU设备\n")
        pure (some false)
      else if contains output (lit "VERIFY_SKIPPED") then pure (some true)
      else pure (some true)

/-- The value of `static_cast<uint64_t>(vramMB) * 1024 * 1024` for the `int` value `vramMB`. -/
def vramBytesOf (vramMB : Int) : Nat :=
  ((vramMB % 2 ^ 64).toNat * 1024 * 1024) % 2 ^ 64

/-- The failure branch shared by the steps of the enable path: report the error, announce
the rollback, run `RestoreState`, return false. -/
def rollBack {σ : Type} (h : Host σ) (vmName : Str) (backup : GPUPVBackup) (error : Str) :
    Exec σ (Option Bool) := do
  say (lit "错误: " ++ error ++ lit "\n")
  say (lit "正在回滚配置...\n")
  RestoreState h vmName backup
  pure (some false)

/-- The branch of `ConfigureGPUPV` taken when `vramMB < 64` (lines 104 to 119): reset
the cache-control flag. -/
def disableBranch {σ : Type} (h : Host σ) (vmName : Str) (backup : GPUPVBackup) :
    Exec σ (Option Bool) := do
  say (lit "检测到显存设置小于 64MB，执行关闭 GPU-PV 操作...\n")
  say (lit "正在重置 GuestControlledCacheTypes...\n")
  let r ← ExecuteWithCheck h (Cmd.setCacheTypes vmName false)
  if !r.ok then do
    say (lit "错误：重置CacheTypes失败，正在尝试回滚...\n")
    RestoreState h vmName backup
    pure (some false)
  else do
    say (lit "GPU-PV 已成功关闭！\n")
    pure (some true)

/-- The end of `ConfigureGPUPV` (lines 180 to 195): the optional check of the device
inside a running VM. -/
def checkVMState {σ : Type} (h : Host σ) (vmName gpuName : Str) : Exec σ (Option Bool) := do
  say (lit "正在检查虚拟机状态...\n")
  let vmState ← GetVMState h vmName
  if vmState == lit "Running" then do
    say (lit "虚拟机正在运行，尝试验证GPU设备状态...\n")
    let v ← VerifyGPUDeviceInVM h vmName gpuName
    match v with
    | none => pure none
    | some true => do
      say (lit "设备验证通过：GPU在虚拟机中已正确识别\n")
      say (lit "GPU-PV配置成功完成！\n")
      pure (some true)
    | some false => do
      say (lit "警告：无法验证设备状态（可能需要手动检查设备管理器）\n")
      say (lit "GPU-PV配置成功完成！\n")
      pure (some true)
  else do
    say (lit "虚拟机未运行，跳过设备验证（启动后请手动检查设备管理器）\n")
    say (lit "GPU-PV配置成功完成！\n")
    pure (some true)

/-- The rest of `ConfigureGPUPV` when `vramMB >= 64` (lines 121 to 195): steps 3 to 7.
After each of the five steps whose result is tested, the result is recorded as a `step`
event. -/
def enableBranch {σ : Type} (h : Host σ) (vmName gpuName gpuInstancePath : Str)
    (vramMB : Int) (backup : GPUPVBackup) : Exec σ (Option Bool) := do
  say (lit "正在添加GPU分区适配器...\n")
  let a ← AddGPUPartitionAdapter h vmName gpuInstancePath
  emit (Event.step Step.addAdapter a.1)
  if !a.1 then rollBack h vmName backup a.2
  else do
    say (lit "GPU分区适配器添加成功\n")
    say (lit "正在配置GPU资源分配...\n")
    let c ← ConfigureGPUResources h vmName (vramBytesOf vramMB) a.2
    emit (Event.step Step.resources c.1)
    if !c.1 then rollBack h vmName backup c.2
    else do
      say (lit "GPU资源配置完成\n")
      say (lit "正在启用GuestControlledCacheTypes...\n")
      let g ← EnableGuestControlledCacheTypes h vmName
      emit (Event.step Step.cacheTypes g.1)
      if !g.1 then rollBack h vmName backup g.2
      else do
        say (lit "GuestControlledCacheTypes已启用\n")
        say (lit "正在配置内存映射I/O空间...\n")
        let m ← ConfigureMMIOSpace h vmName
        emit (Event.step Step.mmio m.1)
        if !m.1 then rollBack h vmName backup m.2
        else do
          say (lit "MMIO空间配置完成\n")
          say (lit "正在复制GPU驱动文件...\n")
          let d ← CopyDriverFiles h vmName
          emit (Event.step Step.drivers d.1)
          if !d.1 then rollBack h vmName backup d.2
          else do
            say (lit "驱动文件复制完成\n")
            checkVMState h vmName gpuName

/-- Embedding of `GPUPVConfigurator::ConfigureGPUPV`: lines 77 to 101, then one of the two
branches.  The value is `some b` when the function returns `b`, and `none` when the
exception of `VerifyGPUDeviceInVM` leaves it. -/
def ConfigureGPUPV {σ : Type} (h : Host σ) (vmName gpuName gpuInstancePath _driverPath : Str)
    (vramMB : Int) : Exec σ (Option Bool) := do
  say (lit "正在停止虚拟机...\n")
  let stop ← StopVM h vmName []
  if !stop.1 then do
    say (lit "错误: " ++ stop.2 ++ lit "\n")
    pure (some false)
  else do
    say (lit "虚拟机已停止\n")
    say (lit "正在关闭安全启动...\n")
    let _ ← Execute h (Cmd.secureBootOff vmName)
    say (lit "正在备份当前配置...\n")
    let backup ← BackupState h vmName
    say (lit "正在清理旧的GPU分区适配器...\n")
    let _ ← Execute h (Cmd.removeAdapter vmName)
    if vramMB < 64 then disableBranch h vmName backup
    else enableBranch h vmName gpuName gpuInstancePath vramMB backup

/-! ## Reading a log -/

/-- The step results recorded in a log, in order. -/
def stepResults (l : List Event) : List (Step × Bool) :=
  l.filterMap (fun e => match e with
    | Event.step s ok => some (s, ok)
    | _ => none)

/-- The backups with which `RestoreState` was entered, in order. -/
def restores (l : List Event) : List GPUPVBackup :=
  l.filterMap (fun e => match e with
    | Event.restore b => some b
    | _ => none)

/-- The backups `BackupState` returned, in order. -/
def backups (l : List Event) : List GPUPVBackup :=
  l.filterMap (fun e => match e with
    | Event.backup b => some b
    | _ => none)

/-- The PowerShell commands of a log with their replies, in order. -/
def commands (l : List Event) : List (Cmd × Reply) :=
  l.filterMap (fun e => match e with
    | Event.ps c r => some (c, r)
    | _ => none)

/-- The PowerShell commands of a log, in order. -/
def commandList (l : List Event) : List Cmd := (commands l).map Prod.fst

/-- The part of a log that precedes the first entry into `RestoreState`. -/
def forward (l : List Event) : List Event :=
  l.takeWhile (fun e => match e with
    | Event.restore _ => false
    | _ => true)

/-- The part of a log that precedes the first return of `BackupState`. -/
def beforeBackup (l : List Event) : List Event :=
  l.takeWhile (fun e => match e with
    | Event.backup _ => false
    | _ => true)

/-- The part of a log from the first entry into `RestoreState` on. -/
def rollback (l : List Event) : List Event :=
  l.dropWhile (fun e => match e with
    | Event.restore _ => false
    | _ => true)

/-- The order in which the enable path runs its five steps. -/
def stepOrder : List Step :=
  [Step.addAdapter, Step.resources, Step.cacheTypes, Step.mmio, Step.drivers]

/-- The commands whose failure fails one of the first four steps of the enable path. -/
def configCmd : Cmd → Bool
  | Cmd.addAdapter _ _ => true
  | Cmd.setPartition _ _ _ _ _ => true
  | Cmd.setCacheTypes _ true => true
  | Cmd.setLowMmioSpace _ => true
  | Cmd.setHighMmioSpace _ => true
  | _ => false

/-- The commands that change the configuration of the VM or its power state. -/
def mutating : Cmd → Bool
  | Cmd.removeAdapter _ => true
  | Cmd.addAdapter _ _ => true
  | Cmd.setPartition _ _ _ _ _ => true
  | Cmd.setCacheTypes _ _ => true
  | Cmd.secureBootOff _ => true
  | Cmd.setLowMmioSpace _ => true
  | Cmd.setHighMmioSpace _ => true
  | Cmd.stopVM _ => true
  | _ => false

/-- The commands of the driver sub-workflow. -/
def driverCmd : Cmd → Bool
  | Cmd.mountDisk _ => true
  | Cmd.dismountDisk _ => true
  | Cmd.gpuNameOfAdapter _ => true
  | Cmd.gpuNameOfPartitionable _ => true
  | Cmd.gpuNameAnyNvidia => true
  | Cmd.copyServiceDriver _ _ => true
  | Cmd.copyPnPDriverFiles _ _ => true
  | Cmd.copyNvidiaSpecial _ => true
  | Cmd.verifyDriverFiles _ _ => true
  | _ => false

/-- The commands of the driver sub-workflow other than the dismount of the disk. -/
def copyCmd : Cmd → Bool
  | Cmd.mountDisk _ => true
  | Cmd.gpuNameOfAdapter _ => true
  | Cmd.gpuNameOfPartitionable _ => true
  | Cmd.gpuNameAnyNvidia => true
  | Cmd.copyServiceDriver _ _ => true
  | Cmd.copyPnPDriverFiles _ _ => true
  | Cmd.copyNvidiaSpecial _ => true
  | Cmd.verifyDriverFiles _ _ => true
  | _ => false

/-- A progress line, or a PowerShell command that satisfies `p`. -/
def sayOr (p : Cmd → Bool) : Event → Bool
  | Event.say _ => true
  | Event.ps c _ => p c
  | _ => false

/-- Every event `m` produces, from whatever state, satisfies `P`. -/
structure Quiet {σ α : Type} (P : Event → Bool) (m : Exec σ α) : Prop where
  all : ∀ s, (m s).ev.all P = true

/-- The commands of the enable path that set a resource type. -/
def isSetPartition : Cmd → Bool
  | Cmd.setPartition _ _ _ _ _ => true
  | _ => false

/-- The commands of the final check of the VM state. -/
def vmCheckCmd : Cmd → Bool
  | Cmd.getVMState _ => true
  | Cmd.verifyDeviceInVM _ _ => true
  | _ => false

/-- The commands `RestoreState` issues. -/
def restoreCmd : Cmd → Bool
  | Cmd.removeAdapter _ => true
  | Cmd.addAdapter _ _ => true
  | Cmd.setPartition _ _ _ _ _ => true
  | Cmd.setCacheTypes _ _ => true
  | _ => false

/-- The commands `ConfigureGPUResources` is to issue, in order. -/
def plannedResources (vm : Str) (bytes : Nat) : List Cmd :=
  resourceTypes.map (fun t => Cmd.setPartition vm t 1 bytes bytes)

/-- The line `ConfigureGPUPV` reports before a step of the enable path. -/
def startMsg : Step → Str
  | Step.addAdapter => lit "正在添加GPU分区适配器...\n"
  | Step.resources => lit "正在配置GPU资源分配...\n"
  | Step.cacheTypes => lit "正在启用GuestControlledCacheTypes...\n"
  | Step.mmio => lit "正在配置内存映射I/O空间...\n"
  | Step.drivers => lit "正在复制GPU驱动文件...\n"

/-- The line `ConfigureGPUPV` reports after a step of the enable path that succeeded. -/
def doneMsg : Step → Str
  | Step.addAdapter => lit "GPU分区适配器添加成功\n"
  | Step.resources => lit "GPU资源配置完成\n"
  | Step.cacheTypes => lit "GuestControlledCacheTypes已启用\n"
  | Step.mmio => lit "MMIO空间配置完成\n"
  | Step.drivers => lit "驱动文件复制完成\n"

/-- The shape every step of the enable path has in `ConfigureGPUPV`: announce it, run
it, and on failure roll back, else report it done and go on with `next` (which receives
the current value of `error`). -/
def attempt {σ : Type} (h : Host σ) (vmName : Str) (backup : GPUPVBackup) (s : Step)
    (run : Exec σ (Bool × Str)) (next : Str → Exec σ (Option Bool)) : Exec σ (Option Bool) := do
  say (startMsg s)
  let r ← run
  emit (Event.step s r.1)
  if !r.1 then rollBack h vmName backup r.2
  else do
    say (doneMsg s)
    next r.2

/-- What a step of the enable path leaves in the log when it returns `ok`, for the VM
`vm`, the instance path `path` and the byte count `bytes`.  For the resources, `rs` are
the replies to the commands issued: the planned commands, up to the first that fails. -/
def StepLog (vm path : Str) (bytes : Nat) : Step → Bool → List Event → Prop
  | Step.addAdapter, ok, l => ∃ r, l = [Event.ps (Cmd.addAdapter vm path) r] ∧ r.ok = ok
  | Step.resources, ok, l =>
    ∃ rs : List Reply, l = List.zipWith Event.ps (plannedResources vm bytes) rs ∧
      rs.length ≤ 4 ∧
      (ok = true → rs.length = 4 ∧ ∀ r ∈ rs, r.ok = true) ∧
      (ok = false → ∃ init r, rs = init ++ [r] ∧ r.ok = false ∧ ∀ x ∈ init, x.ok = true)
  | Step.cacheTypes, ok, l => ∃ r, l = [Event.ps (Cmd.setCacheTypes vm true) r] ∧ r.ok = ok
  | Step.mmio, ok, l =>
    (∃ r1, l = [Event.ps (Cmd.setLowMmioSpace vm) r1] ∧ r1.ok = false ∧ ok = false) ∨
    (∃ r1 r2, l = [Event.ps (Cmd.setLowMmioSpace vm) r1, Event.ps (Cmd.setHighMmioSpace vm) r2] ∧
      r1.ok = true ∧ r2.ok = ok)
  | Step.drivers, _, l =>
    l.all (sayOr driverCmd) = true ∧ ∃ rest, commandList l = Cmd.mountDisk vm :: rest

/-- A log made of the given steps, each announced, run with success and reported done. -/
def Segs (vm path : Str) (bytes : Nat) : List Step → List Event → Prop
  | [], l => l = []
  | s :: ss, l =>
    ∃ ls rest, l = [Event.say (startMsg s)] ++ ls ++ [Event.step s true, Event.say (doneMsg s)] ++ rest ∧
      StepLog vm path bytes s true ls ∧ Segs vm path bytes ss rest

/-- The two shapes a run of the steps `ss` of the enable path can have: all of them
succeed and the final check (the log `lk`) follows, or some of them succeed, the next one
fails and `RestoreState` ends the run. -/
def Outcome {σ : Type} (h : Host σ) (vm path : Str) (bytes : Nat) (b : GPUPVBackup)
    (ss : List Step) (r : Res σ (Option Bool)) : Prop :=
  (r.val ≠ some false ∧ ∃ l lk, r.ev = l ++ lk ∧ Segs vm path bytes ss l ∧
      lk.all (sayOr vmCheckCmd) = true ∧ ∃ rest, commandList lk = Cmd.getVMState vm :: rest) ∨
  (r.val = some false ∧ ∃ done st rest l lf err s1, ss = done ++ st :: rest ∧
      r.ev = l ++ [Event.say (startMsg st)] ++ lf ++
        [Event.step st false, Event.say (lit "错误: " ++ err ++ lit "\n"),
          Event.say (lit "正在回滚配置...\n")] ++ (RestoreState h vm b s1).ev ∧
      r.st = (RestoreState h vm b s1).st ∧
      Segs vm path bytes done l ∧ StepLog vm path bytes st false lf)

/-- The log of lines 79 to 101 of `ConfigureGPUPV` when the VM was stopped: `stopEv` are
the events of `StopVM`, `r0` to `r3` the replies to the four commands, `b` the backup. -/
def preludeLog (stopEv : List Event) (vm : Str) (r0 r1 r2 r3 : Reply) (b : GPUPVBackup) :
    List Event :=
  [Event.say (lit "正在停止虚拟机...\n")] ++ stopEv ++
    [Event.say (lit "虚拟机已停止\n"), Event.say (lit "正在关闭安全启动...\n"),
     Event.ps (Cmd.secureBootOff vm) r0, Event.say (lit "正在备份当前配置...\n"),
     Event.ps (Cmd.getAdapter vm) r1, Event.ps (Cmd.getCacheTypes vm) r2,
     Event.backup b, Event.say (lit "正在清理旧的GPU分区适配器...\n"),
     Event.ps (Cmd.removeAdapter vm) r3]

/-- The line `CopyDriverFiles` reports before its final dismount. -/
def dismountMsg : Str := lit "正在卸载虚拟机磁盘...\n"

/-- The run ends with the announced dismount of the disk, issued to the host `h` in some
state `s1`, and returns whether the host replied with success. -/
def DismountedLast {σ : Type} (h : Host σ) (vm : Str) (r : Res σ (Bool × Str)) : Prop :=
  ∃ pre s1, r.ev = pre ++ [Event.say dismountMsg,
      Event.ps (Cmd.dismountDisk vm) (h.exec (Cmd.dismountDisk vm) s1).1] ∧
    r.val.1 = (h.exec (Cmd.dismountDisk vm) s1).1.ok

/-! ## Hosts used in examples -/

/-- A host without state: every command is answered by `f`, the WMI stop request by `w`. -/
def scripted (f : Cmd → Reply) (w : WmiResult) : Host Unit where
  exec := fun c _ => (f c, ())
  wmiStop := fun _ _ => (w, ())

/-- The last event of the run is the dismount of the disk, issued to the host `h` in some
state `s1`; before it there are only progress lines and commands of the driver
sub-workflow other than a dismount. -/
def DismountsAtEnd {σ α : Type} (h : Host σ) (vm : Str) (r : Res σ α) : Prop :=
  ∃ pre s1, r.ev = pre ++ [Event.ps (Cmd.dismountDisk vm) (h.exec (Cmd.dismountDisk vm) s1).1] ∧
    pre.all (sayOr copyCmd) = true

/-! ## Comparing two runs -/

/-- The commands whose result `ConfigureGPUPV` and `RestoreState` do not test: the
secure-boot command, the removal of an existing adapter, and the check of the device
inside the VM. -/
def bestEffort : Cmd → Bool
  | Cmd.secureBootOff _ => true
  | Cmd.removeAdapter _ => true
  | Cmd.verifyDeviceInVM _ _ => true
  | _ => false

/-- What is kept of an event when two runs are compared: a progress line is dropped, the
reply to a best-effort command is blanked, everything else is kept as it is. -/
def blank : Event → Option Event
  | Event.say _ => none
  | Event.ps c r => some (if bestEffort c then Event.ps c ⟨true, [], []⟩ else Event.ps c r)
  | e => some e

/-- The steps of a run: its commands in order, with the replies to all but the best-effort
ones, the WMI requests with their results, and the recorded backup, rollback and step
results. -/
def steps (l : List Event) : List Event := l.filterMap blank

/-- Two hosts, in states related by `R`, that differ only in their replies to best-effort
commands: related states give the same reply to every other command and the same result
to a WMI stop request, and every request leads to related states again. -/
structure Alike {σ1 σ2 : Type} (R : σ1 → σ2 → Prop) (h1 : Host σ1) (h2 : Host σ2) : Prop where
  exec_st : ∀ c s1 s2, R s1 s2 → R (h1.exec c s1).2 (h2.exec c s2).2
  exec_reply : ∀ c s1 s2, R s1 s2 → bestEffort c = false → (h1.exec c s1).1 = (h2.exec c s2).1
  wmi_st : ∀ vm s1 s2, R s1 s2 → R (h1.wmiStop vm s1).2 (h2.wmiStop vm s2).2
  wmi_reply : ∀ vm s1 s2, R s1 s2 → (h1.wmiStop vm s1).1 = (h2.wmiStop vm s2).1

/-- From related states, the two pieces of program end in related states, with the same
steps and with values related by `Q`. -/
structure Sim {σ1 σ2 α : Type} (R : σ1 → σ2 → Prop) (Q : α → α → Prop)
    (m1 : Exec σ1 α) (m2 : Exec σ2 α) : Prop where
  run : ∀ s1 s2, R s1 s2 →
    R (m1 s1).st (m2 s2).st ∧ steps (m1 s1).ev = steps (m2 s2).ev ∧ Q (m1 s1).val (m2 s2).val

/-- Two results of `ConfigureGPUPV` agree: they are the same value, unless one of the two
runs was left by the exception of `VerifyGPUDeviceInVM`. -/
def agree (v1 v2 : Option Bool) : Prop := v1 ≠ none → v2 ≠ none → v1 = v2

/-- No constraint on the two values. -/
def anyTwo {α : Type} (_ _ : α) : Prop := True

/-- The line the script of `VerifyGPUDeviceInVM` writes for a device that is not healthy
(line 798): the marker, the status, a colon and the name. -/
def deviceErrorLine (status name : Str) : Str :=
  lit "DEVICE_ERROR:" ++ status ++ lit ":" ++ name

/-- An output the check inside the VM can give: the script writes the marker
`DEVICE_ERROR:` in that line only, so an output in which the marker occurs holds such a
line. -/
def Receivable (output : Str) : Prop :=
  lit "DEVICE_ERROR:" <:+: output →
    ∃ pre status name post : Str, output = pre ++ deviceErrorLine status name ++ post

/-- A host that answers the check inside the VM with receivable outputs only. -/
def ChecksReceivable {σ : Type} (h : Host σ) : Prop :=
  ∀ (vmName gpuName : Str) (s : σ),
    Receivable (h.exec (Cmd.verifyDeviceInVM vmName gpuName) s).1.output

/-! ## A model of the Hyper-V side

The effect of the configuration commands on one VM, as their text states it.  It is
the meaning given here to "the command takes effect". -/

/-- The three values of one resource type of a partition adapter. -/
structure Partition where
  min : Nat
  max : Nat
  opt : Nat
  deriving DecidableEq, Repr

/-- A GPU partition adapter of the VM. -/
structure Adapter where
  instancePath : Str
  vram : Partition
  encode : Partition
  decode : Partition
  compute : Partition
  deriving DecidableEq, Repr

/-- The modelled state of the VM; `clock` counts the requests received so far. -/
structure VM where
  adapters : List Adapter
  cacheTypes : Bool
  secureBoot : Bool
  running : Bool
  lowMmioGB : Nat
  highMmioGB : Nat
  clock : Nat
  deriving DecidableEq, Repr

/-- The digit `n` (below 16) in lower-case hexadecimal. -/
def hexDigit (n : Nat) : Char := if n < 10 then Char.ofNat (48 + n) else Char.ofNat (87 + n)

/-- How `ConvertTo-Json` of Windows PowerShell writes one char of a string value. -/
def jsonEscapeChar (c : Char) : Str :=
  if c = '"' then ['\\', '"']
  else if c = '\\' then ['\\', '\\']
  else if c = '\n' then ['\\', 'n']
  else if c = '\r' then ['\\', 'r']
  else if c = '\t' then ['\\', 't']
  else if c.toNat = 8 then ['\\', 'b']
  else if c.toNat = 12 then ['\\', 'f']
  else if c.toNat < 32 || c = '&' || c = '\x27' || c = '<' || c = '>' then
    ['\\', 'u', '0', '0', hexDigit (c.toNat / 16), hexDigit (c.toNat % 16)]
  else [c]

/-- How `ConvertTo-Json` writes a string value, quotes included. -/
def jsonString (s : Str) : Str := ['"'] ++ s.flatMap jsonEscapeChar ++ ['"']

/-- The object `Select-Object InstancePath, MinPartitionVRAM | ConvertTo-Json` prints for
one adapter, every line indented by `pad`. -/
def adapterJson (pad : Str) (a : Adapter) : Str :=
  pad ++ lit "\x7b\n" ++
  pad ++ lit "    \"InstancePath\":  " ++ jsonString a.instancePath ++ lit ",\n" ++
  pad ++ lit "    \"MinPartitionVRAM\":  " ++ Nat.toDigits 10 a.vram.min ++ lit "\n" ++
  pad ++ lit "\x7d"

/-- The objects of an array, separated by a comma and a line break. -/
def joinObjects : List Str → Str
  | [] => []
  | [x] => x
  | x :: y :: rest => x ++ lit ",\n" ++ joinObjects (y :: rest)

/-- The output of the adapter query of `BackupState`: nothing without an adapter, one
object for one adapter, an array for several. -/
def adaptersJson : List Adapter → Str
  | [] => []
  | [a] => adapterJson [] a
  | as => lit "[\n" ++ joinObjects (as.map (adapterJson (lit "    "))) ++ lit "\n]"

/-- The adapter `Add-VMGpuPartitionAdapter` creates: every resource type starts from `fresh`. -/
def newAdapter (fresh : Partition) (path : Str) : Adapter :=
  ⟨path, fresh, fresh, fresh, fresh⟩

/-- The effect of `Set-VMGpuPartitionAdapter` for one resource type on one adapter; `none`
for a resource type that does not exist. -/
def setResource (resType : Str) (p : Partition) (a : Adapter) : Option Adapter :=
  if resType = lit "VRAM" then some { a with vram := p }
  else if resType = lit "Encode" then some { a with encode := p }
  else if resType = lit "Decode" then some { a with decode := p }
  else if resType = lit "Compute" then some { a with compute := p }
  else none

/-- The reply of a command that succeeded with the given output. -/
def done (output : Str) : Reply := ⟨true, output, []⟩

/-- The effect of a command that takes effect, and its reply.  The commands of the driver
sub-workflow do not touch the modelled state and are answered by `aux`. -/
def applyCmd (fresh : Partition) (aux : Cmd → Reply) (c : Cmd) (v : VM) : Reply × VM :=
  match c with
  | Cmd.getAdapter _ => (done (adaptersJson v.adapters), v)
  | Cmd.getCacheTypes _ => (done (if v.cacheTypes then lit "True" else lit "False"), v)
  | Cmd.removeAdapter _ => (done [], { v with adapters := [] })
  | Cmd.addAdapter _ path => (done [], { v with adapters := v.adapters ++ [newAdapter fresh path] })
  | Cmd.setPartition _ resType min max opt =>
    if (setResource resType ⟨min, max, opt⟩ (newAdapter fresh [])).isSome then
      (done [], { v with adapters := v.adapters.filterMap (setResource resType ⟨min, max, opt⟩) })
    else (⟨false, [], lit "parameter not found"⟩, v)
  | Cmd.setCacheTypes _ b => (done [], { v with cacheTypes := b })
  | Cmd.secureBootOff _ => (done [], { v with secureBoot := false })
  | Cmd.setLowMmioSpace _ => (done [], { v with lowMmioGB := 1 })
  | Cmd.setHighMmioSpace _ => (done [], { v with highMmioGB := 32 })
  | Cmd.stopVM _ => (done [], { v with running := false })
  | Cmd.getVMState _ => (done (if v.running then lit "Running" else lit "Off"), v)
  | other => (aux other, v)

/-- The modelled host.  The request received at time `n` fails, without any effect, when
`fails n` says so for it; every other request takes effect. -/
def hyperV (fails : Nat → Cmd → Bool) (fresh : Partition) (aux : Cmd → Reply) : Host VM where
  exec := fun c v =>
    if fails v.clock c then (⟨false, [], lit "failed"⟩, { v with clock := v.clock + 1 })
    else ((applyCmd fresh aux c v).1, { (applyCmd fresh aux c v).2 with clock := v.clock + 1 })
  wmiStop := fun vm v =>
    if fails v.clock (Cmd.stopVM vm) then
      (WmiResult.returned false (lit "failed"), { v with clock := v.clock + 1 })
    else (WmiResult.returned true [], { v with running := false, clock := v.clock + 1 })

/-- A host on which no request ever fails. -/
def reliable (fresh : Partition) (aux : Cmd → Reply) : Host VM :=
  hyperV (fun _ _ => false) fresh aux

/-- The reply of a command that failed with the given message. -/
def failed (error : Str) : Reply := ⟨false, [], error⟩

/-- A host on which the disk mounts on `Z`, the GPU is found, every copy succeeds and the
VM is off. -/
def allFine : Cmd → Reply
  | Cmd.mountDisk _ => done (lit "Z")
  | Cmd.gpuNameOfAdapter _ => done (lit "NVIDIA GeForce RTX 4050")
  | Cmd.copyPnPDriverFiles _ _ => done (lit "SUCCESS")
  | Cmd.verifyDriverFiles _ _ => done (lit "[FOUND] nvapi64.dll\nVERIFY_OK")
  | Cmd.getVMState _ => done (lit "Off")
  | _ => done []

/-- As `allFine`, but setting the resource type `Compute` fails. -/
def computeFails : Cmd → Reply
  | Cmd.setPartition _ resType _ _ _ =>
    if resType = lit "Compute" then failed (lit "Compute: access denied") else done []
  | c => allFine c

/-- The host `allFine`, whose WMI stop request succeeds. -/
def fineHost : Host Unit := scripted allFine (WmiResult.returned true [])

/-- The host `computeFails`, whose WMI stop request succeeds. -/
def computeFailsHost : Host Unit := scripted computeFails (WmiResult.returned true [])

/-- A host on which the VM cannot be stopped. -/
def stopFailsHost : Host Unit := scripted allFine (WmiResult.returned false (lit "VM not found"))

/-- A VM that is off, without adapter, with the cache-control flag off. -/
def emptyVM : VM := ⟨[], false, true, false, 0, 0, 0⟩

/-- A backup of an adapter whose `MinPartitionVRAM` was 80000000. -/
def sampleBackup : GPUPVBackup :=
  ⟨true, lit "\\\\?\\PCI#VEN_10DE&DEV_28A1&SUBSYS_00000000", 80000000, false⟩

/-- A modelled host on which no request fails. -/
def sampleHyperV : Host VM := reliable ⟨0, 1000000000, 1000000000⟩ allFine

/-- A VM that is off and has the adapter `sampleBackup` describes. -/
def configuredVM : VM :=
  ⟨[⟨sampleBackup.strInstancePath, ⟨80000000, 100000000, 100000000⟩, ⟨80000000, 100000000, 100000000⟩,
      ⟨80000000, 100000000, 100000000⟩, ⟨80000000, 100000000, 100000000⟩⟩],
    false, true, false, 0, 0, 0⟩

/-- A modelled host on which only the request received at time 9 fails: in a run of
`ConfigureGPUPV` that enables, it is the command that sets the resource type `Compute`. -/
def computeFailsOnce : Host VM :=
  hyperV (fun n _ => n == 9) ⟨0, 1000000000, 1000000000⟩ allFine

/-- As `allFine`, but the copy of the service driver and the copy of the PnP driver files
fail, and the verification finds nothing. -/
def copiesFail : Cmd → Reply
  | Cmd.copyServiceDriver _ _ => failed (lit "GPU not found")
  | Cmd.copyPnPDriverFiles _ _ => failed (lit "ERROR: No drivers found")
  | Cmd.verifyDriverFiles _ _ =>
    done (lit "[MISSING] HostDriverStore directory does not exist\nVERIFY_FAIL")
  | c => allFine c

/-- The host `copiesFail`, whose WMI stop request succeeds. -/
def copiesFailHost : Host Unit := scripted copiesFail (WmiResult.returned true [])

/-- A VM that is off and has one adapter that is bound to no instance path. -/
def unboundVM : VM :=
  ⟨[⟨[], ⟨80000000, 100000000, 100000000⟩, ⟨80000000, 100000000, 100000000⟩,
      ⟨80000000, 100000000, 100000000⟩, ⟨80000000, 100000000, 100000000⟩⟩],
    false, true, false, 0, 0, 0⟩

/-- As `allFine`, but none of the three name lookups finds a GPU. -/
def noName : Cmd → Reply
  | Cmd.gpuNameOfAdapter _ => done []
  | c => allFine c

/-- The host `noName`, whose WMI stop request succeeds. -/
def noNameHost : Host Unit := scripted noName (WmiResult.returned true [])

/-- As `allFine`, but the VM is found running at the end. -/
def running : Cmd → Reply
  | Cmd.getVMState _ => done (lit "Running")
  | c => allFine c

/-- As `running`; the check inside the VM reports the device as healthy. -/
def verified : Cmd → Reply
  | Cmd.verifyDeviceInVM _ _ => done (lit "DEVICE_OK:NVIDIA GeForce RTX 4050")
  | c => running c

/-- As `running`, but the secure-boot command and the removal of the adapter fail and the
check inside the VM finds no device. -/
def bestEffortFails : Cmd → Reply
  | Cmd.secureBootOff _ => failed (lit "not supported on a generation 1 VM")
  | Cmd.removeAdapter _ => failed (lit "access denied")
  | Cmd.verifyDeviceInVM _ _ => done (lit "DEVICE_NOT_FOUND")
  | c => running c

/-- As `running`; the check inside the VM reports a device that is not healthy. -/
def deviceError : Cmd → Reply
  | Cmd.verifyDeviceInVM _ _ => done (deviceErrorLine (lit "Error") (lit "NVIDIA GeForce RTX 4050"))
  | c => running c

/-- The host `verified`, whose WMI stop request succeeds. -/
def verifiedHost : Host Unit := scripted verified (WmiResult.returned true [])

/-- The host `bestEffortFails`, whose WMI stop request succeeds. -/
def bestEffortFailsHost : Host Unit := scripted bestEffortFails (WmiResult.returned true [])

/-- The host `deviceError`, whose WMI stop request succeeds. -/
def deviceErrorHost : Host Unit := scripted deviceError (WmiResult.returned true [])

/-! ## GPUManager: discovery -/

/-- The digits of `n` in base 16, upper case, most significant first. -/
def hexDigitsUpper (n : Nat) : Str := (Nat.toDigits 16 n).map Char.toUpper

/-- The text `sprintf_s` writes for `%04X`: at least four upper-case hex digits. -/
def hex04X (n : Nat) : Str :=
  List.replicate (4 - (hexDigitsUpper n).length) '0' ++ hexDigitsUpper n

/-- What `GetGPUDetails` reads of one DXGI adapter: whether `GetDesc` succeeded, and the
members of `DXGI_ADAPTER_DESC` it uses. -/
structure DxgiAdapter where
  descOk : Bool
  Description : Str
  DedicatedVideoMemory : Nat
  VendorId : Nat
  DeviceId : Nat
  deriving DecidableEq, Repr

/-- The loop of `GetGPUDetails` over the entries of `wmiDrivers` (lines 183 to 193): the
first entry whose PnP id contains `pattern`. -/
def findDriver (pattern : Str) : List (Str × Str) → Option (Str × Str)
  | [] => none
  | (pnpId, driverPath) :: rest =>
    if contains pnpId pattern then some (pnpId, driverPath) else findDriver pattern rest

/-- Embedding of `GPUManager::GetGPUDetails`.  `factoryOk` says whether
`CreateDXGIFactory` succeeded, `adapters` is what `EnumAdapters` enumerates, and
`wmiDrivers` the map `GetWmiGPUDrivers` returns, in the order of its keys. -/
def GetGPUDetails (factoryOk : Bool) (adapters : List DxgiAdapter)
    (wmiDrivers : List (Str × Str)) : List GPUInfo :=
  if !factoryOk then []
  else adapters.filterMap (fun desc =>
    if desc.descOk && desc.DedicatedVideoMemory > 0 then
      let info : GPUInfo :=
        { strFriendlyName := desc.Description, ui64VramBytes := desc.DedicatedVideoMemory }
      match findDriver (lit "VEN_" ++ hex04X desc.VendorId ++ lit "&DEV_" ++ hex04X desc.DeviceId)
          wmiDrivers with
      | some (pnpId, driverPath) =>
        some { info with strPnpDeviceID := pnpId, strDriverPath := driverPath }
      | none => some info
    else none)

/-- Embedding of `GPUManager::GetPartitionableGPUPaths`, given the output of its command. -/
def GetPartitionableGPUPaths (output : Str) : List Str :=
  if !output.isEmpty then
    ((Split output '\n').map Trim).filter (fun trimmed =>
      !trimmed.isEmpty && contains trimmed (lit "PCI#"))
  else []

/-- The sources discovery reads.  `wmiGpuNames` is the `Name` property of each
`Msvm_PartitionableGpu` object, in the order of the enumeration, and `none` when the WMI
session or the query throws; `pathsOutput` is the output of the command of
`GetPartitionableGPUPaths`. -/
structure Sources where
  wmiGpuNames : Option (List Str)
  factoryOk : Bool
  adapters : List DxgiAdapter
  wmiDrivers : List (Str × Str)
  pathsOutput : Str

/-- A source that discovery consults. -/
inductive Query
  | wmiPartitionableGpus
  | gpuDetails
  | partitionablePaths
  deriving DecidableEq, Repr

/-- The record `GetPartitionableGPUsViaWMI` builds for one object (lines 42 to 82), given
its `Name` property. -/
def wmiRecord (FormatVRAMSize : Nat → Str) (dxgiGpus : List GPUInfo) (name : Str) : GPUInfo :=
  let gpuInfo : GPUInfo := { strFriendlyName := name, strInstancePath := name }
  let hwId := ExtractHardwareID gpuInfo.strInstancePath
  let gpuInfo :=
    match findDxgi hwId dxgiGpus with
    | some dxgiGpu =>
      { gpuInfo with
        ui64VramBytes := dxgiGpu.ui64VramBytes
        strPnpDeviceID := dxgiGpu.strPnpDeviceID
        strDriverPath := dxgiGpu.strDriverPath
        strFriendlyName := dxgiGpu.strFriendlyName }
    | none => gpuInfo
  let gpuInfo :=
    if gpuInfo.ui64VramBytes = 0 then { gpuInfo with ui64VramBytes := 1024 * 1024 * 1024 }
    else gpuInfo
  { gpuInfo with
    strDisplayText :=
      displayText (FormatVRAMSize gpuInfo.ui64VramBytes) gpuInfo.strFriendlyName
        gpuInfo.strInstancePath }

/-- Embedding of `GPUManager::GetPartitionableGPUsViaWMI`: `none` when it throws, else the
list; and the sources it consulted. -/
def GetPartitionableGPUsViaWMI (FormatVRAMSize : Nat → Str) (src : Sources) :
    Option (List GPUInfo) × List Query :=
  match src.wmiGpuNames with
  | none => (none, [Query.wmiPartitionableGpus])
  | some names =>
    (some (names.map
      (wmiRecord FormatVRAMSize (GetGPUDetails src.factoryOk src.adapters src.wmiDrivers))),
      [Query.wmiPartitionableGpus, Query.gpuDetails])

/-- Embedding of `GPUManager::GetPartitionableGPUsViaPowerShell`, with the sources it
consulted. -/
def GetPartitionableGPUsViaPowerShell (FormatVRAMSize : Nat → Str) (src : Sources) :
    List GPUInfo × List Query :=
  let paths := GetPartitionableGPUPaths src.pathsOutput
  if paths.isEmpty then ([], [Query.partitionablePaths])
  else
    let details := GetGPUDetails src.factoryOk src.adapters src.wmiDrivers
    if details.isEmpty then ([], [Query.partitionablePaths, Query.gpuDetails])
    else (MatchGPUInfo FormatVRAMSize paths details, [Query.partitionablePaths, Query.gpuDetails])

/-- Embedding of `GPUManager::GetPartitionableGPUs`, with the sources it consulted. -/
def GetPartitionableGPUs (FormatVRAMSize : Nat → Str) (src : Sources) :
    List GPUInfo × List Query :=
  match GetPartitionableGPUsViaWMI FormatVRAMSize src with
  | (some gpus, log) => (gpus, log)
  | (none, log) =>
    ((GetPartitionableGPUsViaPowerShell FormatVRAMSize src).1,
      log ++ (GetPartitionableGPUsViaPowerShell FormatVRAMSize src).2)

/-- Embedding of `GPUManager::FindGPUByName`. -/
def FindGPUByName : List GPUInfo → Str → GPUInfo
  | [], _ => {}
  | gpu :: rest, name => if gpu.strFriendlyName = name then gpu else FindGPUByName rest name

/-- What the doc comment of `FindGPUByName` describes: the first GPU whose friendly name
contains `name`, and an empty record without one. -/
def FindGPUByNameSpec (gpus : List GPUInfo) (name : Str) : GPUInfo :=
  (gpus.find? (fun gpu => contains gpu.strFriendlyName name)).getD {}

/-! ## VMManager: the list of VMs -/

/-- The struct `VMInfo`. -/
structure VMInfo where
  strName : Str := []
  strState : Str := []
  strGPUStatus : Str := []
  ui64VramBytes : Nat := 0
  strGPUInstancePath : Str := []
  strGPUName : Str := []
  strDisplayText : Str := []
  deriving DecidableEq, Repr

/-- The test both implementations of `GetAllVMs` use to find the GPU of a VM: the two
instance paths are equal or one occurs in the other. -/
def gpuPathMatches (vm : VMInfo) (gpu : GPUInfo) : Bool :=
  vm.strGPUInstancePath == gpu.strInstancePath ||
    contains gpu.strInstancePath vm.strGPUInstancePath ||
    contains vm.strGPUInstancePath gpu.strInstancePath

/-- The flag `hasGpuPvOn`: some VM has the GPU status `On`. -/
def hasGpuPvOn (vms : List VMInfo) : Bool := vms.any (fun vm => vm.strGPUStatus == lit "On")

/-- One round of the last loop of `GetAllVMsViaWMI` (lines 150 to 174). -/
def finishVMViaWMI (FormatVRAMSize : Nat → Str) (gpus : List GPUInfo) (vm : VMInfo) : VMInfo :=
  let vm :=
    if vm.strGPUStatus == lit "On" && !vm.strGPUInstancePath.isEmpty then
      match gpus.find? (gpuPathMatches vm) with
      | some gpu => { vm with strName := gpu.strFriendlyName }
      | none => vm
    else vm
  let text := vm.strName ++ lit "(" ++ vm.strState ++ lit ")  ["
  let text :=
    if vm.strGPUStatus == lit "On" then
      text ++ (lit "VRAM:" ++ FormatVRAMSize vm.ui64VramBytes) ++
        (if !vm.strName.isEmpty then lit " (" ++ vm.strName ++ lit ")" else [])
    else if vm.strGPUStatus == lit "Not supported" then text ++ lit "GPU-PV: Not supported"
    else text ++ lit "GPU-PV: Supported"
  { vm with strDisplayText := text ++ lit "]" }

/-- One round of the last loop of `GetAllVMsViaPowerShell` (lines 362 to 397). -/
def finishVMViaPowerShell (FormatVRAMSize : Nat → Str) (gpus : List GPUInfo) (vm : VMInfo) :
    VMInfo :=
  let vm :=
    if vm.strGPUStatus == lit "On" && !vm.strGPUInstancePath.isEmpty then
      match gpus.find? (gpuPathMatches vm) with
      | some gpu => { vm with strGPUName := gpu.strFriendlyName }
      | none => vm
    else vm
  let text := vm.strName ++ lit "(" ++ vm.strState ++ lit ")  ["
  let text :=
    if vm.strGPUStatus == lit "On" then
      text ++ (lit "VRAM:" ++ FormatVRAMSize vm.ui64VramBytes) ++
        (if !vm.strGPUName.isEmpty then lit " (" ++ vm.strGPUName ++ lit ")" else [])
    else if vm.strGPUStatus == lit "Not supported" then text ++ lit "GPU-PV: Not supported"
    else text ++ lit "GPU-PV: Supported"
  { vm with strDisplayText := text ++ lit "]" }

/-- Lines 135 to 176 of `GetAllVMsViaWMI`: what it does with the VM records `vms` it read;
`discovered` is what `GPUManager::GetPartitionableGPUs` returns when it is called. -/
def finishViaWMI (FormatVRAMSize : Nat → Str) (vms : List VMInfo) (discovered : List GPUInfo) :
    List VMInfo :=
  let gpus := if hasGpuPvOn vms then discovered else []
  vms.map (finishVMViaWMI FormatVRAMSize gpus)

/-- Lines 347 to 399 of `GetAllVMsViaPowerShell`: what it does with the VM records `vms` it
parsed. -/
def finishViaPowerShell (FormatVRAMSize : Nat → Str) (vms : List VMInfo)
    (discovered : List GPUInfo) : List VMInfo :=
  let gpus := if hasGpuPvOn vms then discovered else []
  vms.map (finishVMViaPowerShell FormatVRAMSize gpus)

/-- The record `ParseVMJson` reads from the text of one object. -/
def parseVM (objStr : Str) : VMInfo :=
  { strName := ExtractJsonValue objStr (lit "Name")
    strState := ExtractJsonValue objStr (lit "State")
    strGPUStatus := ExtractJsonValue objStr (lit "GpuStatus")
    strGPUInstancePath := ExtractJsonValue objStr (lit "InstancePath")
    ui64VramBytes :=
      if !(ExtractJsonValue objStr (lit "VRAM")).isEmpty then
        match stoull (ExtractJsonValue objStr (lit "VRAM")) with
        | some v => v
        | none => 0
      else 0 }

/-- The loop of `ParseVMJson` (lines 465 to 497) on the text from `pos` on; `fuel` bounds
the number of rounds (the length of the text always suffices). -/
def parseObjects : Nat → Str → List VMInfo
  | 0, _ => []
  | fuel + 1, text =>
    if text.isEmpty then []
    else
      match find ['\x7b'] text with
      | none => []
      | some objStart =>
        match findFrom ['\x7d'] text objStart with
        | none => []
        | some objEnd =>
          let vmInfo := parseVM (substr text objStart (objEnd - objStart + 1))
          if !vmInfo.strName.isEmpty then vmInfo :: parseObjects fuel (text.drop (objEnd + 1))
          else parseObjects fuel (text.drop (objEnd + 1))

/-- Embedding of `VMManager::ParseVMJson`. -/
def ParseVMJson (json : Str) : List VMInfo :=
  let trimmedJson := Trim json
  if trimmedJson.isEmpty then []
  else
    let trimmedJson :=
      if trimmedJson.head? = some '[' then
        match findLastIdx (fun c => c = ']') trimmedJson with
        | some lastBracket => substr trimmedJson 1 (lastBracket - 1)
        | none => trimmedJson
      else trimmedJson
    parseObjects trimmedJson.length trimmedJson

/-- The objects of an array, separated by `sep`. -/
def joinWith (sep : Str) : List Str → Str
  | [] => []
  | [x] => x
  | x :: y :: rest => x ++ sep ++ joinWith sep (y :: rest)

/-- The object `ConvertTo-Json` of Windows PowerShell prints for one VM record of
`GetAllVMsViaPowerShell`, every line indented by `pad` and ended by the line break `eol`. -/
def vmJson (eol pad : Str) (vm : VMInfo) : Str :=
  pad ++ lit "\x7b" ++ eol ++
  pad ++ lit "    \"Name\":  " ++ jsonString vm.strName ++ lit "," ++ eol ++
  pad ++ lit "    \"State\":  " ++ jsonString vm.strState ++ lit "," ++ eol ++
  pad ++ lit "    \"GpuStatus\":  " ++ jsonString vm.strGPUStatus ++ lit "," ++ eol ++
  pad ++ lit "    \"VRAM\":  " ++ Nat.toDigits 10 vm.ui64VramBytes ++ lit "," ++ eol ++
  pad ++ lit "    \"InstancePath\":  " ++ jsonString vm.strGPUInstancePath ++ eol ++
  pad ++ lit "\x7d"

/-- The output of `ConvertTo-Json` for a list of VM records: nothing for none, one object
for one, an array for several. -/
def vmsJson (eol : Str) : List VMInfo → Str
  | [] => []
  | [vm] => vmJson eol [] vm
  | vms =>
    lit "[" ++ eol ++ joinWith (lit "," ++ eol) (vms.map (vmJson eol (lit "    "))) ++ eol ++ lit "]"

/-! ## PowerShellExecutor: the command line -/

/-- The text `ExecuteWithCheck` puts before the command. -/
def encodingPrefix : Str := lit "[Console]::OutputEncoding = [System.Text.Encoding]::UTF8; "

/-- The largest value of an `int`. -/
def INT_MAX : Nat := 2 ^ 31 - 1

/-- The escaping loop of `ExecuteWithCheck` (lines 71 to 89) on the chars still to read,
`nBackslashes` being the number of backslashes counted and not yet written; `none` when
the `int` counter, or its double, leaves the range of `int`. -/
def escapeLoop : Str → Nat → Option Str
  | [], nBackslashes =>
    if nBackslashes * 2 ≤ INT_MAX then some (List.replicate (nBackslashes * 2) '\\') else none
  | c :: rest, nBackslashes =>
    if c = '\\' then
      if nBackslashes + 1 ≤ INT_MAX then escapeLoop rest (nBackslashes + 1) else none
    else if c = '"' then
      if nBackslashes * 2 ≤ INT_MAX then
        (escapeLoop rest 0).map (fun r =>
          List.replicate (nBackslashes * 2) '\\' ++ ['\\', '"'] ++ r)
      else none
    else (escapeLoop rest 0).map (fun r => List.replicate nBackslashes '\\' ++ c :: r)

/-- The value of `strEscapedCommand` in `ExecuteWithCheck`. -/
def escapedCommand (strCommand : Str) : Option Str := escapeLoop (encodingPrefix ++ strCommand) 0

/-- The command line `ExecuteWithCheck` passes to `ExecuteCommand`. -/
def commandLineOf (strCommand : Str) : Option Str :=
  (escapedCommand strCommand).map (fun strEscapedCommand =>
    lit "powershell.exe -NoProfile -ExecutionPolicy Bypass -Command \"" ++
      strEscapedCommand ++ lit "\"")

/-- The quoting rules of the Windows command line, for the text that follows an opening
double quote: `2n` backslashes and a double quote give `n` backslashes and end the quoted
part; `2n+1` backslashes and a double quote give `n` backslashes and a double quote; any
other backslash stands for itself.  The result is the text decoded up to the closing
quote and what follows that quote; `none` without a closing quote.  `pending` is the
number of backslashes read and not yet decoded. -/
def decodeQuoted : Str → Nat → Option (Str × Str)
  | [], _ => none
  | c :: rest, pending =>
    if c = '\\' then decodeQuoted rest (pending + 1)
    else if c = '"' then
      if pending % 2 = 0 then some (List.replicate (pending / 2) '\\', rest)
      else
        (decodeQuoted rest 0).map (fun r =>
          (List.replicate (pending / 2) '\\' ++ '"' :: r.1, r.2))
    else (decodeQuoted rest 0).map (fun r => (List.replicate pending '\\' ++ c :: r.1, r.2))

/-! ## JSON strings -/

/-- The bytes of the code point `n` (below 0x10000) in UTF-8, each as a char. -/
def utf8Bytes (n : Nat) : Str :=
  if n < 0x80 then [Char.ofNat n]
  else if n < 0x800 then [Char.ofNat (0xC0 + n / 64), Char.ofNat (0x80 + n % 64)]
  else [Char.ofNat (0xE0 + n / 4096), Char.ofNat (0x80 + n / 64 % 64), Char.ofNat (0x80 + n % 64)]

/-- The text `escaped` is a JSON-escaped form of the bytes `value`: each char other than a
double quote or a backslash may stand for itself; a double quote, a backslash, a slash,
backspace, form feed, line feed, carriage return and tab may be written with their
two-char escape; and a code point below 0x10000 outside the surrogate range may be written
as backslash, `u` and four hexadecimal digits, standing for its bytes in UTF-8. -/
inductive JsonEscaped : Str → Str → Prop
  | nil : JsonEscaped [] []
  | plain (c : Char) (value escaped : Str) : c ≠ '"' → c ≠ '\\' → JsonEscaped value escaped →
      JsonEscaped (c :: value) (c :: escaped)
  | quote (value escaped : Str) : JsonEscaped value escaped →
      JsonEscaped ('"' :: value) ('\\' :: '"' :: escaped)
  | backslash (value escaped : Str) : JsonEscaped value escaped →
      JsonEscaped ('\\' :: value) ('\\' :: '\\' :: escaped)
  | slash (value escaped : Str) : JsonEscaped value escaped →
      JsonEscaped ('/' :: value) ('\\' :: '/' :: escaped)
  | backspace (value escaped : Str) : JsonEscaped value escaped →
      JsonEscaped (Char.ofNat 8 :: value) ('\\' :: 'b' :: escaped)
  | formFeed (value escaped : Str) : JsonEscaped value escaped →
      JsonEscaped (Char.ofNat 12 :: value) ('\\' :: 'f' :: escaped)
  | lineFeed (value escaped : Str) : JsonEscaped value escaped →
      JsonEscaped ('\n' :: value) ('\\' :: 'n' :: escaped)
  | carriageReturn (value escaped : Str) : JsonEscaped value escaped →
      JsonEscaped ('\r' :: value) ('\\' :: 'r' :: escaped)
  | tab (value escaped : Str) : JsonEscaped value escaped →
      JsonEscaped ('\t' :: value) ('\\' :: 't' :: escaped)
  | unicode (h1 h2 h3 h4 : Char) (d1 d2 d3 d4 : Nat) (value escaped : Str) :
      digitVal 16 h1 = some d1 → digitVal 16 h2 = some d2 → digitVal 16 h3 = some d3 →
      digitVal 16 h4 = some d4 →
      ¬ (0xD800 ≤ 4096 * d1 + 256 * d2 + 16 * d3 + d4 ∧
        4096 * d1 + 256 * d2 + 16 * d3 + d4 < 0xE000) →
      JsonEscaped value escaped →
      JsonEscaped (utf8Bytes (4096 * d1 + 256 * d2 + 16 * d3 + d4) ++ value)
        ('\\' :: 'u' :: h1 :: h2 :: h3 :: h4 :: escaped)

/-- A one-member JSON object: the key and the escaped value in double quotes, with
whitespace `w1` to `w4` where JSON allows it. -/
def oneMemberObject (w1 w2 w3 w4 key escaped : Str) : Str :=
  lit "\x7b" ++ w1 ++ ['"'] ++ key ++ ['"'] ++ w2 ++ [':'] ++ w3 ++ ['"'] ++ escaped ++ ['"'] ++
    w4 ++ lit "\x7d"

/-! ## Examples for discovery and the VM list -/

/-- Sources in which the WMI query answers with one object whose `Name` cannot be read. -/
def emptyNameSources : Sources := ⟨some [[]], true, [], [], []⟩

/-- An adapter with 4 GiB of dedicated memory, of the device of `samplePath`. -/
def sampleAdapter : DxgiAdapter := ⟨true, lit "NVIDIA GeForce RTX 4050", 4294967296, 0x10DE, 0x28A1⟩

/-- Sources in which WMI fails, the command lists `samplePath`, and DXGI knows the adapter,
but no video controller with its vendor and device is found. -/
def unmatchedSources : Sources := ⟨none, true, [sampleAdapter], [], samplePath ++ lit "\r\n"⟩

/-- Sources in which WMI fails and the fallback finds the device of `samplePath`. -/
def fallbackSources : Sources :=
  ⟨none, true, [sampleAdapter], [(samplePnp, lit "C:\\Windows\\System32\\DriverStore")],
    samplePath ++ lit "\r\n"⟩

/-- A GPU record with the name of the header's example. -/
def rtx4050 : GPUInfo :=
  { strFriendlyName := lit "NVIDIA GeForce RTX 4050"
    strInstancePath := samplePath
    ui64VramBytes := 4294967296 }

/-- A running VM with a GPU partition of the device of `samplePath`. -/
def sampleVMInfo : VMInfo :=
  { strName := lit "Win11"
    strState := lit "Running"
    strGPUStatus := lit "On"
    ui64VramBytes := 1073741824
    strGPUInstancePath := samplePath }

/-- A VM that is off and has no GPU partition. -/
def plainVMInfo : VMInfo :=
  { strName := lit "Ubuntu"
    strState := lit "Off"
    strGPUStatus := lit "Off" }

/-- The text made of the given tokens, each with a double quote in front of it. -/
def quoted : List Str → Str
  | [] => []
  | t :: ts => '"' :: (t ++ quoted ts)

/-- The text of `vmJson eol pad vm` from its opening brace on. -/
def vmObject (eol pad : Str) (vm : VMInfo) : Str :=
  lit "\x7b" ++ eol ++
  pad ++ lit "    \"Name\":  " ++ jsonString vm.strName ++ lit "," ++ eol ++
  pad ++ lit "    \"State\":  " ++ jsonString vm.strState ++ lit "," ++ eol ++
  pad ++ lit "    \"GpuStatus\":  " ++ jsonString vm.strGPUStatus ++ lit "," ++ eol ++
  pad ++ lit "    \"VRAM\":  " ++ Nat.toDigits 10 vm.ui64VramBytes ++ lit "," ++ eol ++
  pad ++ lit "    \"InstancePath\":  " ++ jsonString vm.strGPUInstancePath ++ eol ++
  pad ++ lit "\x7d"

/-- The keys of the members of a VM object. -/
def vmKeys : List Str :=
  [lit "Name", lit "State", lit "GpuStatus", lit "VRAM", lit "InstancePath"]

/-- A VM record whose serialisation `ParseVMJson` is shown to read back: it has a name,
its VRAM fits 64 bits, its name, state and GPU status hold no double quote and are not
the key of a member, and none of its texts holds a closing brace. -/
structure Readable (vm : VMInfo) : Prop where
  named : vm.strName ≠ []
  vram : vm.ui64VramBytes < 2 ^ 64
  nameQuote : '"' ∉ vm.strName
  stateQuote : '"' ∉ vm.strState
  statusQuote : '"' ∉ vm.strGPUStatus
  nameBrace : '\x7d' ∉ vm.strName
  stateBrace : '\x7d' ∉ vm.strState
  statusBrace : '\x7d' ∉ vm.strGPUStatus
  pathBrace : '\x7d' ∉ vm.strGPUInstancePath
  nameKey : vm.strName ∉ vmKeys
  stateKey : vm.strState ∉ vmKeys
  statusKey : vm.strGPUStatus ∉ vmKeys

/-- The record with the fields `ParseVMJson` fills, the other fields empty. -/
def parsedFields (vm : VMInfo) : VMInfo :=
  { strName := vm.strName
    strState := vm.strState
    strGPUStatus := vm.strGPUStatus
    ui64VramBytes := vm.ui64VramBytes
    strGPUInstancePath := vm.strGPUInstancePath }

/-! ## Running the program -/

section Run
variable {σ α β : Type}

@[simp] theorem run_pure (a : α) (s : σ) : (pure a : Exec σ α) s = ⟨a, s, []⟩ := rfl

@[simp] theorem run_bind (m : Exec σ α) (f : α → Exec σ β) (s : σ) :
    (m >>= f) s = ⟨(f (m s).val (m s).st).val, (f (m s).val (m s).st).st,
      (m s).ev ++ (f (m s).val (m s).st).ev⟩ := rfl

@[simp] theorem run_ite (c : Prop) [Decidable c] (m1 m2 : Exec σ α) (s : σ) :
    (if c then m1 else m2) s = if c then m1 s else m2 s := by
  split <;> rfl

@[simp] theorem run_emit (e : Event) (s : σ) : (emit e : Exec σ Unit) s = ⟨(), s, [e]⟩ := rfl

@[simp] theorem run_say (msg : Str) (s : σ) :
    (say msg : Exec σ Unit) s = ⟨(), s, [Event.say msg]⟩ := rfl

@[simp] theorem run_ExecuteWithCheck (h : Host σ) (c : Cmd) (s : σ) :
    ExecuteWithCheck h c s = ⟨(h.exec c s).1, (h.exec c s).2, [Event.ps c (h.exec c s).1]⟩ := rfl

@[simp] theorem run_Execute (h : Host σ) (c : Cmd) (s : σ) :
    Execute h c s = ⟨(h.exec c s).1.output, (h.exec c s).2, [Event.ps c (h.exec c s).1]⟩ := by
  simp [Execute]

end Run

/-! ## Reading a log: basic facts -/

@[simp] theorem stepResults_nil : stepResults [] = [] := rfl

@[simp] theorem stepResults_append (l1 l2 : List Event) :
    stepResults (l1 ++ l2) = stepResults l1 ++ stepResults l2 := by
  simp [stepResults]

@[simp] theorem stepResults_cons_say (m : Str) (l : List Event) :
    stepResults (Event.say m :: l) = stepResults l := rfl

@[simp] theorem stepResults_cons_ps (c : Cmd) (r : Reply) (l : List Event) :
    stepResults (Event.ps c r :: l) = stepResults l := rfl

@[simp] theorem stepResults_cons_wmi (v : Str) (r : WmiResult) (l : List Event) :
    stepResults (Event.wmi v r :: l) = stepResults l := rfl

@[simp] theorem stepResults_cons_backup (b : GPUPVBackup) (l : List Event) :
    stepResults (Event.backup b :: l) = stepResults l := rfl

@[simp] theorem stepResults_cons_restore (b : GPUPVBackup) (l : List Event) :
    stepResults (Event.restore b :: l) = stepResults l := rfl

@[simp] theorem stepResults_cons_step (s : Step) (ok : Bool) (l : List Event) :
    stepResults (Event.step s ok :: l) = (s, ok) :: stepResults l := rfl

@[simp] theorem restores_nil : restores [] = [] := rfl

@[simp] theorem restores_append (l1 l2 : List Event) :
    restores (l1 ++ l2) = restores l1 ++ restores l2 := by
  simp [restores]

@[simp] theorem restores_cons_say (m : Str) (l : List Event) :
    restores (Event.say m :: l) = restores l := rfl

@[simp] theorem restores_cons_ps (c : Cmd) (r : Reply) (l : List Event) :
    restores (Event.ps c r :: l) = restores l := rfl

@[simp] theorem restores_cons_wmi (v : Str) (r : WmiResult) (l : List Event) :
    restores (Event.wmi v r :: l) = restores l := rfl

@[simp] theorem restores_cons_backup (b : GPUPVBackup) (l : List Event) :
    restores (Event.backup b :: l) = restores l := rfl

@[simp] theorem restores_cons_restore (b : GPUPVBackup) (l : List Event) :
    restores (Event.restore b :: l) = b :: restores l := rfl

@[simp] theorem restores_cons_step (s : Step) (ok : Bool) (l : List Event) :
    restores (Event.step s ok :: l) = restores l := rfl

@[simp] theorem backups_nil : backups [] = [] := rfl

@[simp] theorem backups_append (l1 l2 : List Event) :
    backups (l1 ++ l2) = backups l1 ++ backups l2 := by
  simp [backups]

@[simp] theorem backups_cons_say (m : Str) (l : List Event) :
    backups (Event.say m :: l) = backups l := rfl

@[simp] theorem backups_cons_ps (c : Cmd) (r : Reply) (l : List Event) :
    backups (Event.ps c r :: l) = backups l := rfl

@[simp] theorem backups_cons_wmi (v : Str) (r : WmiResult) (l : List Event) :
    backups (Event.wmi v r :: l) = backups l := rfl

@[simp] theorem backups_cons_backup (b : GPUPVBackup) (l : List Event) :
    backups (Event.backup b :: l) = b :: backups l := rfl

@[simp] theorem backups_cons_restore (b : GPUPVBackup) (l : List Event) :
    backups (Event.restore b :: l) = backups l := rfl

@[simp] theorem backups_cons_step (s : Step) (ok : Bool) (l : List Event) :
    backups (Event.step s ok :: l) = backups l := rfl

@[simp] theorem commands_nil : commands [] = [] := rfl

@[simp] theorem commands_append (l1 l2 : List Event) :
    commands (l1 ++ l2) = commands l1 ++ commands l2 := by
  simp [commands]

@[simp] theorem commands_cons_say (m : Str) (l : List Event) :
    commands (Event.say m :: l) = commands l := rfl

@[simp] theorem commands_cons_ps (c : Cmd) (r : Reply) (l : List Event) :
    commands (Event.ps c r :: l) = (c, r) :: commands l := rfl

@[simp] theorem commands_cons_wmi (v : Str) (r : WmiResult) (l : List Event) :
    commands (Event.wmi v r :: l) = commands l := rfl

@[simp] theorem commands_cons_backup (b : GPUPVBackup) (l : List Event) :
    commands (Event.backup b :: l) = commands l := rfl

@[simp] theorem commands_cons_restore (b : GPUPVBackup) (l : List Event) :
    commands (Event.restore b :: l) = commands l := rfl

@[simp] theorem commands_cons_step (s : Step) (ok : Bool) (l : List Event) :
    commands (Event.step s ok :: l) = commands l := rfl

@[simp] theorem commandList_nil : commandList [] = [] := rfl

@[simp] theorem commandList_append (l1 l2 : List Event) :
    commandList (l1 ++ l2) = commandList l1 ++ commandList l2 := by
  simp [commandList]

@[simp] theorem commandList_cons_say (m : Str) (l : List Event) :
    commandList (Event.say m :: l) = commandList l := rfl

@[simp] theorem commandList_cons_ps (c : Cmd) (r : Reply) (l : List Event) :
    commandList (Event.ps c r :: l) = c :: commandList l := rfl

@[simp] theorem commandList_cons_wmi (v : Str) (r : WmiResult) (l : List Event) :
    commandList (Event.wmi v r :: l) = commandList l := rfl

@[simp] theorem commandList_cons_backup (b : GPUPVBackup) (l : List Event) :
    commandList (Event.backup b :: l) = commandList l := rfl

@[simp] theorem commandList_cons_restore (b : GPUPVBackup) (l : List Event) :
    commandList (Event.restore b :: l) = commandList l := rfl

@[simp] theorem commandList_cons_step (s : Step) (ok : Bool) (l : List Event) :
    commandList (Event.step s ok :: l) = commandList l := rfl

/-- Before the first rollback: the whole log when it has none. -/
theorem forward_of_no_restore (l : List Event) (hl : restores l = []) : forward l = l := by
  induction l with
  | nil => rfl
  | cons e l ih =>
    cases e with
    | restore b => simp at hl
    | say m => simp at hl; simp [forward]; simpa [forward] using ih hl
    | ps c r => simp at hl; simp [forward]; simpa [forward] using ih hl
    | wmi v r => simp at hl; simp [forward]; simpa [forward] using ih hl
    | backup b => simp at hl; simp [forward]; simpa [forward] using ih hl
    | step s ok => simp at hl; simp [forward]; simpa [forward] using ih hl

/-- Before the first rollback: the part of the log in front of it. -/
theorem forward_append_restore (l t : List Event) (b : GPUPVBackup) (hl : restores l = []) :
    forward (l ++ Event.restore b :: t) = l := by
  induction l with
  | nil => simp [forward]
  | cons e l ih =>
    cases e with
    | restore b => simp at hl
    | say m => simp at hl; simp [forward]; simpa [forward] using ih hl
    | ps c r => simp at hl; simp [forward]; simpa [forward] using ih hl
    | wmi v r => simp at hl; simp [forward]; simpa [forward] using ih hl
    | backup b => simp at hl; simp [forward]; simpa [forward] using ih hl
    | step s ok => simp at hl; simp [forward]; simpa [forward] using ih hl

/-- A log of progress lines and commands records no step, no backup and no rollback. -/
theorem sayOr_projections (p : Cmd → Bool) (l : List Event) (hl : l.all (sayOr p) = true) :
    stepResults l = [] ∧ restores l = [] ∧ backups l = [] ∧ forward l = l ∧
      ∀ c ∈ commandList l, p c = true := by
  have key : stepResults l = [] ∧ restores l = [] ∧ backups l = [] ∧
      ∀ c ∈ commandList l, p c = true := by
    induction l with
    | nil => simp
    | cons e l ih =>
      simp only [List.all_cons, Bool.and_eq_true] at hl
      obtain ⟨h1, h2, h3, h5⟩ := ih hl.2
      cases e with
      | say m => simp [h1, h2, h3]; exact h5
      | ps c r =>
        have hc : p c = true := by simpa [sayOr] using hl.1
        simp [h1, h2, h3, hc]
        exact h5
      | wmi v r => simp [sayOr] at hl
      | backup b => simp [sayOr] at hl
      | restore b => simp [sayOr] at hl
      | step s ok => simp [sayOr] at hl
  exact ⟨key.1, key.2.1, key.2.2.1, forward_of_no_restore l key.2.1, key.2.2.2⟩

/-! ## What each function can leave in the log -/

section Quiet
variable {σ α β : Type} {P : Event → Bool}

theorem quiet_pure (a : α) : Quiet P (pure a : Exec σ α) := by
  constructor; intro s; simp

theorem quiet_bind {m : Exec σ α} {f : α → Exec σ β} (hm : Quiet P m)
    (hf : ∀ a, Quiet P (f a)) : Quiet P (m >>= f) := by
  constructor
  intro s
  have h1 := hm.all s
  have h2 := (hf (m s).val).all (m s).st
  simp only [run_bind, List.all_append, h1, h2, Bool.and_self]

theorem quiet_ite {c : Prop} [Decidable c] {m1 m2 : Exec σ α} (h1 : Quiet P m1)
    (h2 : Quiet P m2) : Quiet P (if c then m1 else m2) := by
  split <;> assumption

theorem quiet_emit {e : Event} (he : P e = true) : Quiet P (emit e : Exec σ Unit) := by
  constructor; intro s; simp [he]

theorem quiet_say {msg : Str} (he : P (Event.say msg) = true) :
    Quiet P (say msg : Exec σ Unit) := quiet_emit he

theorem quiet_check {h : Host σ} {c : Cmd} (he : ∀ r, P (Event.ps c r) = true) :
    Quiet P (ExecuteWithCheck h c) := by
  constructor; intro s; simp [he]

theorem quiet_execute {h : Host σ} {c : Cmd} (he : ∀ r, P (Event.ps c r) = true) :
    Quiet P (Execute h c) := by
  constructor; intro s; simp [he]

theorem quiet_sayLines (l : List Str) (hs : ∀ msg, P (Event.say msg) = true) :
    Quiet P (sayLines l : Exec σ Unit) := by
  induction l with
  | nil => exact quiet_pure _
  | cons x xs ih =>
    unfold sayLines
    apply quiet_bind
    · apply quiet_ite
      · exact quiet_say (hs _)
      · exact quiet_pure _
    · intro _; exact ih

theorem quiet_sayCopied (l : List Str) (hs : ∀ msg, P (Event.say msg) = true) :
    Quiet P (sayCopied l : Exec σ Unit) := by
  induction l with
  | nil => exact quiet_pure _
  | cons x xs ih =>
    unfold sayCopied
    apply quiet_bind
    · apply quiet_ite
      · exact quiet_say (hs _)
      · exact quiet_pure _
    · intro _; exact ih

theorem quiet_sayVerified (l : List Str) (hs : ∀ msg, P (Event.say msg) = true) :
    Quiet P (sayVerified l : Exec σ Unit) := by
  induction l with
  | nil => exact quiet_pure _
  | cons x xs ih =>
    unfold sayVerified
    apply quiet_bind
    · apply quiet_ite
      · exact quiet_say (hs _)
      · apply quiet_ite
        · exact quiet_say (hs _)
        · exact quiet_pure _
    · intro _; exact ih

end Quiet

theorem quiet_DismountVMDisk {σ : Type} (h : Host σ) (vm : Str) :
    Quiet (sayOr driverCmd) (DismountVMDisk h vm) := by
  unfold DismountVMDisk
  repeat first
    | rfl
    | intro _
    | with_reducible exact quiet_pure _
    | with_reducible apply quiet_check
    | with_reducible apply quiet_bind
    | with_reducible apply quiet_ite
    | split

theorem quiet_MountVMDisk {σ : Type} (h : Host σ) (vm : Str) :
    Quiet (sayOr driverCmd) (MountVMDisk h vm) := by
  unfold MountVMDisk
  repeat first
    | rfl
    | intro _
    | with_reducible exact quiet_pure _
    | with_reducible apply quiet_check
    | with_reducible exact quiet_DismountVMDisk h vm
    | with_reducible apply quiet_bind
    | with_reducible apply quiet_ite
    | split

theorem quiet_resolveGpuName {σ : Type} (h : Host σ) (vm : Str) :
    Quiet (sayOr driverCmd) (resolveGpuName h vm) := by
  unfold resolveGpuName
  repeat first
    | rfl
    | intro _
    | with_reducible exact quiet_pure _
    | with_reducible apply quiet_say
    | with_reducible apply quiet_execute
    | with_reducible apply quiet_bind
    | with_reducible apply quiet_ite
    | split

theorem quiet_CopyGPUServiceDriver {σ : Type} (h : Host σ) (g d : Str) :
    Quiet (sayOr driverCmd) (CopyGPUServiceDriver h g d) := by
  unfold CopyGPUServiceDriver
  repeat first
    | rfl
    | intro _
    | with_reducible exact quiet_pure _
    | with_reducible apply quiet_say
    | with_reducible apply quiet_sayLines
    | with_reducible apply quiet_check
    | with_reducible apply quiet_bind
    | with_reducible apply quiet_ite
    | split

theorem quiet_CopyPnPDriverFiles {σ : Type} (h : Host σ) (g d : Str) :
    Quiet (sayOr driverCmd) (CopyPnPDriverFiles h g d) := by
  unfold CopyPnPDriverFiles
  repeat first
    | rfl
    | intro _
    | with_reducible exact quiet_pure _
    | with_reducible apply quiet_say
    | with_reducible apply quiet_sayCopied
    | with_reducible apply quiet_check
    | with_reducible apply quiet_bind
    | with_reducible apply quiet_ite
    | split

theorem quiet_CopyNvidiaSpecialFiles {σ : Type} (h : Host σ) (d : Str) :
    Quiet (sayOr driverCmd) (CopyNvidiaSpecialFiles h d) := by
  unfold CopyNvidiaSpecialFiles
  repeat first
    | rfl
    | intro _
    | with_reducible exact quiet_pure _
    | with_reducible apply quiet_execute
    | with_reducible apply quiet_bind
    | split

theorem quiet_copyAndVerify {σ : Type} (h : Host σ) (vm d g e : Str) :
    Quiet (sayOr driverCmd) (copyAndVerify h vm d g e) := by
  unfold copyAndVerify
  repeat first
    | rfl
    | intro _
    | with_reducible exact quiet_pure _
    | with_reducible apply quiet_say
    | with_reducible apply quiet_sayVerified
    | with_reducible apply quiet_execute
    | with_reducible exact quiet_CopyGPUServiceDriver h _ _
    | with_reducible exact quiet_CopyPnPDriverFiles h _ _
    | with_reducible exact quiet_CopyNvidiaSpecialFiles h _
    | with_reducible exact quiet_DismountVMDisk h _
    | with_reducible apply quiet_bind
    | with_reducible apply quiet_ite
    | split

/-- The driver sub-workflow leaves only progress lines and its own commands in the log. -/
theorem quiet_CopyDriverFiles {σ : Type} (h : Host σ) (vm : Str) :
    Quiet (sayOr driverCmd) (CopyDriverFiles h vm) := by
  unfold CopyDriverFiles
  repeat first
    | rfl
    | intro _
    | with_reducible exact quiet_pure _
    | with_reducible apply quiet_say
    | with_reducible exact quiet_MountVMDisk h _
    | with_reducible exact quiet_resolveGpuName h _
    | with_reducible exact quiet_copyAndVerify h _ _ _ _
    | with_reducible exact quiet_DismountVMDisk h _
    | with_reducible apply quiet_bind
    | with_reducible apply quiet_ite
    | split

theorem quiet_VerifyGPUDeviceInVM {σ : Type} (h : Host σ) (vm g : Str) :
    Quiet (sayOr vmCheckCmd) (VerifyGPUDeviceInVM h vm g) := by
  unfold VerifyGPUDeviceInVM
  repeat first
    | rfl
    | intro _
    | with_reducible exact quiet_pure _
    | with_reducible apply quiet_say
    | with_reducible apply quiet_execute
    | with_reducible apply quiet_bind
    | with_reducible apply quiet_ite
    | split

/-- The final check leaves only progress lines and its own commands in the log. -/
theorem quiet_checkVMState {σ : Type} (h : Host σ) (vm g : Str) :
    Quiet (sayOr vmCheckCmd) (checkVMState h vm g) := by
  unfold checkVMState GetVMState
  repeat first
    | rfl
    | intro _
    | with_reducible exact quiet_pure _
    | with_reducible apply quiet_say
    | with_reducible apply quiet_execute
    | with_reducible exact quiet_VerifyGPUDeviceInVM h _ _
    | with_reducible apply quiet_bind
    | with_reducible apply quiet_ite
    | split

/-! ## The steps one by one -/

theorem AddGPUPartitionAdapter_ev {σ : Type} (h : Host σ) (vm path : Str) (s : σ) :
    (AddGPUPartitionAdapter h vm path s).ev =
      [Event.ps (Cmd.addAdapter vm path) (h.exec (Cmd.addAdapter vm path) s).1] := by
  simp only [AddGPUPartitionAdapter, run_bind, run_ExecuteWithCheck, run_ite]
  split <;> simp

theorem AddGPUPartitionAdapter_ok {σ : Type} (h : Host σ) (vm path : Str) (s : σ) :
    (AddGPUPartitionAdapter h vm path s).val.1 = (h.exec (Cmd.addAdapter vm path) s).1.ok := by
  simp only [AddGPUPartitionAdapter, run_bind, run_ExecuteWithCheck, run_ite]
  cases hok : (h.exec (Cmd.addAdapter vm path) s).1.ok <;> simp

theorem AddGPUPartitionAdapter_st {σ : Type} (h : Host σ) (vm path : Str) (s : σ) :
    (AddGPUPartitionAdapter h vm path s).st = (h.exec (Cmd.addAdapter vm path) s).2 := by
  simp only [AddGPUPartitionAdapter, run_bind, run_ExecuteWithCheck, run_ite]
  split <;> simp

theorem stepLog_add {σ : Type} (h : Host σ) (vm path : Str) (bytes : Nat) (s : σ) :
    StepLog vm path bytes Step.addAdapter (AddGPUPartitionAdapter h vm path s).val.1
      (AddGPUPartitionAdapter h vm path s).ev :=
  ⟨_, AddGPUPartitionAdapter_ev h vm path s, (AddGPUPartitionAdapter_ok h vm path s).symm⟩

theorem stepLog_cache {σ : Type} (h : Host σ) (vm path : Str) (bytes : Nat) (s : σ) :
    StepLog vm path bytes Step.cacheTypes (EnableGuestControlledCacheTypes h vm s).val.1
      (EnableGuestControlledCacheTypes h vm s).ev := by
  refine ⟨(h.exec (Cmd.setCacheTypes vm true) s).1, ?_, ?_⟩
  · simp only [EnableGuestControlledCacheTypes, run_bind, run_ExecuteWithCheck, run_ite]
    split <;> simp
  · simp only [EnableGuestControlledCacheTypes, run_bind, run_ExecuteWithCheck, run_ite]
    cases hok : (h.exec (Cmd.setCacheTypes vm true) s).1.ok <;> simp

theorem stepLog_mmio {σ : Type} (h : Host σ) (vm path : Str) (bytes : Nat) (s : σ) :
    StepLog vm path bytes Step.mmio (ConfigureMMIOSpace h vm s).val.1
      (ConfigureMMIOSpace h vm s).ev := by
  simp only [StepLog, ConfigureMMIOSpace, run_bind, run_ExecuteWithCheck, run_ite]
  cases h1 : (h.exec (Cmd.setLowMmioSpace vm) s).1.ok
  · left
    exact ⟨_, by simp, h1, by simp⟩
  · right
    refine ⟨(h.exec (Cmd.setLowMmioSpace vm) s).1,
      (h.exec (Cmd.setHighMmioSpace vm) (h.exec (Cmd.setLowMmioSpace vm) s).2).1, ?_, h1, ?_⟩
    · simp only [Bool.not_true, Bool.false_eq_true, if_false]
      split <;> simp
    · cases h2 : (h.exec (Cmd.setHighMmioSpace vm) (h.exec (Cmd.setLowMmioSpace vm) s).2).1.ok <;>
        simp [h2]

/-- The loop of `ConfigureGPUResources`: the commands go out in order, up to the first
that fails; `rs` are the replies. -/
theorem configureLoop_spec {σ : Type} (h : Host σ) (vm : Str) (n : Nat) (ts : List Str) :
    ∀ (err : Str) (s : σ), ∃ rs : List Reply,
      (configureLoop h vm n ts err s).ev =
        List.zipWith Event.ps (ts.map (fun t => Cmd.setPartition vm t 1 n n)) rs ∧
      rs.length ≤ ts.length ∧
      ((configureLoop h vm n ts err s).val.1 = true →
        rs.length = ts.length ∧ ∀ r ∈ rs, r.ok = true) ∧
      ((configureLoop h vm n ts err s).val.1 = false →
        ∃ init r, rs = init ++ [r] ∧ r.ok = false ∧ ∀ x ∈ init, x.ok = true) := by
  induction ts with
  | nil =>
    intro err s
    exact ⟨[], by simp [configureLoop], by simp, by simp [configureLoop], by simp [configureLoop]⟩
  | cons t ts ih =>
    intro err s
    simp only [configureLoop, run_bind, run_ExecuteWithCheck, run_ite]
    cases hok : (h.exec (Cmd.setPartition vm t 1 n n) s).1.ok
    · refine ⟨[(h.exec (Cmd.setPartition vm t 1 n n) s).1], by simp, by simp, by simp, ?_⟩
      intro _
      exact ⟨[], _, rfl, hok, by simp⟩
    · obtain ⟨rs, h1, h2, h3, h4⟩ := ih (h.exec (Cmd.setPartition vm t 1 n n) s).1.error
        (h.exec (Cmd.setPartition vm t 1 n n) s).2
      refine ⟨(h.exec (Cmd.setPartition vm t 1 n n) s).1 :: rs, ?_, ?_, ?_, ?_⟩
      · simp [h1]
      · simpa using h2
      · intro hv
        simp only [Bool.not_true, Bool.false_eq_true, if_false] at hv
        obtain ⟨h5, h6⟩ := h3 hv
        refine ⟨by simp [h5], ?_⟩
        intro r hr
        rcases List.mem_cons.mp hr with rfl | hr
        · exact hok
        · exact h6 r hr
      · intro hv
        simp only [Bool.not_true, Bool.false_eq_true, if_false] at hv
        obtain ⟨init, r, h5, h6, h7⟩ := h4 hv
        refine ⟨(h.exec (Cmd.setPartition vm t 1 n n) s).1 :: init, r, by simp [h5], h6, ?_⟩
        intro x hx
        rcases List.mem_cons.mp hx with rfl | hx
        · exact hok
        · exact h7 x hx

theorem stepLog_resources {σ : Type} (h : Host σ) (vm path : Str) (bytes : Nat) (err : Str)
    (s : σ) :
    StepLog vm path bytes Step.resources (ConfigureGPUResources h vm bytes err s).val.1
      (ConfigureGPUResources h vm bytes err s).ev := by
  obtain ⟨rs, h1, h2, h3, h4⟩ := configureLoop_spec h vm bytes resourceTypes err s
  exact ⟨rs, h1, h2, h3, h4⟩

theorem MountVMDisk_commands {σ : Type} (h : Host σ) (vm : Str) (s : σ) :
    ∃ rest, commandList (MountVMDisk h vm s).ev = Cmd.mountDisk vm :: rest := by
  unfold MountVMDisk
  rw [run_bind]
  simp only [commandList_append, run_ExecuteWithCheck, commandList_cons_ps]
  exact ⟨_, rfl⟩

theorem stepLog_drivers {σ : Type} (h : Host σ) (vm path : Str) (bytes : Nat) (s : σ) :
    StepLog vm path bytes Step.drivers (CopyDriverFiles h vm s).val.1
      (CopyDriverFiles h vm s).ev := by
  refine ⟨(quiet_CopyDriverFiles h vm).all s, ?_⟩
  obtain ⟨rest, hr⟩ := MountVMDisk_commands h vm s
  unfold CopyDriverFiles
  rw [run_bind, run_bind]
  simp only [commandList_append, run_say, commandList_cons_say, commandList_nil,
    List.nil_append, hr]
  exact ⟨_, rfl⟩

theorem checkVMState_commands {σ : Type} (h : Host σ) (vm g : Str) (s : σ) :
    ∃ rest, commandList (checkVMState h vm g s).ev = Cmd.getVMState vm :: rest := by
  unfold checkVMState GetVMState
  rw [run_bind, run_bind, run_bind]
  simp only [commandList_append, run_say, commandList_cons_say, commandList_nil,
    List.nil_append, run_Execute, commandList_cons_ps]
  exact ⟨_, rfl⟩

theorem zipWith_ps_all (p : Cmd → Bool) (cs : List Cmd) (hp : ∀ c ∈ cs, p c = true) :
    ∀ rs : List Reply, (List.zipWith Event.ps cs rs).all (sayOr p) = true := by
  induction cs with
  | nil => intro rs; simp
  | cons c cs ih =>
    intro rs
    cases rs with
    | nil => simp
    | cons r rs =>
      have h1 : p c = true := hp c (List.mem_cons_self _ _)
      have h2 := ih (fun x hx => hp x (List.mem_cons_of_mem _ hx)) rs
      simp [sayOr, h1, h2]

/-- The events of `RestoreState`: the entry, then progress lines and its own commands. -/
theorem RestoreState_ev {σ : Type} (h : Host σ) (vm : Str) (b : GPUPVBackup) (s : σ) :
    ∃ rest, (RestoreState h vm b s).ev = Event.restore b :: rest ∧
      rest.all (sayOr restoreCmd) = true := by
  have hq : Quiet (sayOr restoreCmd) (AddGPUPartitionAdapter h vm b.strInstancePath) := by
    constructor
    intro s
    simp [AddGPUPartitionAdapter_ev, sayOr, restoreCmd]
  have hc : ∀ n e, Quiet (sayOr restoreCmd) (ConfigureGPUResources h vm n e) := by
    intro n e
    constructor
    intro s
    obtain ⟨rs, h1, -⟩ := configureLoop_spec h vm n resourceTypes e s
    unfold ConfigureGPUResources
    rw [h1]
    apply zipWith_ps_all
    intro c hc
    obtain ⟨t, -, rfl⟩ := List.mem_map.mp hc
    rfl
  unfold RestoreState
  rw [run_bind]
  refine ⟨_, rfl, Quiet.all ?_ _⟩
  repeat first
    | rfl
    | intro _
    | with_reducible exact quiet_pure _
    | with_reducible exact hq
    | with_reducible exact hc _ _
    | with_reducible apply quiet_say
    | with_reducible apply quiet_execute
    | with_reducible apply quiet_bind
    | with_reducible apply quiet_ite
    | split

theorem BackupState_ev {σ : Type} (h : Host σ) (vm : Str) (s : σ) :
    (BackupState h vm s).ev =
      [Event.ps (Cmd.getAdapter vm) (h.exec (Cmd.getAdapter vm) s).1,
       Event.ps (Cmd.getCacheTypes vm)
         (h.exec (Cmd.getCacheTypes vm) (h.exec (Cmd.getAdapter vm) s).2).1,
       Event.backup (BackupState h vm s).val] := by
  simp [BackupState]

/-- The events of `StopVM`: the WMI request, and the PowerShell command when that threw. -/
theorem StopVM_ev {σ : Type} (h : Host σ) (vm err : Str) (s : σ) :
    (∃ w, (StopVM h vm err s).ev = [Event.wmi vm w]) ∨
    (∃ r, (StopVM h vm err s).ev = [Event.wmi vm WmiResult.threw, Event.ps (Cmd.stopVM vm) r]) := by
  simp only [StopVM, StopVMViaWMI, run_bind]
  cases hw : (h.wmiStop vm s).1 with
  | threw =>
    right
    refine ⟨(h.exec (Cmd.stopVM vm) (h.wmiStop vm s).2).1, ?_⟩
    simp only [StopVMViaPowerShell, run_bind, run_ExecuteWithCheck, run_ite]
    split <;> simp
  | returned ok e => left; exact ⟨WmiResult.returned ok e, by simp⟩

theorem checkVMState_val {σ : Type} (h : Host σ) (vm g : Str) (s : σ) :
    (checkVMState h vm g s).val ≠ some false := by
  simp only [checkVMState, run_bind, run_say, run_ite]
  split
  · generalize (VerifyGPUDeviceInVM h vm g (GetVMState h vm s).st).val = v
    generalize (VerifyGPUDeviceInVM h vm g (GetVMState h vm s).st).st = s2
    cases v with
    | none => simp
    | some b => cases b <;> simp
  · simp

/-! ## The enable path as a chain of steps -/

theorem enableBranch_chain {σ : Type} (h : Host σ) (vm gpu path : Str) (vramMB : Int)
    (b : GPUPVBackup) :
    enableBranch h vm gpu path vramMB b =
      attempt h vm b Step.addAdapter (AddGPUPartitionAdapter h vm path) (fun e =>
      attempt h vm b Step.resources (ConfigureGPUResources h vm (vramBytesOf vramMB) e)
        (fun _ =>
      attempt h vm b Step.cacheTypes (EnableGuestControlledCacheTypes h vm) (fun _ =>
      attempt h vm b Step.mmio (ConfigureMMIOSpace h vm) (fun _ =>
      attempt h vm b Step.drivers (CopyDriverFiles h vm) (fun _ =>
      checkVMState h vm gpu))))) := rfl

theorem attempt_outcome {σ : Type} (h : Host σ) (vm path : Str) (bytes : Nat)
    (b : GPUPVBackup) (st : Step) (ss : List Step) (run : Exec σ (Bool × Str))
    (next : Str → Exec σ (Option Bool))
    (hrun : ∀ s, StepLog vm path bytes st (run s).val.1 (run s).ev)
    (hnext : ∀ e s, Outcome h vm path bytes b ss (next e s)) (s : σ) :
    Outcome h vm path bytes b (st :: ss) (attempt h vm b st run next s) := by
  have hr := hrun s
  simp only [attempt, rollBack, run_bind, run_say, run_emit, run_ite, run_pure]
  cases hok : (run s).val.1
  · right
    rw [hok] at hr
    refine ⟨by simp, [], st, ss, [], (run s).ev, (run s).val.2, (run s).st, rfl, ?_, by simp, rfl, hr⟩
    simp
  · rw [hok] at hr
    rcases hnext (run s).val.2 (run s).st with ⟨hv, l, lk, he, hl, hk, hg⟩ |
      ⟨hv, done, st2, rest, l, lf, err, s1, hss, he, hst, hl, hf⟩
    · left
      refine ⟨by simpa using hv,
        [Event.say (startMsg st)] ++ (run s).ev ++ [Event.step st true, Event.say (doneMsg st)] ++ l,
        lk, ?_, ⟨(run s).ev, l, rfl, hr, hl⟩, hk, hg⟩
      simp [he]
    · right
      refine ⟨by simpa using hv, st :: done, st2, rest,
        [Event.say (startMsg st)] ++ (run s).ev ++ [Event.step st true, Event.say (doneMsg st)] ++ l,
        lf, err, s1, by simp [hss], ?_, by simpa using hst, ⟨(run s).ev, l, rfl, hr, hl⟩, hf⟩
      simp [he]

/-- The shape of every run of the enable path. -/
theorem enableBranch_outcome {σ : Type} (h : Host σ) (vm gpu path : Str) (vramMB : Int)
    (b : GPUPVBackup) (s : σ) :
    Outcome h vm path (vramBytesOf vramMB) b stepOrder
      (enableBranch h vm gpu path vramMB b s) := by
  rw [enableBranch_chain]
  apply attempt_outcome
  · exact stepLog_add h vm path _
  intro e s
  apply attempt_outcome
  · exact stepLog_resources h vm path _ e
  intro _ s
  apply attempt_outcome
  · exact stepLog_cache h vm path _
  intro _ s
  apply attempt_outcome
  · exact stepLog_mmio h vm path _
  intro _ s
  apply attempt_outcome
  · exact stepLog_drivers h vm path _
  intro _ s
  left
  exact ⟨checkVMState_val h vm gpu s, [], _, rfl, rfl, (quiet_checkVMState h vm gpu).all s,
    checkVMState_commands h vm gpu s⟩

/-! ## What the shapes say about the log -/

/-- The commands of the five steps of the enable path. -/
theorem commands_zipWith_ps (cs : List Cmd) :
    ∀ rs : List Reply, commands (List.zipWith Event.ps cs rs) = List.zip cs rs := by
  induction cs with
  | nil => intro rs; simp
  | cons c cs ih =>
    intro rs
    cases rs with
    | nil => simp
    | cons r rs => simp [ih]

theorem plannedResources_config (vm : Str) (bytes : Nat) :
    ∀ c ∈ plannedResources vm bytes, (configCmd c || driverCmd c) = true := by
  intro c hc
  obtain ⟨t, -, rfl⟩ := List.mem_map.mp hc
  rfl

theorem stepLog_all (vm path : Str) (bytes : Nat) (s : Step) (ok : Bool) (l : List Event)
    (hl : StepLog vm path bytes s ok l) :
    l.all (sayOr (fun c => configCmd c || driverCmd c)) = true := by
  cases s with
  | addAdapter => obtain ⟨r, rfl, -⟩ := hl; rfl
  | resources =>
    obtain ⟨rs, rfl, -⟩ := hl
    exact zipWith_ps_all _ _ (plannedResources_config vm bytes) rs
  | cacheTypes => obtain ⟨r, rfl, -⟩ := hl; rfl
  | mmio =>
    rcases hl with ⟨r1, rfl, -⟩ | ⟨r1, r2, rfl, -⟩
    · rfl
    · rfl
  | drivers =>
    obtain ⟨hq, -⟩ := hl
    rw [List.all_eq_true] at hq ⊢
    intro e he
    have := hq e he
    cases e with
    | say m => rfl
    | ps c r =>
      simp only [sayOr] at this ⊢
      simp [this]
    | wmi v r => simp [sayOr] at this
    | backup b => simp [sayOr] at this
    | restore b => simp [sayOr] at this
    | step s ok => simp [sayOr] at this

theorem driverCmd_not_config (c : Cmd) (hc : driverCmd c = true) : configCmd c = false := by
  cases c <;> simp [driverCmd] at hc <;> rfl

theorem stepLog_ok (vm path : Str) (bytes : Nat) (s : Step) (l : List Event)
    (hl : StepLog vm path bytes s true l) :
    ∀ p ∈ commands l, configCmd p.1 = true → p.2.ok = true := by
  cases s with
  | addAdapter =>
    obtain ⟨r, rfl, hr⟩ := hl
    intro p hp _
    simp at hp
    subst hp
    exact hr
  | resources =>
    obtain ⟨rs, rfl, -, h1, -⟩ := hl
    intro p hp _
    rw [commands_zipWith_ps] at hp
    exact (h1 rfl).2 p.2 (List.of_mem_zip hp).2
  | cacheTypes =>
    obtain ⟨r, rfl, hr⟩ := hl
    intro p hp _
    simp at hp
    subst hp
    exact hr
  | mmio =>
    rcases hl with ⟨r1, rfl, -, h2⟩ | ⟨r1, r2, rfl, h1, h2⟩
    · simp at h2
    · intro p hp _
      simp at hp
      rcases hp with rfl | rfl
      · exact h1
      · exact h2
  | drivers =>
    obtain ⟨hq, -⟩ := hl
    intro p hp hc
    have h5 := (sayOr_projections driverCmd l hq).2.2.2.2 p.1
      (by simp only [commandList]; exact List.mem_map_of_mem _ hp)
    rw [driverCmd_not_config p.1 h5] at hc
    simp at hc

/-- A log of steps that all succeeded: its step results, and nothing else of note. -/
theorem segs_facts (vm path : Str) (bytes : Nat) (ss : List Step) :
    ∀ l, Segs vm path bytes ss l →
      stepResults l = ss.map (fun x => (x, true)) ∧ restores l = [] ∧ backups l = [] ∧
      (∀ c ∈ commandList l, (configCmd c || driverCmd c) = true) ∧
      (∀ p ∈ commands l, configCmd p.1 = true → p.2.ok = true) := by
  induction ss with
  | nil =>
    intro l hl
    simp only [Segs] at hl
    subst hl
    simp
  | cons s ss ih =>
    intro l hl
    obtain ⟨ls, rest, rfl, h1, h2⟩ := hl
    obtain ⟨i1, i2, i3, i4, i5⟩ := ih rest h2
    obtain ⟨j1, j2, j3, -, j5⟩ := sayOr_projections _ ls (stepLog_all vm path bytes s true ls h1)
    have j6 := stepLog_ok vm path bytes s ls h1
    refine ⟨by simp [j1, i1], by simp [j2, i2], by simp [j3, i3], ?_, ?_⟩
    · intro c hc
      simp only [commandList_append, commandList_cons_say, commandList_cons_step,
        commandList_nil, List.nil_append, List.append_nil, List.mem_append] at hc
      rcases hc with hc | hc
      · exact j5 c hc
      · exact i4 c hc
    · intro p hp
      simp only [commands_append, commands_cons_say, commands_cons_step,
        commands_nil, List.nil_append, List.append_nil, List.mem_append] at hp
      rcases hp with hp | hp
      · exact j6 p hp
      · exact i5 p hp

theorem StopVM_facts {σ : Type} (h : Host σ) (vm err : Str) (s : σ) :
    stepResults (StopVM h vm err s).ev = [] ∧ restores (StopVM h vm err s).ev = [] ∧
      backups (StopVM h vm err s).ev = [] ∧
      (commandList (StopVM h vm err s).ev = [] ∨
        commandList (StopVM h vm err s).ev = [Cmd.stopVM vm]) := by
  rcases StopVM_ev h vm err s with ⟨w, hw⟩ | ⟨r, hr⟩
  · rw [hw]; simp
  · rw [hr]; simp

theorem preludeLog_facts {σ : Type} (h : Host σ) (vm err : Str) (s : σ) (r0 r1 r2 r3 : Reply)
    (b : GPUPVBackup) :
    stepResults (preludeLog (StopVM h vm err s).ev vm r0 r1 r2 r3 b) = [] ∧
      restores (preludeLog (StopVM h vm err s).ev vm r0 r1 r2 r3 b) = [] ∧
      backups (preludeLog (StopVM h vm err s).ev vm r0 r1 r2 r3 b) = [b] ∧
      (∀ c ∈ commandList (preludeLog (StopVM h vm err s).ev vm r0 r1 r2 r3 b),
        c = Cmd.stopVM vm ∨ c = Cmd.secureBootOff vm ∨ c = Cmd.getAdapter vm ∨
          c = Cmd.getCacheTypes vm ∨ c = Cmd.removeAdapter vm) := by
  obtain ⟨f1, f2, f3, f4⟩ := StopVM_facts h vm err s
  refine ⟨by simp [preludeLog, f1], by simp [preludeLog, f2], by simp [preludeLog, f3], ?_⟩
  intro c hc
  simp only [preludeLog, commandList_append, commandList_cons_say, commandList_cons_ps,
    commandList_cons_backup, commandList_nil, List.nil_append, List.mem_append, List.mem_cons,
    List.not_mem_nil, or_false] at hc
  rcases hc with hc | hc
  · rcases f4 with f4 | f4
    · rw [f4] at hc; simp at hc
    · rw [f4] at hc
      simp at hc
      exact Or.inl hc
  · exact Or.inr hc

/-- The two branches `ConfigureGPUPV` chooses between once the backup is taken. -/
theorem ConfigureGPUPV_stopped {σ : Type} (h : Host σ) (vm gpu path drv : Str) (vramMB : Int)
    (s0 : σ) (hstop : (StopVM h vm [] s0).val.1 = true) :
    ∃ r0 r1 r2 r3 b s1,
      (ConfigureGPUPV h vm gpu path drv vramMB s0).ev =
        preludeLog (StopVM h vm [] s0).ev vm r0 r1 r2 r3 b ++
        (if vramMB < 64 then disableBranch h vm b s1
          else enableBranch h vm gpu path vramMB b s1).ev ∧
      (ConfigureGPUPV h vm gpu path drv vramMB s0).val =
        (if vramMB < 64 then disableBranch h vm b s1
          else enableBranch h vm gpu path vramMB b s1).val ∧
      (ConfigureGPUPV h vm gpu path drv vramMB s0).st =
        (if vramMB < 64 then disableBranch h vm b s1
          else enableBranch h vm gpu path vramMB b s1).st := by
  refine ⟨(h.exec (Cmd.secureBootOff vm) (StopVM h vm [] s0).st).1,
    (h.exec (Cmd.getAdapter vm) (h.exec (Cmd.secureBootOff vm) (StopVM h vm [] s0).st).2).1,
    (h.exec (Cmd.getCacheTypes vm)
      (h.exec (Cmd.getAdapter vm) (h.exec (Cmd.secureBootOff vm) (StopVM h vm [] s0).st).2).2).1,
    (h.exec (Cmd.removeAdapter vm)
      (BackupState h vm (h.exec (Cmd.secureBootOff vm) (StopVM h vm [] s0).st).2).st).1,
    (BackupState h vm (h.exec (Cmd.secureBootOff vm) (StopVM h vm [] s0).st).2).val,
    (h.exec (Cmd.removeAdapter vm)
      (BackupState h vm (h.exec (Cmd.secureBootOff vm) (StopVM h vm [] s0).st).2).st).2, ?_, ?_, ?_⟩
  · simp only [ConfigureGPUPV, run_bind, run_say, run_ite, run_Execute, hstop, BackupState_ev,
      preludeLog]
    simp
  · simp only [ConfigureGPUPV, run_bind, run_say, run_ite, run_Execute, hstop]
    simp
  · simp only [ConfigureGPUPV, run_bind, run_say, run_ite, run_Execute, hstop]
    simp

theorem ConfigureGPUPV_not_stopped {σ : Type} (h : Host σ) (vm gpu path drv : Str)
    (vramMB : Int) (s0 : σ) (hstop : (StopVM h vm [] s0).val.1 = false) :
    (ConfigureGPUPV h vm gpu path drv vramMB s0).ev =
        [Event.say (lit "正在停止虚拟机...\n")] ++ (StopVM h vm [] s0).ev ++
          [Event.say (lit "错误: " ++ (StopVM h vm [] s0).val.2 ++ lit "\n")] ∧
      (ConfigureGPUPV h vm gpu path drv vramMB s0).val = some false := by
  simp only [ConfigureGPUPV, run_bind, run_say, run_ite, run_Execute, hstop]
  simp

/-! ## The claims -/

theorem mem_commandList_of_mem_commands (l : List Event) (c : Cmd) (r : Reply)
    (hm : (c, r) ∈ commands l) : c ∈ commandList l := by
  simp only [commandList]
  exact List.mem_map_of_mem Prod.fst hm

theorem vmCheckCmd_not_config (c : Cmd) (hc : vmCheckCmd c = true) : configCmd c = false := by
  cases c <;> simp [vmCheckCmd] at hc <;> rfl

/-- The events of a rollback: it is entered once, and records no step and no backup. -/
theorem RestoreState_facts {σ : Type} (h : Host σ) (vm : Str) (b : GPUPVBackup) (s : σ) :
    restores (RestoreState h vm b s).ev = [b] ∧ stepResults (RestoreState h vm b s).ev = [] ∧
      backups (RestoreState h vm b s).ev = [] := by
  obtain ⟨rest, hr, hq⟩ := RestoreState_ev h vm b s
  obtain ⟨k1, k2, k3, -⟩ := sayOr_projections _ rest hq
  rw [hr]
  simp [k1, k2, k3]

/-- C1: in an enable request (`vramMB >= 64`), when one of the five steps reports
failure to `ConfigureGPUPV`, or one of their configuration commands (adding the adapter,
setting one of the four resource types, enabling the cache flag, setting either MMIO
size) fails before any rollback, then `ConfigureGPUPV` returns false; the steps before
the failing one all succeeded and no step after it was run (the recorded step results
stop at the failing step); what follows the failure is the two progress lines and one
run of `RestoreState`, entered exactly once, with the one backup that was captured. -/
theorem C1_failed_step_rolls_back {σ : Type} (h : Host σ) (vm gpu path drv : Str)
    (vramMB : Int) (s0 : σ) (hv : 64 ≤ vramMB)
    (hfail : (∃ st, (st, false) ∈ stepResults (ConfigureGPUPV h vm gpu path drv vramMB s0).ev) ∨
      (∃ c r, (c, r) ∈ commands (forward (ConfigureGPUPV h vm gpu path drv vramMB s0).ev) ∧
        configCmd c = true ∧ r.ok = false)) :
    (ConfigureGPUPV h vm gpu path drv vramMB s0).val = some false ∧
    ∃ b done st rest fwd err s1,
      stepOrder = done ++ st :: rest ∧
      stepResults (ConfigureGPUPV h vm gpu path drv vramMB s0).ev =
        done.map (fun x => (x, true)) ++ [(st, false)] ∧
      (ConfigureGPUPV h vm gpu path drv vramMB s0).ev =
        fwd ++ [Event.step st false, Event.say (lit "错误: " ++ err ++ lit "\n"),
          Event.say (lit "正在回滚配置...\n")] ++ (RestoreState h vm b s1).ev ∧
      (ConfigureGPUPV h vm gpu path drv vramMB s0).st = (RestoreState h vm b s1).st ∧
      backups fwd = [b] ∧ restores fwd = [] ∧
      restores (ConfigureGPUPV h vm gpu path drv vramMB s0).ev = [b] ∧
      backups (ConfigureGPUPV h vm gpu path drv vramMB s0).ev = [b] := by
  by_cases hstop : (StopVM h vm [] s0).val.1 = true
  · obtain ⟨r0, r1, r2, r3, b, s1, hev, hval, hst⟩ :=
      ConfigureGPUPV_stopped h vm gpu path drv vramMB s0 hstop
    have hlt : ¬ vramMB < 64 := by omega
    simp only [hlt, if_false] at hev hval hst
    obtain ⟨p1, p2, p3, p4⟩ := preludeLog_facts h vm [] s0 r0 r1 r2 r3 b
    rcases enableBranch_outcome h vm gpu path vramMB b s1 with
      ⟨-, l, lk, he, hl, hk, -⟩ | ⟨hv2, done, st, rest, l, lf, err, s2, hss, he, hst2, hl, hf⟩
    · exfalso
      obtain ⟨i1, i2, i3, i4, i5⟩ := segs_facts _ _ _ _ l hl
      obtain ⟨k1, k2, k3, -, k5⟩ := sayOr_projections _ lk hk
      rw [hev, he] at hfail
      rcases hfail with ⟨st, hmem⟩ | ⟨c, r, hmem, hc, hr⟩
      · simp [p1, i1, k1] at hmem
      · rw [forward_of_no_restore _ (by simp [p2, i2, k2])] at hmem
        simp only [commands_append, List.mem_append] at hmem
        rcases hmem with hm | hm | hm
        · rcases p4 c (mem_commandList_of_mem_commands _ _ _ hm) with rfl | rfl | rfl | rfl | rfl <;>
            simp [configCmd] at hc
        · have := i5 (c, r) hm hc
          simp [hr] at this
        · have := k5 c (mem_commandList_of_mem_commands _ _ _ hm)
          rw [vmCheckCmd_not_config c this] at hc
          simp at hc
    · obtain ⟨i1, i2, i3, -, -⟩ := segs_facts _ _ _ _ l hl
      obtain ⟨j1, j2, j3, -⟩ := sayOr_projections _ lf (stepLog_all _ _ _ _ _ _ hf)
      obtain ⟨g1, g2, g3⟩ := RestoreState_facts h vm b s2
      refine ⟨by rw [hval]; exact hv2, b, done, st, rest,
        preludeLog (StopVM h vm [] s0).ev vm r0 r1 r2 r3 b ++ (l ++ [Event.say (startMsg st)] ++ lf),
        err, s2, hss, ?_, ?_, ?_, ?_, ?_, ?_, ?_⟩
      · rw [hev, he]
        simp [p1, i1, j1, g2]
      · rw [hev, he]
        simp only [List.append_assoc, List.cons_append, List.nil_append]
      · rw [hst, hst2]
      · simp [p3, i3, j3]
      · simp [p2, i2, j2]
      · rw [hev, he]
        simp [p2, i2, j2, g1]
      · rw [hev, he]
        simp [p3, i3, j3, g3]
  · exfalso
    have hstop2 : (StopVM h vm [] s0).val.1 = false := by simpa using hstop
    obtain ⟨hev, -⟩ := ConfigureGPUPV_not_stopped h vm gpu path drv vramMB s0 hstop2
    obtain ⟨f1, f2, f3, f4⟩ := StopVM_facts h vm [] s0
    rw [hev] at hfail
    rcases hfail with ⟨st, hmem⟩ | ⟨c, r, hmem, hc, hr⟩
    · simp [f1] at hmem
    · rw [forward_of_no_restore _ (by simp [f2])] at hmem
      simp only [commands_append, commands_cons_say, commands_nil, List.nil_append,
        List.append_nil] at hmem
      have := mem_commandList_of_mem_commands _ _ _ hmem
      rcases f4 with f4 | f4
      · rw [f4] at this; simp at this
      · rw [f4] at this
        simp at this
        subst this
        simp [configCmd] at hc

/-- C1, at a concrete run: the resource type `Compute` fails after the three others
succeeded. -/
theorem C1_failed_step_rolls_back_witness :
    (64 : Int) ≤ 4096 ∧
    (Step.resources, false) ∈
      stepResults (ConfigureGPUPV computeFailsHost (lit "vm") (lit "gpu") (lit "path") [] 4096 ()).ev ∧
    (ConfigureGPUPV computeFailsHost (lit "vm") (lit "gpu") (lit "path") [] 4096 ()).val =
      some false :=
  ⟨by decide, by decide!,
    (C1_failed_step_rolls_back computeFailsHost (lit "vm") (lit "gpu") (lit "path") [] 4096 ()
      (by decide) (Or.inl ⟨Step.resources, by decide!⟩)).1⟩

theorem disableBranch_ok {σ : Type} (h : Host σ) (vm : Str) (b : GPUPVBackup) (s : σ)
    (hok : (h.exec (Cmd.setCacheTypes vm false) s).1.ok = true) :
    (disableBranch h vm b s).ev =
        [Event.say (lit "检测到显存设置小于 64MB，执行关闭 GPU-PV 操作...\n"),
         Event.say (lit "正在重置 GuestControlledCacheTypes...\n"),
         Event.ps (Cmd.setCacheTypes vm false) (h.exec (Cmd.setCacheTypes vm false) s).1,
         Event.say (lit "GPU-PV 已成功关闭！\n")] ∧
      (disableBranch h vm b s).val = some true ∧
      (disableBranch h vm b s).st = (h.exec (Cmd.setCacheTypes vm false) s).2 := by
  simp [disableBranch, hok]

theorem disableBranch_failed {σ : Type} (h : Host σ) (vm : Str) (b : GPUPVBackup) (s : σ)
    (hok : (h.exec (Cmd.setCacheTypes vm false) s).1.ok = false) :
    (disableBranch h vm b s).ev =
        [Event.say (lit "检测到显存设置小于 64MB，执行关闭 GPU-PV 操作...\n"),
         Event.say (lit "正在重置 GuestControlledCacheTypes...\n"),
         Event.ps (Cmd.setCacheTypes vm false) (h.exec (Cmd.setCacheTypes vm false) s).1,
         Event.say (lit "错误：重置CacheTypes失败，正在尝试回滚...\n")] ++
        (RestoreState h vm b (h.exec (Cmd.setCacheTypes vm false) s).2).ev ∧
      (disableBranch h vm b s).val = some false ∧
      (disableBranch h vm b s).st =
        (RestoreState h vm b (h.exec (Cmd.setCacheTypes vm false) s).2).st := by
  simp [disableBranch, hok]

/-- C2 (amended): whenever `ConfigureGPUPV` returns false after the VM has been stopped,
the run ends with one run of `RestoreState`, entered exactly once and with the one
backup captured before it. -/
theorem C2_failure_after_stop_rolls_back {σ : Type} (h : Host σ) (vm gpu path drv : Str)
    (vramMB : Int) (s0 : σ) (hstop : (StopVM h vm [] s0).val.1 = true)
    (hret : (ConfigureGPUPV h vm gpu path drv vramMB s0).val = some false) :
    ∃ b fwd s1,
      (ConfigureGPUPV h vm gpu path drv vramMB s0).ev = fwd ++ (RestoreState h vm b s1).ev ∧
      (ConfigureGPUPV h vm gpu path drv vramMB s0).st = (RestoreState h vm b s1).st ∧
      backups fwd = [b] ∧ restores fwd = [] ∧
      restores (ConfigureGPUPV h vm gpu path drv vramMB s0).ev = [b] ∧
      backups (ConfigureGPUPV h vm gpu path drv vramMB s0).ev = [b] := by
  obtain ⟨r0, r1, r2, r3, b, s1, hev, hval, hst⟩ :=
    ConfigureGPUPV_stopped h vm gpu path drv vramMB s0 hstop
  obtain ⟨p1, p2, p3, -⟩ := preludeLog_facts h vm [] s0 r0 r1 r2 r3 b
  by_cases hlt : vramMB < 64
  · simp only [hlt, if_true] at hev hval hst
    cases hok : (h.exec (Cmd.setCacheTypes vm false) s1).1.ok
    · obtain ⟨d1, d2, d3⟩ := disableBranch_failed h vm b s1 hok
      obtain ⟨g1, g2, g3⟩ := RestoreState_facts h vm b (h.exec (Cmd.setCacheTypes vm false) s1).2
      refine ⟨b, preludeLog (StopVM h vm [] s0).ev vm r0 r1 r2 r3 b ++
        [Event.say (lit "检测到显存设置小于 64MB，执行关闭 GPU-PV 操作...\n"),
         Event.say (lit "正在重置 GuestControlledCacheTypes...\n"),
         Event.ps (Cmd.setCacheTypes vm false) (h.exec (Cmd.setCacheTypes vm false) s1).1,
         Event.say (lit "错误：重置CacheTypes失败，正在尝试回滚...\n")],
        (h.exec (Cmd.setCacheTypes vm false) s1).2, ?_, ?_, ?_, ?_, ?_, ?_⟩
      · rw [hev, d1, ← List.append_assoc]
      · rw [hst, d3]
      · simp [p3]
      · simp [p2]
      · rw [hev, d1]; simp [p2, g1]
      · rw [hev, d1]; simp [p3, g3]
    · obtain ⟨d1, d2, d3⟩ := disableBranch_ok h vm b s1 hok
      rw [hval, d2] at hret
      simp at hret
  · simp only [hlt, if_false] at hev hval hst
    rcases enableBranch_outcome h vm gpu path vramMB b s1 with
      ⟨hv2, -⟩ | ⟨hv2, done, st, rest, l, lf, err, s2, hss, he, hst2, hl, hf⟩
    · rw [hval] at hret
      exact absurd hret hv2
    · obtain ⟨i1, i2, i3, -, -⟩ := segs_facts _ _ _ _ l hl
      obtain ⟨j1, j2, j3, -⟩ := sayOr_projections _ lf (stepLog_all _ _ _ _ _ _ hf)
      obtain ⟨g1, g2, g3⟩ := RestoreState_facts h vm b s2
      refine ⟨b, preludeLog (StopVM h vm [] s0).ev vm r0 r1 r2 r3 b ++
        (l ++ [Event.say (startMsg st)] ++ lf ++
          [Event.step st false, Event.say (lit "错误: " ++ err ++ lit "\n"),
            Event.say (lit "正在回滚配置...\n")]), s2, ?_, ?_, ?_, ?_, ?_, ?_⟩
      · rw [hev, he, ← List.append_assoc]
      · rw [hst, hst2]
      · simp [p3, i3, j3]
      · simp [p2, i2, j2]
      · rw [hev, he]; simp [p2, i2, j2, g1]
      · rw [hev, he]; simp [p3, i3, j3, g3]

/-- C2, at a concrete run: the resource type `Compute` fails. -/
theorem C2_failure_after_stop_rolls_back_witness :
    (StopVM computeFailsHost (lit "vm") [] ()).val.1 = true ∧
    (ConfigureGPUPV computeFailsHost (lit "vm") (lit "gpu") (lit "path") [] 4096 ()).val =
      some false ∧
    ∃ b fwd s1,
      (ConfigureGPUPV computeFailsHost (lit "vm") (lit "gpu") (lit "path") [] 4096 ()).ev =
        fwd ++ (RestoreState computeFailsHost (lit "vm") b s1).ev ∧
      (ConfigureGPUPV computeFailsHost (lit "vm") (lit "gpu") (lit "path") [] 4096 ()).st =
        (RestoreState computeFailsHost (lit "vm") b s1).st ∧
      backups fwd = [b] ∧ restores fwd = [] ∧
      restores (ConfigureGPUPV computeFailsHost (lit "vm") (lit "gpu") (lit "path") [] 4096 ()).ev =
        [b] ∧
      backups (ConfigureGPUPV computeFailsHost (lit "vm") (lit "gpu") (lit "path") [] 4096 ()).ev =
        [b] :=
  ⟨by decide!, by decide!,
    C2_failure_after_stop_rolls_back computeFailsHost (lit "vm") (lit "gpu") (lit "path") [] 4096 ()
      (by decide!) (by decide!)⟩

/-- C2 as stated fails: when the VM cannot be stopped, `ConfigureGPUPV` returns false
without having captured a backup and without running `RestoreState`. -/
theorem C2_counterexample :
    (ConfigureGPUPV stopFailsHost (lit "vm") (lit "gpu") (lit "path") [] 4096 ()).val = some false ∧
    restores (ConfigureGPUPV stopFailsHost (lit "vm") (lit "gpu") (lit "path") [] 4096 ()).ev = [] ∧
    backups (ConfigureGPUPV stopFailsHost (lit "vm") (lit "gpu") (lit "path") [] 4096 ()).ev = [] := by
  decide!

theorem beforeBackup_of_no_backup (l : List Event) (hl : backups l = []) :
    beforeBackup l = l := by
  induction l with
  | nil => rfl
  | cons e l ih =>
    cases e with
    | backup b => simp at hl
    | say m => simp at hl; simp [beforeBackup]; simpa [beforeBackup] using ih hl
    | ps c r => simp at hl; simp [beforeBackup]; simpa [beforeBackup] using ih hl
    | wmi v r => simp at hl; simp [beforeBackup]; simpa [beforeBackup] using ih hl
    | restore b => simp at hl; simp [beforeBackup]; simpa [beforeBackup] using ih hl
    | step s ok => simp at hl; simp [beforeBackup]; simpa [beforeBackup] using ih hl

theorem beforeBackup_append_backup (l t : List Event) (b : GPUPVBackup) (hl : backups l = []) :
    beforeBackup (l ++ Event.backup b :: t) = l := by
  induction l with
  | nil => simp [beforeBackup]
  | cons e l ih =>
    cases e with
    | backup b => simp at hl
    | say m => simp at hl; simp [beforeBackup]; simpa [beforeBackup] using ih hl
    | ps c r => simp at hl; simp [beforeBackup]; simpa [beforeBackup] using ih hl
    | wmi v r => simp at hl; simp [beforeBackup]; simpa [beforeBackup] using ih hl
    | restore b => simp at hl; simp [beforeBackup]; simpa [beforeBackup] using ih hl
    | step s ok => simp at hl; simp [beforeBackup]; simpa [beforeBackup] using ih hl

/-- C3 (amended): in every execution of `ConfigureGPUPV`, the only commands issued before
`BackupState` returns are the stop command, the command that switches secure boot off and
the two queries of `BackupState` itself; no command that removes or adds an adapter or
sets a property of the VM precedes the backup. -/
theorem C3_backup_precedes_adapter_changes {σ : Type} (h : Host σ) (vm gpu path drv : Str)
    (vramMB : Int) (s0 : σ) :
    ∀ c ∈ commandList (beforeBackup (ConfigureGPUPV h vm gpu path drv vramMB s0).ev),
      c = Cmd.stopVM vm ∨ c = Cmd.secureBootOff vm ∨ c = Cmd.getAdapter vm ∨
        c = Cmd.getCacheTypes vm := by
  intro c hc
  obtain ⟨f1, f2, f3, f4⟩ := StopVM_facts h vm [] s0
  by_cases hstop : (StopVM h vm [] s0).val.1 = true
  · obtain ⟨r0, r1, r2, r3, b, s1, hev, -, -⟩ :=
      ConfigureGPUPV_stopped h vm gpu path drv vramMB s0 hstop
    have hsplit : (ConfigureGPUPV h vm gpu path drv vramMB s0).ev =
        ([Event.say (lit "正在停止虚拟机...\n")] ++ (StopVM h vm [] s0).ev ++
          [Event.say (lit "虚拟机已停止\n"), Event.say (lit "正在关闭安全启动...\n"),
           Event.ps (Cmd.secureBootOff vm) r0, Event.say (lit "正在备份当前配置...\n"),
           Event.ps (Cmd.getAdapter vm) r1, Event.ps (Cmd.getCacheTypes vm) r2]) ++
        Event.backup b :: ([Event.say (lit "正在清理旧的GPU分区适配器...\n"),
          Event.ps (Cmd.removeAdapter vm) r3] ++
          (if vramMB < 64 then disableBranch h vm b s1
            else enableBranch h vm gpu path vramMB b s1).ev) := by
      rw [hev]
      simp [preludeLog]
    rw [hsplit, beforeBackup_append_backup _ _ _ (by simp [f3])] at hc
    simp only [commandList_append, commandList_cons_say, commandList_cons_ps,
      commandList_nil, List.nil_append, List.mem_append, List.mem_cons,
      List.not_mem_nil, or_false] at hc
    rcases hc with hc | hc
    · rcases f4 with f4 | f4
      · rw [f4] at hc; simp at hc
      · rw [f4] at hc
        simp at hc
        exact Or.inl hc
    · exact Or.inr hc
  · have hstop2 : (StopVM h vm [] s0).val.1 = false := by simpa using hstop
    obtain ⟨hev, -⟩ := ConfigureGPUPV_not_stopped h vm gpu path drv vramMB s0 hstop2
    rw [hev, beforeBackup_of_no_backup _ (by simp [f3])] at hc
    simp only [commandList_append, commandList_cons_say, commandList_nil, List.nil_append,
      List.append_nil] at hc
    rcases f4 with f4 | f4
    · rw [f4] at hc; simp at hc
    · rw [f4] at hc
      simp at hc
      exact Or.inl hc

/-- C3 as stated fails: the VM is stopped and secure boot is switched off, both changes of
state, before `BackupState` has returned. -/
theorem C3_counterexample :
    Event.wmi (lit "vm") (WmiResult.returned true []) ∈
      beforeBackup (ConfigureGPUPV fineHost (lit "vm") (lit "gpu") (lit "path") [] 4096 ()).ev ∧
    (Cmd.secureBootOff (lit "vm"), done []) ∈
      commands (beforeBackup
        (ConfigureGPUPV fineHost (lit "vm") (lit "gpu") (lit "path") [] 4096 ()).ev) ∧
    mutating (Cmd.secureBootOff (lit "vm")) = true ∧
    backups (ConfigureGPUPV fineHost (lit "vm") (lit "gpu") (lit "path") [] 4096 ()).ev ≠ [] := by
  decide!

/-- C4 fails on the code.  Restoring `sampleBackup` (an adapter whose `MinPartitionVRAM`
was 80000000) with every command taking effect, and capturing a backup again, gives a
VRAM value of 1: `RestoreState` passes the value to `ConfigureGPUResources`, which writes
it to the maximum and the optimum and sets the minimum, the value `BackupState` reads, to 1.
The same happens at the end of a whole run of `ConfigureGPUPV` that is rolled back. -/
theorem C4_restored_vram_differs :
    (∀ p ∈ commands (RestoreState sampleHyperV (lit "vm") sampleBackup emptyVM).ev,
      p.2.ok = true) ∧
    (BackupState sampleHyperV (lit "vm")
      (RestoreState sampleHyperV (lit "vm") sampleBackup emptyVM).st).val =
        { sampleBackup with ui64VramBytes := 1 } ∧
    backups (ConfigureGPUPV computeFailsOnce (lit "vm") (lit "gpu") (lit "other") [] 4096
      configuredVM).ev = [sampleBackup] ∧
    restores (ConfigureGPUPV computeFailsOnce (lit "vm") (lit "gpu") (lit "other") [] 4096
      configuredVM).ev = [sampleBackup] ∧
    (∀ p ∈ commands (rollback (ConfigureGPUPV computeFailsOnce (lit "vm") (lit "gpu")
      (lit "other") [] 4096 configuredVM).ev), p.2.ok = true) ∧
    (BackupState computeFailsOnce (lit "vm")
      (ConfigureGPUPV computeFailsOnce (lit "vm") (lit "gpu") (lit "other") [] 4096
        configuredVM).st).val = { sampleBackup with ui64VramBytes := 1 } := by
  decide!

theorem rollback_append_restore (l t : List Event) (b : GPUPVBackup) (hl : restores l = []) :
    rollback (l ++ Event.restore b :: t) = Event.restore b :: t := by
  induction l with
  | nil => simp [rollback]
  | cons e l ih =>
    cases e with
    | restore b => simp at hl
    | say m => simp at hl; simp [rollback]; simpa [rollback] using ih hl
    | ps c r => simp at hl; simp [rollback]; simpa [rollback] using ih hl
    | wmi v r => simp at hl; simp [rollback]; simpa [rollback] using ih hl
    | backup b => simp at hl; simp [rollback]; simpa [rollback] using ih hl
    | step s ok => simp at hl; simp [rollback]; simpa [rollback] using ih hl

theorem disableBranch_stepResults {σ : Type} (h : Host σ) (vm : Str) (b : GPUPVBackup) (s : σ) :
    stepResults (disableBranch h vm b s).ev = [] := by
  cases hok : (h.exec (Cmd.setCacheTypes vm false) s).1.ok
  · rw [(disableBranch_failed h vm b s hok).1]
    simp [(RestoreState_facts h vm b _).2.1]
  · rw [(disableBranch_ok h vm b s hok).1]
    simp

/-- The rollback of a backup without adapter: two commands. -/
theorem RestoreState_no_adapter {σ : Type} (h : Host σ) (vm : Str) (b : GPUPVBackup) (s : σ)
    (hno : b.bHasAdapter = false) :
    (RestoreState h vm b s).ev =
        [Event.restore b,
         Event.ps (Cmd.removeAdapter vm) (h.exec (Cmd.removeAdapter vm) s).1,
         Event.say (lit "正在回滚：恢复GuestControlledCacheTypes设置...\n"),
         Event.ps (Cmd.setCacheTypes vm b.bGuestControlledCacheTypes)
           (h.exec (Cmd.setCacheTypes vm b.bGuestControlledCacheTypes)
             (h.exec (Cmd.removeAdapter vm) s).2).1] ∧
      (RestoreState h vm b s).st =
        (h.exec (Cmd.setCacheTypes vm b.bGuestControlledCacheTypes)
          (h.exec (Cmd.removeAdapter vm) s).2).2 := by
  simp [RestoreState, hno]

/-- On the modelled host, a request that is answered with success took effect. -/
theorem hyperV_effect (fails : Nat → Cmd → Bool) (fresh : Partition) (aux : Cmd → Reply)
    (c : Cmd) (v : VM) (hok : ((hyperV fails fresh aux).exec c v).1.ok = true) :
    ((hyperV fails fresh aux).exec c v).2 =
      { (applyCmd fresh aux c v).2 with clock := v.clock + 1 } := by
  simp only [hyperV] at hok ⊢
  split
  · rename_i hf
    simp [hf] at hok
  · rfl

/-- C5: on the modelled host, for a run of `ConfigureGPUPV` whose captured backup `b`
records no adapter (whatever its cache-control flag), whose resource step fails and
whose rollback commands all take effect, the run returns false and leaves the VM without
partition adapter and with the cache-control flag of the backup. -/
theorem C5_rollback_without_prior_adapter (fails : Nat → Cmd → Bool) (fresh : Partition)
    (aux : Cmd → Reply) (vm gpu path drv : Str) (vramMB : Int) (v0 : VM) (b : GPUPVBackup)
    (hb : backups (ConfigureGPUPV (hyperV fails fresh aux) vm gpu path drv vramMB v0).ev = [b])
    (hno : b.bHasAdapter = false)
    (hres : (Step.resources, false) ∈
      stepResults (ConfigureGPUPV (hyperV fails fresh aux) vm gpu path drv vramMB v0).ev)
    (heff : ∀ p ∈ commands (rollback
      (ConfigureGPUPV (hyperV fails fresh aux) vm gpu path drv vramMB v0).ev), p.2.ok = true) :
    (ConfigureGPUPV (hyperV fails fresh aux) vm gpu path drv vramMB v0).val = some false ∧
    (ConfigureGPUPV (hyperV fails fresh aux) vm gpu path drv vramMB v0).st.adapters = [] ∧
    (ConfigureGPUPV (hyperV fails fresh aux) vm gpu path drv vramMB v0).st.cacheTypes =
      b.bGuestControlledCacheTypes := by
  by_cases hstop : (StopVM (hyperV fails fresh aux) vm [] v0).val.1 = true
  · obtain ⟨r0, r1, r2, r3, b2, s1, hev, hval, hst⟩ :=
      ConfigureGPUPV_stopped (hyperV fails fresh aux) vm gpu path drv vramMB v0 hstop
    obtain ⟨p1, p2, p3, -⟩ := preludeLog_facts (hyperV fails fresh aux) vm [] v0 r0 r1 r2 r3 b2
    by_cases hlt : vramMB < 64
    · simp only [hlt, if_true] at hev
      rw [hev] at hres
      simp [p1, disableBranch_stepResults] at hres
    · simp only [hlt, if_false] at hev hval hst
      rcases enableBranch_outcome (hyperV fails fresh aux) vm gpu path vramMB b2 s1 with
        ⟨-, l, lk, he, hl, hk, -⟩ | ⟨hv2, done, st, rest, l, lf, err, s2, hss, he, hst2, hl, hf⟩
      · exfalso
        obtain ⟨i1, -⟩ := segs_facts _ _ _ _ l hl
        obtain ⟨k1, -⟩ := sayOr_projections _ lk hk
        rw [hev, he] at hres
        simp [p1, i1, k1] at hres
      · obtain ⟨i1, i2, i3, -, -⟩ := segs_facts _ _ _ _ l hl
        obtain ⟨j1, j2, j3, -⟩ := sayOr_projections _ lf (stepLog_all _ _ _ _ _ _ hf)
        obtain ⟨g1, g2, g3⟩ := RestoreState_facts (hyperV fails fresh aux) vm b2 s2
        have hbb : b2 = b := by
          rw [hev, he] at hb
          simpa [p3, i3, j3, g3] using hb
        subst hbb
        obtain ⟨e1, e2⟩ := RestoreState_no_adapter (hyperV fails fresh aux) vm b2 s2 hno
        have hroll : rollback (ConfigureGPUPV (hyperV fails fresh aux) vm gpu path drv vramMB v0).ev
            = (RestoreState (hyperV fails fresh aux) vm b2 s2).ev := by
          rw [hev, he, e1]
          have := rollback_append_restore
            (preludeLog (StopVM (hyperV fails fresh aux) vm [] v0).ev vm r0 r1 r2 r3 b2 ++
              (l ++ [Event.say (startMsg st)] ++ lf ++
                [Event.step st false, Event.say (lit "错误: " ++ err ++ lit "\n"),
                  Event.say (lit "正在回滚配置...\n")]))
            [Event.ps (Cmd.removeAdapter vm) ((hyperV fails fresh aux).exec (Cmd.removeAdapter vm) s2).1,
              Event.say (lit "正在回滚：恢复GuestControlledCacheTypes设置...\n"),
              Event.ps (Cmd.setCacheTypes vm b2.bGuestControlledCacheTypes)
                ((hyperV fails fresh aux).exec (Cmd.setCacheTypes vm b2.bGuestControlledCacheTypes)
                  ((hyperV fails fresh aux).exec (Cmd.removeAdapter vm) s2).2).1] b2
            (by simp [p2, i2, j2])
          simpa [List.append_assoc] using this
        rw [hroll, e1] at heff
        have h1 := heff (Cmd.removeAdapter vm,
          ((hyperV fails fresh aux).exec (Cmd.removeAdapter vm) s2).1) (by simp)
        have h2 := heff (Cmd.setCacheTypes vm b2.bGuestControlledCacheTypes,
          ((hyperV fails fresh aux).exec (Cmd.setCacheTypes vm b2.bGuestControlledCacheTypes)
            ((hyperV fails fresh aux).exec (Cmd.removeAdapter vm) s2).2).1) (by simp)
        simp only at h1 h2
        have q1 := hyperV_effect fails fresh aux _ _ h1
        have q2 := hyperV_effect fails fresh aux _ _ h2
        refine ⟨by rw [hval]; exact hv2, ?_, ?_⟩
        · rw [hst, hst2, e2, q2, q1]
          simp [applyCmd]
        · rw [hst, hst2, e2, q2, q1]
          simp [applyCmd]
  · exfalso
    have hstop2 : (StopVM (hyperV fails fresh aux) vm [] v0).val.1 = false := by simpa using hstop
    obtain ⟨hev, -⟩ :=
      ConfigureGPUPV_not_stopped (hyperV fails fresh aux) vm gpu path drv vramMB v0 hstop2
    obtain ⟨f1, -⟩ := StopVM_facts (hyperV fails fresh aux) vm [] v0
    rw [hev] at hres
    simp [f1] at hres

/-- C5, at a concrete run: no adapter before, the resource type `Compute` fails. -/
theorem C5_rollback_without_prior_adapter_witness :
    backups (ConfigureGPUPV computeFailsOnce (lit "vm") (lit "gpu") (lit "path") [] 4096
      emptyVM).ev = [⟨false, [], 0, false⟩] ∧
    (Step.resources, false) ∈ stepResults
      (ConfigureGPUPV computeFailsOnce (lit "vm") (lit "gpu") (lit "path") [] 4096 emptyVM).ev ∧
    (∀ p ∈ commands (rollback
      (ConfigureGPUPV computeFailsOnce (lit "vm") (lit "gpu") (lit "path") [] 4096 emptyVM).ev),
      p.2.ok = true) ∧
    (ConfigureGPUPV computeFailsOnce (lit "vm") (lit "gpu") (lit "path") [] 4096 emptyVM).val =
      some false ∧
    (ConfigureGPUPV computeFailsOnce (lit "vm") (lit "gpu") (lit "path") [] 4096
      emptyVM).st.adapters = [] ∧
    (ConfigureGPUPV computeFailsOnce (lit "vm") (lit "gpu") (lit "path") [] 4096
      emptyVM).st.cacheTypes = false :=
  ⟨by decide!, by decide!, by decide!,
    C5_rollback_without_prior_adapter (fun n _ => n == 9) ⟨0, 1000000000, 1000000000⟩ allFine
      (lit "vm") (lit "gpu") (lit "path") [] 4096 emptyVM ⟨false, [], 0, false⟩
      (by decide!) rfl (by decide!) (by decide!)⟩

/-- C3, at a concrete run: the secure-boot command is among the commands that precede
the backup. -/
theorem C3_backup_precedes_adapter_changes_witness :
    Cmd.secureBootOff (lit "vm") ∈ commandList (beforeBackup
      (ConfigureGPUPV fineHost (lit "vm") (lit "gpu") (lit "path") [] 4096 ()).ev) ∧
    (Cmd.secureBootOff (lit "vm") = Cmd.stopVM (lit "vm") ∨
      Cmd.secureBootOff (lit "vm") = Cmd.secureBootOff (lit "vm") ∨
      Cmd.secureBootOff (lit "vm") = Cmd.getAdapter (lit "vm") ∨
      Cmd.secureBootOff (lit "vm") = Cmd.getCacheTypes (lit "vm")) :=
  ⟨by decide!,
    C3_backup_precedes_adapter_changes fineHost (lit "vm") (lit "gpu") (lit "path") [] 4096 ()
      (Cmd.secureBootOff (lit "vm")) (by decide!)⟩

/-! ### The driver sub-workflow -/

theorem dismountedLast_bind {σ α : Type} (h : Host σ) (vm : Str) (m : Exec σ α)
    (f : α → Exec σ (Bool × Str)) (s : σ)
    (hf : DismountedLast h vm (f (m s).val (m s).st)) :
    DismountedLast h vm ((m >>= f) s) := by
  obtain ⟨pre, s1, he, hv⟩ := hf
  exact ⟨(m s).ev ++ pre, s1, by simp [he], by simpa using hv⟩

theorem DismountVMDisk_run {σ : Type} (h : Host σ) (vm : Str) (s : σ) :
    (DismountVMDisk h vm s).ev =
        [Event.ps (Cmd.dismountDisk vm) (h.exec (Cmd.dismountDisk vm) s).1] ∧
      (DismountVMDisk h vm s).val.1 = (h.exec (Cmd.dismountDisk vm) s).1.ok := by
  simp only [DismountVMDisk, run_bind, run_ExecuteWithCheck, run_ite]
  cases hok : (h.exec (Cmd.dismountDisk vm) s).1.ok <;> simp

theorem dismountedLast_tail {σ : Type} (h : Host σ) (vm err : Str) (s : σ) :
    DismountedLast h vm
      (((say dismountMsg : Exec σ Unit) >>= fun _ => DismountVMDisk h vm >>= fun d =>
        if !d.1 then (pure (false, d.2) : Exec σ (Bool × Str)) else pure (true, err)) s) := by
  obtain ⟨d1, d2⟩ := DismountVMDisk_run h vm s
  refine ⟨[], s, ?_, ?_⟩
  · simp only [run_bind, run_say, run_ite, d1]
    split <;> simp
  · simp only [run_bind, run_say, run_ite]
    rw [← d2]
    cases hok : (DismountVMDisk h vm s).val.1 <;> simp

/-- Once the disk is mounted and the GPU named, `CopyDriverFiles` ends with the dismount
and returns its result, whatever the copies and the verification gave. -/
theorem copyAndVerify_end {σ : Type} (h : Host σ) (vm d g e : Str) (s : σ) :
    DismountedLast h vm (copyAndVerify h vm d g e s) := by
  unfold copyAndVerify
  iterate 12 apply dismountedLast_bind
  exact dismountedLast_tail h vm _ _

theorem CopyDriverFiles_not_mounted {σ : Type} (h : Host σ) (vm : Str) (s : σ)
    (hm : (MountVMDisk h vm s).val.1 = []) : (CopyDriverFiles h vm s).val.1 = false := by
  simp [CopyDriverFiles, hm]

theorem CopyDriverFiles_not_named {σ : Type} (h : Host σ) (vm : Str) (s : σ)
    (hm : (MountVMDisk h vm s).val.1 ≠ [])
    (hn : (resolveGpuName h vm (MountVMDisk h vm s).st).val = []) :
    (CopyDriverFiles h vm s).val.1 = false := by
  simp [CopyDriverFiles, hm, hn]

theorem CopyDriverFiles_named {σ : Type} (h : Host σ) (vm : Str) (s : σ)
    (hm : (MountVMDisk h vm s).val.1 ≠ [])
    (hn : (resolveGpuName h vm (MountVMDisk h vm s).st).val ≠ []) :
    DismountedLast h vm (CopyDriverFiles h vm s) := by
  obtain ⟨pre, s1, he, hv⟩ := copyAndVerify_end h vm (MountVMDisk h vm s).val.1
    (resolveGpuName h vm (MountVMDisk h vm s).st).val (MountVMDisk h vm s).val.2
    (resolveGpuName h vm (MountVMDisk h vm s).st).st
  refine ⟨[Event.say (lit "正在挂载虚拟机磁盘...\n")] ++ (MountVMDisk h vm s).ev ++
    [Event.say (lit "虚拟机磁盘已挂载到: " ++ (MountVMDisk h vm s).val.1 ++ lit "\n")] ++
    (resolveGpuName h vm (MountVMDisk h vm s).st).ev ++ pre, s1, ?_, ?_⟩
  · simp [CopyDriverFiles, hm, hn, he]
  · simp [CopyDriverFiles, hm, hn, hv]

/-- Success is never reported after a step reported failure. -/
theorem success_has_no_failed_step {σ : Type} (h : Host σ) (vm gpu path drv : Str)
    (vramMB : Int) (s0 : σ)
    (hret : (ConfigureGPUPV h vm gpu path drv vramMB s0).val = some true) :
    ∀ st, (st, false) ∉ stepResults (ConfigureGPUPV h vm gpu path drv vramMB s0).ev := by
  intro st hmem
  by_cases hstop : (StopVM h vm [] s0).val.1 = true
  · obtain ⟨r0, r1, r2, r3, b, s1, hev, hval, hst⟩ :=
      ConfigureGPUPV_stopped h vm gpu path drv vramMB s0 hstop
    obtain ⟨p1, p2, p3, -⟩ := preludeLog_facts h vm [] s0 r0 r1 r2 r3 b
    by_cases hlt : vramMB < 64
    · simp only [hlt, if_true] at hev
      rw [hev] at hmem
      simp [p1, disableBranch_stepResults] at hmem
    · simp only [hlt, if_false] at hev hval
      rcases enableBranch_outcome h vm gpu path vramMB b s1 with
        ⟨-, l, lk, he, hl, hk, -⟩ | ⟨hv2, -⟩
      · obtain ⟨i1, -⟩ := segs_facts _ _ _ _ l hl
        obtain ⟨k1, -⟩ := sayOr_projections _ lk hk
        rw [hev, he] at hmem
        simp [p1, i1, k1] at hmem
      · rw [hval, hv2] at hret
        simp at hret
  · have hstop2 : (StopVM h vm [] s0).val.1 = false := by simpa using hstop
    obtain ⟨-, hval⟩ := ConfigureGPUPV_not_stopped h vm gpu path drv vramMB s0 hstop2
    rw [hval] at hret
    simp at hret

/-- C6 (amended): `ConfigureGPUPV` never returns true for an attempt in which one of its
steps reported failure.  The driver step `CopyDriverFiles` reports failure when the disk
is not mounted and when no GPU name is found; otherwise it ends with the announced
dismount of the disk and returns what that dismount replied, whatever the copy of the
service driver, the copy of the PnP driver files and the verification gave. -/
theorem C6_what_fails_the_driver_step {σ : Type} (h : Host σ) (vm gpu path drv : Str)
    (vramMB : Int) (s0 s : σ) :
    ((ConfigureGPUPV h vm gpu path drv vramMB s0).val = some true →
      ∀ st, (st, false) ∉ stepResults (ConfigureGPUPV h vm gpu path drv vramMB s0).ev) ∧
    ((MountVMDisk h vm s).val.1 = [] → (CopyDriverFiles h vm s).val.1 = false) ∧
    ((MountVMDisk h vm s).val.1 ≠ [] →
      (resolveGpuName h vm (MountVMDisk h vm s).st).val = [] →
      (CopyDriverFiles h vm s).val.1 = false) ∧
    ((MountVMDisk h vm s).val.1 ≠ [] →
      (resolveGpuName h vm (MountVMDisk h vm s).st).val ≠ [] →
      DismountedLast h vm (CopyDriverFiles h vm s)) :=
  ⟨success_has_no_failed_step h vm gpu path drv vramMB s0,
    CopyDriverFiles_not_mounted h vm s, CopyDriverFiles_not_named h vm s,
    CopyDriverFiles_named h vm s⟩

/-- C6 as stated fails: the copy of the service driver fails, the copy of the PnP driver
files fails, the verification says FAIL, all three are reported on the progress sink,
and `ConfigureGPUPV` returns true. -/
theorem C6_counterexample :
    (ConfigureGPUPV copiesFailHost (lit "vm") (lit "gpu") (lit "path") [] 4096 ()).val =
      some true ∧
    (Cmd.copyServiceDriver (lit "NVIDIA GeForce RTX 4050") (lit "Z:"),
        failed (lit "GPU not found")) ∈
      commands (ConfigureGPUPV copiesFailHost (lit "vm") (lit "gpu") (lit "path") [] 4096 ()).ev ∧
    (CopyGPUServiceDriver copiesFailHost (lit "NVIDIA GeForce RTX 4050") (lit "Z:") ()).val.1 =
      false ∧
    (CopyPnPDriverFiles copiesFailHost (lit "NVIDIA GeForce RTX 4050") (lit "Z:") ()).val.1 =
      false ∧
    Event.say (lit "警告：GPU服务驱动拷贝失败 - GPU not found\n") ∈
      (ConfigureGPUPV copiesFailHost (lit "vm") (lit "gpu") (lit "path") [] 4096 ()).ev ∧
    Event.say (lit "警告：PnP驱动文件拷贝不完整 - ERROR: No drivers found\n") ∈
      (ConfigureGPUPV copiesFailHost (lit "vm") (lit "gpu") (lit "path") [] 4096 ()).ev ∧
    Event.say (lit "错误：验证失败，关键驱动文件缺失\n") ∈
      (ConfigureGPUPV copiesFailHost (lit "vm") (lit "gpu") (lit "path") [] 4096 ()).ev := by
  decide!

/-! ### The commands of the enable path -/

theorem commandList_zipWith_ps (cs : List Cmd) :
    ∀ rs : List Reply, commandList (List.zipWith Event.ps cs rs) = cs.take rs.length := by
  induction cs with
  | nil => intro rs; simp
  | cons c cs ih =>
    intro rs
    cases rs with
    | nil => simp
    | cons r rs => simp [ih]

theorem filter_setPartition_planned (vm : Str) (bytes k : Nat) :
    ((plannedResources vm bytes).take k).filter isSetPartition =
      (plannedResources vm bytes).take k := by
  rw [List.filter_eq_self]
  intro c hc
  obtain ⟨t, -, rfl⟩ := List.mem_map.mp (List.mem_of_mem_take hc)
  rfl

theorem filter_setPartition_of_all (p : Cmd → Bool) (hp : ∀ c, p c = true → isSetPartition c = false)
    (l : List Cmd) (hl : ∀ c ∈ l, p c = true) : l.filter isSetPartition = [] := by
  rw [List.filter_eq_nil_iff]
  intro c hc
  simp [hp c (hl c hc)]

/-- The commands of a step that set a resource type: those of the resource step only. -/
theorem stepLog_setPartition (vm path : Str) (bytes : Nat) (s : Step) (ok : Bool)
    (l : List Event) (hl : StepLog vm path bytes s ok l) :
    (s ≠ Step.resources → (commandList l).filter isSetPartition = []) ∧
    (s = Step.resources → ∃ k, (commandList l).filter isSetPartition =
        (plannedResources vm bytes).take k ∧
      (ok = true → (commandList l).filter isSetPartition = plannedResources vm bytes)) := by
  cases s with
  | addAdapter => obtain ⟨r, rfl, -⟩ := hl; simp [isSetPartition]
  | resources =>
    obtain ⟨rs, rfl, h1, h2, -⟩ := hl
    refine ⟨by simp, fun _ => ⟨rs.length, ?_, ?_⟩⟩
    · rw [commandList_zipWith_ps, filter_setPartition_planned]
    · intro hok
      rw [commandList_zipWith_ps, filter_setPartition_planned, (h2 hok).1]
      rfl
  | cacheTypes => obtain ⟨r, rfl, -⟩ := hl; simp [isSetPartition]
  | mmio =>
    rcases hl with ⟨r1, rfl, -⟩ | ⟨r1, r2, rfl, -⟩
    · simp [isSetPartition]
    · simp [isSetPartition]
  | drivers =>
    obtain ⟨hq, -⟩ := hl
    refine ⟨fun _ => ?_, by simp⟩
    apply filter_setPartition_of_all driverCmd
    · intro c hc
      cases c <;> simp [driverCmd] at hc <;> rfl
    · exact (sayOr_projections driverCmd l hq).2.2.2.2

theorem segs_setPartition (vm path : Str) (bytes : Nat) (ss : List Step) :
    ∀ l, Segs vm path bytes ss l →
      (commandList l).filter isSetPartition =
        (ss.map (fun s => if s = Step.resources then plannedResources vm bytes else [])).flatten := by
  induction ss with
  | nil =>
    intro l hl
    simp only [Segs] at hl
    subst hl
    simp
  | cons s ss ih =>
    intro l hl
    obtain ⟨ls, rest, rfl, h1, h2⟩ := hl
    have i1 := ih rest h2
    obtain ⟨j1, j2⟩ := stepLog_setPartition vm path bytes s true ls h1
    simp only [commandList_append, commandList_cons_say, commandList_cons_step,
      commandList_nil, List.nil_append, List.append_nil, List.filter_append, i1,
      List.map_cons, List.flatten_cons]
    by_cases hs : s = Step.resources
    · obtain ⟨k, -, j3⟩ := j2 hs
      simp [hs, j3 rfl]
    · simp [hs, j1 hs]

theorem segs_head_add (vm path : Str) (bytes : Nat) (ss : List Step) (l : List Event)
    (hl : Segs vm path bytes (Step.addAdapter :: ss) l) :
    ∃ r, (Cmd.addAdapter vm path, r) ∈ commands l := by
  obtain ⟨ls, rest, rfl, ⟨r, rfl, -⟩, -⟩ := hl
  exact ⟨r, by simp⟩

/-- The part of a run of the enable path that precedes any rollback: its commands are
those of the five steps and of the final check, the command that adds the adapter is
among them, and those that set a resource type are the planned ones, up to some point. -/
theorem enableBranch_forward {σ : Type} (h : Host σ) (vm gpu path : Str) (vramMB : Int)
    (b : GPUPVBackup) (s : σ) (pre : List Event) (hpre : restores pre = []) :
    ∃ fwd, forward (pre ++ (enableBranch h vm gpu path vramMB b s).ev) = pre ++ fwd ∧
      (∀ c ∈ commandList fwd, (configCmd c || driverCmd c || vmCheckCmd c) = true) ∧
      (∃ r, (Cmd.addAdapter vm path, r) ∈ commands fwd) ∧
      (∃ k, (commandList fwd).filter isSetPartition =
        (plannedResources vm (vramBytesOf vramMB)).take k) := by
  rcases enableBranch_outcome h vm gpu path vramMB b s with
    ⟨-, l, lk, he, hl, hk, -⟩ | ⟨hv2, done, st, rest, l, lf, err, s2, hss, he, hst2, hl, hf⟩
  · obtain ⟨i1, i2, i3, i4, -⟩ := segs_facts _ _ _ _ l hl
    obtain ⟨k1, k2, k3, -, k5⟩ := sayOr_projections _ lk hk
    refine ⟨l ++ lk, ?_, ?_, ?_, ?_⟩
    · rw [he, forward_of_no_restore _ (by simp [hpre, i2, k2])]
    · intro c hc
      simp only [commandList_append, List.mem_append] at hc
      rcases hc with hc | hc
      · simp [i4 c hc]
      · simp [k5 c hc]
    · obtain ⟨r, hr⟩ := segs_head_add vm path _ _ l hl
      exact ⟨r, by simp [hr]⟩
    · refine ⟨4, ?_⟩
      rw [commandList_append, List.filter_append, segs_setPartition _ _ _ _ l hl,
        filter_setPartition_of_all vmCheckCmd _ _ k5]
      · simp [stepOrder, plannedResources, resourceTypes]
      · intro c hc
        cases c <;> simp [vmCheckCmd] at hc <;> rfl
  · obtain ⟨i1, i2, i3, i4, -⟩ := segs_facts _ _ _ _ l hl
    obtain ⟨j1, j2, j3, -, j5⟩ := sayOr_projections _ lf (stepLog_all _ _ _ _ _ _ hf)
    obtain ⟨rrest, hr, -⟩ := RestoreState_ev h vm b s2
    refine ⟨l ++ [Event.say (startMsg st)] ++ lf ++
      [Event.step st false, Event.say (lit "错误: " ++ err ++ lit "\n"),
        Event.say (lit "正在回滚配置...\n")], ?_, ?_, ?_, ?_⟩
    · rw [he, hr]
      have := forward_append_restore (pre ++ (l ++ [Event.say (startMsg st)] ++ lf ++
        [Event.step st false, Event.say (lit "错误: " ++ err ++ lit "\n"),
          Event.say (lit "正在回滚配置...\n")])) rrest b (by simp [hpre, i2, j2])
      simpa [List.append_assoc] using this
    · intro c hc
      simp only [commandList_append, commandList_cons_say, commandList_cons_step,
        commandList_nil, List.append_nil, List.mem_append] at hc
      rcases hc with hc | hc
      · simp [i4 c hc]
      · have := j5 c hc
        simp only [Bool.or_eq_true] at this ⊢
        exact Or.inl this
    · rcases done with _ | ⟨d, done⟩
      · simp only [stepOrder, List.nil_append, List.cons.injEq] at hss
        obtain ⟨rfl, -⟩ := hss
        obtain ⟨r, rfl, -⟩ := hf
        exact ⟨r, by simp⟩
      · simp only [stepOrder, List.cons_append, List.cons.injEq] at hss
        obtain ⟨rfl, -⟩ := hss
        obtain ⟨r, hr⟩ := segs_head_add vm path _ _ l hl
        exact ⟨r, by simp [hr]⟩
    · obtain ⟨q1, q2⟩ := stepLog_setPartition _ _ _ _ _ _ hf
      have hseg := segs_setPartition _ _ _ _ l hl
      simp only [commandList_append, commandList_cons_say, commandList_cons_step,
        commandList_nil, List.append_nil, List.filter_append, hseg]
      rcases done with _ | ⟨d1, _ | ⟨d2, _ | ⟨d3, _ | ⟨d4, _ | ⟨d5, done⟩⟩⟩⟩⟩ <;>
        simp [stepOrder] at hss
      · obtain ⟨rfl, -⟩ := hss
        exact ⟨0, by simp [q1]⟩
      · obtain ⟨rfl, rfl, -⟩ := hss
        obtain ⟨k, hk, -⟩ := q2 rfl
        exact ⟨k, by simp [hk]⟩
      · obtain ⟨rfl, rfl, rfl, -⟩ := hss
        exact ⟨4, by simp [q1, plannedResources, resourceTypes]⟩
      · obtain ⟨rfl, rfl, rfl, rfl, -⟩ := hss
        exact ⟨4, by simp [q1, plannedResources, resourceTypes]⟩
      · obtain ⟨rfl, rfl, rfl, rfl, rfl, -⟩ := hss
        exact ⟨4, by simp [q1, plannedResources, resourceTypes]⟩

/-- The part of a run of the disable branch that precedes any rollback. -/
theorem disableBranch_forward {σ : Type} (h : Host σ) (vm : Str) (b : GPUPVBackup) (s : σ)
    (pre : List Event) (hpre : restores pre = []) :
    ∃ r msg, forward (pre ++ (disableBranch h vm b s).ev) = pre ++
      [Event.say (lit "检测到显存设置小于 64MB，执行关闭 GPU-PV 操作...\n"),
       Event.say (lit "正在重置 GuestControlledCacheTypes...\n"),
       Event.ps (Cmd.setCacheTypes vm false) r, Event.say msg] := by
  cases hok : (h.exec (Cmd.setCacheTypes vm false) s).1.ok
  · obtain ⟨rrest, hr, -⟩ := RestoreState_ev h vm b (h.exec (Cmd.setCacheTypes vm false) s).2
    refine ⟨(h.exec (Cmd.setCacheTypes vm false) s).1,
      lit "错误：重置CacheTypes失败，正在尝试回滚...\n", ?_⟩
    rw [(disableBranch_failed h vm b s hok).1, hr]
    have := forward_append_restore (pre ++
      [Event.say (lit "检测到显存设置小于 64MB，执行关闭 GPU-PV 操作...\n"),
       Event.say (lit "正在重置 GuestControlledCacheTypes...\n"),
       Event.ps (Cmd.setCacheTypes vm false) (h.exec (Cmd.setCacheTypes vm false) s).1,
       Event.say (lit "错误：重置CacheTypes失败，正在尝试回滚...\n")]) rrest b (by simp [hpre])
    simpa [List.append_assoc] using this
  · refine ⟨(h.exec (Cmd.setCacheTypes vm false) s).1, lit "GPU-PV 已成功关闭！\n", ?_⟩
    rw [(disableBranch_ok h vm b s hok).1, forward_of_no_restore _ (by simp [hpre])]

/-- C7: once the VM has been stopped, `ConfigureGPUPV` issues the command that adds the
partition adapter (before any rollback) exactly when `vramMB >= 64`, and the command that
resets the cache-control flag to false exactly when `vramMB < 64`. -/
theorem C7_threshold {σ : Type} (h : Host σ) (vm gpu path drv : Str) (vramMB : Int) (s0 : σ)
    (hstop : (StopVM h vm [] s0).val.1 = true) :
    ((∃ r, (Cmd.addAdapter vm path, r) ∈
        commands (forward (ConfigureGPUPV h vm gpu path drv vramMB s0).ev)) ↔ 64 ≤ vramMB) ∧
    ((∃ r, (Cmd.setCacheTypes vm false, r) ∈
        commands (forward (ConfigureGPUPV h vm gpu path drv vramMB s0).ev)) ↔ vramMB < 64) := by
  obtain ⟨r0, r1, r2, r3, b, s1, hev, -, -⟩ :=
    ConfigureGPUPV_stopped h vm gpu path drv vramMB s0 hstop
  obtain ⟨p1, p2, p3, p4⟩ := preludeLog_facts h vm [] s0 r0 r1 r2 r3 b
  by_cases hlt : vramMB < 64
  · simp only [hlt, if_true] at hev
    obtain ⟨r, msg, hf⟩ := disableBranch_forward h vm b s1 _ p2
    rw [hev, hf]
    constructor
    · constructor
      · rintro ⟨r', hm⟩
        exfalso
        simp only [commands_append, commands_cons_say, commands_cons_ps, commands_nil,
          List.mem_append, List.mem_cons, List.not_mem_nil, or_false, Prod.mk.injEq] at hm
        rcases hm with hm | hm
        · rcases p4 _ (mem_commandList_of_mem_commands _ _ _ hm) with hc | hc | hc | hc | hc <;>
            simp at hc
        · simp at hm
      · intro hge
        omega
    · constructor
      · intro _
        exact hlt
      · intro _
        exact ⟨r, by simp⟩
  · simp only [hlt, if_false] at hev
    obtain ⟨fwd, hf, hc, ⟨r, hr⟩, -⟩ := enableBranch_forward h vm gpu path vramMB b s1 _ p2
    rw [hev, hf]
    constructor
    · constructor
      · intro _
        omega
      · intro _
        exact ⟨r, by simp [hr]⟩
    · constructor
      · rintro ⟨r', hm⟩
        exfalso
        simp only [commands_append, List.mem_append] at hm
        rcases hm with hm | hm
        · rcases p4 _ (mem_commandList_of_mem_commands _ _ _ hm) with hc | hc | hc | hc | hc <;>
            simp at hc
        · have := hc _ (mem_commandList_of_mem_commands _ _ _ hm)
          simp [configCmd, driverCmd, vmCheckCmd] at this
      · intro hlt2
        exact absurd hlt2 hlt

/-- C7, at the boundary: a request for 64 MiB issues the command that adds the adapter
and not the reset of the cache-control flag; a request for 63 MiB does the opposite. -/
theorem C7_threshold_witness :
    (StopVM fineHost (lit "vm") [] ()).val.1 = true ∧
    (((∃ r, (Cmd.addAdapter (lit "vm") (lit "path"), r) ∈ commands (forward
        (ConfigureGPUPV fineHost (lit "vm") (lit "gpu") (lit "path") [] 64 ()).ev)) ↔
        (64 : Int) ≤ 64) ∧
      ((∃ r, (Cmd.setCacheTypes (lit "vm") false, r) ∈ commands (forward
        (ConfigureGPUPV fineHost (lit "vm") (lit "gpu") (lit "path") [] 64 ()).ev)) ↔
        (64 : Int) < 64)) ∧
    (((∃ r, (Cmd.addAdapter (lit "vm") (lit "path"), r) ∈ commands (forward
        (ConfigureGPUPV fineHost (lit "vm") (lit "gpu") (lit "path") [] 63 ()).ev)) ↔
        (64 : Int) ≤ 63) ∧
      ((∃ r, (Cmd.setCacheTypes (lit "vm") false, r) ∈ commands (forward
        (ConfigureGPUPV fineHost (lit "vm") (lit "gpu") (lit "path") [] 63 ()).ev)) ↔
        (63 : Int) < 64)) :=
  ⟨by decide!,
    C7_threshold fineHost (lit "vm") (lit "gpu") (lit "path") [] 64 () (by decide!),
    C7_threshold fineHost (lit "vm") (lit "gpu") (lit "path") [] 63 () (by decide!)⟩

theorem vramBytesOf_eq (vramMB : Int) (hv : 64 ≤ vramMB) (hint : vramMB < 2 ^ 31) :
    vramBytesOf vramMB = vramMB.toNat * 1048576 ∧ vramMB.toNat * 1048576 < 2 ^ 64 := by
  obtain ⟨n, rfl⟩ := Int.eq_ofNat_of_zero_le (by omega : (0 : Int) ≤ vramMB)
  have hn : n < 2 ^ 31 := by exact_mod_cast hint
  have h1 : ((n : Int) % 2 ^ 64).toNat = n := by
    rw [Int.emod_eq_of_lt (by omega) (by omega)]
    simp
  simp only [vramBytesOf, h1, Int.toNat_ofNat]
  constructor
  · rw [Nat.mod_eq_of_lt (by omega)]
    omega
  · omega

/-- C9: `ConfigureGPUResources` issues the commands for `VRAM`, `Encode`, `Decode` and
`Compute` in this order, each with minimum 1 and maximum and optimum equal to the byte
count, up to and including the first that fails (`rs` are the replies); it returns true
when all four were issued and succeeded, and false when the last one issued failed.  For
an enable request with an `int` value `vramMB >= 64`, the byte count is
`vramMB * 1048576`, below 2^64, and the commands that set a resource type before any
rollback are the first `k` of those four, with that byte count. -/
theorem C9_resource_commands {σ : Type} (h : Host σ) (vm gpu path drv err : Str)
    (vramMB : Int) (bytes : Nat) (s0 s : σ) (hv : 64 ≤ vramMB) (hint : vramMB < 2 ^ 31) :
    plannedResources vm bytes =
      [Cmd.setPartition vm (lit "VRAM") 1 bytes bytes,
       Cmd.setPartition vm (lit "Encode") 1 bytes bytes,
       Cmd.setPartition vm (lit "Decode") 1 bytes bytes,
       Cmd.setPartition vm (lit "Compute") 1 bytes bytes] ∧
    (∃ rs : List Reply,
      (ConfigureGPUResources h vm bytes err s).ev =
        List.zipWith Event.ps (plannedResources vm bytes) rs ∧
      rs.length ≤ 4 ∧
      ((ConfigureGPUResources h vm bytes err s).val.1 = true →
        rs.length = 4 ∧ ∀ r ∈ rs, r.ok = true) ∧
      ((ConfigureGPUResources h vm bytes err s).val.1 = false →
        ∃ init r, rs = init ++ [r] ∧ r.ok = false ∧ ∀ x ∈ init, x.ok = true)) ∧
    vramBytesOf vramMB = vramMB.toNat * 1048576 ∧
    vramMB.toNat * 1048576 < 2 ^ 64 ∧
    (∃ k, (commandList (forward (ConfigureGPUPV h vm gpu path drv vramMB s0).ev)).filter
        isSetPartition = (plannedResources vm (vramMB.toNat * 1048576)).take k) := by
  obtain ⟨e1, e2⟩ := vramBytesOf_eq vramMB hv hint
  refine ⟨rfl, stepLog_resources h vm path bytes err s, e1, e2, ?_⟩
  rw [← e1]
  by_cases hstop : (StopVM h vm [] s0).val.1 = true
  · obtain ⟨r0, r1, r2, r3, b, s1, hev, -, -⟩ :=
      ConfigureGPUPV_stopped h vm gpu path drv vramMB s0 hstop
    obtain ⟨p1, p2, p3, p4⟩ := preludeLog_facts h vm [] s0 r0 r1 r2 r3 b
    have hlt : ¬ vramMB < 64 := by omega
    simp only [hlt, if_false] at hev
    obtain ⟨fwd, hf, -, -, ⟨k, hk⟩⟩ := enableBranch_forward h vm gpu path vramMB b s1 _ p2
    refine ⟨k, ?_⟩
    rw [hev, hf, commandList_append, List.filter_append, hk]
    have : (commandList (preludeLog (StopVM h vm [] s0).ev vm r0 r1 r2 r3 b)).filter
        isSetPartition = [] := by
      rw [List.filter_eq_nil_iff]
      intro c hc
      rcases p4 c hc with rfl | rfl | rfl | rfl | rfl <;> simp [isSetPartition]
    rw [this, List.nil_append]
  · have hstop2 : (StopVM h vm [] s0).val.1 = false := by simpa using hstop
    obtain ⟨hev, -⟩ := ConfigureGPUPV_not_stopped h vm gpu path drv vramMB s0 hstop2
    obtain ⟨f1, f2, f3, f4⟩ := StopVM_facts h vm [] s0
    refine ⟨0, ?_⟩
    rw [hev, forward_of_no_restore _ (by simp [f2])]
    simp only [commandList_append, commandList_cons_say, commandList_nil, List.nil_append,
      List.append_nil, List.take_zero]
    rcases f4 with f4 | f4 <;> rw [f4] <;> simp [isSetPartition]

/-- C9, at a concrete run: a request for 4096 MiB in which `Compute` fails. -/
theorem C9_resource_commands_witness :
    (64 : Int) ≤ 4096 ∧ (4096 : Int) < 2 ^ 31 ∧
    vramBytesOf 4096 = 4294967296 ∧
    (ConfigureGPUResources computeFailsHost (lit "vm") 4294967296 [] ()).val.1 = false ∧
    commandList (ConfigureGPUResources computeFailsHost (lit "vm") 4294967296 [] ()).ev =
      [Cmd.setPartition (lit "vm") (lit "VRAM") 1 4294967296 4294967296,
       Cmd.setPartition (lit "vm") (lit "Encode") 1 4294967296 4294967296,
       Cmd.setPartition (lit "vm") (lit "Decode") 1 4294967296 4294967296,
       Cmd.setPartition (lit "vm") (lit "Compute") 1 4294967296 4294967296] :=
  ⟨by decide, by decide,
    (C9_resource_commands computeFailsHost (lit "vm") (lit "gpu") (lit "path") [] [] 4096
      4294967296 () () (by decide) (by decide)).2.2.1,
    by decide!, by decide!⟩

theorem preludeLog_commandList (stopEv : List Event) (vm : Str) (r0 r1 r2 r3 : Reply)
    (b : GPUPVBackup) :
    commandList (preludeLog stopEv vm r0 r1 r2 r3 b) =
      commandList stopEv ++ [Cmd.secureBootOff vm, Cmd.getAdapter vm, Cmd.getCacheTypes vm,
        Cmd.removeAdapter vm] := by
  simp [preludeLog]

/-- C10: for a request with `vramMB < 64`, once the VM is stopped, the commands
`ConfigureGPUPV` issues before any rollback are those of the stop, the secure-boot
command, the two queries of the backup, the removal of the adapter and then only the
reset of the cache-control flag to false; no step of the enable path is run.  It returns
true when the reset succeeds; otherwise it returns false and the run ends with one run of
`RestoreState`, with the backup captured. -/
theorem C10_disable_path {σ : Type} (h : Host σ) (vm gpu path drv : Str) (vramMB : Int)
    (s0 : σ) (hlt : vramMB < 64) (hstop : (StopVM h vm [] s0).val.1 = true) :
    ∃ b r s1,
      commandList (forward (ConfigureGPUPV h vm gpu path drv vramMB s0).ev) =
        commandList (StopVM h vm [] s0).ev ++
          [Cmd.secureBootOff vm, Cmd.getAdapter vm, Cmd.getCacheTypes vm,
           Cmd.removeAdapter vm, Cmd.setCacheTypes vm false] ∧
      (Cmd.setCacheTypes vm false, r) ∈
        commands (forward (ConfigureGPUPV h vm gpu path drv vramMB s0).ev) ∧
      stepResults (ConfigureGPUPV h vm gpu path drv vramMB s0).ev = [] ∧
      backups (ConfigureGPUPV h vm gpu path drv vramMB s0).ev = [b] ∧
      (r.ok = true →
        (ConfigureGPUPV h vm gpu path drv vramMB s0).val = some true ∧
        restores (ConfigureGPUPV h vm gpu path drv vramMB s0).ev = []) ∧
      (r.ok = false →
        (ConfigureGPUPV h vm gpu path drv vramMB s0).val = some false ∧
        restores (ConfigureGPUPV h vm gpu path drv vramMB s0).ev = [b] ∧
        (ConfigureGPUPV h vm gpu path drv vramMB s0).ev =
          forward (ConfigureGPUPV h vm gpu path drv vramMB s0).ev ++
            (RestoreState h vm b s1).ev) := by
  obtain ⟨r0, r1, r2, r3, b, s1, hev, hval, -⟩ :=
    ConfigureGPUPV_stopped h vm gpu path drv vramMB s0 hstop
  obtain ⟨p1, p2, p3, -⟩ := preludeLog_facts h vm [] s0 r0 r1 r2 r3 b
  simp only [hlt, if_true] at hev hval
  refine ⟨b, (h.exec (Cmd.setCacheTypes vm false) s1).1,
    (h.exec (Cmd.setCacheTypes vm false) s1).2, ?_⟩
  cases hok : (h.exec (Cmd.setCacheTypes vm false) s1).1.ok
  · obtain ⟨d1, d2, d3⟩ := disableBranch_failed h vm b s1 hok
    obtain ⟨g1, g2, g3⟩ := RestoreState_facts h vm b (h.exec (Cmd.setCacheTypes vm false) s1).2
    obtain ⟨rrest, hr, -⟩ := RestoreState_ev h vm b (h.exec (Cmd.setCacheTypes vm false) s1).2
    have hf : forward (ConfigureGPUPV h vm gpu path drv vramMB s0).ev =
        preludeLog (StopVM h vm [] s0).ev vm r0 r1 r2 r3 b ++
          [Event.say (lit "检测到显存设置小于 64MB，执行关闭 GPU-PV 操作...\n"),
           Event.say (lit "正在重置 GuestControlledCacheTypes...\n"),
           Event.ps (Cmd.setCacheTypes vm false) (h.exec (Cmd.setCacheTypes vm false) s1).1,
           Event.say (lit "错误：重置CacheTypes失败，正在尝试回滚...\n")] := by
      rw [hev, d1, hr]
      have := forward_append_restore (preludeLog (StopVM h vm [] s0).ev vm r0 r1 r2 r3 b ++
        [Event.say (lit "检测到显存设置小于 64MB，执行关闭 GPU-PV 操作...\n"),
         Event.say (lit "正在重置 GuestControlledCacheTypes...\n"),
         Event.ps (Cmd.setCacheTypes vm false) (h.exec (Cmd.setCacheTypes vm false) s1).1,
         Event.say (lit "错误：重置CacheTypes失败，正在尝试回滚...\n")]) rrest b (by simp [p2])
      simpa [List.append_assoc] using this
    refine ⟨?_, ?_, ?_, ?_, ?_, ?_⟩
    · rw [hf, commandList_append, preludeLog_commandList]
      simp
    · rw [hf]
      simp
    · rw [hev, d1]
      simp [p1, g2]
    · rw [hev, d1]
      simp [p3, g3]
    · intro hc
      simp at hc
    · intro _
      refine ⟨by rw [hval, d2], ?_, ?_⟩
      · rw [hev, d1]
        simp [p2, g1]
      · rw [hf, hev, d1]
        simp
  · obtain ⟨d1, d2, d3⟩ := disableBranch_ok h vm b s1 hok
    have hno : restores (ConfigureGPUPV h vm gpu path drv vramMB s0).ev = [] := by
      rw [hev, d1]
      simp [p2]
    have hf := forward_of_no_restore _ hno
    refine ⟨?_, ?_, ?_, ?_, ?_, ?_⟩
    · rw [hf, hev, d1, commandList_append, preludeLog_commandList]
      simp
    · rw [hf, hev, d1]
      simp
    · rw [hev, d1]
      simp [p1]
    · rw [hev, d1]
      simp [p3]
    · intro _
      exact ⟨by rw [hval, d2], hno⟩
    · intro hc
      simp at hc

/-- C10, at a concrete run: a request for 0 MiB on a host on which everything succeeds. -/
theorem C10_disable_path_witness :
    (0 : Int) < 64 ∧ (StopVM fineHost (lit "vm") [] ()).val.1 = true ∧
    ∃ b r s1,
      commandList (forward (ConfigureGPUPV fineHost (lit "vm") (lit "gpu") (lit "path") [] 0 ()).ev) =
        commandList (StopVM fineHost (lit "vm") [] ()).ev ++
          [Cmd.secureBootOff (lit "vm"), Cmd.getAdapter (lit "vm"), Cmd.getCacheTypes (lit "vm"),
           Cmd.removeAdapter (lit "vm"), Cmd.setCacheTypes (lit "vm") false] ∧
      (Cmd.setCacheTypes (lit "vm") false, r) ∈
        commands (forward (ConfigureGPUPV fineHost (lit "vm") (lit "gpu") (lit "path") [] 0 ()).ev) ∧
      stepResults (ConfigureGPUPV fineHost (lit "vm") (lit "gpu") (lit "path") [] 0 ()).ev = [] ∧
      backups (ConfigureGPUPV fineHost (lit "vm") (lit "gpu") (lit "path") [] 0 ()).ev = [b] ∧
      (r.ok = true →
        (ConfigureGPUPV fineHost (lit "vm") (lit "gpu") (lit "path") [] 0 ()).val = some true ∧
        restores (ConfigureGPUPV fineHost (lit "vm") (lit "gpu") (lit "path") [] 0 ()).ev = []) ∧
      (r.ok = false →
        (ConfigureGPUPV fineHost (lit "vm") (lit "gpu") (lit "path") [] 0 ()).val = some false ∧
        restores (ConfigureGPUPV fineHost (lit "vm") (lit "gpu") (lit "path") [] 0 ()).ev = [b] ∧
        (ConfigureGPUPV fineHost (lit "vm") (lit "gpu") (lit "path") [] 0 ()).ev =
          forward (ConfigureGPUPV fineHost (lit "vm") (lit "gpu") (lit "path") [] 0 ()).ev ++
            (RestoreState fineHost (lit "vm") b s1).ev) :=
  ⟨by decide, by decide!,
    C10_disable_path fineHost (lit "vm") (lit "gpu") (lit "path") [] 0 () (by decide) (by decide!)⟩

/-! ### The run in which everything succeeds -/

theorem attempt_val {σ : Type} (h : Host σ) (vm : Str) (b : GPUPVBackup) (st : Step)
    (run : Exec σ (Bool × Str)) (next : Str → Exec σ (Option Bool)) (s : σ)
    (hok : (run s).val.1 = true) :
    (attempt h vm b st run next s).val = (next (run s).val.2 (run s).st).val := by
  simp [attempt, hok]

theorem configureLoop_ok {σ : Type} (h : Host σ) (vm : Str) (n : Nat)
    (hok : ∀ c s, (h.exec c s).1.ok = true) (ts : List Str) :
    ∀ (err : Str) (s : σ), (configureLoop h vm n ts err s).val.1 = true := by
  induction ts with
  | nil => intro err s; simp [configureLoop]
  | cons t ts ih =>
    intro err s
    simp only [configureLoop, run_bind, run_ExecuteWithCheck, run_ite, hok]
    simpa using ih _ _

theorem ConfigureGPUResources_ok {σ : Type} (h : Host σ) (vm : Str) (n : Nat)
    (hok : ∀ c s, (h.exec c s).1.ok = true) (err : Str) (s : σ) :
    (ConfigureGPUResources h vm n err s).val.1 = true :=
  configureLoop_ok h vm n hok resourceTypes err s

theorem MountVMDisk_ok {σ : Type} (h : Host σ) (vm : Str) (s : σ)
    (hok : (h.exec (Cmd.mountDisk vm) s).1.ok = true)
    (hmount : (pickDriveLetter (Trim (h.exec (Cmd.mountDisk vm) s).1.output)).length = 1) :
    (MountVMDisk h vm s).val.1 ≠ [] := by
  have hne : pickDriveLetter (Trim (h.exec (Cmd.mountDisk vm) s).1.output) ≠ [] := by
    intro h0
    rw [h0] at hmount
    simp at hmount
  simp [MountVMDisk, hok, hmount, hne]

theorem resolveGpuName_ok {σ : Type} (h : Host σ) (vm : Str) (s : σ)
    (hname : Trim (h.exec (Cmd.gpuNameOfAdapter vm) s).1.output ≠ []) :
    (resolveGpuName h vm s).val ≠ [] := by
  simp [resolveGpuName, hname]

theorem CopyDriverFiles_ok {σ : Type} (h : Host σ) (vm : Str) (s : σ)
    (hok : ∀ c s, (h.exec c s).1.ok = true)
    (hmount : ∀ s, (pickDriveLetter (Trim (h.exec (Cmd.mountDisk vm) s).1.output)).length = 1)
    (hname : ∀ s, Trim (h.exec (Cmd.gpuNameOfAdapter vm) s).1.output ≠ []) :
    (CopyDriverFiles h vm s).val.1 = true := by
  obtain ⟨pre, s1, -, hv⟩ := CopyDriverFiles_named h vm s
    (MountVMDisk_ok h vm s (hok _ _) (hmount _)) (resolveGpuName_ok h vm _ (hname _))
  rw [hv]
  exact hok _ _

theorem checkVMState_ok {σ : Type} (h : Host σ) (vm g : Str) (s : σ)
    (hver : ∀ s, (VerifyGPUDeviceInVM h vm g s).val ≠ none) :
    (checkVMState h vm g s).val = some true := by
  simp only [checkVMState, run_bind, run_say, run_ite]
  split
  · have := hver (GetVMState h vm s).st
    generalize (VerifyGPUDeviceInVM h vm g (GetVMState h vm s).st).val = v at this
    generalize (VerifyGPUDeviceInVM h vm g (GetVMState h vm s).st).st = s2
    cases v with
    | none => simp at this
    | some b => cases b <;> simp
  · simp

/-- The commands of five steps that all succeeded. -/
theorem segs_stepOrder_commands (vm path : Str) (bytes : Nat) (l : List Event)
    (hl : Segs vm path bytes stepOrder l) :
    ∃ drv, commandList l =
        [Cmd.addAdapter vm path] ++ plannedResources vm bytes ++
          [Cmd.setCacheTypes vm true, Cmd.setLowMmioSpace vm, Cmd.setHighMmioSpace vm] ++
          Cmd.mountDisk vm :: drv ∧
      ∀ c ∈ drv, driverCmd c = true := by
  obtain ⟨l1, t1, rfl, ⟨ra, rfl, -⟩, h1⟩ := hl
  obtain ⟨l2, t2, rfl, ⟨rs, rfl, -, hrs, -⟩, h2⟩ := h1
  obtain ⟨l3, t3, rfl, ⟨rc, rfl, -⟩, h3⟩ := h2
  obtain ⟨l4, t4, rfl, hm, h4⟩ := h3
  obtain ⟨l5, t5, rfl, ⟨hq, drv, hd⟩, h5⟩ := h4
  simp only [Segs] at h5
  subst h5
  have hall := (sayOr_projections driverCmd l5 hq).2.2.2.2
  rcases hm with ⟨r1, -, -, hff⟩ | ⟨r1, r2, rfl, -, -⟩
  · simp at hff
  · refine ⟨drv, ?_, ?_⟩
    · simp only [commandList_append, commandList_cons_say, commandList_cons_ps,
        commandList_cons_step, commandList_nil, commandList_zipWith_ps, (hrs rfl).1, hd]
      simp [plannedResources, resourceTypes]
    · intro c hc
      exact hall c (by rw [hd]; exact List.mem_cons_of_mem _ hc)

/-- C8: in an enable request in which the VM is stopped, every command succeeds, the
disk mounts on a drive letter, the first name lookup finds the GPU and the final check
does not throw, `ConfigureGPUPV` returns true without entering `RestoreState`; all five
steps report success; and after the stop its commands are, in this order: secure boot
off, the two queries of the backup, the removal of the adapter, the addition of the
adapter, the four resource types, the cache-control flag, the low and the high MMIO
size, the driver sub-workflow (from the mount on), and the query of the VM state (with
the check inside the VM when it runs). -/
theorem C8_successful_enable {σ : Type} (h : Host σ) (vm gpu path drv : Str) (vramMB : Int)
    (s0 : σ) (hv : 64 ≤ vramMB) (hstop : (StopVM h vm [] s0).val.1 = true)
    (hok : ∀ c s, (h.exec c s).1.ok = true)
    (hmount : ∀ s, (pickDriveLetter (Trim (h.exec (Cmd.mountDisk vm) s).1.output)).length = 1)
    (hname : ∀ s, Trim (h.exec (Cmd.gpuNameOfAdapter vm) s).1.output ≠ [])
    (hver : ∀ s, (VerifyGPUDeviceInVM h vm gpu s).val ≠ none) :
    (ConfigureGPUPV h vm gpu path drv vramMB s0).val = some true ∧
    restores (ConfigureGPUPV h vm gpu path drv vramMB s0).ev = [] ∧
    stepResults (ConfigureGPUPV h vm gpu path drv vramMB s0).ev =
      stepOrder.map (fun x => (x, true)) ∧
    ∃ b rest drvCmds chk,
      backups (ConfigureGPUPV h vm gpu path drv vramMB s0).ev = [b] ∧
      (ConfigureGPUPV h vm gpu path drv vramMB s0).ev =
        [Event.say (lit "正在停止虚拟机...\n")] ++ (StopVM h vm [] s0).ev ++ rest ∧
      commandList rest =
        [Cmd.secureBootOff vm, Cmd.getAdapter vm, Cmd.getCacheTypes vm, Cmd.removeAdapter vm,
          Cmd.addAdapter vm path] ++ plannedResources vm (vramBytesOf vramMB) ++
          [Cmd.setCacheTypes vm true, Cmd.setLowMmioSpace vm, Cmd.setHighMmioSpace vm] ++
          Cmd.mountDisk vm :: drvCmds ++ Cmd.getVMState vm :: chk ∧
      (∀ c ∈ drvCmds, driverCmd c = true) ∧ (∀ c ∈ chk, vmCheckCmd c = true) := by
  obtain ⟨r0, r1, r2, r3, b, s1, hev, hval, -⟩ :=
    ConfigureGPUPV_stopped h vm gpu path drv vramMB s0 hstop
  obtain ⟨p1, p2, p3, -⟩ := preludeLog_facts h vm [] s0 r0 r1 r2 r3 b
  have hlt : ¬ vramMB < 64 := by omega
  simp only [hlt, if_false] at hev hval
  have hsome : (enableBranch h vm gpu path vramMB b s1).val = some true := by
    rw [enableBranch_chain]
    rw [attempt_val _ _ _ _ _ _ _ (by rw [AddGPUPartitionAdapter_ok]; exact hok _ _)]
    rw [attempt_val _ _ _ _ _ _ _ (ConfigureGPUResources_ok h vm _ hok _ _)]
    rw [attempt_val _ _ _ _ _ _ _ (by simp [EnableGuestControlledCacheTypes, hok])]
    rw [attempt_val _ _ _ _ _ _ _ (by simp [ConfigureMMIOSpace, hok])]
    rw [attempt_val _ _ _ _ _ _ _ (CopyDriverFiles_ok h vm _ hok hmount hname)]
    exact checkVMState_ok h vm gpu _ hver
  rcases enableBranch_outcome h vm gpu path vramMB b s1 with
    ⟨-, l, lk, he, hl, hk, ⟨chk, hchk⟩⟩ | ⟨hv2, -⟩
  · obtain ⟨i1, i2, i3, -, -⟩ := segs_facts _ _ _ _ l hl
    obtain ⟨k1, k2, k3, -, k5⟩ := sayOr_projections _ lk hk
    obtain ⟨drvCmds, hd1, hd2⟩ := segs_stepOrder_commands _ _ _ l hl
    refine ⟨by rw [hval, hsome], by rw [hev, he]; simp [p2, i2, k2],
      by rw [hev, he]; simp [p1, i1, k1], b,
      [Event.say (lit "虚拟机已停止\n"), Event.say (lit "正在关闭安全启动...\n"),
        Event.ps (Cmd.secureBootOff vm) r0, Event.say (lit "正在备份当前配置...\n"),
        Event.ps (Cmd.getAdapter vm) r1, Event.ps (Cmd.getCacheTypes vm) r2,
        Event.backup b, Event.say (lit "正在清理旧的GPU分区适配器...\n"),
        Event.ps (Cmd.removeAdapter vm) r3] ++ (l ++ lk), drvCmds, chk, ?_, ?_, ?_, hd2, ?_⟩
    · rw [hev, he]; simp [p3, i3, k3]
    · rw [hev, he]; simp [preludeLog]
    · simp [hd1, hchk]
    · intro c hc
      exact k5 c (by rw [hchk]; exact List.mem_cons_of_mem _ hc)
  · rw [hsome] at hv2
    simp at hv2

/-- C8, on a host that stops the VM on request and answers every command with success:
the hypotheses hold, and so do the result and the order of the commands. -/
theorem C8_successful_enable_witness :
    (64 : Int) ≤ 4096 ∧ (StopVM fineHost (lit "vm") [] ()).val.1 = true ∧
    (∀ c s, (fineHost.exec c s).1.ok = true) ∧
    (ConfigureGPUPV fineHost (lit "vm") (lit "gpu") (lit "path") [] 4096 ()).val = some true ∧
    restores (ConfigureGPUPV fineHost (lit "vm") (lit "gpu") (lit "path") [] 4096 ()).ev = [] ∧
    stepResults (ConfigureGPUPV fineHost (lit "vm") (lit "gpu") (lit "path") [] 4096 ()).ev =
      stepOrder.map (fun x => (x, true)) ∧
    ∃ b rest drvCmds chk,
      backups (ConfigureGPUPV fineHost (lit "vm") (lit "gpu") (lit "path") [] 4096 ()).ev = [b] ∧
      (ConfigureGPUPV fineHost (lit "vm") (lit "gpu") (lit "path") [] 4096 ()).ev =
        [Event.say (lit "正在停止虚拟机...\n")] ++ (StopVM fineHost (lit "vm") [] ()).ev ++ rest ∧
      commandList rest =
        [Cmd.secureBootOff (lit "vm"), Cmd.getAdapter (lit "vm"), Cmd.getCacheTypes (lit "vm"),
          Cmd.removeAdapter (lit "vm"), Cmd.addAdapter (lit "vm") (lit "path")] ++
          plannedResources (lit "vm") (vramBytesOf 4096) ++
          [Cmd.setCacheTypes (lit "vm") true, Cmd.setLowMmioSpace (lit "vm"),
            Cmd.setHighMmioSpace (lit "vm")] ++
          Cmd.mountDisk (lit "vm") :: drvCmds ++ Cmd.getVMState (lit "vm") :: chk ∧
      (∀ c ∈ drvCmds, driverCmd c = true) ∧ (∀ c ∈ chk, vmCheckCmd c = true) :=
  ⟨by decide, by decide!, fun c _ => by cases c <;> rfl,
    C8_successful_enable fineHost (lit "vm") (lit "gpu") (lit "path") [] 4096 () (by decide)
      (by decide!) (fun c _ => by cases c <;> rfl) (fun s => by cases s; decide!)
      (fun s => by cases s; decide!) (fun s => by cases s; decide!)⟩

/-! ### What `RestoreState` does -/

/-- The log of `RestoreState`, branch by branch. -/
theorem RestoreState_log {σ : Type} (h : Host σ) (vm : Str) (b : GPUPVBackup) (s : σ) :
    ∃ s2, (RestoreState h vm b s).ev =
      [Event.restore b, Event.ps (Cmd.removeAdapter vm) (h.exec (Cmd.removeAdapter vm) s).1] ++
      (if b.bHasAdapter = true ∧ b.strInstancePath ≠ [] then
        [Event.say (lit "正在回滚：恢复GPU分区适配器...\n"),
          Event.ps (Cmd.addAdapter vm b.strInstancePath)
            (h.exec (Cmd.addAdapter vm b.strInstancePath) (h.exec (Cmd.removeAdapter vm) s).2).1] ++
        (if (h.exec (Cmd.addAdapter vm b.strInstancePath)
            (h.exec (Cmd.removeAdapter vm) s).2).1.ok = true then
          (if 0 < b.ui64VramBytes then
            (ConfigureGPUResources h vm b.ui64VramBytes
              (h.exec (Cmd.addAdapter vm b.strInstancePath)
                (h.exec (Cmd.removeAdapter vm) s).2).1.error
              (h.exec (Cmd.addAdapter vm b.strInstancePath)
                (h.exec (Cmd.removeAdapter vm) s).2).2).ev
          else [])
        else [Event.say (lit "回滚警告：无法恢复适配器 - " ++
          orDefault (h.exec (Cmd.addAdapter vm b.strInstancePath)
            (h.exec (Cmd.removeAdapter vm) s).2).1.error (lit "添加GPU分区适配器失败\n") ++
          lit "\n")])
      else []) ++
      [Event.say (lit "正在回滚：恢复GuestControlledCacheTypes设置...\n"),
        Event.ps (Cmd.setCacheTypes vm b.bGuestControlledCacheTypes)
          (h.exec (Cmd.setCacheTypes vm b.bGuestControlledCacheTypes) s2).1] ∧
      (RestoreState h vm b s).st =
        (h.exec (Cmd.setCacheTypes vm b.bGuestControlledCacheTypes) s2).2 := by
  by_cases hb : b.bHasAdapter = true ∧ b.strInstancePath ≠ []
  · cases hok : (h.exec (Cmd.addAdapter vm b.strInstancePath)
        (h.exec (Cmd.removeAdapter vm) s).2).1.ok
    · refine ⟨_, ?_, rfl⟩
      simp [RestoreState, AddGPUPartitionAdapter, hb, hok]
    · by_cases hv : 0 < b.ui64VramBytes
      · refine ⟨_, ?_, rfl⟩
        simp [RestoreState, AddGPUPartitionAdapter, hb, hok, hv]
      · refine ⟨_, ?_, rfl⟩
        simp [RestoreState, AddGPUPartitionAdapter, hb, hok, hv]
  · refine ⟨_, ?_, rfl⟩
    have hb2 : (b.bHasAdapter && !b.strInstancePath.isEmpty) = false := by
      cases hh : b.bHasAdapter
      · simp
      · simp only [hh, true_and, ne_eq, not_not] at hb
        simp [hb]
    simp [RestoreState, hb, hb2]

theorem ends_with {α : Type} {l pre2 : List α} {x y : α} (h : l = pre2 ++ [x, y]) :
    ∃ pre, l = pre ++ [y] :=
  ⟨pre2 ++ [x], by simp [h]⟩

theorem resources_commands {σ : Type} (h : Host σ) (vm : Str) (n : Nat) (err : Str) (s : σ) :
    ∃ k, 1 ≤ k ∧ k ≤ 4 ∧
      commandList (ConfigureGPUResources h vm n err s).ev = (plannedResources vm n).take k := by
  obtain ⟨rs, h1, h2, h3, h4⟩ := configureLoop_spec h vm n resourceTypes err s
  refine ⟨rs.length, ?_, h2, ?_⟩
  · cases hv : (configureLoop h vm n resourceTypes err s).val.1
    · obtain ⟨init, r, rfl, -⟩ := h4 hv
      simp
    · rw [(h3 hv).1]
      simp [resourceTypes]
  · unfold ConfigureGPUResources
    rw [h1, commandList_zipWith_ps]
    rfl

/-- C11 (amended): when the backup says an adapter existed and its instance path is not
empty, `RestoreState` issues, right after the removal, the command that adds an adapter
with the backed-up instance path; when that command succeeds and the backed-up VRAM is
not zero, it then issues the commands that set the resource types to the backed-up VRAM
(at least the one for `VRAM`, stopping at the first that fails), and then the cache-flag
command; when the add fails or the backed-up VRAM is zero, only the cache-flag command
follows.  When the instance path is empty, no adapter is added. -/
theorem C11_restore_readds_adapter {σ : Type} (h : Host σ) (vm : Str) (b : GPUPVBackup)
    (s : σ) (hhas : b.bHasAdapter = true) :
    (b.strInstancePath ≠ [] →
      ∃ rest, commandList (RestoreState h vm b s).ev =
          Cmd.removeAdapter vm :: Cmd.addAdapter vm b.strInstancePath :: rest ∧
        ((h.exec (Cmd.addAdapter vm b.strInstancePath)
            (h.exec (Cmd.removeAdapter vm) s).2).1.ok = true → 0 < b.ui64VramBytes →
          ∃ k, 1 ≤ k ∧ k ≤ 4 ∧ rest = (plannedResources vm b.ui64VramBytes).take k ++
            [Cmd.setCacheTypes vm b.bGuestControlledCacheTypes]) ∧
        ((h.exec (Cmd.addAdapter vm b.strInstancePath)
            (h.exec (Cmd.removeAdapter vm) s).2).1.ok = true → b.ui64VramBytes = 0 →
          rest = [Cmd.setCacheTypes vm b.bGuestControlledCacheTypes]) ∧
        ((h.exec (Cmd.addAdapter vm b.strInstancePath)
            (h.exec (Cmd.removeAdapter vm) s).2).1.ok = false →
          rest = [Cmd.setCacheTypes vm b.bGuestControlledCacheTypes])) ∧
    (b.strInstancePath = [] →
      commandList (RestoreState h vm b s).ev =
        [Cmd.removeAdapter vm, Cmd.setCacheTypes vm b.bGuestControlledCacheTypes]) := by
  obtain ⟨s2, hev, -⟩ := RestoreState_log h vm b s
  constructor
  · intro hp
    rw [hev]
    simp only [hhas, hp, ne_eq, not_false_eq_true, and_self, if_true]
    cases hok : (h.exec (Cmd.addAdapter vm b.strInstancePath)
        (h.exec (Cmd.removeAdapter vm) s).2).1.ok
    · exact ⟨[Cmd.setCacheTypes vm b.bGuestControlledCacheTypes], by simp, by simp, by simp,
        by simp⟩
    · by_cases hv : 0 < b.ui64VramBytes
      · obtain ⟨k, k1, k2, hk⟩ := resources_commands h vm b.ui64VramBytes
          (h.exec (Cmd.addAdapter vm b.strInstancePath) (h.exec (Cmd.removeAdapter vm) s).2).1.error
          (h.exec (Cmd.addAdapter vm b.strInstancePath) (h.exec (Cmd.removeAdapter vm) s).2).2
        refine ⟨(plannedResources vm b.ui64VramBytes).take k ++
          [Cmd.setCacheTypes vm b.bGuestControlledCacheTypes], by simp [hv, hk],
          fun _ _ => ⟨k, k1, k2, rfl⟩, ?_, by simp⟩
        intro _ h0
        omega
      · have h0 : b.ui64VramBytes = 0 := by omega
        refine ⟨[Cmd.setCacheTypes vm b.bGuestControlledCacheTypes], by simp [hv], ?_,
          by simp, by simp⟩
        intro _ hpos
        omega
  · intro hp
    rw [hev]
    simp [hp]

/-- C11, at a concrete run: restoring `sampleBackup` on the modelled host adds the adapter
with the backed-up path and sets the four resource types to the backed-up VRAM. -/
theorem C11_restore_readds_adapter_witness :
    sampleBackup.bHasAdapter = true ∧
    commandList (RestoreState sampleHyperV (lit "vm") sampleBackup emptyVM).ev =
      [Cmd.removeAdapter (lit "vm"), Cmd.addAdapter (lit "vm") sampleBackup.strInstancePath] ++
        plannedResources (lit "vm") 80000000 ++ [Cmd.setCacheTypes (lit "vm") false] ∧
    (sampleBackup.strInstancePath = [] →
      commandList (RestoreState sampleHyperV (lit "vm") sampleBackup emptyVM).ev =
        [Cmd.removeAdapter (lit "vm"),
          Cmd.setCacheTypes (lit "vm") sampleBackup.bGuestControlledCacheTypes]) :=
  ⟨rfl, by decide!, (C11_restore_readds_adapter sampleHyperV (lit "vm") sampleBackup emptyVM rfl).2⟩

/-- C11 as stated fails.  The backup of a VM whose adapter is bound to no instance path
has `bHasAdapter` true and an empty path; restoring it removes the adapter and adds none,
although every command succeeds.  And with a backed-up VRAM of zero the adapter is added
and no resource type is set. -/
theorem C11_counterexample :
    (BackupState sampleHyperV (lit "vm") unboundVM).val = ⟨true, [], 80000000, false⟩ ∧
    commandList (RestoreState sampleHyperV (lit "vm") ⟨true, [], 80000000, false⟩ emptyVM).ev =
      [Cmd.removeAdapter (lit "vm"), Cmd.setCacheTypes (lit "vm") false] ∧
    (∀ p ∈ commands (RestoreState sampleHyperV (lit "vm") ⟨true, [], 80000000, false⟩ unboundVM).ev,
      p.2.ok = true) ∧
    (RestoreState sampleHyperV (lit "vm") ⟨true, [], 80000000, false⟩ unboundVM).st.adapters = [] ∧
    commandList (RestoreState sampleHyperV (lit "vm")
        ⟨true, sampleBackup.strInstancePath, 0, false⟩ emptyVM).ev =
      [Cmd.removeAdapter (lit "vm"), Cmd.addAdapter (lit "vm") sampleBackup.strInstancePath,
        Cmd.setCacheTypes (lit "vm") false] := by
  decide!

/-- C12: for every backup and every reply of the host, the first command of `RestoreState`
removes any partition adapter and its last event is the command that sets the
cache-control flag to the backed-up value; it returns (the embedding is a total function
with no error value).  When re-adding the adapter fails, the log is exactly: the removal,
the progress line, the failed add, the warning line with the error text, the progress
line of the cache flag and the cache-flag command. -/
theorem C12_restore_is_best_effort {σ : Type} (h : Host σ) (vm : Str) (b : GPUPVBackup)
    (s : σ) :
    (∃ mid, commandList (RestoreState h vm b s).ev =
      Cmd.removeAdapter vm :: (mid ++ [Cmd.setCacheTypes vm b.bGuestControlledCacheTypes])) ∧
    (∃ pre s2, (RestoreState h vm b s).ev =
      pre ++ [Event.ps (Cmd.setCacheTypes vm b.bGuestControlledCacheTypes)
        (h.exec (Cmd.setCacheTypes vm b.bGuestControlledCacheTypes) s2).1] ∧
      (RestoreState h vm b s).st =
        (h.exec (Cmd.setCacheTypes vm b.bGuestControlledCacheTypes) s2).2) ∧
    (RestoreState h vm b s).val = () ∧
    (b.bHasAdapter = true → b.strInstancePath ≠ [] →
      (h.exec (Cmd.addAdapter vm b.strInstancePath)
        (h.exec (Cmd.removeAdapter vm) s).2).1.ok = false →
      (RestoreState h vm b s).ev =
        [Event.restore b,
          Event.ps (Cmd.removeAdapter vm) (h.exec (Cmd.removeAdapter vm) s).1,
          Event.say (lit "正在回滚：恢复GPU分区适配器...\n"),
          Event.ps (Cmd.addAdapter vm b.strInstancePath)
            (h.exec (Cmd.addAdapter vm b.strInstancePath) (h.exec (Cmd.removeAdapter vm) s).2).1,
          Event.say (lit "回滚警告：无法恢复适配器 - " ++
            orDefault (h.exec (Cmd.addAdapter vm b.strInstancePath)
              (h.exec (Cmd.removeAdapter vm) s).2).1.error (lit "添加GPU分区适配器失败\n") ++
            lit "\n"),
          Event.say (lit "正在回滚：恢复GuestControlledCacheTypes设置...\n"),
          Event.ps (Cmd.setCacheTypes vm b.bGuestControlledCacheTypes)
            (h.exec (Cmd.setCacheTypes vm b.bGuestControlledCacheTypes)
              (h.exec (Cmd.addAdapter vm b.strInstancePath)
                (h.exec (Cmd.removeAdapter vm) s).2).2).1]) := by
  obtain ⟨s2, hev, hst⟩ := RestoreState_log h vm b s
  refine ⟨?_, ?_, rfl, ?_⟩
  · rw [hev]
    simp only [commandList_append, commandList_cons_restore, commandList_cons_ps,
      commandList_cons_say, commandList_nil]
    exact ⟨_, rfl⟩
  · obtain ⟨pre, hpre⟩ := ends_with hev
    exact ⟨pre, s2, hpre, hst⟩
  · intro hhas hp hok
    simp [RestoreState, AddGPUPartitionAdapter, hhas, hp, hok]

/-! ### The dismount of the disk -/

theorem quiet_copy_resolveGpuName {σ : Type} (h : Host σ) (vm : Str) :
    Quiet (sayOr copyCmd) (resolveGpuName h vm) := by
  unfold resolveGpuName
  repeat first
    | rfl
    | intro _
    | with_reducible exact quiet_pure _
    | with_reducible apply quiet_say
    | with_reducible apply quiet_execute
    | with_reducible apply quiet_bind
    | with_reducible apply quiet_ite
    | split

theorem quiet_copy_CopyGPUServiceDriver {σ : Type} (h : Host σ) (g d : Str) :
    Quiet (sayOr copyCmd) (CopyGPUServiceDriver h g d) := by
  unfold CopyGPUServiceDriver
  repeat first
    | rfl
    | intro _
    | with_reducible exact quiet_pure _
    | with_reducible apply quiet_say
    | with_reducible apply quiet_sayLines
    | with_reducible apply quiet_check
    | with_reducible apply quiet_bind
    | with_reducible apply quiet_ite
    | split

theorem quiet_copy_CopyPnPDriverFiles {σ : Type} (h : Host σ) (g d : Str) :
    Quiet (sayOr copyCmd) (CopyPnPDriverFiles h g d) := by
  unfold CopyPnPDriverFiles
  repeat first
    | rfl
    | intro _
    | with_reducible exact quiet_pure _
    | with_reducible apply quiet_say
    | with_reducible apply quiet_sayCopied
    | with_reducible apply quiet_check
    | with_reducible apply quiet_bind
    | with_reducible apply quiet_ite
    | split

theorem quiet_copy_CopyNvidiaSpecialFiles {σ : Type} (h : Host σ) (d : Str) :
    Quiet (sayOr copyCmd) (CopyNvidiaSpecialFiles h d) := by
  unfold CopyNvidiaSpecialFiles
  repeat first
    | rfl
    | intro _
    | with_reducible exact quiet_pure _
    | with_reducible apply quiet_execute
    | with_reducible apply quiet_bind
    | split

theorem dismountsAtEnd_bind {σ α β : Type} (h : Host σ) (vm : Str) (m : Exec σ α)
    (f : α → Exec σ β) (s : σ) (hm : Quiet (sayOr copyCmd) m)
    (hf : DismountsAtEnd h vm (f (m s).val (m s).st)) :
    DismountsAtEnd h vm ((m >>= f) s) := by
  obtain ⟨pre, s1, he, hq⟩ := hf
  refine ⟨(m s).ev ++ pre, s1, by simp [he], ?_⟩
  rw [List.all_append, hm.all s, hq]
  rfl

theorem dismountsAtEnd_final {σ β : Type} (h : Host σ) (vm : Str)
    (k : Bool × Str → Exec σ β) (s : σ) (hk : ∀ d s1, (k d s1).ev = []) :
    DismountsAtEnd h vm ((DismountVMDisk h vm >>= k) s) := by
  refine ⟨[], s, ?_, rfl⟩
  rw [run_bind, hk, (DismountVMDisk_run h vm s).1]
  rfl

theorem copyAndVerify_dismounts {σ : Type} (h : Host σ) (vm d g e : Str) (s : σ) :
    DismountsAtEnd h vm (copyAndVerify h vm d g e s) := by
  unfold copyAndVerify
  iterate 13
    refine dismountsAtEnd_bind h vm _ _ _ (by
      repeat first
        | rfl
        | intro _
        | with_reducible exact quiet_pure _
        | with_reducible apply quiet_say
        | with_reducible apply quiet_sayVerified
        | with_reducible apply quiet_execute
        | with_reducible exact quiet_copy_CopyGPUServiceDriver h _ _
        | with_reducible exact quiet_copy_CopyPnPDriverFiles h _ _
        | with_reducible exact quiet_copy_CopyNvidiaSpecialFiles h _
        | with_reducible apply quiet_bind
        | with_reducible apply quiet_ite
        | split) ?_
  apply dismountsAtEnd_final
  intro d1 s1
  split <;> rfl

theorem MountVMDisk_mounted {σ : Type} (h : Host σ) (vm : Str) (s : σ)
    (hm : (MountVMDisk h vm s).val.1 ≠ []) :
    (MountVMDisk h vm s).ev = [Event.ps (Cmd.mountDisk vm) (h.exec (Cmd.mountDisk vm) s).1] := by
  revert hm
  simp only [MountVMDisk, run_bind, run_ExecuteWithCheck, run_ite]
  split
  · simp
  · split
    · simp
    · simp

theorem copyAndVerify_verifies {σ : Type} (h : Host σ) (vm d g e : Str) (s : σ) :
    Cmd.verifyDriverFiles d g ∈ commandList (copyAndVerify h vm d g e s).ev := by
  simp [copyAndVerify]

theorem CopyDriverFiles_dismounts {σ : Type} (h : Host σ) (vm : Str) (s : σ)
    (hm : (MountVMDisk h vm s).val.1 ≠ []) :
    DismountsAtEnd h vm (CopyDriverFiles h vm s) := by
  have hmount := MountVMDisk_mounted h vm s hm
  have hpre : ([Event.say (lit "正在挂载虚拟机磁盘...\n")] ++ (MountVMDisk h vm s).ev ++
      [Event.say (lit "虚拟机磁盘已挂载到: " ++ (MountVMDisk h vm s).val.1 ++ lit "\n")] ++
      (resolveGpuName h vm (MountVMDisk h vm s).st).ev).all (sayOr copyCmd) = true := by
    rw [hmount]
    simp only [List.all_append, (quiet_copy_resolveGpuName h vm).all]
    rfl
  by_cases hn : (resolveGpuName h vm (MountVMDisk h vm s).st).val = []
  · refine ⟨_, (resolveGpuName h vm (MountVMDisk h vm s).st).st, ?_, hpre⟩
    simp [CopyDriverFiles, hm, hn, (DismountVMDisk_run h vm _).1]
  · obtain ⟨pre, s1, he, hq⟩ := copyAndVerify_dismounts h vm (MountVMDisk h vm s).val.1
      (resolveGpuName h vm (MountVMDisk h vm s).st).val (MountVMDisk h vm s).val.2
      (resolveGpuName h vm (MountVMDisk h vm s).st).st
    refine ⟨[Event.say (lit "正在挂载虚拟机磁盘...\n")] ++ (MountVMDisk h vm s).ev ++
      [Event.say (lit "虚拟机磁盘已挂载到: " ++ (MountVMDisk h vm s).val.1 ++ lit "\n")] ++
      (resolveGpuName h vm (MountVMDisk h vm s).st).ev ++ pre, s1, ?_, ?_⟩
    · simp [CopyDriverFiles, hm, hn, he]
    · rw [List.all_append, hpre, hq]
      rfl

/-- C14: in every run of `CopyDriverFiles` in which `MountVMDisk` returned a drive letter,
the last event is the command of `DismountVMDisk`, issued to the host; everything before
it is a progress line or a command of the sub-workflow other than a dismount, so the
dismount is issued exactly once and no copy or verification command follows it.  This
holds when no GPU name is found as well as when one is found, in which case the
verification command is among the commands before the dismount. -/
theorem C14_dismount_exactly_once {σ : Type} (h : Host σ) (vm : Str) (s : σ)
    (hm : (MountVMDisk h vm s).val.1 ≠ []) :
    ∃ pre s1,
      (CopyDriverFiles h vm s).ev =
        pre ++ [Event.ps (Cmd.dismountDisk vm) (h.exec (Cmd.dismountDisk vm) s1).1] ∧
      pre.all (sayOr copyCmd) = true ∧
      (∀ vm2, Cmd.dismountDisk vm2 ∉ commandList pre) ∧
      (commandList (CopyDriverFiles h vm s).ev).count (Cmd.dismountDisk vm) = 1 ∧
      ((resolveGpuName h vm (MountVMDisk h vm s).st).val ≠ [] →
        Cmd.verifyDriverFiles (MountVMDisk h vm s).val.1
          (resolveGpuName h vm (MountVMDisk h vm s).st).val ∈ commandList pre) := by
  obtain ⟨pre, s1, he, hq⟩ := CopyDriverFiles_dismounts h vm s hm
  have hall := (sayOr_projections copyCmd pre hq).2.2.2.2
  have hno : ∀ vm2, Cmd.dismountDisk vm2 ∉ commandList pre := by
    intro vm2 hmem
    have := hall _ hmem
    simp [copyCmd] at this
  refine ⟨pre, s1, he, hq, hno, ?_, ?_⟩
  · rw [he, commandList_append, List.count_append, List.count_eq_zero.mpr (hno vm)]
    simp
  · intro hn
    have hv : Cmd.verifyDriverFiles (MountVMDisk h vm s).val.1
        (resolveGpuName h vm (MountVMDisk h vm s).st).val ∈
        commandList (CopyDriverFiles h vm s).ev := by
      have := copyAndVerify_verifies h vm (MountVMDisk h vm s).val.1
        (resolveGpuName h vm (MountVMDisk h vm s).st).val (MountVMDisk h vm s).val.2
        (resolveGpuName h vm (MountVMDisk h vm s).st).st
      simp only [CopyDriverFiles, run_bind, run_say, run_ite, commandList_append]
      simp [hm, hn, this]
    rw [he, commandList_append] at hv
    simpa using hv

/-- C14, at two concrete runs: one in which the GPU is found and one in which no name
lookup finds it; the disk mounts in both and the dismount is the last command of each. -/
theorem C14_dismount_exactly_once_witness :
    (MountVMDisk fineHost (lit "vm") ()).val.1 ≠ [] ∧
    (MountVMDisk noNameHost (lit "vm") ()).val.1 ≠ [] ∧
    (resolveGpuName noNameHost (lit "vm") ()).val = [] ∧
    (commandList (CopyDriverFiles fineHost (lit "vm") ()).ev).count
      (Cmd.dismountDisk (lit "vm")) = 1 ∧
    (commandList (CopyDriverFiles noNameHost (lit "vm") ()).ev).count
      (Cmd.dismountDisk (lit "vm")) = 1 ∧
    (commandList (CopyDriverFiles noNameHost (lit "vm") ()).ev).getLast? =
      some (Cmd.dismountDisk (lit "vm")) :=
  ⟨by decide!, by decide!, by decide!,
    (C14_dismount_exactly_once fineHost (lit "vm") () (by decide!)).elim
      (fun _ hp => hp.elim (fun _ hq => hq.2.2.2.1)),
    (C14_dismount_exactly_once noNameHost (lit "vm") () (by decide!)).elim
      (fun _ hp => hp.elim (fun _ hq => hq.2.2.2.1)),
    by decide!⟩

/-- C15 fails on the code.  When the disk is mounted and no name lookup finds a GPU,
`CopyDriverFiles` stores the message and then passes the same `error` to
`DismountVMDisk`, whose `ExecuteWithCheck` overwrites it: what `CopyDriverFiles` returns
is the error text of the dismount.  On a host on which the dismount succeeds this text is
empty, and the line `ConfigureGPUPV` reports is `错误: ` with nothing after it. -/
theorem C15_error_message_lost :
    (∀ (σ : Type) (h : Host σ) (vm : Str) (s : σ), (MountVMDisk h vm s).val.1 ≠ [] →
      (resolveGpuName h vm (MountVMDisk h vm s).st).val = [] →
      (CopyDriverFiles h vm s).val =
        (false, (DismountVMDisk h vm (resolveGpuName h vm (MountVMDisk h vm s).st).st).val.2)) ∧
    (resolveGpuName noNameHost (lit "vm") ()).val = [] ∧
    (CopyDriverFiles noNameHost (lit "vm") ()).val = (false, []) ∧
    noGpuNameMessage ≠ [] ∧
    (ConfigureGPUPV noNameHost (lit "vm") (lit "gpu") (lit "path") [] 4096 ()).val = some false ∧
    Event.say (lit "错误: \n") ∈
      (ConfigureGPUPV noNameHost (lit "vm") (lit "gpu") (lit "path") [] 4096 ()).ev ∧
    Event.say (lit "错误: " ++ noGpuNameMessage ++ lit "\n") ∉
      (ConfigureGPUPV noNameHost (lit "vm") (lit "gpu") (lit "path") [] 4096 ()).ev := by
  refine ⟨?_, by decide!, by decide!, by decide!, by decide!, by decide!, by decide!⟩
  intro σ h vm s hm hn
  simp [CopyDriverFiles, hm, hn]

/-! ### Two runs that differ in the replies to best-effort commands -/

section Sim
variable {σ1 σ2 α β : Type} {R : σ1 → σ2 → Prop}

@[simp] theorem steps_nil : steps [] = [] := rfl

@[simp] theorem steps_append (l1 l2 : List Event) : steps (l1 ++ l2) = steps l1 ++ steps l2 := by
  simp [steps]

theorem sim_pure (a : α) : Sim R Eq (pure a : Exec σ1 α) (pure a : Exec σ2 α) :=
  ⟨fun _ _ hR => ⟨hR, rfl, rfl⟩⟩

theorem sim_bind {Q : β → β → Prop} {m1 : Exec σ1 α} {m2 : Exec σ2 α}
    {f1 : α → Exec σ1 β} {f2 : α → Exec σ2 β}
    (hm : Sim R Eq m1 m2) (hf : ∀ a, Sim R Q (f1 a) (f2 a)) :
    Sim R Q (m1 >>= f1) (m2 >>= f2) := by
  constructor
  intro s1 s2 hR
  obtain ⟨a1, a2, a3⟩ := hm.run s1 s2 hR
  obtain ⟨b1, b2, b3⟩ := (hf (m1 s1).val).run _ _ a1
  simp only [run_bind, steps_append]
  rw [← a3]
  exact ⟨b1, by rw [a2, b2], b3⟩

theorem sim_bind_any {Q : β → β → Prop} {m1 : Exec σ1 α} {m2 : Exec σ2 α}
    {f1 : α → Exec σ1 β} {f2 : α → Exec σ2 β}
    (hm : Sim R anyTwo m1 m2) (hf : ∀ a b, Sim R Q (f1 a) (f2 b)) :
    Sim R Q (m1 >>= f1) (m2 >>= f2) := by
  constructor
  intro s1 s2 hR
  obtain ⟨a1, a2, -⟩ := hm.run s1 s2 hR
  obtain ⟨b1, b2, b3⟩ := (hf (m1 s1).val (m2 s2).val).run _ _ a1
  simp only [run_bind, steps_append]
  exact ⟨b1, by rw [a2, b2], b3⟩

theorem sim_ite {Q : α → α → Prop} {c : Prop} [Decidable c] {a1 b1 : Exec σ1 α}
    {a2 b2 : Exec σ2 α} (ha : Sim R Q a1 a2) (hb : Sim R Q b1 b2) :
    Sim R Q (if c then a1 else b1) (if c then a2 else b2) := by
  split <;> assumption

theorem sim_emit (e : Event) : Sim R Eq (emit e : Exec σ1 Unit) (emit e : Exec σ2 Unit) :=
  ⟨fun _ _ hR => ⟨hR, rfl, rfl⟩⟩

theorem sim_say (msg : Str) : Sim R Eq (say msg : Exec σ1 Unit) (say msg : Exec σ2 Unit) :=
  sim_emit _

theorem sim_weaken {Q : α → α → Prop} {m1 : Exec σ1 α} {m2 : Exec σ2 α}
    (hQ : ∀ a, Q a a) (hm : Sim R Eq m1 m2) : Sim R Q m1 m2 := by
  constructor
  intro s1 s2 hR
  obtain ⟨a1, a2, a3⟩ := hm.run s1 s2 hR
  exact ⟨a1, a2, by rw [a3]; exact hQ _⟩

variable {h1 : Host σ1} {h2 : Host σ2}

theorem sim_check (hal : Alike R h1 h2) (c : Cmd) (hc : bestEffort c = false) :
    Sim R Eq (ExecuteWithCheck h1 c) (ExecuteWithCheck h2 c) := by
  constructor
  intro s1 s2 hR
  simp only [run_ExecuteWithCheck]
  rw [hal.exec_reply c s1 s2 hR hc]
  exact ⟨hal.exec_st c s1 s2 hR, rfl, rfl⟩

theorem sim_execute (hal : Alike R h1 h2) (c : Cmd) (hc : bestEffort c = false) :
    Sim R Eq (Execute h1 c) (Execute h2 c) := by
  constructor
  intro s1 s2 hR
  simp only [run_Execute]
  rw [hal.exec_reply c s1 s2 hR hc]
  exact ⟨hal.exec_st c s1 s2 hR, rfl, rfl⟩

theorem sim_execute_any (hal : Alike R h1 h2) (c : Cmd) (hc : bestEffort c = true) :
    Sim R anyTwo (Execute h1 c) (Execute h2 c) := by
  constructor
  intro s1 s2 hR
  simp only [run_Execute]
  exact ⟨hal.exec_st c s1 s2 hR, by simp [steps, blank, hc], trivial⟩

theorem sim_sayLines (l : List Str) :
    Sim R Eq (sayLines l : Exec σ1 Unit) (sayLines l : Exec σ2 Unit) := by
  induction l with
  | nil => exact sim_pure _
  | cons x xs ih =>
    unfold sayLines
    exact sim_bind (sim_ite (sim_say _) (sim_pure _)) (fun _ => ih)

theorem sim_sayCopied (l : List Str) :
    Sim R Eq (sayCopied l : Exec σ1 Unit) (sayCopied l : Exec σ2 Unit) := by
  induction l with
  | nil => exact sim_pure _
  | cons x xs ih =>
    unfold sayCopied
    exact sim_bind (sim_ite (sim_say _) (sim_pure _)) (fun _ => ih)

theorem sim_sayVerified (l : List Str) :
    Sim R Eq (sayVerified l : Exec σ1 Unit) (sayVerified l : Exec σ2 Unit) := by
  induction l with
  | nil => exact sim_pure _
  | cons x xs ih =>
    unfold sayVerified
    exact sim_bind (sim_ite (sim_say _) (sim_ite (sim_say _) (sim_pure _))) (fun _ => ih)

theorem sim_AddGPUPartitionAdapter (hal : Alike R h1 h2) (vm path : Str) :
    Sim R Eq (AddGPUPartitionAdapter h1 vm path) (AddGPUPartitionAdapter h2 vm path) := by
  unfold AddGPUPartitionAdapter
  repeat first
    | rfl
    | intro _
    | with_reducible exact sim_pure _
    | with_reducible refine sim_check hal _ ?_
    | with_reducible apply sim_bind
    | with_reducible apply sim_ite

theorem sim_configureLoop (hal : Alike R h1 h2) (vm : Str) (n : Nat) (ts : List Str) :
    ∀ err, Sim R Eq (configureLoop h1 vm n ts err) (configureLoop h2 vm n ts err) := by
  induction ts with
  | nil => intro err; exact sim_pure _
  | cons t ts ih =>
    intro err
    unfold configureLoop
    exact sim_bind (sim_check hal _ rfl) (fun _ => sim_ite (sim_pure _) (ih _))

theorem sim_ConfigureGPUResources (hal : Alike R h1 h2) (vm : Str) (n : Nat) (err : Str) :
    Sim R Eq (ConfigureGPUResources h1 vm n err) (ConfigureGPUResources h2 vm n err) :=
  sim_configureLoop hal vm n resourceTypes err

theorem sim_EnableGuestControlledCacheTypes (hal : Alike R h1 h2) (vm : Str) :
    Sim R Eq (EnableGuestControlledCacheTypes h1 vm) (EnableGuestControlledCacheTypes h2 vm) := by
  unfold EnableGuestControlledCacheTypes
  repeat first
    | rfl
    | intro _
    | with_reducible exact sim_pure _
    | with_reducible refine sim_check hal _ ?_
    | with_reducible apply sim_bind
    | with_reducible apply sim_ite

theorem sim_ConfigureMMIOSpace (hal : Alike R h1 h2) (vm : Str) :
    Sim R Eq (ConfigureMMIOSpace h1 vm) (ConfigureMMIOSpace h2 vm) := by
  unfold ConfigureMMIOSpace
  repeat first
    | rfl
    | intro _
    | with_reducible exact sim_pure _
    | with_reducible refine sim_check hal _ ?_
    | with_reducible apply sim_bind
    | with_reducible apply sim_ite

theorem sim_DismountVMDisk (hal : Alike R h1 h2) (vm : Str) :
    Sim R Eq (DismountVMDisk h1 vm) (DismountVMDisk h2 vm) := by
  unfold DismountVMDisk
  repeat first
    | rfl
    | intro _
    | with_reducible exact sim_pure _
    | with_reducible refine sim_check hal _ ?_
    | with_reducible apply sim_bind
    | with_reducible apply sim_ite

theorem sim_MountVMDisk (hal : Alike R h1 h2) (vm : Str) :
    Sim R Eq (MountVMDisk h1 vm) (MountVMDisk h2 vm) := by
  unfold MountVMDisk
  repeat first
    | rfl
    | intro _
    | with_reducible exact sim_pure _
    | with_reducible refine sim_check hal _ ?_
    | with_reducible exact sim_DismountVMDisk hal _
    | with_reducible apply sim_bind
    | with_reducible apply sim_ite

theorem sim_resolveGpuName (hal : Alike R h1 h2) (vm : Str) :
    Sim R Eq (resolveGpuName h1 vm) (resolveGpuName h2 vm) := by
  unfold resolveGpuName
  repeat first
    | rfl
    | intro _
    | with_reducible exact sim_pure _
    | with_reducible exact sim_say _
    | with_reducible refine sim_execute hal _ ?_
    | with_reducible apply sim_bind
    | with_reducible apply sim_ite

theorem sim_CopyGPUServiceDriver (hal : Alike R h1 h2) (g d : Str) :
    Sim R Eq (CopyGPUServiceDriver h1 g d) (CopyGPUServiceDriver h2 g d) := by
  unfold CopyGPUServiceDriver
  repeat first
    | rfl
    | intro _
    | with_reducible exact sim_pure _
    | with_reducible exact sim_say _
    | with_reducible exact sim_sayLines _
    | with_reducible refine sim_check hal _ ?_
    | with_reducible apply sim_bind
    | with_reducible apply sim_ite

theorem sim_CopyPnPDriverFiles (hal : Alike R h1 h2) (g d : Str) :
    Sim R Eq (CopyPnPDriverFiles h1 g d) (CopyPnPDriverFiles h2 g d) := by
  unfold CopyPnPDriverFiles
  repeat first
    | rfl
    | intro _
    | with_reducible exact sim_pure _
    | with_reducible exact sim_say _
    | with_reducible exact sim_sayCopied _
    | with_reducible refine sim_check hal _ ?_
    | with_reducible apply sim_bind
    | with_reducible apply sim_ite

theorem sim_CopyNvidiaSpecialFiles (hal : Alike R h1 h2) (d : Str) :
    Sim R Eq (CopyNvidiaSpecialFiles h1 d) (CopyNvidiaSpecialFiles h2 d) := by
  unfold CopyNvidiaSpecialFiles
  repeat first
    | rfl
    | intro _
    | with_reducible exact sim_pure _
    | with_reducible refine sim_execute hal _ ?_
    | with_reducible apply sim_bind

theorem sim_copyAndVerify (hal : Alike R h1 h2) (vm d g e : Str) :
    Sim R Eq (copyAndVerify h1 vm d g e) (copyAndVerify h2 vm d g e) := by
  unfold copyAndVerify
  repeat first
    | rfl
    | intro _
    | with_reducible exact sim_pure _
    | with_reducible exact sim_say _
    | with_reducible exact sim_sayVerified _
    | with_reducible refine sim_execute hal _ ?_
    | with_reducible exact sim_CopyGPUServiceDriver hal _ _
    | with_reducible exact sim_CopyPnPDriverFiles hal _ _
    | with_reducible exact sim_CopyNvidiaSpecialFiles hal _
    | with_reducible exact sim_DismountVMDisk hal _
    | with_reducible apply sim_bind
    | with_reducible apply sim_ite

theorem sim_CopyDriverFiles (hal : Alike R h1 h2) (vm : Str) :
    Sim R Eq (CopyDriverFiles h1 vm) (CopyDriverFiles h2 vm) := by
  unfold CopyDriverFiles
  repeat first
    | rfl
    | intro _
    | with_reducible exact sim_pure _
    | with_reducible exact sim_say _
    | with_reducible exact sim_MountVMDisk hal _
    | with_reducible exact sim_resolveGpuName hal _
    | with_reducible exact sim_copyAndVerify hal _ _ _ _
    | with_reducible exact sim_DismountVMDisk hal _
    | with_reducible apply sim_bind
    | with_reducible apply sim_ite

theorem sim_GetVMState (hal : Alike R h1 h2) (vm : Str) :
    Sim R Eq (GetVMState h1 vm) (GetVMState h2 vm) := by
  unfold GetVMState
  exact sim_bind (sim_execute hal _ rfl) (fun _ => sim_pure _)

theorem sim_BackupState (hal : Alike R h1 h2) (vm : Str) :
    Sim R Eq (BackupState h1 vm) (BackupState h2 vm) := by
  unfold BackupState
  exact sim_bind (sim_execute hal _ rfl) (fun _ =>
    sim_bind (sim_execute hal _ rfl) (fun _ => sim_bind (sim_emit _) (fun _ => sim_pure _)))

theorem sim_StopVM (hal : Alike R h1 h2) (vm err : Str) :
    Sim R Eq (StopVM h1 vm err) (StopVM h2 vm err) := by
  have hw : Sim R Eq (StopVMViaWMI h1 vm) (StopVMViaWMI h2 vm) := by
    constructor
    intro s1 s2 hR
    simp only [StopVMViaWMI]
    rw [hal.wmi_reply vm s1 s2 hR]
    exact ⟨hal.wmi_st vm s1 s2 hR, rfl, rfl⟩
  have hp : Sim R Eq (StopVMViaPowerShell h1 vm) (StopVMViaPowerShell h2 vm) := by
    unfold StopVMViaPowerShell
    exact sim_bind (sim_check hal _ rfl) (fun _ => sim_ite (sim_pure _) (sim_pure _))
  unfold StopVM
  refine sim_bind hw (fun w => ?_)
  cases w with
  | threw => exact hp
  | returned ok e => exact sim_pure _

theorem sim_RestoreState (hal : Alike R h1 h2) (vm : Str) (b : GPUPVBackup) :
    Sim R Eq (RestoreState h1 vm b) (RestoreState h2 vm b) := by
  unfold RestoreState
  refine sim_bind (sim_emit _) (fun _ => sim_bind_any (sim_execute_any hal _ rfl) (fun _ _ => ?_))
  refine sim_bind ?_ (fun _ => sim_bind (sim_say _) (fun _ =>
    sim_bind (sim_execute hal _ (by cases b.bGuestControlledCacheTypes <;> rfl))
      (fun _ => sim_pure _)))
  refine sim_ite ?_ (sim_pure _)
  refine sim_bind (sim_say _) (fun _ =>
    sim_bind (sim_AddGPUPartitionAdapter hal _ _) (fun a => ?_))
  refine sim_ite (sim_ite ?_ (sim_pure _)) (sim_say _)
  exact sim_bind (sim_ConfigureGPUResources hal _ _ _) (fun _ => sim_pure _)

theorem sim_rollBack (hal : Alike R h1 h2) (vm : Str) (b : GPUPVBackup) (err : Str) :
    Sim R Eq (rollBack h1 vm b err) (rollBack h2 vm b err) := by
  unfold rollBack
  exact sim_bind (sim_say _) (fun _ => sim_bind (sim_say _) (fun _ =>
    sim_bind (sim_RestoreState hal vm b) (fun _ => sim_pure _)))

theorem sim_disableBranch (hal : Alike R h1 h2) (vm : Str) (b : GPUPVBackup) :
    Sim R Eq (disableBranch h1 vm b) (disableBranch h2 vm b) := by
  unfold disableBranch
  refine sim_bind (sim_say _) (fun _ => sim_bind (sim_say _) (fun _ =>
    sim_bind (sim_check hal _ rfl) (fun r => sim_ite ?_ ?_)))
  · exact sim_bind (sim_say _) (fun _ =>
      sim_bind (sim_RestoreState hal vm b) (fun _ => sim_pure _))
  · exact sim_bind (sim_say _) (fun _ => sim_pure _)

/-- What `VerifyGPUDeviceInVM` leaves: its one command, and progress lines. -/
theorem VerifyGPUDeviceInVM_run {σ : Type} (h : Host σ) (vm g : Str) (s : σ) :
    steps (VerifyGPUDeviceInVM h vm g s).ev =
        [Event.ps (Cmd.verifyDeviceInVM vm (gpuCoreName g)) ⟨true, [], []⟩] ∧
      (VerifyGPUDeviceInVM h vm g s).st = (h.exec (Cmd.verifyDeviceInVM vm (gpuCoreName g)) s).2 := by
  simp only [VerifyGPUDeviceInVM, run_bind, run_Execute]
  generalize (h.exec (Cmd.verifyDeviceInVM vm (gpuCoreName g)) s).1 = r
  generalize (h.exec (Cmd.verifyDeviceInVM vm (gpuCoreName g)) s).2 = s2
  cases f1 : find (lit "DEVICE_OK:") r.output with
  | some pos => exact ⟨rfl, rfl⟩
  | none =>
    cases f2 : find (lit "DEVICE_ERROR:") r.output with
    | some pos =>
      simp only [run_ite]
      split <;> exact ⟨rfl, rfl⟩
    | none =>
      simp only [run_ite]
      split
      · exact ⟨rfl, rfl⟩
      · split <;> exact ⟨rfl, rfl⟩

theorem sim_VerifyGPUDeviceInVM (hal : Alike R h1 h2) (vm g : Str) :
    Sim R anyTwo (VerifyGPUDeviceInVM h1 vm g) (VerifyGPUDeviceInVM h2 vm g) := by
  constructor
  intro s1 s2 hR
  obtain ⟨e1, t1⟩ := VerifyGPUDeviceInVM_run h1 vm g s1
  obtain ⟨e2, t2⟩ := VerifyGPUDeviceInVM_run h2 vm g s2
  rw [e1, e2, t1, t2]
  exact ⟨hal.exec_st _ s1 s2 hR, rfl, trivial⟩

theorem agree_refl (v : Option Bool) : agree v v := fun _ _ => rfl

/-- After the verification only progress lines follow, and the result is true unless the
verification threw. -/
theorem sim_afterVerify (v1 v2 : Option Bool) :
    Sim R agree
      (match v1 with
        | none => (pure none : Exec σ1 (Option Bool))
        | some true => do
          say (lit "设备验证通过：GPU在虚拟机中已正确识别\n")
          say (lit "GPU-PV配置成功完成！\n")
          pure (some true)
        | some false => do
          say (lit "警告：无法验证设备状态（可能需要手动检查设备管理器）\n")
          say (lit "GPU-PV配置成功完成！\n")
          pure (some true))
      (match v2 with
        | none => (pure none : Exec σ2 (Option Bool))
        | some true => do
          say (lit "设备验证通过：GPU在虚拟机中已正确识别\n")
          say (lit "GPU-PV配置成功完成！\n")
          pure (some true)
        | some false => do
          say (lit "警告：无法验证设备状态（可能需要手动检查设备管理器）\n")
          say (lit "GPU-PV配置成功完成！\n")
          pure (some true)) := by
  constructor
  intro s1 s2 hR
  rcases v1 with _ | _ | _ <;> rcases v2 with _ | _ | _ <;>
    exact ⟨hR, rfl, by simp [agree]⟩

theorem sim_checkVMState (hal : Alike R h1 h2) (vm g : Str) :
    Sim R agree (checkVMState h1 vm g) (checkVMState h2 vm g) := by
  unfold checkVMState
  refine sim_bind (sim_say _) (fun _ => sim_bind (sim_GetVMState hal vm) (fun st => ?_))
  refine sim_ite ?_ ?_
  · exact sim_bind (sim_say _) (fun _ =>
      sim_bind_any (sim_VerifyGPUDeviceInVM hal vm g) (fun v1 v2 => sim_afterVerify v1 v2))
  · exact sim_weaken agree_refl
      (sim_bind (sim_say _) (fun _ => sim_bind (sim_say _) (fun _ => sim_pure _)))

theorem sim_attempt (hal : Alike R h1 h2) (vm : Str) (b : GPUPVBackup) (st : Step)
    {run1 : Exec σ1 (Bool × Str)} {run2 : Exec σ2 (Bool × Str)}
    {next1 : Str → Exec σ1 (Option Bool)} {next2 : Str → Exec σ2 (Option Bool)}
    (hrun : Sim R Eq run1 run2) (hnext : ∀ e, Sim R agree (next1 e) (next2 e)) :
    Sim R agree (attempt h1 vm b st run1 next1) (attempt h2 vm b st run2 next2) := by
  unfold attempt
  refine sim_bind (sim_say _) (fun _ => sim_bind hrun (fun r =>
    sim_bind (sim_emit _) (fun _ => sim_ite ?_ ?_)))
  · exact sim_weaken agree_refl (sim_rollBack hal vm b _)
  · exact sim_bind (sim_say _) (fun _ => hnext _)

theorem sim_enableBranch (hal : Alike R h1 h2) (vm g path : Str) (vramMB : Int)
    (b : GPUPVBackup) :
    Sim R agree (enableBranch h1 vm g path vramMB b) (enableBranch h2 vm g path vramMB b) := by
  rw [enableBranch_chain, enableBranch_chain]
  exact sim_attempt hal vm b _ (sim_AddGPUPartitionAdapter hal _ _) (fun _ =>
    sim_attempt hal vm b _ (sim_ConfigureGPUResources hal _ _ _) (fun _ =>
    sim_attempt hal vm b _ (sim_EnableGuestControlledCacheTypes hal _) (fun _ =>
    sim_attempt hal vm b _ (sim_ConfigureMMIOSpace hal _) (fun _ =>
    sim_attempt hal vm b _ (sim_CopyDriverFiles hal _) (fun _ =>
    sim_checkVMState hal vm g)))))

theorem sim_ConfigureGPUPV (hal : Alike R h1 h2) (vm g path drv : Str) (vramMB : Int) :
    Sim R agree (ConfigureGPUPV h1 vm g path drv vramMB) (ConfigureGPUPV h2 vm g path drv vramMB) := by
  unfold ConfigureGPUPV
  refine sim_bind (sim_say _) (fun _ => sim_bind (sim_StopVM hal vm []) (fun stop =>
    sim_ite ?_ ?_))
  · exact sim_weaken agree_refl (sim_bind (sim_say _) (fun _ => sim_pure _))
  · refine sim_bind (sim_say _) (fun _ => sim_bind (sim_say _) (fun _ =>
      sim_bind_any (sim_execute_any hal _ rfl) (fun _ _ =>
      sim_bind (sim_say _) (fun _ => sim_bind (sim_BackupState hal vm) (fun b =>
      sim_bind (sim_say _) (fun _ => sim_bind_any (sim_execute_any hal _ rfl) (fun _ _ =>
      sim_ite ?_ ?_)))))))
    · exact sim_weaken agree_refl (sim_disableBranch hal vm b)
    · exact sim_enableBranch hal vm g path vramMB b

end Sim


theorem alike_scripted (f1 f2 : Cmd → Reply) (w : WmiResult)
    (hf : ∀ c, bestEffort c = false → f1 c = f2 c) :
    Alike (fun _ _ => True) (scripted f1 w) (scripted f2 w) :=
  ⟨fun _ _ _ _ => trivial, fun c _ _ _ hc => hf c hc, fun _ _ _ _ => trivial,
    fun _ _ _ _ => rfl⟩

/-! ## Searching a string -/

theorem isPrefixOf_iff (p s : Str) : p.isPrefixOf s = true ↔ p <+: s := by
  simp [ List.isPrefixOf_iff_prefix]

/-- What `find` returns is an offset at which the pattern occurs. -/
theorem find_some_at (pat : Str) : ∀ (s : Str) (i : Nat), find pat s = some i →
    pat <+: s.drop i := by
  intro s
  induction s with
  | nil =>
    intro i h
    simp only [find] at h
    split at h
    · simp_all
    · simp at h
  | cons c cs ih =>
    intro i h
    simp only [find] at h
    split at h
    · rename_i hp
      cases h
      simpa using (isPrefixOf_iff _ _).mp hp
    · cases hf : find pat cs with
      | none => simp [hf] at h
      | some j =>
        simp [hf] at h
        subst h
        simpa using ih j hf

/-- The pattern occurs at no offset before the one `find` returns. -/
theorem find_some_least (pat : Str) : ∀ (s : Str) (i : Nat), find pat s = some i →
    ∀ j, j < i → ¬ pat <+: s.drop j := by
  intro s
  induction s with
  | nil =>
    intro i h j hj
    simp only [find] at h
    split at h
    · cases h; omega
    · simp at h
  | cons c cs ih =>
    intro i h j hj
    simp only [find] at h
    split at h
    · cases h; omega
    · rename_i hp
      cases hf : find pat cs with
      | none => simp [hf] at h
      | some k =>
        simp [hf] at h
        subst h
        cases j with
        | zero =>
          intro hpre
          exact hp ((isPrefixOf_iff _ _).mpr (by simpa using hpre))
        | succ j =>
          simpa using ih k hf j (by omega)

/-- Without an occurrence, `find` returns `npos`, and conversely. -/
theorem find_eq_none_iff (pat : Str) : ∀ s : Str, find pat s = none ↔ ¬ pat <:+: s := by
  intro s
  induction s with
  | nil =>
    simp only [find]
    cases pat <;> simp
  | cons c cs ih =>
    simp only [find]
    split
    · rename_i hp
      simp only [reduceCtorEq, false_iff, not_not]
      exact ((isPrefixOf_iff _ _).mp hp).isInfix
    · rename_i hp
      rw [Option.map_eq_none', ih]
      constructor
      · intro hno hin
        rw [List.infix_cons_iff] at hin
        rcases hin with hin | hin
        · exact hp ((isPrefixOf_iff _ _).mpr hin)
        · exact hno hin
      · intro hno hin
        exact hno (List.infix_cons hin)

theorem contains_iff (s pat : Str) : contains s pat = true ↔ pat <:+: s := by
  unfold contains
  rw [← not_iff_not, ← find_eq_none_iff]
  cases find pat s <;> simp

/-- When the first char of the pattern does not occur in `pre`, the first occurrence of
the pattern in `pre ++ pat ++ rest` is right after `pre`. -/
theorem find_after (c : Char) (p rest : Str) : ∀ pre : Str, c ∉ pre →
    find (c :: p) (pre ++ c :: (p ++ rest)) = some pre.length := by
  intro pre
  induction pre with
  | nil =>
    intro _
    simp [find]
  | cons x xs ih =>
    intro hx
    simp only [List.mem_cons, not_or] at hx
    have hne : ¬ (c = x) := hx.1
    have h2 := ih hx.2
    have hnp : (c :: p).isPrefixOf (x :: (xs ++ c :: (p ++ rest))) = false := by
      simp [List.isPrefixOf, hne]
    show find (c :: p) (x :: (xs ++ c :: (p ++ rest))) = _
    rw [find, if_neg (by simp [hnp]), h2]
    rfl

theorem find_char_none (c : Char) : ∀ s : Str, c ∉ s → find [c] s = none := by
  intro s hs
  rw [find_eq_none_iff]
  intro hin
  exact hs (hin.subset (List.mem_singleton_self c))

/-! ## The hardware id -/

/-- The text after the marker holds `VEN_` v `&DEV_` d, found by the two searches, with no
`&` in `d`, and then ends or goes on with `&`: the result is `VEN_` v `&DEV_` d. -/
theorem vendorDevice_form (A v d tail : Str)
    (hven : find (lit "VEN_") (A ++ (lit "VEN_" ++ (v ++ (lit "&DEV_" ++ (d ++ tail))))) =
      some A.length)
    (hdev : find (lit "&DEV_") (A ++ (lit "VEN_" ++ (v ++ (lit "&DEV_" ++ (d ++ tail))))) =
      some (A.length + 4 + v.length))
    (hd : '&' ∉ d) (ht : tail = [] ∨ ∃ t, tail = '&' :: t) :
    vendorDevice (A ++ (lit "VEN_" ++ (v ++ (lit "&DEV_" ++ (d ++ tail))))) =
      lit "VEN_" ++ (v ++ (lit "&DEV_" ++ d)) := by
  have hdrop : (A ++ (lit "VEN_" ++ (v ++ (lit "&DEV_" ++ (d ++ tail))))).drop
      (A.length + 4 + v.length + 1) = lit "DEV_" ++ (d ++ tail) := by
    have : A ++ (lit "VEN_" ++ (v ++ (lit "&DEV_" ++ (d ++ tail)))) =
        (A ++ (lit "VEN_" ++ (v ++ ['&']))) ++ (lit "DEV_" ++ (d ++ tail)) := by simp
    rw [this]
    exact List.drop_left' (by simp; omega)
  have hdropA : (A ++ (lit "VEN_" ++ (v ++ (lit "&DEV_" ++ (d ++ tail))))).drop A.length =
      lit "VEN_" ++ (v ++ (lit "&DEV_" ++ (d ++ tail))) := List.drop_left' rfl
  have hle : A.length + 4 + v.length + 1 ≤
      (A ++ (lit "VEN_" ++ (v ++ (lit "&DEV_" ++ (d ++ tail))))).length := by
    simp; omega
  have hno : '&' ∉ lit "DEV_" ++ d := by
    simp only [List.mem_append, not_or]
    exact ⟨by decide, hd⟩
  unfold vendorDevice
  rw [hven, hdev]
  simp only [findFrom, hle, if_true, hdrop]
  rcases ht with rfl | ⟨t, rfl⟩
  · have hnone : find (lit "&") (lit "DEV_" ++ (d ++ [])) = none := by
      rw [List.append_nil]
      exact find_char_none _ _ hno
    rw [hnone]
    simp only [Option.map_none']
    rw [hdropA]
    simp
  · have hsome : find (lit "&") (lit "DEV_" ++ (d ++ '&' :: t)) = some (lit "DEV_" ++ d).length := by
      have := find_after '&' [] t (lit "DEV_" ++ d) hno
      simpa using this
    rw [hsome]
    simp only [Option.map_some']
    have hsz : sizeDiff ((lit "DEV_" ++ d).length + (A.length + 4 + v.length + 1)) A.length =
        (lit "VEN_" ++ (v ++ (lit "&DEV_" ++ d))).length := by
      unfold sizeDiff
      rw [if_pos (by omega)]
      simp
      omega
    rw [hsz]
    unfold substr
    rw [hdropA]
    have : lit "VEN_" ++ (v ++ (lit "&DEV_" ++ (d ++ '&' :: t))) =
        (lit "VEN_" ++ (v ++ (lit "&DEV_" ++ d))) ++ '&' :: t := by simp
    rw [this]
    exact List.take_left' rfl

theorem pciMarker_eq (pnp : Str) (p : Nat) :
    pciMarker pnp = some p ↔
      (find (lit "PCI\\") pnp = some p ∨
        (find (lit "PCI\\") pnp = none ∧ find (lit "PCI#") pnp = some p)) := by
  unfold pciMarker
  cases find (lit "PCI\\") pnp <;> simp

theorem ExtractHardwareID_of_marker (pnp : Str) (p : Nat) (hp : pciMarker pnp = some p) :
    ExtractHardwareID pnp = vendorDevice (pnp.drop (p + 4)) := by
  simp [ExtractHardwareID, hp]

/-- C16: when the marker `ExtractHardwareID` selects (the first `PCI\`, and without one
the first `PCI#`), at offset `p`, is immediately followed by `VEN_` v `&DEV_` d, with no
`&` in `v` or in `d`, and the input then ends or goes on with `&`, the result is exactly
`VEN_` v `&DEV_` d. -/
theorem C16_vendor_device_pair (pnp v d tail : Str) (p : Nat)
    (hp : find (lit "PCI\\") pnp = some p ∨
      (find (lit "PCI\\") pnp = none ∧ find (lit "PCI#") pnp = some p))
    (hform : pnp.drop (p + 4) = lit "VEN_" ++ v ++ lit "&DEV_" ++ d ++ tail)
    (hv : '&' ∉ v) (hd : '&' ∉ d) (ht : tail = [] ∨ ∃ t, tail = '&' :: t) :
    ExtractHardwareID pnp = lit "VEN_" ++ v ++ lit "&DEV_" ++ d := by
  rw [ExtractHardwareID_of_marker pnp p ((pciMarker_eq pnp p).mpr hp), hform]
  have hven : find (lit "VEN_") ([] ++ (lit "VEN_" ++ (v ++ (lit "&DEV_" ++ (d ++ tail))))) =
      some ([] : Str).length := by
    simp [find]
  have hdev : find (lit "&DEV_") ([] ++ (lit "VEN_" ++ (v ++ (lit "&DEV_" ++ (d ++ tail))))) =
      some (([] : Str).length + 4 + v.length) := by
    have hno : '&' ∉ lit "VEN_" ++ v := by
      simp only [List.mem_append, not_or]
      exact ⟨by decide, hv⟩
    have h3 := find_after '&' (lit "DEV_") (d ++ tail) (lit "VEN_" ++ v) hno
    have e : (lit "VEN_" ++ v).length = ([] : Str).length + 4 + v.length := by
      simp
      omega
    rw [List.append_assoc, e] at h3
    exact h3
  have := vendorDevice_form [] v d tail hven hdev hd ht
  simpa using this

/-- C16, at the input of the specification: `\\?\PCI#VEN_10DE&DEV_28A1&SUBSYS_00000000`
gives `VEN_10DE&DEV_28A1`. -/
theorem C16_vendor_device_pair_witness :
    (find (lit "PCI\\") (lit "\\\\?\\PCI#VEN_10DE&DEV_28A1&SUBSYS_00000000") = none ∧
      find (lit "PCI#") (lit "\\\\?\\PCI#VEN_10DE&DEV_28A1&SUBSYS_00000000") = some 4) ∧
    ExtractHardwareID (lit "\\\\?\\PCI#VEN_10DE&DEV_28A1&SUBSYS_00000000") =
      lit "VEN_10DE&DEV_28A1" :=
  ⟨by decide,
    C16_vendor_device_pair (lit "\\\\?\\PCI#VEN_10DE&DEV_28A1&SUBSYS_00000000") (lit "10DE")
      (lit "28A1") (lit "&SUBSYS_00000000") 4 (Or.inr (by decide)) (by decide) (by decide)
      (by decide) (Or.inr ⟨lit "SUBSYS_00000000", rfl⟩)⟩

/-- C17: `ExtractHardwareID` returns the empty string when the input contains neither
`PCI\` nor `PCI#`, and when the text after the selected marker (the first `PCI\`, and
without one the first `PCI#`) does not contain `VEN_` or does not contain `&DEV_`. -/
theorem C17_empty_without_marker_or_pair (pnp : Str) :
    (¬ lit "PCI\\" <:+: pnp → ¬ lit "PCI#" <:+: pnp → ExtractHardwareID pnp = []) ∧
    (∀ p, (find (lit "PCI\\") pnp = some p ∨
        (find (lit "PCI\\") pnp = none ∧ find (lit "PCI#") pnp = some p)) →
      (¬ lit "VEN_" <:+: pnp.drop (p + 4) ∨ ¬ lit "&DEV_" <:+: pnp.drop (p + 4)) →
      ExtractHardwareID pnp = []) := by
  constructor
  · intro h1 h2
    have e1 := (find_eq_none_iff _ _).mpr h1
    have e2 := (find_eq_none_iff _ _).mpr h2
    unfold ExtractHardwareID pciMarker
    rw [e1, e2]
  · intro p hp hno
    rw [ExtractHardwareID_of_marker pnp p ((pciMarker_eq pnp p).mpr hp)]
    unfold vendorDevice
    rcases hno with hno | hno
    · rw [(find_eq_none_iff _ _).mpr hno]
    · rw [(find_eq_none_iff _ _).mpr hno]
      cases find (lit "VEN_") (List.drop (p + 4) pnp) <;> rfl

/-! ## The result of a run with best-effort replies -/

/-- An output that holds a line of the script for a device that is not healthy is
receivable. -/
theorem deviceErrorLine_receivable (pre status name post : Str) :
    Receivable (pre ++ deviceErrorLine status name ++ post) :=
  fun _ => ⟨pre, status, name, post, rfl⟩

/-- An output without the marker is receivable. -/
theorem receivable_of_no_marker (output : Str)
    (h : find (lit "DEVICE_ERROR:") output = none) : Receivable output :=
  fun hin => absurd hin ((find_eq_none_iff _ _).mp h)

/-- On a receivable output `VerifyGPUDeviceInVM` returns. -/
theorem VerifyGPUDeviceInVM_returns {σ : Type} (h : Host σ) (vm g : Str) (s : σ)
    (hv : Receivable (h.exec (Cmd.verifyDeviceInVM vm (gpuCoreName g)) s).1.output) :
    (VerifyGPUDeviceInVM h vm g s).val ≠ none := by
  revert hv
  simp only [VerifyGPUDeviceInVM, run_bind, run_Execute]
  generalize (h.exec (Cmd.verifyDeviceInVM vm (gpuCoreName g)) s).1 = r
  generalize (h.exec (Cmd.verifyDeviceInVM vm (gpuCoreName g)) s).2 = s2
  intro hv
  cases f1 : find (lit "DEVICE_OK:") r.output with
  | some pos => exact fun hn => Option.noConfusion hn
  | none =>
    cases f2 : find (lit "DEVICE_ERROR:") r.output with
    | some pos =>
      have hp := find_some_at _ _ _ f2
      have hin : lit "DEVICE_ERROR:" <:+: r.output :=
        hp.isInfix.trans (List.drop_suffix pos r.output).isInfix
      obtain ⟨pre, status, name, post, e⟩ := hv hin
      have hle : pos + 14 ≤ r.output.length := by
        have hpos : pos ≤ pre.length := by
          by_contra hgt
          have hnot := find_some_least _ _ _ f2 pre.length (by omega)
          apply hnot
          rw [e]
          simp only [deviceErrorLine, List.append_assoc, List.drop_left]
          exact List.prefix_append _ _
        have hlen : r.output.length =
            pre.length + (13 + status.length + 1 + name.length) + post.length := by
          rw [e]
          simp [deviceErrorLine, lit]
          omega
        omega
      simp only [run_ite]
      rw [if_pos hle]
      exact fun hn => Option.noConfusion hn
    | none =>
      simp only [run_ite]
      split
      · exact fun hn => Option.noConfusion hn
      · split <;> exact fun hn => Option.noConfusion hn

/-- On a host whose checks are receivable, the end of `ConfigureGPUPV` returns. -/
theorem checkVMState_returns {σ : Type} (h : Host σ) (hv : ChecksReceivable h) (vm g : Str)
    (s : σ) : (checkVMState h vm g s).val ≠ none := by
  have hn := VerifyGPUDeviceInVM_returns h vm g (GetVMState h vm s).st (hv _ _ _)
  revert hn
  simp only [checkVMState, run_bind, run_say, run_ite]
  split
  · generalize (VerifyGPUDeviceInVM h vm g (GetVMState h vm s).st).val = v
    generalize (VerifyGPUDeviceInVM h vm g (GetVMState h vm s).st).st = s2
    cases v with
    | none => intro hn; exact absurd rfl hn
    | some b => cases b <;> simp
  · simp

/-- A step of the enable path returns when what follows it does. -/
theorem attempt_returns {σ : Type} (h : Host σ) (vm : Str) (b : GPUPVBackup) (st : Step)
    (run : Exec σ (Bool × Str)) (next : Str → Exec σ (Option Bool))
    (hnext : ∀ e s, (next e s).val ≠ none) (s : σ) :
    (attempt h vm b st run next s).val ≠ none := by
  simp only [attempt, rollBack, run_bind, run_say, run_emit, run_ite, run_pure]
  cases hok : (run s).val.1
  · simp
  · simpa using hnext _ _

/-- On a host whose checks are receivable, `ConfigureGPUPV` returns. -/
theorem ConfigureGPUPV_returns {σ : Type} (h : Host σ) (hv : ChecksReceivable h)
    (vm gpu path drv : Str) (vramMB : Int) (s : σ) :
    (ConfigureGPUPV h vm gpu path drv vramMB s).val ≠ none := by
  cases hstop : (StopVM h vm [] s).val.1 with
  | false =>
    rw [(ConfigureGPUPV_not_stopped h vm gpu path drv vramMB s hstop).2]
    exact fun hn => Option.noConfusion hn
  | true =>
    obtain ⟨_, _, _, _, b, s1, _, hval, _⟩ := ConfigureGPUPV_stopped h vm gpu path drv vramMB s hstop
    rw [hval]
    by_cases hlt : vramMB < 64
    · rw [if_pos hlt]
      cases hok : (h.exec (Cmd.setCacheTypes vm false) s1).1.ok with
      | false =>
        rw [(disableBranch_failed h vm b s1 hok).2.1]
        exact fun hn => Option.noConfusion hn
      | true =>
        rw [(disableBranch_ok h vm b s1 hok).2.1]
        exact fun hn => Option.noConfusion hn
    · rw [if_neg hlt, enableBranch_chain]
      apply attempt_returns
      intro _ _
      apply attempt_returns
      intro _ _
      apply attempt_returns
      intro _ _
      apply attempt_returns
      intro _ _
      apply attempt_returns
      intro _ s2
      exact checkVMState_returns h hv vm gpu s2

/-- C13: two runs of `ConfigureGPUPV` on hosts that differ only in their replies to the
secure-boot command, to the removal of an existing adapter and to the check of the device
inside the VM have the same steps (the same commands in the same order, the same replies
to all other commands, the same backup, step results and rollback), end in related host
states, and both return, with the same result.  The outputs of the check are those the
script can give: it writes the marker `DEVICE_ERROR:` only in front of a status, a colon
and a name, so no output ends with the marker. -/
theorem C13_best_effort_replies {σ1 σ2 : Type} (R : σ1 → σ2 → Prop) (h1 : Host σ1)
    (h2 : Host σ2) (vm gpu path drv : Str) (vramMB : Int) (s1 : σ1) (s2 : σ2)
    (hal : Alike R h1 h2) (hR : R s1 s2)
    (hv1 : ChecksReceivable h1) (hv2 : ChecksReceivable h2) :
    steps (ConfigureGPUPV h1 vm gpu path drv vramMB s1).ev =
      steps (ConfigureGPUPV h2 vm gpu path drv vramMB s2).ev ∧
    R (ConfigureGPUPV h1 vm gpu path drv vramMB s1).st
      (ConfigureGPUPV h2 vm gpu path drv vramMB s2).st ∧
    (ConfigureGPUPV h1 vm gpu path drv vramMB s1).val ≠ none ∧
    (ConfigureGPUPV h2 vm gpu path drv vramMB s2).val ≠ none ∧
    (ConfigureGPUPV h1 vm gpu path drv vramMB s1).val =
      (ConfigureGPUPV h2 vm gpu path drv vramMB s2).val := by
  obtain ⟨a1, a2, a3⟩ := (sim_ConfigureGPUPV hal vm gpu path drv vramMB).run s1 s2 hR
  have n1 := ConfigureGPUPV_returns h1 hv1 vm gpu path drv vramMB s1
  have n2 := ConfigureGPUPV_returns h2 hv2 vm gpu path drv vramMB s2
  exact ⟨a2, a1, n1, n2, a3 n1 n2⟩

/-- C13, at concrete runs.  With every best-effort command failing (secure boot, removal,
device not found in the VM), and with the check reporting a device that is not healthy,
the steps and the result are those of the run in which they all succeed. -/
theorem C13_best_effort_replies_witness :
    Alike (fun _ _ => True) verifiedHost bestEffortFailsHost ∧
    ChecksReceivable verifiedHost ∧ ChecksReceivable bestEffortFailsHost ∧
    ChecksReceivable deviceErrorHost ∧
    (steps (ConfigureGPUPV verifiedHost (lit "vm") (lit "gpu") (lit "path") [] 4096 ()).ev =
      steps (ConfigureGPUPV bestEffortFailsHost (lit "vm") (lit "gpu") (lit "path") [] 4096 ()).ev ∧
    True ∧
    (ConfigureGPUPV verifiedHost (lit "vm") (lit "gpu") (lit "path") [] 4096 ()).val ≠ none ∧
    (ConfigureGPUPV bestEffortFailsHost (lit "vm") (lit "gpu") (lit "path") [] 4096 ()).val ≠
      none ∧
    (ConfigureGPUPV verifiedHost (lit "vm") (lit "gpu") (lit "path") [] 4096 ()).val =
      (ConfigureGPUPV bestEffortFailsHost (lit "vm") (lit "gpu") (lit "path") [] 4096 ()).val) ∧
    (ConfigureGPUPV verifiedHost (lit "vm") (lit "gpu") (lit "path") [] 4096 ()).val = some true ∧
    (ConfigureGPUPV deviceErrorHost (lit "vm") (lit "gpu") (lit "path") [] 4096 ()).val =
      some true ∧
    (VerifyGPUDeviceInVM verifiedHost (lit "vm") (lit "gpu") ()).val = some true ∧
    (VerifyGPUDeviceInVM bestEffortFailsHost (lit "vm") (lit "gpu") ()).val = some false ∧
    (VerifyGPUDeviceInVM deviceErrorHost (lit "vm") (lit "gpu") ()).val = some false :=
  have r1 : ChecksReceivable verifiedHost := fun _ _ _ =>
    receivable_of_no_marker (lit "DEVICE_OK:NVIDIA GeForce RTX 4050") (by decide)
  have r2 : ChecksReceivable bestEffortFailsHost := fun _ _ _ =>
    receivable_of_no_marker (lit "DEVICE_NOT_FOUND") (by decide)
  have r3 : ChecksReceivable deviceErrorHost := fun _ _ _ =>
    deviceErrorLine_receivable [] (lit "Error") (lit "NVIDIA GeForce RTX 4050") []
  have hal : Alike (fun _ _ => True) verifiedHost bestEffortFailsHost :=
    alike_scripted _ _ _ (fun c hc => by cases c <;> first | rfl | simp [bestEffort] at hc)
  ⟨hal, r1, r2, r3,
    C13_best_effort_replies (fun _ _ => True) verifiedHost bestEffortFailsHost (lit "vm")
      (lit "gpu") (lit "path") [] 4096 () () hal trivial r1 r2,
    by decide!, by decide!, by decide!, by decide!, by decide!⟩


/-- The char at an offset less than 4 after the start of `VEN_` is not `&`. -/
theorem no_amp_in_ven (t : Str) (n : Nat) (hn : n < 4) : ¬ lit "&" <+: (lit "VEN_" ++ t).drop n := by
  intro hpre
  obtain ⟨r, hr⟩ := hpre
  interval_cases n <;> simp at hr

theorem findFrom_some (pat s : Str) (pos e : Nat) (h : findFrom pat s pos = some e) :
    pos ≤ e ∧ pat <+: s.drop e := by
  unfold findFrom at h
  split at h
  · cases hf : find pat (s.drop pos) with
    | none => simp [hf] at h
    | some k =>
      simp [hf] at h
      subst h
      have := find_some_at pat _ k hf
      rw [List.drop_drop] at this
      exact ⟨by omega, by rwa [Nat.add_comm]⟩
  · simp at h

/-- A result of `vendorDevice` that is not empty starts with `VEN_`. -/
theorem vendorDevice_starts (hwId : Str) (hlen : hwId.length < 2 ^ 64)
    (hne : vendorDevice hwId ≠ []) : lit "VEN_" <+: vendorDevice hwId := by
  revert hne
  unfold vendorDevice
  cases hi : find (lit "VEN_") hwId with
  | none => intro hne; exact absurd rfl hne
  | some i =>
    cases hj : find (lit "&DEV_") hwId with
    | none => intro hne; exact absurd rfl hne
    | some j =>
      intro _
      have hpre := find_some_at _ _ _ hi
      obtain ⟨t, ht⟩ := hpre
      simp only []
      cases he : findFrom (lit "&") hwId (j + 1) with
      | none => exact ⟨t, ht⟩
      | some e =>
        simp only [substr]
        have h4 : 4 ≤ sizeDiff e i := by
          unfold sizeDiff
          split
          · rename_i hle
            by_contra hlt
            have hamp := (findFrom_some _ _ _ _ he).2
            have hd : hwId.drop e = (lit "VEN_" ++ t).drop (e - i) := by
              rw [ht, List.drop_drop]
              congr 1
              omega
            rw [hd] at hamp
            exact no_amp_in_ven t (e - i) (by omega) hamp
          · have hl : (hwId.drop i).length = (lit "VEN_" ++ t).length := by rw [ht]
            rw [List.length_drop] at hl
            simp at hl
            omega
        have h1 : lit "VEN_" = (hwId.drop i).take 4 := by
          rw [← ht]
          rfl
        rw [h1]
        exact List.take_prefix_take_left _ h4

/-- When the first `VEN_` comes before the first `&DEV_` and no `&` lies between them,
the result of `vendorDevice` is `VEN_` v `&DEV_` d, with no `&` in `v` or in `d`. -/
theorem vendorDevice_ordered (hwId : Str) (i j : Nat) (hi : find (lit "VEN_") hwId = some i)
    (hj : find (lit "&DEV_") hwId = some j) (hij : i < j)
    (hno : '&' ∉ (hwId.drop i).take (j - i)) :
    ∃ v d, vendorDevice hwId = lit "VEN_" ++ v ++ lit "&DEV_" ++ d ∧ '&' ∉ v ∧ '&' ∉ d := by
  obtain ⟨t, ht⟩ := find_some_at _ _ _ hi
  obtain ⟨u, hu⟩ := find_some_at _ _ _ hj
  have hdj : hwId.drop j = (lit "VEN_" ++ t).drop (j - i) := by
    rw [ht, List.drop_drop]
    congr 1
    omega
  have hm4 : 4 ≤ j - i := by
    by_contra hlt
    apply no_amp_in_ven t (j - i) (by omega)
    rw [← hdj, ← hu]
    exact ⟨lit "DEV_" ++ u, rfl⟩
  have hdj2 : hwId.drop j = t.drop (j - i - 4) := by
    rw [hdj]
    have : j - i = (lit "VEN_").length + (j - i - 4) := by
      show j - i = 4 + (j - i - 4)
      omega
    rw [this, List.drop_append]
    simp
  have htake : (hwId.drop i).take (j - i) = lit "VEN_" ++ t.take (j - i - 4) := by
    rw [← ht]
    have : j - i = (lit "VEN_").length + (j - i - 4) := by
      show j - i = 4 + (j - i - 4)
      omega
    rw [this, List.take_append]
    simp
  have hv : '&' ∉ t.take (j - i - 4) := by
    intro hmem
    apply hno
    rw [htake]
    exact List.mem_append_right _ hmem
  have hd : '&' ∉ u.takeWhile (fun c => c != '&') := by
    intro hmem
    have := List.mem_takeWhile_imp hmem
    simp at this
  have ht2 : u.dropWhile (fun c => c != '&') = [] ∨
      ∃ r, u.dropWhile (fun c => c != '&') = '&' :: r := by
    cases hdw : u.dropWhile (fun c => c != '&') with
    | nil => exact Or.inl rfl
    | cons x r =>
      right
      have := List.head_dropWhile_not (fun c => c != '&') u (by rw [hdw]; simp)
      simp only [hdw, List.head_cons] at this
      simp at this
      exact ⟨r, by rw [this]⟩
  have htd : t = t.take (j - i - 4) ++ (lit "&DEV_" ++ (u.takeWhile (fun c => c != '&') ++
      u.dropWhile (fun c => c != '&'))) := by
    rw [List.takeWhile_append_dropWhile, hu, hdj2, List.take_append_drop]
  have hlenA : (hwId.take i).length = i := by
    rw [List.length_take]
    have : (hwId.drop i).length = (lit "VEN_" ++ t).length := by rw [ht]
    rw [List.length_drop] at this
    simp at this
    omega
  have hlenv : (t.take (j - i - 4)).length = j - i - 4 := by
    rw [List.length_take]
    have : (t.drop (j - i - 4)).length = (lit "&DEV_" ++ u).length := by rw [← hdj2, hu]
    rw [List.length_drop] at this
    simp at this
    omega
  have hw : hwId = hwId.take i ++ (lit "VEN_" ++ (t.take (j - i - 4) ++ (lit "&DEV_" ++
      (u.takeWhile (fun c => c != '&') ++ u.dropWhile (fun c => c != '&'))))) := by
    rw [← htd, ht, List.take_append_drop]
  have hven : find (lit "VEN_") (hwId.take i ++ (lit "VEN_" ++ (t.take (j - i - 4) ++
      (lit "&DEV_" ++ (u.takeWhile (fun c => c != '&') ++
        u.dropWhile (fun c => c != '&')))))) = some (hwId.take i).length := by
    rw [← hw, hlenA, hi]
  have hdev : find (lit "&DEV_") (hwId.take i ++ (lit "VEN_" ++ (t.take (j - i - 4) ++
      (lit "&DEV_" ++ (u.takeWhile (fun c => c != '&') ++
        u.dropWhile (fun c => c != '&')))))) =
      some ((hwId.take i).length + 4 + (t.take (j - i - 4)).length) := by
    rw [← hw, hlenA, hlenv, hj]
    congr 1
    omega
  have hform := vendorDevice_form _ _ _ _ hven hdev hd ht2
  rw [← hw] at hform
  exact ⟨_, _, by rw [hform]; simp, hv, hd⟩

/-- C18 (amended): a result of `ExtractHardwareID` that is not empty starts with `VEN_`.
When, in the text after the selected marker, the first `VEN_` comes before the first
`&DEV_` and no `&` lies between them, the result is `VEN_` v `&DEV_` d with no `&` in `v`
or in `d`: it contains `&DEV_` after `VEN_` and no other `&`. -/
theorem C18_result_shape (pnp : Str) (hlen : pnp.length < 2 ^ 64) :
    (ExtractHardwareID pnp ≠ [] → lit "VEN_" <+: ExtractHardwareID pnp) ∧
    (∀ p i j, (find (lit "PCI\\") pnp = some p ∨
        (find (lit "PCI\\") pnp = none ∧ find (lit "PCI#") pnp = some p)) →
      find (lit "VEN_") (pnp.drop (p + 4)) = some i →
      find (lit "&DEV_") (pnp.drop (p + 4)) = some j → i < j →
      '&' ∉ ((pnp.drop (p + 4)).drop i).take (j - i) →
      ∃ v d, ExtractHardwareID pnp = lit "VEN_" ++ v ++ lit "&DEV_" ++ d ∧ '&' ∉ v ∧ '&' ∉ d) := by
  constructor
  · intro hne
    cases hp : pciMarker pnp with
    | none => simp [ExtractHardwareID, hp] at hne
    | some p =>
      rw [ExtractHardwareID_of_marker pnp p hp] at hne ⊢
      exact vendorDevice_starts _ (by rw [List.length_drop]; omega) hne
  · intro p i j hp hi hj hij hno
    rw [ExtractHardwareID_of_marker pnp p ((pciMarker_eq pnp p).mpr hp)]
    exact vendorDevice_ordered _ i j hi hj hij hno

/-- C18, at the input of the specification, where `VEN_` directly follows the marker. -/
theorem C18_result_shape_witness :
    (lit "\\\\?\\PCI#VEN_10DE&DEV_28A1&SUBSYS_00000000").length < 2 ^ 64 ∧
    ExtractHardwareID (lit "\\\\?\\PCI#VEN_10DE&DEV_28A1&SUBSYS_00000000") ≠ [] ∧
    lit "VEN_" <+: ExtractHardwareID (lit "\\\\?\\PCI#VEN_10DE&DEV_28A1&SUBSYS_00000000") :=
  ⟨by decide, by decide,
    (C18_result_shape (lit "\\\\?\\PCI#VEN_10DE&DEV_28A1&SUBSYS_00000000") (by decide)).1
      (by decide)⟩

/-- C18 as stated fails.  When `&DEV_` comes before `VEN_` the result has no `&DEV_`, and
when a `&` lies between `VEN_` and `&DEV_` the result has two `&`. -/
theorem C18_counterexample :
    ExtractHardwareID (lit "PCI\\&DEV_28A1&VEN_10DE") = lit "VEN_10DE" ∧
    ¬ lit "&DEV_" <:+: ExtractHardwareID (lit "PCI\\&DEV_28A1&VEN_10DE") ∧
    ExtractHardwareID (lit "PCI\\VEN_10DE&REV_A1&DEV_28A1&SUBSYS_0") =
      lit "VEN_10DE&REV_A1&DEV_28A1" ∧
    (ExtractHardwareID (lit "PCI\\VEN_10DE&REV_A1&DEV_28A1&SUBSYS_0")).count '&' = 2 := by
  refine ⟨by decide, ?_, by decide, by decide⟩
  rw [← contains_iff]
  decide


/-! ## Matching paths and details -/

/-- What `find?` returns is the first element that satisfies the test. -/
theorem find?_split {α : Type} (p : α → Bool) : ∀ (l : List α) (d : α), l.find? p = some d →
    p d = true ∧ ∃ pre post, l = pre ++ d :: post ∧ ∀ x ∈ pre, p x = false := by
  intro l
  induction l with
  | nil => intro d h; simp at h
  | cons a l ih =>
    intro d h
    rw [List.find?_cons] at h
    cases hp : p a with
    | true =>
      rw [hp] at h
      cases h
      exact ⟨hp, [], l, rfl, by simp⟩
    | false =>
      rw [hp] at h
      obtain ⟨hd, pre, post, hs, hpre⟩ := ih d h
      refine ⟨hd, a :: pre, post, by rw [hs]; rfl, ?_⟩
      intro x hx
      rcases List.mem_cons.mp hx with rfl | hx
      · exact hp
      · exact hpre x hx

theorem matchDetail_eq (fmt : Nat → Str) (path pathHwId : Str) (details : List GPUInfo) :
    matchDetail fmt path pathHwId details =
      (details.find? (fun d => !d.strPnpDeviceID.isEmpty && hwIdMatches pathHwId d)).map
        (mergedRecord fmt path) := by
  induction details with
  | nil => rfl
  | cons d ds ih =>
    unfold matchDetail
    by_cases h1 : d.strPnpDeviceID.isEmpty = true
    · simp [h1, ih]
    · by_cases h2 : hwIdMatches pathHwId d = true
      · simp [h1, h2, mergedRecord]
      · simp [h1, h2, ih]

/-- What one turn of the loop over the paths adds to the result. -/
theorem matchPath_eq (fmt : Nat → Str) (path : Str) (details : List GPUInfo) :
    (match find (lit "PCI#") path with
      | none => none
      | some pciPos => matchDetail fmt path (path.drop pciPos) details) =
    (details.find? (pathMatches path)).map (mergedRecord fmt path) := by
  have hpm : ∀ d, pathMatches path d =
      match find (lit "PCI#") path with
      | none => false
      | some pciPos => !d.strPnpDeviceID.isEmpty && hwIdMatches (path.drop pciPos) d :=
    fun _ => rfl
  cases hf : find (lit "PCI#") path with
  | none =>
    have : pathMatches path = fun _ => false := by
      funext d
      rw [hpm, hf]
    have hnone : List.find? (fun _ : GPUInfo => false) details = none := by
      induction details with
      | nil => rfl
      | cons d ds ih => simp [List.find?]
    rw [this, hnone]
    rfl
  | some p =>
    have : pathMatches path = fun d => !d.strPnpDeviceID.isEmpty && hwIdMatches (path.drop p) d := by
      funext d
      rw [hpm, hf]
    rw [this, ← matchDetail_eq]

theorem MatchGPUInfo_loop (fmt : Nat → Str) (details : List GPUInfo) (paths : List Str) :
    ∀ result : List GPUInfo,
      paths.foldl (fun result path =>
        match find (lit "PCI#") path with
        | none => result
        | some pciPos =>
          match matchDetail fmt path (path.drop pciPos) details with
          | some matched => result ++ [matched]
          | none => result) result =
      result ++ MatchGPUInfoSpec fmt paths details := by
  induction paths with
  | nil => intro result; simp [MatchGPUInfoSpec]
  | cons path paths ih =>
    intro result
    have hp := matchPath_eq fmt path details
    simp only [List.foldl_cons, ih, MatchGPUInfoSpec, List.filterMap_cons]
    rw [← hp]
    cases hf : find (lit "PCI#") path with
    | none => rfl
    | some p =>
      dsimp only
      generalize matchDetail fmt path (List.drop p path) details = o
      cases o with
      | none => rfl
      | some m => simp

theorem MatchGPUInfo_eq_spec (fmt : Nat → Str) (paths : List Str) (details : List GPUInfo) :
    MatchGPUInfo fmt paths details = MatchGPUInfoSpec fmt paths details := by
  unfold MatchGPUInfo
  rw [MatchGPUInfo_loop]
  rfl

theorem spec_paths_sublist (fmt : Nat → Str) (details : List GPUInfo) (paths : List Str) :
    ((MatchGPUInfoSpec fmt paths details).map (fun r => r.strInstancePath)).Sublist paths := by
  induction paths with
  | nil => simp [MatchGPUInfoSpec]
  | cons path paths ih =>
    unfold MatchGPUInfoSpec at ih ⊢
    rw [List.filterMap_cons]
    cases hf : List.find? (pathMatches path) details with
    | none => exact List.Sublist.cons _ ih
    | some d => exact List.Sublist.cons₂ _ ih

/-- C20: `MatchGPUInfo` returns, for each path in order, the record merged from the path
and the first detail in list order that matches it, and nothing for a path without a
matching detail.  So every record carries its path as instance path and the friendly name,
the VRAM and the driver path of that first matching detail (no detail before it in the
list matches the path); the instance paths of the records are a sublist of the paths, so
the order is kept and no path yields more records than it has occurrences. -/
theorem C20_first_match_wins (FormatVRAMSize : Nat → Str) (paths : List Str)
    (details : List GPUInfo) :
    MatchGPUInfo FormatVRAMSize paths details = MatchGPUInfoSpec FormatVRAMSize paths details ∧
    (∀ r ∈ MatchGPUInfo FormatVRAMSize paths details, ∃ path ∈ paths, ∃ d pre post,
      details = pre ++ d :: post ∧ pathMatches path d = true ∧
      (∀ x ∈ pre, pathMatches path x = false) ∧
      r.strInstancePath = path ∧ r.strFriendlyName = d.strFriendlyName ∧
      r.ui64VramBytes = d.ui64VramBytes ∧ r.strDriverPath = d.strDriverPath) ∧
    ((MatchGPUInfo FormatVRAMSize paths details).map (fun r => r.strInstancePath)).Sublist paths ∧
    (MatchGPUInfo FormatVRAMSize paths details).length ≤ paths.length := by
  rw [MatchGPUInfo_eq_spec]
  refine ⟨rfl, ?_, spec_paths_sublist _ _ _, ?_⟩
  · intro r hr
    unfold MatchGPUInfoSpec at hr
    rw [List.mem_filterMap] at hr
    obtain ⟨path, hpath, hmap⟩ := hr
    cases hf : List.find? (pathMatches path) details with
    | none => simp [hf] at hmap
    | some d =>
      simp only [hf, Option.map_some', Option.some.injEq] at hmap
      subst hmap
      obtain ⟨hd, pre, post, hsplit, hpre⟩ := find?_split _ _ _ hf
      exact ⟨path, hpath, d, pre, post, hsplit, hd, hpre, rfl, rfl, rfl, rfl⟩
  · have := (spec_paths_sublist FormatVRAMSize details paths).length_le
    simpa using this


theorem vendorDevice_within (hwId : Str) : vendorDevice hwId <:+: hwId := by
  unfold vendorDevice
  cases find (lit "VEN_") hwId with
  | none => exact List.nil_infix
  | some i =>
    cases find (lit "&DEV_") hwId with
    | none => exact List.nil_infix
    | some j =>
      dsimp only
      cases findFrom (lit "&") hwId (j + 1) with
      | none => exact (List.drop_suffix _ _).isInfix
      | some e =>
        exact (( List.take_prefix _ _).isInfix).trans (List.drop_suffix _ _).isInfix

theorem ExtractHardwareID_nil : ExtractHardwareID [] = [] := by decide

/-- For an identifier that contains `PCI#` and no `PCI\`, the hardware id occurs in the
text from the first `PCI#` on. -/
theorem hardwareId_in_path (a : Str) (h1 : lit "PCI#" <:+: a) (h2 : ¬ lit "PCI\\" <:+: a) :
    ∃ q, find (lit "PCI#") a = some q ∧ ExtractHardwareID a <:+: a.drop q := by
  cases hq : find (lit "PCI#") a with
  | none => exact absurd h1 ((find_eq_none_iff _ _).mp hq)
  | some q =>
    refine ⟨q, rfl, ?_⟩
    have hm : pciMarker a = some q :=
      (pciMarker_eq a q).mpr (Or.inr ⟨(find_eq_none_iff _ _).mpr h2, hq⟩)
    rw [ExtractHardwareID_of_marker a q hm]
    have hs : a.drop (q + 4) <:+ a.drop q := by
      rw [← List.drop_drop]
      exact List.drop_suffix _ _
    exact (vendorDevice_within _).trans hs.isInfix

theorem pathMatches_iff (path : Str) (d : GPUInfo) :
    pathMatches path d = true ↔
      ∃ q, find (lit "PCI#") path = some q ∧ d.strPnpDeviceID ≠ [] ∧
        ExtractHardwareID d.strPnpDeviceID ≠ [] ∧
        ExtractHardwareID d.strPnpDeviceID <:+: path.drop q := by
  have hpm : pathMatches path d =
      match find (lit "PCI#") path with
      | none => false
      | some pciPos => !d.strPnpDeviceID.isEmpty && hwIdMatches (path.drop pciPos) d := rfl
  rw [hpm]
  cases hf : find (lit "PCI#") path with
  | none => simp
  | some q =>
    simp only [hwIdMatches, Bool.and_eq_true, Bool.not_eq_true', List.isEmpty_eq_false,
      contains_iff, Option.some.injEq, exists_eq_left', ne_eq]

theorem MatchGPUInfo_single (fmt : Nat → Str) (path : Str) (d : GPUInfo) :
    MatchGPUInfo fmt [path] [d] =
      if pathMatches path d = true then [mergedRecord fmt path d] else [] := by
  rw [MatchGPUInfo_eq_spec]
  unfold MatchGPUInfoSpec
  cases hp : pathMatches path d <;> simp [List.find?, hp]

theorem findDxgi_single (hw : Str) (d : GPUInfo) :
    findDxgi hw [d] =
      if ExtractHardwareID d.strPnpDeviceID ≠ [] ∧ ExtractHardwareID d.strPnpDeviceID <:+: hw
      then some d else none := by
  unfold findDxgi
  by_cases h1 : ExtractHardwareID d.strPnpDeviceID = []
  · simp [h1, findDxgi]
  · by_cases h2 : ExtractHardwareID d.strPnpDeviceID <:+: hw
    · simp [h1, h2, (contains_iff _ _).mpr h2]
    · have : contains hw (ExtractHardwareID d.strPnpDeviceID) = false := by
        rw [← Bool.not_eq_true, contains_iff]
        exact h2
      simp [h1, h2, this, findDxgi]

/-- C19 (amended): matching is directional.  `MatchGPUInfo` merges a path and a detail
exactly when the path contains `PCI#`, the detail has a PnP id, and the hardware id of
that PnP id is not empty and occurs in the path from its first `PCI#` on; the loop of
`GetPartitionableGPUsViaWMI` takes a DXGI record exactly when its hardware id is not
empty and occurs in the hardware id of the instance path.  For two identifiers with the
same hardware id, not empty, `MatchGPUInfo` yields exactly one record in both assignments
when both identifiers contain `PCI#` and not `PCI\`, and the WMI loop finds the record
in both assignments. -/
theorem C19_matching_is_directional (FormatVRAMSize : Nat → Str) :
    (∀ path d, MatchGPUInfo FormatVRAMSize [path] [d] =
        (if pathMatches path d = true then [mergedRecord FormatVRAMSize path d] else []) ∧
      (pathMatches path d = true ↔
        ∃ q, find (lit "PCI#") path = some q ∧ d.strPnpDeviceID ≠ [] ∧
          ExtractHardwareID d.strPnpDeviceID ≠ [] ∧
          ExtractHardwareID d.strPnpDeviceID <:+: path.drop q)) ∧
    (∀ hw d, findDxgi hw [d] =
      if ExtractHardwareID d.strPnpDeviceID ≠ [] ∧ ExtractHardwareID d.strPnpDeviceID <:+: hw
      then some d else none) ∧
    (∀ (a b : Str) (d : GPUInfo), ExtractHardwareID a = ExtractHardwareID b →
      ExtractHardwareID a ≠ [] →
      (lit "PCI#" <:+: a → ¬ lit "PCI\\" <:+: a →
        (MatchGPUInfo FormatVRAMSize [a] [{ d with strPnpDeviceID := b }]).length = 1) ∧
      (lit "PCI#" <:+: b → ¬ lit "PCI\\" <:+: b →
        (MatchGPUInfo FormatVRAMSize [b] [{ d with strPnpDeviceID := a }]).length = 1) ∧
      findDxgi (ExtractHardwareID a) [{ d with strPnpDeviceID := b }] =
        some { d with strPnpDeviceID := b } ∧
      findDxgi (ExtractHardwareID b) [{ d with strPnpDeviceID := a }] =
        some { d with strPnpDeviceID := a }) := by
  have key : ∀ (a b : Str) (d : GPUInfo), ExtractHardwareID a = ExtractHardwareID b →
      ExtractHardwareID a ≠ [] → lit "PCI#" <:+: a → ¬ lit "PCI\\" <:+: a →
      (MatchGPUInfo FormatVRAMSize [a] [{ d with strPnpDeviceID := b }]).length = 1 := by
    intro a b d hab hne h1 h2
    obtain ⟨q, hq, hin⟩ := hardwareId_in_path a h1 h2
    have hb : b ≠ [] := by
      intro hb
      rw [hb, ExtractHardwareID_nil] at hab
      exact hne hab
    have hm : pathMatches a { d with strPnpDeviceID := b } = true :=
      (pathMatches_iff _ _).mpr ⟨q, hq, hb, by rw [← hab]; exact hne, by rw [← hab]; exact hin⟩
    rw [MatchGPUInfo_single, if_pos hm]
    rfl
  refine ⟨fun path d => ⟨MatchGPUInfo_single _ _ _, pathMatches_iff _ _⟩,
    findDxgi_single, ?_⟩
  intro a b d hab hne
  refine ⟨key a b d hab hne, key b a d hab.symm (by rw [← hab]; exact hne), ?_, ?_⟩
  · rw [findDxgi_single, if_pos ⟨by rw [← hab]; exact hne, by rw [← hab]⟩]
  · rw [findDxgi_single, if_pos ⟨hne, by rw [hab]⟩]

/-- C19 as stated fails.  `samplePath` and `samplePnp` have the same hardware id; with
`samplePath` as the path they give one record, and with `samplePnp` as the path, which
contains `PCI\` and not `PCI#`, none.  And a path whose hardware id occurs in that of
the detail, but not the other way round, is not matched, neither by `MatchGPUInfo` nor by
the loop of the WMI strategy. -/
theorem C19_counterexample :
    ExtractHardwareID samplePath = lit "VEN_10DE&DEV_28A1" ∧
    ExtractHardwareID samplePnp = lit "VEN_10DE&DEV_28A1" ∧
    (MatchGPUInfo wholeMB [samplePath] [{ strPnpDeviceID := samplePnp }]).length = 1 ∧
    MatchGPUInfo wholeMB [samplePnp] [{ strPnpDeviceID := samplePath }] = [] ∧
    ExtractHardwareID (lit "\\\\?\\PCI#VEN_10DE&DEV_28") = lit "VEN_10DE&DEV_28" ∧
    contains (ExtractHardwareID samplePnp) (ExtractHardwareID (lit "\\\\?\\PCI#VEN_10DE&DEV_28")) =
      true ∧
    MatchGPUInfo wholeMB [lit "\\\\?\\PCI#VEN_10DE&DEV_28"] [{ strPnpDeviceID := samplePnp }] = [] ∧
    findDxgi (ExtractHardwareID (lit "\\\\?\\PCI#VEN_10DE&DEV_28"))
      [{ strPnpDeviceID := samplePnp }] = none := by
  decide

/-- C19, at two identifiers in the form of an instance path with the same hardware id:
either assignment gives one record. -/
theorem C19_matching_is_directional_witness :
    ExtractHardwareID samplePath = ExtractHardwareID (lit "PCI#VEN_10DE&DEV_28A1&REV_A1") ∧
    (MatchGPUInfo wholeMB [samplePath]
      [{ strPnpDeviceID := lit "PCI#VEN_10DE&DEV_28A1&REV_A1" }]).length = 1 ∧
    (MatchGPUInfo wholeMB [lit "PCI#VEN_10DE&DEV_28A1&REV_A1"]
      [{ strPnpDeviceID := samplePath }]).length = 1 :=
  ⟨by decide,
    ((C19_matching_is_directional wholeMB).2.2 samplePath (lit "PCI#VEN_10DE&DEV_28A1&REV_A1")
      {} (by decide) (by decide)).1
      (by rw [← contains_iff]; decide) (by rw [← contains_iff]; decide),
    ((C19_matching_is_directional wholeMB).2.2 samplePath (lit "PCI#VEN_10DE&DEV_28A1&REV_A1")
      {} (by decide) (by decide)).2.1
      (by rw [← contains_iff]; decide) (by rw [← contains_iff]; decide)⟩

/-! ## Discovery -/

theorem findDriver_none_or (pattern : Str) : ∀ drivers : List (Str × Str),
    findDriver pattern drivers = none ∨ ∃ p, findDriver pattern drivers = some p := by
  intro drivers
  cases findDriver pattern drivers with
  | none => exact Or.inl rfl
  | some p => exact Or.inr ⟨p, rfl⟩

/-- Every record of `GetGPUDetails` carries the dedicated memory and the description of an
adapter whose description could be read, and that memory is not zero. -/
theorem GetGPUDetails_mem (factoryOk : Bool) (adapters : List DxgiAdapter)
    (wmiDrivers : List (Str × Str)) (detail : GPUInfo)
    (h : detail ∈ GetGPUDetails factoryOk adapters wmiDrivers) :
    ∃ desc ∈ adapters, desc.descOk = true ∧ desc.DedicatedVideoMemory ≠ 0 ∧
      detail.ui64VramBytes = desc.DedicatedVideoMemory ∧
      detail.strFriendlyName = desc.Description := by
  unfold GetGPUDetails at h
  cases factoryOk with
  | false => simp at h
  | true =>
    simp only [Bool.not_true, Bool.false_eq_true, if_false, List.mem_filterMap] at h
    obtain ⟨desc, hd, he⟩ := h
    refine ⟨desc, hd, ?_⟩
    by_cases hc : (desc.descOk && decide (desc.DedicatedVideoMemory > 0)) = true
    · rw [if_pos hc] at he
      simp only [Bool.and_eq_true, decide_eq_true_eq] at hc
      refine ⟨hc.1, Nat.pos_iff_ne_zero.mp hc.2, ?_⟩
      rcases findDriver_none_or
        (lit "VEN_" ++ hex04X desc.VendorId ++ lit "&DEV_" ++ hex04X desc.DeviceId) wmiDrivers with
        e | ⟨p, e⟩
      · rw [e] at he
        simp only [Option.some.injEq] at he
        subst he
        exact ⟨rfl, rfl⟩
      · rw [e] at he
        simp only [Option.some.injEq] at he
        subst he
        exact ⟨rfl, rfl⟩
    · rw [if_neg hc] at he
      cases he

/-- Every record of `MatchGPUInfoSpec` is merged from one of the paths and a detail that
matches it. -/
theorem mem_spec (fmt : Nat → Str) (details : List GPUInfo) (paths : List Str) (gpu : GPUInfo)
    (h : gpu ∈ MatchGPUInfoSpec fmt paths details) :
    ∃ path ∈ paths, ∃ detail ∈ details, pathMatches path detail = true ∧
      gpu = mergedRecord fmt path detail := by
  unfold MatchGPUInfoSpec at h
  rw [List.mem_filterMap] at h
  obtain ⟨path, hp, he⟩ := h
  cases hf : details.find? (pathMatches path) with
  | none => rw [hf] at he; cases he
  | some detail =>
    rw [hf] at he
    simp only [Option.map_some', Option.some.injEq] at he
    exact ⟨path, hp, detail, List.mem_of_find?_eq_some hf, List.find?_some hf, he.symm⟩

/-- The vector `GetPartitionableGPUsViaPowerShell` returns. -/
theorem viaPowerShell_eq (fmt : Nat → Str) (src : Sources) :
    (GetPartitionableGPUsViaPowerShell fmt src).1 =
      MatchGPUInfoSpec fmt (GetPartitionableGPUPaths src.pathsOutput)
        (GetGPUDetails src.factoryOk src.adapters src.wmiDrivers) := by
  unfold GetPartitionableGPUsViaPowerShell
  dsimp only
  cases hp : GetPartitionableGPUPaths src.pathsOutput with
  | nil => rfl
  | cons p ps =>
    cases hd : GetGPUDetails src.factoryOk src.adapters src.wmiDrivers with
    | nil =>
      simp only [List.isEmpty_cons, List.isEmpty_nil, Bool.false_eq_true, if_false, if_true]
      unfold MatchGPUInfoSpec
      simp
    | cons d ds =>
      simp only [List.isEmpty_cons, Bool.false_eq_true, if_false]
      exact MatchGPUInfo_eq_spec fmt _ _

/-- The instance path and the VRAM of the record the WMI strategy builds. -/
theorem wmiRecord_fields (fmt : Nat → Str) (dxgiGpus : List GPUInfo) (name : Str) :
    (wmiRecord fmt dxgiGpus name).strInstancePath = name ∧
    (wmiRecord fmt dxgiGpus name).ui64VramBytes =
      (match findDxgi (ExtractHardwareID name) dxgiGpus with
      | some dxgiGpu =>
        if dxgiGpu.ui64VramBytes = 0 then 1073741824 else dxgiGpu.ui64VramBytes
      | none => 1073741824) := by
  unfold wmiRecord
  dsimp only
  cases findDxgi (ExtractHardwareID name) dxgiGpus with
  | none => exact ⟨rfl, rfl⟩
  | some d =>
    dsimp only
    by_cases hz : d.ui64VramBytes = 0
    · rw [if_pos hz, if_pos hz]; exact ⟨rfl, rfl⟩
    · rw [if_neg hz, if_neg hz]; exact ⟨rfl, rfl⟩

/-- The list `GetPartitionableGPUs` returns, by the outcome of the WMI query. -/
theorem GetPartitionableGPUs_eq (fmt : Nat → Str) (src : Sources) :
    (GetPartitionableGPUs fmt src).1 =
      (match src.wmiGpuNames with
      | some names =>
        names.map (wmiRecord fmt (GetGPUDetails src.factoryOk src.adapters src.wmiDrivers))
      | none => (GetPartitionableGPUsViaPowerShell fmt src).1) := by
  unfold GetPartitionableGPUs GetPartitionableGPUsViaWMI
  cases src.wmiGpuNames with
  | none => rfl
  | some names => rfl

/-- C21: every record discovery returns has VRAM above zero.  The record the WMI strategy
builds has the VRAM of the DXGI record it matched, and 1 GiB (1,073,741,824 bytes) when
that is zero or when it matched none; every record of the PowerShell strategy has the VRAM
of a record of `GetGPUDetails`; and every record of `GetGPUDetails` has the dedicated
memory of an adapter, which is not zero. -/
theorem C21_vram_positive (FormatVRAMSize : Nat → Str) (src : Sources) :
    (∀ gpu ∈ (GetPartitionableGPUs FormatVRAMSize src).1, 0 < gpu.ui64VramBytes) ∧
    (∀ (dxgiGpus : List GPUInfo) (name : Str),
      (wmiRecord FormatVRAMSize dxgiGpus name).ui64VramBytes =
        (match findDxgi (ExtractHardwareID name) dxgiGpus with
        | some dxgiGpu =>
          if dxgiGpu.ui64VramBytes = 0 then 1073741824 else dxgiGpu.ui64VramBytes
        | none => 1073741824)) ∧
    (∀ gpu ∈ (GetPartitionableGPUsViaPowerShell FormatVRAMSize src).1,
      ∃ detail ∈ GetGPUDetails src.factoryOk src.adapters src.wmiDrivers,
        gpu.ui64VramBytes = detail.ui64VramBytes) ∧
    (∀ detail ∈ GetGPUDetails src.factoryOk src.adapters src.wmiDrivers,
      ∃ desc ∈ src.adapters, detail.ui64VramBytes = desc.DedicatedVideoMemory ∧
        desc.DedicatedVideoMemory ≠ 0) := by
  have hps : ∀ gpu ∈ (GetPartitionableGPUsViaPowerShell FormatVRAMSize src).1,
      ∃ detail ∈ GetGPUDetails src.factoryOk src.adapters src.wmiDrivers,
        gpu.ui64VramBytes = detail.ui64VramBytes := by
    intro gpu hg
    rw [viaPowerShell_eq] at hg
    obtain ⟨path, _, detail, hd, _, e⟩ := mem_spec _ _ _ _ hg
    exact ⟨detail, hd, by rw [e]; rfl⟩
  have hdet : ∀ detail ∈ GetGPUDetails src.factoryOk src.adapters src.wmiDrivers,
      ∃ desc ∈ src.adapters, detail.ui64VramBytes = desc.DedicatedVideoMemory ∧
        desc.DedicatedVideoMemory ≠ 0 := by
    intro detail hd
    obtain ⟨desc, h1, _, h3, h4, _⟩ := GetGPUDetails_mem _ _ _ _ hd
    exact ⟨desc, h1, h4, h3⟩
  refine ⟨?_, fun dxgiGpus name => (wmiRecord_fields _ dxgiGpus name).2, hps, hdet⟩
  intro gpu hg
  rw [GetPartitionableGPUs_eq] at hg
  cases hw : src.wmiGpuNames with
  | none =>
    rw [hw] at hg
    obtain ⟨detail, hd, e⟩ := hps gpu hg
    obtain ⟨desc, _, e2, hne⟩ := hdet detail hd
    rw [e, e2]
    exact Nat.pos_of_ne_zero hne
  | some names =>
    rw [hw] at hg
    simp only [List.mem_map] at hg
    obtain ⟨name, _, e⟩ := hg
    rw [← e, (wmiRecord_fields _ _ name).2]
    cases findDxgi (ExtractHardwareID name)
        (GetGPUDetails src.factoryOk src.adapters src.wmiDrivers) with
    | none => decide
    | some d =>
      dsimp only
      by_cases hz : d.ui64VramBytes = 0
      · rw [if_pos hz]; decide
      · rw [if_neg hz]; exact Nat.pos_of_ne_zero hz

/-- Every path `GetPartitionableGPUPaths` keeps is non-empty and contains `PCI#`. -/
theorem GetPartitionableGPUPaths_mem (output path : Str)
    (h : path ∈ GetPartitionableGPUPaths output) : path ≠ [] ∧ lit "PCI#" <:+: path := by
  unfold GetPartitionableGPUPaths at h
  by_cases ho : (!output.isEmpty) = true
  · rw [if_pos ho, List.mem_filter] at h
    have h2 := h.2
    simp only [Bool.and_eq_true, Bool.not_eq_true', List.isEmpty_eq_false] at h2
    exact ⟨h2.1, (contains_iff _ _).mp h2.2⟩
  · rw [if_neg ho] at h
    cases h

/-- The instance paths of the records of `MatchGPUInfoSpec`: the paths some detail matches. -/
theorem spec_paths (fmt : Nat → Str) (details : List GPUInfo) : ∀ paths : List Str,
    (MatchGPUInfoSpec fmt paths details).map (fun gpu => gpu.strInstancePath) =
      paths.filter (fun path => details.any (pathMatches path)) := by
  intro paths
  induction paths with
  | nil => rfl
  | cons path rest ih =>
    unfold MatchGPUInfoSpec at ih ⊢
    rw [List.filterMap_cons, List.filter_cons]
    cases hf : details.find? (pathMatches path) with
    | none =>
      have hany : details.any (pathMatches path) = false := by
        rw [List.any_eq_false]
        intro d hd
        exact (List.find?_eq_none.mp hf) d hd
      rw [hany]
      simpa using ih
    | some d =>
      have hany : details.any (pathMatches path) = true := by
        rw [List.any_eq_true]
        exact ⟨d, List.mem_of_find?_eq_some hf, List.find?_some hf⟩
      rw [hany]
      simp only [Option.map_some', List.map_cons, if_true]
      rw [ih]
      rfl

/-- The instance paths of the records the WMI strategy builds are the names it read. -/
theorem wmi_paths (fmt : Nat → Str) (dxgiGpus : List GPUInfo) : ∀ names : List Str,
    (names.map (wmiRecord fmt dxgiGpus)).map (fun gpu => gpu.strInstancePath) = names := by
  intro names
  induction names with
  | nil => rfl
  | cons n rest ih =>
    rw [List.map_cons, List.map_cons, ih, (wmiRecord_fields fmt dxgiGpus n).1]

/-- C22: the records of the PowerShell strategy all have an instance path that is not
empty (it contains `PCI#`); the records of the WMI strategy have as instance path the
`Name` property of their object, whatever it is, so that an object whose `Name` is empty
or cannot be read gives a record with an empty instance path. -/
theorem C22_wmi_keeps_empty_path (FormatVRAMSize : Nat → Str) :
    (∀ src : Sources, ∀ gpu ∈ (GetPartitionableGPUsViaPowerShell FormatVRAMSize src).1,
      gpu.strInstancePath ≠ [] ∧ lit "PCI#" <:+: gpu.strInstancePath) ∧
    (∀ (src : Sources) (names : List Str), src.wmiGpuNames = some names →
      (GetPartitionableGPUs FormatVRAMSize src).1.map (fun gpu => gpu.strInstancePath) = names) ∧
    (∃ gpu ∈ (GetPartitionableGPUs FormatVRAMSize emptyNameSources).1,
      gpu.strInstancePath = [] ∧ gpu.ui64VramBytes = 1073741824) := by
  refine ⟨?_, ?_, ?_⟩
  · intro src gpu hg
    rw [viaPowerShell_eq] at hg
    obtain ⟨path, hp, detail, _, _, e⟩ := mem_spec _ _ _ _ hg
    have hpath : gpu.strInstancePath = path := by rw [e]; rfl
    rw [hpath]
    exact GetPartitionableGPUPaths_mem _ _ hp
  · intro src names hn
    rw [GetPartitionableGPUs_eq, hn]
    exact wmi_paths _ _ names
  · refine ⟨wmiRecord FormatVRAMSize [] [], ?_, ?_, ?_⟩
    · rw [GetPartitionableGPUs_eq]
      exact List.mem_singleton.mpr rfl
    · exact (wmiRecord_fields _ _ _).1
    · rw [(wmiRecord_fields _ _ _).2]
      rfl

/-- C23: when the WMI query answers, discovery returns one record per object, in the
order of the enumeration, and an object that matches no DXGI record is kept with 1 GiB of
VRAM; when it fails, discovery returns a record for exactly those partitionable paths that
some record of `GetGPUDetails` matches, in order, and no record for the other paths. -/
theorem C23_devices_reflected (FormatVRAMSize : Nat → Str) (src : Sources) :
    (∀ names : List Str, src.wmiGpuNames = some names →
      (GetPartitionableGPUs FormatVRAMSize src).1 =
        names.map (wmiRecord FormatVRAMSize
          (GetGPUDetails src.factoryOk src.adapters src.wmiDrivers)) ∧
      (GetPartitionableGPUs FormatVRAMSize src).1.map (fun gpu => gpu.strInstancePath) = names ∧
      ∀ name ∈ names,
        findDxgi (ExtractHardwareID name)
          (GetGPUDetails src.factoryOk src.adapters src.wmiDrivers) = none →
        (wmiRecord FormatVRAMSize (GetGPUDetails src.factoryOk src.adapters src.wmiDrivers)
          name).ui64VramBytes = 1073741824) ∧
    (src.wmiGpuNames = none →
      (GetPartitionableGPUs FormatVRAMSize src).1.map (fun gpu => gpu.strInstancePath) =
        (GetPartitionableGPUPaths src.pathsOutput).filter (fun path =>
          (GetGPUDetails src.factoryOk src.adapters src.wmiDrivers).any (pathMatches path))) := by
  refine ⟨?_, ?_⟩
  · intro names hn
    have e : (GetPartitionableGPUs FormatVRAMSize src).1 =
        names.map (wmiRecord FormatVRAMSize
          (GetGPUDetails src.factoryOk src.adapters src.wmiDrivers)) := by
      rw [GetPartitionableGPUs_eq, hn]
    refine ⟨e, ?_, ?_⟩
    · rw [e]; exact wmi_paths _ _ names
    · intro name _ hnone
      rw [(wmiRecord_fields _ _ name).2, hnone]
  · intro hn
    rw [GetPartitionableGPUs_eq, hn]
    dsimp only
    rw [viaPowerShell_eq]
    exact spec_paths _ _ _

/-- C23, an input on which the claim fails: WMI is unavailable, the command lists the
path of one partitionable GPU and DXGI knows an adapter, but no video controller matches
that adapter; discovery returns no record for the listed GPU. -/
theorem C23_counterexample :
    GetPartitionableGPUPaths unmatchedSources.pathsOutput = [samplePath] ∧
    GetGPUDetails unmatchedSources.factoryOk unmatchedSources.adapters
      unmatchedSources.wmiDrivers ≠ [] ∧
    (GetPartitionableGPUs wholeMB unmatchedSources).1 = [] := by
  decide!

/-- C24: `GetPartitionableGPUs` always returns a list.  When the WMI strategy fails, that
list is the one the PowerShell strategy returns; the PowerShell strategy returns the empty
list when it obtains no partitionable path or no adapter detail; and when the WMI strategy
returns a list, that list is returned unchanged, the command of the PowerShell strategy is
not run, and its output has no influence on the result.  The last three parts show a run
in which WMI fails and the fallback finds the GPU. -/
theorem C24_discovery_never_fails (FormatVRAMSize : Nat → Str) (src : Sources) :
    ((GetPartitionableGPUsViaWMI FormatVRAMSize src).1 = none →
      (GetPartitionableGPUs FormatVRAMSize src).1 =
        (GetPartitionableGPUsViaPowerShell FormatVRAMSize src).1) ∧
    (GetPartitionableGPUPaths src.pathsOutput = [] ∨
        GetGPUDetails src.factoryOk src.adapters src.wmiDrivers = [] →
      (GetPartitionableGPUsViaPowerShell FormatVRAMSize src).1 = []) ∧
    (∀ gpus : List GPUInfo, (GetPartitionableGPUsViaWMI FormatVRAMSize src).1 = some gpus →
      (GetPartitionableGPUs FormatVRAMSize src).1 = gpus ∧
      Query.partitionablePaths ∉ (GetPartitionableGPUs FormatVRAMSize src).2 ∧
      ∀ output : Str,
        (GetPartitionableGPUs FormatVRAMSize { src with pathsOutput := output }).1 = gpus) ∧
    (GetPartitionableGPUsViaWMI wholeMB fallbackSources).1 = none ∧
    (GetPartitionableGPUs wholeMB fallbackSources).1 =
      [{ strFriendlyName := lit "NVIDIA GeForce RTX 4050"
         strInstancePath := samplePath
         ui64VramBytes := 4294967296
         strPnpDeviceID := samplePnp
         strDriverPath := lit "C:\\Windows\\System32\\DriverStore"
         strDisplayText :=
           lit "NVIDIA GeForce RTX 4050          \t [ VRAM:4096MB  Path:\\\\?\\PCI#VEN_10DE&DEV... ] " }] ∧
    (GetPartitionableGPUs wholeMB fallbackSources).2 =
      [Query.wmiPartitionableGpus, Query.partitionablePaths, Query.gpuDetails] := by
  refine ⟨?_, ?_, ?_, by decide!, by decide!, by decide!⟩
  · intro h
    unfold GetPartitionableGPUs
    unfold GetPartitionableGPUsViaWMI at h ⊢
    cases hw : src.wmiGpuNames with
    | none => rfl
    | some names => rw [hw] at h; cases h
  · intro h
    rw [viaPowerShell_eq]
    unfold MatchGPUInfoSpec
    rcases h with h | h
    · rw [h]; rfl
    · rw [h]; simp
  · intro gpus h
    unfold GetPartitionableGPUs
    unfold GetPartitionableGPUsViaWMI at h ⊢
    cases hw : src.wmiGpuNames with
    | none => rw [hw] at h; cases h
    | some names =>
      rw [hw] at h
      simp only [Option.some.injEq] at h
      dsimp only
      refine ⟨h, by decide, fun _ => h⟩

/-- The length of the name column. -/
theorem shortGPUName_length (name : Str) : (shortGPUName name).length = 33 := by
  unfold shortGPUName substr
  by_cases h : name.length > 30
  · rw [if_pos h]
    simp only [List.drop_zero, List.length_append, List.length_take]
    rw [Nat.min_eq_left (by omega)]
    rfl
  · rw [if_neg h]
    simp only [List.length_append, List.length_replicate]
    omega

/-- Every record of `MatchGPUInfoSpec` has the display text built from its own fields. -/
theorem spec_displayText (fmt : Nat → Str) (paths : List Str) (details : List GPUInfo)
    (gpu : GPUInfo) (h : gpu ∈ MatchGPUInfoSpec fmt paths details) :
    gpu.strDisplayText =
      displayText (fmt gpu.ui64VramBytes) gpu.strFriendlyName gpu.strInstancePath := by
  obtain ⟨path, _, detail, _, _, e⟩ := mem_spec _ _ _ _ h
  rw [e]
  rfl

/-- The display text of the record the WMI strategy builds. -/
theorem wmiRecord_displayText (fmt : Nat → Str) (dxgiGpus : List GPUInfo) (name : Str) :
    (wmiRecord fmt dxgiGpus name).strDisplayText =
      displayText (fmt (wmiRecord fmt dxgiGpus name).ui64VramBytes)
        (wmiRecord fmt dxgiGpus name).strFriendlyName
        (wmiRecord fmt dxgiGpus name).strInstancePath := by
  unfold wmiRecord
  rfl

/-- C25: the display text of a record starts with a name column of exactly 33 chars, which
is followed by the tab and `[ VRAM:`; the column is the first 30 chars of the name and
`...` when the name has more than 30 chars, and otherwise the whole name followed by
spaces; the path shown is the path when it has at most 20 chars and otherwise its first 20
chars and `...`.  The records of both strategies carry this display text. -/
theorem C25_display_columns (FormatVRAMSize : Nat → Str) (vramSize name path : Str) :
    (shortGPUName name).length = 33 ∧
    (30 < name.length → shortGPUName name = name.take 30 ++ lit "...") ∧
    (name.length ≤ 30 →
      shortGPUName name = name ++ List.replicate (33 - name.length) ' ') ∧
    (path.length ≤ 20 → shortPath path = path) ∧
    (20 < path.length → shortPath path = path.take 20 ++ lit "...") ∧
    (displayText vramSize name path).take 33 = shortGPUName name ∧
    (displayText vramSize name path).drop 33 =
      lit "\t [ VRAM:" ++ vramSize ++ lit "  Path:" ++ shortPath path ++ lit " ] " ∧
    (∀ (paths : List Str) (details : List GPUInfo),
      ∀ gpu ∈ MatchGPUInfo FormatVRAMSize paths details,
        gpu.strDisplayText =
          displayText (FormatVRAMSize gpu.ui64VramBytes) gpu.strFriendlyName
            gpu.strInstancePath) ∧
    (∀ (dxgiGpus : List GPUInfo) (name : Str),
      (wmiRecord FormatVRAMSize dxgiGpus name).strDisplayText =
        displayText (FormatVRAMSize (wmiRecord FormatVRAMSize dxgiGpus name).ui64VramBytes)
          (wmiRecord FormatVRAMSize dxgiGpus name).strFriendlyName
          (wmiRecord FormatVRAMSize dxgiGpus name).strInstancePath) := by
  have hd : displayText vramSize name path =
      shortGPUName name ++
        (lit "\t [ VRAM:" ++ vramSize ++ lit "  Path:" ++ shortPath path ++ lit " ] ") := by
    unfold displayText
    simp only [List.append_assoc]
  refine ⟨shortGPUName_length name, ?_, ?_, ?_, ?_, ?_, ?_, ?_, ?_⟩
  · intro h
    unfold shortGPUName substr
    rw [if_pos h]
    rfl
  · intro h
    unfold shortGPUName
    rw [if_neg (by omega)]
  · intro h
    unfold shortPath
    rw [if_neg (by omega)]
  · intro h
    unfold shortPath substr
    rw [if_pos h]
    rfl
  · rw [hd, List.take_left' (shortGPUName_length name)]
  · rw [hd, List.drop_left' (shortGPUName_length name)]
  · intro paths details gpu hg
    rw [MatchGPUInfo_eq_spec] at hg
    exact spec_displayText _ _ _ _ hg
  · intro dxgiGpus name
    exact wmiRecord_displayText _ _ _

/-- What `FindGPUByName` returns: the first GPU whose friendly name equals `name`. -/
theorem FindGPUByName_eq : ∀ (gpus : List GPUInfo) (name : Str),
    FindGPUByName gpus name =
      (gpus.find? (fun gpu => decide (gpu.strFriendlyName = name))).getD {} := by
  intro gpus name
  induction gpus with
  | nil => rfl
  | cons gpu rest ih =>
    unfold FindGPUByName
    rw [List.find?_cons]
    by_cases h : gpu.strFriendlyName = name
    · rw [if_pos h, decide_eq_true h]
      rfl
    · rw [if_neg h, decide_eq_false h]
      exact ih

/-- C26: `FindGPUByName` returns the first GPU whose friendly name is equal to the given
name, and an empty record when there is none; a GPU whose friendly name only contains the
given name is not found.  Searching the list that holds `NVIDIA GeForce RTX 4050` for
`RTX` returns the empty record, where the match the header describes returns that GPU. -/
theorem C26_exact_match_only :
    (∀ (gpus : List GPUInfo) (name : Str),
      FindGPUByName gpus name =
        (gpus.find? (fun gpu => decide (gpu.strFriendlyName = name))).getD {}) ∧
    contains rtx4050.strFriendlyName (lit "RTX") = true ∧
    FindGPUByName [rtx4050] (lit "RTX") = {} ∧
    FindGPUByNameSpec [rtx4050] (lit "RTX") = rtx4050 ∧
    FindGPUByName [rtx4050] (lit "NVIDIA GeForce RTX 4050") = rtx4050 := by
  refine ⟨FindGPUByName_eq, ?_, ?_, ?_, ?_⟩ <;> decide!

/-- The name of a VM after the last loop of `GetAllVMsViaPowerShell`. -/
theorem finishVMViaPowerShell_name (fmt : Nat → Str) (gpus : List GPUInfo) (vm : VMInfo) :
    (finishVMViaPowerShell fmt gpus vm).strName = vm.strName := by
  unfold finishVMViaPowerShell
  dsimp only
  split
  · cases gpus.find? (gpuPathMatches vm) <;> rfl
  · rfl

/-- C27: the last loop of `GetAllVMsViaPowerShell` leaves the name of every VM as it was
and stores the friendly name of the matching GPU in `strGPUName`; the loop of
`GetAllVMsViaWMI` stores it in `strName` instead, so that for the same VM record and the
same GPU list the name of the VM is replaced by the name of its GPU, `strGPUName` stays
empty and the display text differs. -/
theorem C27_wmi_overwrites_name :
    (∀ (FormatVRAMSize : Nat → Str) (vms : List VMInfo) (gpus : List GPUInfo),
      (finishViaPowerShell FormatVRAMSize vms gpus).map (fun vm => vm.strName) =
        vms.map (fun vm => vm.strName)) ∧
    finishViaPowerShell wholeMB [sampleVMInfo] [rtx4050] =
      [{ sampleVMInfo with
          strGPUName := lit "NVIDIA GeForce RTX 4050"
          strDisplayText := lit "Win11(Running)  [VRAM:1024MB (NVIDIA GeForce RTX 4050)]" }] ∧
    finishViaWMI wholeMB [sampleVMInfo] [rtx4050] =
      [{ sampleVMInfo with
          strName := lit "NVIDIA GeForce RTX 4050"
          strDisplayText :=
            lit "NVIDIA GeForce RTX 4050(Running)  [VRAM:1024MB (NVIDIA GeForce RTX 4050)]" }] ∧
    finishViaPowerShell wholeMB [sampleVMInfo] [] =
      [{ sampleVMInfo with strDisplayText := lit "Win11(Running)  [VRAM:1024MB]" }] ∧
    finishViaWMI wholeMB [sampleVMInfo] [] =
      [{ sampleVMInfo with strDisplayText := lit "Win11(Running)  [VRAM:1024MB (Win11)]" }] := by
  refine ⟨?_, ?_, ?_, ?_, ?_⟩
  · intro fmt vms gpus
    unfold finishViaPowerShell
    simp only [List.map_map]
    apply List.map_congr_left
    intro vm _
    exact finishVMViaPowerShell_name _ _ _
  all_goals decide!

/-! ## The command line -/

/-- Backslashes in front of a text are counted by the decoder. -/
theorem decodeQuoted_backslashes (t : Str) : ∀ (k pending : Nat),
    decodeQuoted (List.replicate k '\\' ++ t) pending = decodeQuoted t (pending + k) := by
  intro k
  induction k with
  | zero => intro pending; rfl
  | succ k ih =>
    intro pending
    rw [List.replicate_succ, List.cons_append, decodeQuoted, if_pos rfl, ih]
    congr 1
    omega

/-- While the counter stays in the range of `int`, the escaping loop returns a text, and
the decoder reads back from that text, followed by the closing quote, the backslashes not
yet written and the text still to read. -/
theorem decode_escapeLoop : ∀ (s : Str) (nBackslashes : Nat),
    (nBackslashes + s.length) * 2 ≤ INT_MAX →
    ∃ e : Str, escapeLoop s nBackslashes = some e ∧
      ∀ rest : Str, decodeQuoted (e ++ '"' :: rest) 0 =
        some (List.replicate nBackslashes '\\' ++ s, rest) := by
  intro s
  induction s with
  | nil =>
    intro n hn
    have hb : n * 2 ≤ INT_MAX := by simpa using hn
    refine ⟨List.replicate (n * 2) '\\', ?_, ?_⟩
    · rw [escapeLoop, if_pos hb]
    · intro rest
      rw [decodeQuoted_backslashes, decodeQuoted, if_neg (by decide), if_pos rfl,
        if_pos (by omega)]
      have e : (0 + n * 2) / 2 = n := by omega
      rw [e, List.append_nil]
  | cons c cs ih =>
    intro n hn
    simp only [List.length_cons] at hn
    by_cases h1 : c = '\\'
    · obtain ⟨e, he, hdec⟩ := ih (n + 1) (by omega)
      refine ⟨e, ?_, ?_⟩
      · rw [escapeLoop, if_pos h1, if_pos (by omega), he]
      · intro rest
        rw [hdec rest, h1, List.replicate_succ']
        simp only [List.append_assoc, List.singleton_append]
    · obtain ⟨e, he, hdec⟩ := ih 0 (by omega)
      by_cases h2 : c = '"'
      · refine ⟨List.replicate (n * 2) '\\' ++ ['\\', '"'] ++ e, ?_, ?_⟩
        · rw [escapeLoop, if_neg h1, if_pos h2, if_pos (by omega), he]
          rfl
        · intro rest
          rw [List.append_assoc, List.append_assoc, decodeQuoted_backslashes]
          have e1 : ['\\', '"'] ++ (e ++ '"' :: rest) = '\\' :: '"' :: (e ++ '"' :: rest) := rfl
          rw [e1, decodeQuoted, if_pos rfl, decodeQuoted, if_neg (by decide), if_pos rfl,
            if_neg (by omega), hdec rest]
          have e2 : (0 + n * 2 + 1) / 2 = n := by omega
          rw [e2, h2]
          rfl
      · refine ⟨List.replicate n '\\' ++ c :: e, ?_, ?_⟩
        · rw [escapeLoop, if_neg h1, if_neg h2, he]
          rfl
        · intro rest
          rw [List.append_assoc, decodeQuoted_backslashes, List.cons_append, decodeQuoted,
            if_neg h1, if_neg h2, hdec rest, Nat.zero_add]
          rfl

/-- C29: for a command of less than 2^30 chars, on which the `int` counter of the loop
cannot overflow, `ExecuteWithCheck` builds a command line: the fixed text that ends in an
opening double quote, the escaped command and a closing double quote.  Under the quoting
rules of the Windows command line, the text after the opening quote decodes to the
encoding prefix followed by the command, and the quote that ends it is the last char of
the command line. -/
theorem C29_command_line_decodes (strCommand : Str)
    (hlen : (encodingPrefix ++ strCommand).length < 2 ^ 30) :
    ∃ strEscapedCommand : Str,
      escapedCommand strCommand = some strEscapedCommand ∧
      commandLineOf strCommand =
        some (lit "powershell.exe -NoProfile -ExecutionPolicy Bypass -Command " ++ ['"'] ++
          (strEscapedCommand ++ ['"'])) ∧
      decodeQuoted (strEscapedCommand ++ ['"']) 0 = some (encodingPrefix ++ strCommand, []) ∧
      ∀ rest : Str, decodeQuoted (strEscapedCommand ++ '"' :: rest) 0 =
        some (encodingPrefix ++ strCommand, rest) := by
  have hmax : INT_MAX = 2147483647 := by decide
  obtain ⟨e, he, hdec⟩ := decode_escapeLoop (encodingPrefix ++ strCommand) 0 (by omega)
  refine ⟨e, he, ?_, hdec [], hdec⟩
  unfold commandLineOf escapedCommand
  rw [he]
  have e1 : lit "powershell.exe -NoProfile -ExecutionPolicy Bypass -Command \"" =
      lit "powershell.exe -NoProfile -ExecutionPolicy Bypass -Command " ++ ['"'] := by decide
  rw [e1]
  simp only [Option.map_some', List.append_assoc]
  rfl

/-- C29 on a command with a quoted path that ends in a backslash: the quotes are written
with a backslash, the backslash before a quote is doubled, the other backslashes are
written as they are, and the text decodes to the command. -/
theorem C29_command_line_decodes_witness :
    (encodingPrefix ++ lit "dir \"C:\\a\\\" D:\\").length < 2 ^ 30 ∧
    commandLineOf (lit "dir \"C:\\a\\\" D:\\") =
      some (lit "powershell.exe -NoProfile -ExecutionPolicy Bypass -Command \"[Console]::OutputEncoding = [System.Text.Encoding]::UTF8; dir \\\"C:\\a\\\\\\\" D:\\\\\"") ∧
    ∃ strEscapedCommand : Str,
      escapedCommand (lit "dir \"C:\\a\\\" D:\\") = some strEscapedCommand ∧
      commandLineOf (lit "dir \"C:\\a\\\" D:\\") =
        some (lit "powershell.exe -NoProfile -ExecutionPolicy Bypass -Command " ++ ['"'] ++
          (strEscapedCommand ++ ['"'])) ∧
      decodeQuoted (strEscapedCommand ++ ['"']) 0 =
        some (encodingPrefix ++ lit "dir \"C:\\a\\\" D:\\", []) ∧
      ∀ rest : Str, decodeQuoted (strEscapedCommand ++ '"' :: rest) 0 =
        some (encodingPrefix ++ lit "dir \"C:\\a\\\" D:\\", rest) :=
  ⟨by decide, by decide!, C29_command_line_decodes (lit "dir \"C:\\a\\\" D:\\") (by decide)⟩

/-! ## JSON strings -/

/-- A hexadecimal digit is a char between `0` and `f`. -/
theorem digitVal_range (c : Char) (d : Nat) (h : digitVal 16 c = some d) :
    48 ≤ c.toNat ∧ c.toNat ≤ 102 ∧ d < 16 := by
  unfold digitVal at h
  dsimp only at h
  by_cases h1 : (decide (48 ≤ c.toNat) && decide (c.toNat ≤ 57)) = true
  · rw [if_pos h1] at h
    dsimp only at h
    simp only [Bool.and_eq_true, decide_eq_true_eq] at h1
    by_cases h4 : c.toNat - 48 < 16
    · rw [if_pos h4] at h
      simp only [Option.some.injEq] at h
      omega
    · rw [if_neg h4] at h; cases h
  · rw [if_neg h1] at h
    by_cases h2 : (decide (97 ≤ c.toNat) && decide (c.toNat ≤ 122)) = true
    · rw [if_pos h2] at h
      dsimp only at h
      simp only [Bool.and_eq_true, decide_eq_true_eq] at h2
      by_cases h4 : c.toNat - 87 < 16
      · rw [if_pos h4] at h
        simp only [Option.some.injEq] at h
        omega
      · rw [if_neg h4] at h; cases h
    · rw [if_neg h2] at h
      by_cases h3 : (decide (65 ≤ c.toNat) && decide (c.toNat ≤ 90)) = true
      · rw [if_pos h3] at h
        dsimp only at h
        simp only [Bool.and_eq_true, decide_eq_true_eq] at h3
        by_cases h4 : c.toNat - 55 < 16
        · rw [if_pos h4] at h
          simp only [Option.some.injEq] at h
          omega
        · rw [if_neg h4] at h; cases h
      · rw [if_neg h3] at h
        cases h

/-- A hexadecimal digit differs from every char that is not one. -/
theorem digitVal_ne (c x : Char) (d : Nat) (h : digitVal 16 c = some d)
    (hx : digitVal 16 x = none) : c ≠ x := by
  rintro rfl
  rw [hx] at h
  cases h

/-- A hexadecimal digit is not a space. -/
theorem digitVal_not_space (c : Char) (d : Nat) (h : digitVal 16 c = some d) :
    isspace c = false := by
  have hr := digitVal_range c d h
  have hn : ∀ x : Char, x.toNat < 48 → c ≠ x := by
    rintro x hx rfl
    omega
  unfold isspace
  simp only [Bool.or_eq_false_iff, decide_eq_false_iff_not]
  refine ⟨⟨⟨⟨⟨hn _ (by decide), hn _ (by decide)⟩, hn _ (by decide)⟩, hn _ (by decide)⟩, ?_⟩, ?_⟩ <;>
    omega

/-- The sign scan leaves a text that starts with a hexadecimal digit as it is. -/
theorem readSign_digit (c : Char) (cs : Str) (d : Nat) (h : digitVal 16 c = some d) :
    readSign (c :: cs) = (false, c :: cs) := by
  have h1 : c ≠ '-' := digitVal_ne c _ d h (by decide)
  have h2 : c ≠ '+' := digitVal_ne c _ d h (by decide)
  unfold readSign
  split
  · rename_i heq
    exact absurd (List.cons.inj heq).1 h1
  · rename_i heq
    exact absurd (List.cons.inj heq).1 h2
  · rfl

/-- The scan for `0x` leaves four hexadecimal digits as they are. -/
theorem readHexMark_digits (c1 c2 c3 c4 : Char) (d : Nat) (h : digitVal 16 c2 = some d) :
    readHexMark [c1, c2, c3, c4] = [c1, c2, c3, c4] := by
  have h1 : c2 ≠ 'x' := digitVal_ne c2 _ d h (by decide)
  have h2 : c2 ≠ 'X' := digitVal_ne c2 _ d h (by decide)
  unfold readHexMark
  split
  · rename_i x dd cs heq
    have e := (List.cons.inj (List.cons.inj heq).2).1
    subst e
    rw [if_neg (by simp [h1, h2])]
    exact heq.symm
  · rfl

/-- The value `std::stoi` reads from four hexadecimal digits. -/
theorem stoi16_digits (h1 h2 h3 h4 : Char) (d1 d2 d3 d4 : Nat)
    (e1 : digitVal 16 h1 = some d1) (e2 : digitVal 16 h2 = some d2)
    (e3 : digitVal 16 h3 = some d3) (e4 : digitVal 16 h4 = some d4) :
    stoi16 [h1, h2, h3, h4] = some ((4096 * d1 + 256 * d2 + 16 * d3 + d4 : Nat) : Int) := by
  unfold stoi16
  have hs : List.dropWhile isspace [h1, h2, h3, h4] = [h1, h2, h3, h4] := by
    rw [List.dropWhile_cons, digitVal_not_space h1 d1 e1]
    rfl
  have hd : readDigits 16 [h1, h2, h3, h4] 0 0 = (4096 * d1 + 256 * d2 + 16 * d3 + d4, 4) := by
    simp only [readDigits, e1, e2, e3, e4]
    refine Prod.ext ?_ rfl
    show (((0 * 16 + d1) * 16 + d2) * 16 + d3) * 16 + d4 = _
    omega
  dsimp only
  rw [hs, readSign_digit h1 _ d1 e1]
  dsimp only
  rw [readHexMark_digits h1 h2 h3 h4 d2 e2, hd]
  simp

/-- On a code below 0x10000 the bytes `UnescapeJsonString` appends are its UTF-8 form. -/
theorem utf8OfCode_eq (n : Nat) (hn : n < 65536) : utf8OfCode (n : Int) = utf8Bytes n := by
  unfold utf8OfCode utf8Bytes byteChar
  by_cases h1 : n < 128
  · have h1i : (n : Int) < 128 := by omega
    rw [if_pos h1i, if_pos h1]
    have e : ((n : Int) % 256).toNat = n := by omega
    rw [e]
  · have h1i : ¬ (n : Int) < 128 := by omega
    rw [if_neg h1i, if_neg h1]
    by_cases h2 : n < 2048
    · have h2i : (n : Int) < 2048 := by omega
      rw [if_pos h2i, if_pos h2]
      have e1 : ((192 + (n : Int) / 64) % 256).toNat = 192 + n / 64 := by omega
      have e2 : ((128 + (n : Int) % 64) % 256).toNat = 128 + n % 64 := by omega
      rw [e1, e2]
    · have h2i : ¬ (n : Int) < 2048 := by omega
      rw [if_neg h2i, if_neg h2]
      have e1 : ((224 + (n : Int) / 4096) % 256).toNat = 224 + n / 4096 := by omega
      have e2 : ((128 + (n : Int) / 64 % 64) % 256).toNat = 128 + n / 64 % 64 := by omega
      have e3 : ((128 + (n : Int) % 64) % 256).toNat = 128 + n % 64 := by omega
      rw [e1, e2, e3]

/-- With enough rounds, `UnescapeJsonString` turns an escaped text back into its value. -/
theorem unescape_escaped (value escaped : Str) (h : JsonEscaped value escaped) :
    ∀ fuel : Nat, escaped.length ≤ fuel → unescapeLoop fuel escaped = value := by
  induction h with
  | nil => intro fuel _; cases fuel <;> rfl
  | plain c v e hq hb _ ih =>
    intro fuel hf
    cases fuel with
    | zero => simp at hf
    | succ f =>
      show (if c = '\\' then _ else c :: unescapeLoop f e) = _
      rw [if_neg hb, ih f (by simp at hf; omega)]
  | quote v e _ ih =>
    intro fuel hf
    cases fuel with
    | zero => simp at hf
    | succ f =>
      have e1 : unescapeLoop (f + 1) ('\\' :: '"' :: e) = '"' :: unescapeLoop f e := rfl
      rw [e1, ih f (by simp at hf; omega)]
  | backslash v e _ ih =>
    intro fuel hf
    cases fuel with
    | zero => simp at hf
    | succ f =>
      have e1 : unescapeLoop (f + 1) ('\\' :: '\\' :: e) = '\\' :: unescapeLoop f e := rfl
      rw [e1, ih f (by simp at hf; omega)]
  | slash v e _ ih =>
    intro fuel hf
    cases fuel with
    | zero => simp at hf
    | succ f =>
      have e1 : unescapeLoop (f + 1) ('\\' :: '/' :: e) = '/' :: unescapeLoop f e := rfl
      rw [e1, ih f (by simp at hf; omega)]
  | backspace v e _ ih =>
    intro fuel hf
    cases fuel with
    | zero => simp at hf
    | succ f =>
      have e1 : unescapeLoop (f + 1) ('\\' :: 'b' :: e) = Char.ofNat 8 :: unescapeLoop f e := rfl
      rw [e1, ih f (by simp at hf; omega)]
  | formFeed v e _ ih =>
    intro fuel hf
    cases fuel with
    | zero => simp at hf
    | succ f =>
      have e1 : unescapeLoop (f + 1) ('\\' :: 'f' :: e) = Char.ofNat 12 :: unescapeLoop f e := rfl
      rw [e1, ih f (by simp at hf; omega)]
  | lineFeed v e _ ih =>
    intro fuel hf
    cases fuel with
    | zero => simp at hf
    | succ f =>
      have e1 : unescapeLoop (f + 1) ('\\' :: 'n' :: e) = '\n' :: unescapeLoop f e := rfl
      rw [e1, ih f (by simp at hf; omega)]
  | carriageReturn v e _ ih =>
    intro fuel hf
    cases fuel with
    | zero => simp at hf
    | succ f =>
      have e1 : unescapeLoop (f + 1) ('\\' :: 'r' :: e) = '\r' :: unescapeLoop f e := rfl
      rw [e1, ih f (by simp at hf; omega)]
  | tab v e _ ih =>
    intro fuel hf
    cases fuel with
    | zero => simp at hf
    | succ f =>
      have e1 : unescapeLoop (f + 1) ('\\' :: 't' :: e) = '\t' :: unescapeLoop f e := rfl
      rw [e1, ih f (by simp at hf; omega)]
  | unicode h1 h2 h3 h4 d1 d2 d3 d4 v e e1 e2 e3 e4 _ _ ih =>
    intro fuel hf
    cases fuel with
    | zero => simp at hf
    | succ f =>
      have hstep : unescapeLoop (f + 1) ('\\' :: 'u' :: h1 :: h2 :: h3 :: h4 :: e) =
          (if 4 ≤ (h1 :: h2 :: h3 :: h4 :: e).length then
            match stoi16 ((h1 :: h2 :: h3 :: h4 :: e).take 4) with
            | some nCode => utf8OfCode nCode ++ unescapeLoop f ((h1 :: h2 :: h3 :: h4 :: e).drop 4)
            | none => '\\' :: 'u' :: unescapeLoop f (h1 :: h2 :: h3 :: h4 :: e)
          else '\\' :: 'u' :: unescapeLoop f (h1 :: h2 :: h3 :: h4 :: e)) := rfl
      have hlen : 4 ≤ (h1 :: h2 :: h3 :: h4 :: e).length := by simp
      have htake : (h1 :: h2 :: h3 :: h4 :: e).take 4 = [h1, h2, h3, h4] := rfl
      have hdrop : (h1 :: h2 :: h3 :: h4 :: e).drop 4 = e := rfl
      have r1 := digitVal_range h1 d1 e1
      have r2 := digitVal_range h2 d2 e2
      have r3 := digitVal_range h3 d3 e3
      have r4 := digitVal_range h4 d4 e4
      rw [hstep, if_pos hlen, htake, hdrop, stoi16_digits h1 h2 h3 h4 d1 d2 d3 d4 e1 e2 e3 e4]
      dsimp only
      rw [utf8OfCode_eq _ (by omega), ih f (by simp at hf; omega)]

/-- In an escaped text followed by a double quote, the scan for the closing quote stops at
that quote. -/
theorem closingQuote_escaped (value escaped : Str) (h : JsonEscaped value escaped) :
    ∀ (rest : Str) (run k : Nat), run % 2 = 0 →
      closingQuote (escaped ++ '"' :: rest) run k = some (k + escaped.length) := by
  induction h with
  | nil =>
    intro rest run k hr
    rw [List.nil_append, closingQuote, if_pos rfl, if_pos hr]
    rfl
  | plain c v e hq hb _ ih =>
    intro rest run k _
    rw [List.cons_append, closingQuote, if_neg hq, if_neg hb, ih rest 0 (k + 1) rfl,
      List.length_cons]
    congr 1
    omega
  | quote v e _ ih =>
    intro rest run k hr
    have e1 : closingQuote ('\\' :: '"' :: e ++ '"' :: rest) run k =
        (if (run + 1) % 2 = 0 then some (k + 1) else closingQuote (e ++ '"' :: rest) 0 (k + 1 + 1)) :=
      rfl
    rw [e1, if_neg (by omega), ih rest 0 _ rfl]
    simp only [List.length_cons]
    congr 1
    omega
  | backslash v e _ ih =>
    intro rest run k hr
    have e1 : closingQuote ('\\' :: '\\' :: e ++ '"' :: rest) run k =
        closingQuote (e ++ '"' :: rest) (run + 1 + 1) (k + 1 + 1) := rfl
    rw [e1, ih rest _ _ (by omega)]
    simp only [List.length_cons]
    congr 1
    omega
  | slash v e _ ih =>
    intro rest run k hr
    have e1 : closingQuote ('\\' :: '/' :: e ++ '"' :: rest) run k =
        closingQuote (e ++ '"' :: rest) 0 (k + 1 + 1) := rfl
    rw [e1, ih rest _ _ rfl]
    simp only [List.length_cons]
    congr 1
    omega
  | backspace v e _ ih =>
    intro rest run k hr
    have e1 : closingQuote ('\\' :: 'b' :: e ++ '"' :: rest) run k =
        closingQuote (e ++ '"' :: rest) 0 (k + 1 + 1) := rfl
    rw [e1, ih rest _ _ rfl]
    simp only [List.length_cons]
    congr 1
    omega
  | formFeed v e _ ih =>
    intro rest run k hr
    have e1 : closingQuote ('\\' :: 'f' :: e ++ '"' :: rest) run k =
        closingQuote (e ++ '"' :: rest) 0 (k + 1 + 1) := rfl
    rw [e1, ih rest _ _ rfl]
    simp only [List.length_cons]
    congr 1
    omega
  | lineFeed v e _ ih =>
    intro rest run k hr
    have e1 : closingQuote ('\\' :: 'n' :: e ++ '"' :: rest) run k =
        closingQuote (e ++ '"' :: rest) 0 (k + 1 + 1) := rfl
    rw [e1, ih rest _ _ rfl]
    simp only [List.length_cons]
    congr 1
    omega
  | carriageReturn v e _ ih =>
    intro rest run k hr
    have e1 : closingQuote ('\\' :: 'r' :: e ++ '"' :: rest) run k =
        closingQuote (e ++ '"' :: rest) 0 (k + 1 + 1) := rfl
    rw [e1, ih rest _ _ rfl]
    simp only [List.length_cons]
    congr 1
    omega
  | tab v e _ ih =>
    intro rest run k hr
    have e1 : closingQuote ('\\' :: 't' :: e ++ '"' :: rest) run k =
        closingQuote (e ++ '"' :: rest) 0 (k + 1 + 1) := rfl
    rw [e1, ih rest _ _ rfl]
    simp only [List.length_cons]
    congr 1
    omega
  | unicode h1 h2 h3 h4 d1 d2 d3 d4 v e e1 e2 e3 e4 _ _ ih =>
    intro rest run k hr
    have q1 : h1 ≠ '"' := digitVal_ne h1 _ d1 e1 (by decide)
    have q2 : h2 ≠ '"' := digitVal_ne h2 _ d2 e2 (by decide)
    have q3 : h3 ≠ '"' := digitVal_ne h3 _ d3 e3 (by decide)
    have q4 : h4 ≠ '"' := digitVal_ne h4 _ d4 e4 (by decide)
    have b1 : h1 ≠ '\\' := digitVal_ne h1 _ d1 e1 (by decide)
    have b2 : h2 ≠ '\\' := digitVal_ne h2 _ d2 e2 (by decide)
    have b3 : h3 ≠ '\\' := digitVal_ne h3 _ d3 e3 (by decide)
    have b4 : h4 ≠ '\\' := digitVal_ne h4 _ d4 e4 (by decide)
    have s1 : closingQuote ('\\' :: 'u' :: h1 :: h2 :: h3 :: h4 :: e ++ '"' :: rest) run k =
        closingQuote (h1 :: h2 :: h3 :: h4 :: (e ++ '"' :: rest)) 0 (k + 1 + 1) := rfl
    rw [s1, closingQuote, if_neg q1, if_neg b1, closingQuote, if_neg q2, if_neg b2,
      closingQuote, if_neg q3, if_neg b3, closingQuote, if_neg q4, if_neg b4, ih rest _ _ rfl]
    simp only [List.length_cons]
    congr 1
    omega

/-- The first offset whose char satisfies `p`, when no char of `pre` does and `c` does. -/
theorem findIdx_after (p : Char → Bool) (c : Char) (rest : Str) (hc : p c = true) :
    ∀ pre : Str, (∀ x ∈ pre, p x = false) → findIdx p (pre ++ c :: rest) = some pre.length := by
  intro pre
  induction pre with
  | nil =>
    intro _
    show (if p c = true then some 0 else _) = _
    rw [if_pos hc]
    rfl
  | cons x xs ih =>
    intro hx
    have hx0 : p x = false := hx x (List.mem_cons_self x xs)
    show (if p x = true then some 0 else (findIdx p (xs ++ c :: rest)).map (fun i => i + 1)) = _
    rw [if_neg (by rw [hx0]; decide), ih (fun y hy => hx y (List.mem_cons_of_mem x hy))]
    rfl

/-- An alphanumeric char is neither a double quote nor a colon. -/
theorem alphanum_ne (c : Char) (h : c.isAlphanum = true) : c ≠ '"' ∧ c ≠ ':' := by
  constructor
  · rintro rfl
    revert h
    decide
  · rintro rfl
    revert h
    decide

/-- A blank is neither a double quote nor a colon. -/
theorem blank_ne (c : Char) (h : c ∈ blanks) : c ≠ '"' ∧ c ≠ ':' := by
  constructor
  · rintro rfl
    revert h
    decide
  · rintro rfl
    revert h
    decide

/-- The value `ExtractJsonValue` returns for `key` when the first occurrence of the quoted
key starts a member whose value is a string: the value of that string. -/
theorem ExtractJsonValue_at (S pre key w2 w3 value escaped rest : Str)
    (hS : S = pre ++ ('"' :: (key ++ '"' :: w2) ++
      ':' :: (w3 ++ '"' :: (escaped ++ '"' :: rest))))
    (hfind : find (['"'] ++ key ++ ['"']) S = some pre.length)
    (hkey : ∀ c ∈ key, c.isAlphanum = true)
    (hw2 : ∀ c ∈ w2, c ∈ blanks) (hw3 : ∀ c ∈ w3, c ∈ blanks)
    (hesc : JsonEscaped value escaped) :
    ExtractJsonValue S key = value := by
  have hnc : ':' ∉ ('"' :: (key ++ '"' :: w2)) := by
    simp only [List.mem_cons, List.mem_append, not_or]
    refine ⟨by decide, ?_, by decide, ?_⟩
    · intro hk
      exact (alphanum_ne _ (hkey _ hk)).2 rfl
    · intro hk
      exact (blank_ne _ (hw2 _ hk)).2 rfl
  have hlen : pre.length ≤ S.length := by
    rw [hS, List.length_append]
    omega
  have hcolon : findFrom [':'] S pre.length =
      some (('"' :: (key ++ '"' :: w2)).length + pre.length) := by
    have h : find [':'] ('"' :: (key ++ '"' :: w2) ++
        ':' :: (w3 ++ '"' :: (escaped ++ '"' :: rest))) =
        some ('"' :: (key ++ '"' :: w2)).length :=
      find_after ':' [] (w3 ++ '"' :: (escaped ++ '"' :: rest)) _ hnc
    unfold findFrom
    rw [if_pos hlen]
    have hd : S.drop pre.length = '"' :: (key ++ '"' :: w2) ++
        ':' :: (w3 ++ '"' :: (escaped ++ '"' :: rest)) := by
      rw [hS, List.drop_left]
    rw [hd, h]
    rfl
  have hd3 : S.drop (('"' :: (key ++ '"' :: w2)).length + pre.length + 1) =
      w3 ++ '"' :: (escaped ++ '"' :: rest) := by
    have e : S = (pre ++ ('"' :: (key ++ '"' :: w2)) ++ [':']) ++
        (w3 ++ '"' :: (escaped ++ '"' :: rest)) := by
      rw [hS]
      simp only [List.append_assoc, List.cons_append, List.nil_append]
    rw [e]
    apply List.drop_left'
    simp only [List.length_append, List.length_cons, List.length_nil]
    omega
  have hblank : ∀ x ∈ w3, (fun c => !blanks.contains c) x = false := by
    intro x hx
    have := hw3 x hx
    simp only [Bool.not_eq_false']
    exact List.elem_iff.mpr this
  have hstart : find_first_not_of S blanks (('"' :: (key ++ '"' :: w2)).length + pre.length + 1) =
      some (w3.length + (('"' :: (key ++ '"' :: w2)).length + pre.length + 1)) := by
    unfold find_first_not_of
    rw [hd3, findIdx_after _ '"' _ (by decide) w3 hblank]
    rfl
  have hd4 : S.drop (w3.length + (('"' :: (key ++ '"' :: w2)).length + pre.length + 1)) =
      '"' :: (escaped ++ '"' :: rest) := by
    rw [Nat.add_comm, ← List.drop_drop, hd3, List.drop_left]
  have hd5 : S.drop (w3.length + (('"' :: (key ++ '"' :: w2)).length + pre.length + 1) + 1) =
      escaped ++ '"' :: rest := by
    rw [← List.drop_drop, hd4]
    rfl
  unfold ExtractJsonValue
  dsimp only
  rw [hfind]
  dsimp only
  rw [hcolon]
  dsimp only
  rw [hstart]
  dsimp only
  rw [hd4, if_pos (show ('"' :: (escaped ++ '"' :: rest)).head? = some '"' from rfl), hd5, closingQuote_escaped value escaped hesc rest 0 0 rfl]
  dsimp only
  unfold substr UnescapeJsonString
  rw [hd5, Nat.zero_add, List.take_left]
  exact unescape_escaped value escaped hesc _ (Nat.le_refl _)

/-- The value `ExtractJsonValue` returns for `key` on a text in which the first double
quote starts the member `key`, whose value is a string: the value of that string. -/
theorem ExtractJsonValue_member (S pre key w2 w3 value escaped rest : Str)
    (hS : S = pre ++ ('"' :: (key ++ '"' :: w2) ++
      ':' :: (w3 ++ '"' :: (escaped ++ '"' :: rest))))
    (hpre : '"' ∉ pre) (hkey : ∀ c ∈ key, c.isAlphanum = true)
    (hw2 : ∀ c ∈ w2, c ∈ blanks) (hw3 : ∀ c ∈ w3, c ∈ blanks)
    (hesc : JsonEscaped value escaped) :
    ExtractJsonValue S key = value := by
  have hfind : find (['"'] ++ key ++ ['"']) S = some pre.length := by
    have h := find_after '"' (key ++ ['"'])
      (w2 ++ ':' :: (w3 ++ '"' :: (escaped ++ '"' :: rest))) pre hpre
    have e : pre ++ '"' :: (key ++ ['"'] ++ (w2 ++ ':' :: (w3 ++ '"' :: (escaped ++ '"' :: rest)))) =
        S := by
      rw [hS]
      simp only [List.append_assoc, List.cons_append, List.nil_append]
    rw [e] at h
    exact h
  exact ExtractJsonValue_at S pre key w2 w3 value escaped rest hS hfind hkey hw2 hw3 hesc

/-- The lower-case hexadecimal digits are read back as their values. -/
theorem digitVal_hexDigit : ∀ k : Nat, k < 16 → digitVal 16 (hexDigit k) = some k := by
  decide

/-- The text `ConvertTo-Json` writes for a string is an escaped form of that string. -/
theorem jsonString_escaped : ∀ s : Str, JsonEscaped s (s.flatMap jsonEscapeChar) := by
  intro s
  induction s with
  | nil => exact JsonEscaped.nil
  | cons c cs ih =>
    rw [List.flatMap_cons]
    unfold jsonEscapeChar
    by_cases h1 : c = '"'
    · rw [if_pos h1, h1]; exact JsonEscaped.quote _ _ ih
    rw [if_neg h1]
    by_cases h2 : c = '\\'
    · rw [if_pos h2, h2]; exact JsonEscaped.backslash _ _ ih
    rw [if_neg h2]
    by_cases h3 : c = '\n'
    · rw [if_pos h3, h3]; exact JsonEscaped.lineFeed _ _ ih
    rw [if_neg h3]
    by_cases h4 : c = '\r'
    · rw [if_pos h4, h4]; exact JsonEscaped.carriageReturn _ _ ih
    rw [if_neg h4]
    by_cases h5 : c = '\t'
    · rw [if_pos h5, h5]; exact JsonEscaped.tab _ _ ih
    rw [if_neg h5]
    have hof : Char.ofNat c.toNat = c := Char.ofNat_toNat c
    by_cases h6 : c.toNat = 8
    · rw [if_pos h6]
      rw [h6] at hof
      rw [← hof]
      exact JsonEscaped.backspace _ _ ih
    rw [if_neg h6]
    by_cases h7 : c.toNat = 12
    · rw [if_pos h7]
      rw [h7] at hof
      rw [← hof]
      exact JsonEscaped.formFeed _ _ ih
    rw [if_neg h7]
    by_cases h8 : (decide (c.toNat < 32) || decide (c = '&') || decide (c = '\x27') ||
        decide (c = '<') || decide (c = '>')) = true
    · rw [if_pos h8]
      have hlt : c.toNat < 128 := by
        simp only [Bool.or_eq_true, decide_eq_true_eq] at h8
        rcases h8 with (((h | h) | h) | h) | h
        · omega
        · rw [h]; decide
        · rw [h]; decide
        · rw [h]; decide
        · rw [h]; decide
      have hu := JsonEscaped.unicode '0' '0' (hexDigit (c.toNat / 16)) (hexDigit (c.toNat % 16))
        0 0 (c.toNat / 16) (c.toNat % 16) cs (cs.flatMap jsonEscapeChar) (by decide) (by decide)
        (digitVal_hexDigit _ (by omega)) (digitVal_hexDigit _ (by omega)) (by omega) ih
      have hn : 4096 * 0 + 256 * 0 + 16 * (c.toNat / 16) + c.toNat % 16 = c.toNat := by omega
      rw [hn] at hu
      have hb : utf8Bytes c.toNat = [c] := by
        unfold utf8Bytes
        rw [if_pos hlt, hof]
      rw [hb] at hu
      exact hu
    · rw [if_neg h8]
      exact JsonEscaped.plain c _ _ h1 h2 ih

/-- The output of the adapter query starts with the member `InstancePath` of the first
adapter, and has no double quote before it. -/
theorem adaptersJson_form (a : Adapter) (others : List Adapter) :
    ∃ pre rest : Str, '"' ∉ pre ∧
      adaptersJson (a :: others) =
        pre ++ ('"' :: (lit "InstancePath" ++ '"' :: []) ++
          ':' :: (lit "  " ++ '"' :: (a.instancePath.flatMap jsonEscapeChar ++ '"' :: rest))) := by
  cases others with
  | nil =>
    refine ⟨lit "\x7b\n    ",
      lit ",\n    \"MinPartitionVRAM\":  " ++ Nat.toDigits 10 a.vram.min ++ lit "\n\x7d",
      by decide, ?_⟩
    simp [adaptersJson, adapterJson, jsonString, lit]
  | cons b rest =>
    refine ⟨lit "[\n    \x7b\n        ",
      lit ",\n        \"MinPartitionVRAM\":  " ++ Nat.toDigits 10 a.vram.min ++ lit "\n    \x7d" ++
        lit ",\n" ++ joinObjects ((b :: rest).map (adapterJson (lit "    "))) ++ lit "\n]",
      by decide, ?_⟩
    simp [adaptersJson, adapterJson, jsonString, lit, joinObjects]

/-- The instance path `BackupState` stores. -/
theorem BackupState_path {σ : Type} (h : Host σ) (vmName : Str) (s : σ) :
    (BackupState h vmName s).val.strInstancePath =
      if (h.exec (Cmd.getAdapter vmName) s).1.output.isEmpty then []
      else ExtractJsonValue (h.exec (Cmd.getAdapter vmName) s).1.output (lit "InstancePath") := by
  unfold BackupState
  simp only [bind_pure_comp, run_bind, run_Execute, run_emit, run_pure]
  cases hout : (h.exec (Cmd.getAdapter vmName) s).1.output with
  | nil => rfl
  | cons c cs => rfl

/-- C30: for an alphanumeric key and blanks where JSON allows whitespace,
`ExtractJsonValue` applied to the one-member object whose value is a double-quoted escaped
form of a string returns that string: a double quote, a backslash, a slash, backspace,
form feed, line feed, carriage return and tab may be written with their two-char escape,
and a code point below 0x10000 outside the surrogate range as backslash, `u` and four
hexadecimal digits, which is read back as its bytes in UTF-8.  Every string has such a
form, the one `ConvertTo-Json` writes, and `BackupState` recovers the instance path of the
first adapter from the output of its query, whatever that path is. -/
theorem C30_json_round_trip (w1 w2 w3 w4 key value escaped : Str)
    (hkey : ∀ c ∈ key, c.isAlphanum = true)
    (hw1 : ∀ c ∈ w1, c ∈ blanks) (hw2 : ∀ c ∈ w2, c ∈ blanks) (hw3 : ∀ c ∈ w3, c ∈ blanks)
    (hesc : JsonEscaped value escaped) :
    ExtractJsonValue (oneMemberObject w1 w2 w3 w4 key escaped) key = value ∧
    (∀ original : Str,
      ExtractJsonValue
        (oneMemberObject w1 w2 w3 w4 key (original.flatMap jsonEscapeChar)) key = original) ∧
    (∀ (σ : Type) (h : Host σ) (vmName : Str) (s : σ) (a : Adapter) (others : List Adapter),
      (h.exec (Cmd.getAdapter vmName) s).1.output = adaptersJson (a :: others) →
      (BackupState h vmName s).val.strInstancePath = a.instancePath) := by
  have hpre : '"' ∉ ('\x7b' :: w1) := by
    simp only [List.mem_cons, not_or]
    exact ⟨by decide, fun hm => (blank_ne _ (hw1 _ hm)).1 rfl⟩
  have hform : ∀ e : Str, oneMemberObject w1 w2 w3 w4 key e =
      ('\x7b' :: w1) ++ ('"' :: (key ++ '"' :: w2) ++
        ':' :: (w3 ++ '"' :: (e ++ '"' :: (w4 ++ ['\x7d'])))) := by
    intro e
    simp [oneMemberObject, lit]
  refine ⟨?_, ?_, ?_⟩
  · exact ExtractJsonValue_member _ _ key w2 w3 value escaped _ (hform escaped) hpre hkey hw2 hw3
      hesc
  · intro original
    exact ExtractJsonValue_member _ _ key w2 w3 original _ _ (hform _) hpre hkey hw2 hw3
      (jsonString_escaped original)
  · intro σ h vmName s a others hout
    obtain ⟨pre, rest, hq, hf⟩ := adaptersJson_form a others
    rw [BackupState_path, hout]
    have hne : (adaptersJson (a :: others)).isEmpty = false := by
      rw [hf]
      cases pre <;> rfl
    rw [hne]
    exact ExtractJsonValue_member _ pre (lit "InstancePath") [] (lit "  ") a.instancePath _ rest hf hq
      (by decide) (by decide) (by decide) (jsonString_escaped a.instancePath)

/-- C30 at an instance path: the object holds the path with its backslashes doubled and
its `&` written as backslash-u0026, and the path is read back unchanged, also by `BackupState`
from the output of the modelled host. -/
theorem C30_json_round_trip_witness :
    ExtractJsonValue
      (lit "\x7b \"InstancePath\" : \"\\\\\\\\?\\\\PCI#VEN_10DE\\u0026DEV_28A1\\u0026SUBSYS_00000000\" \x7d")
      (lit "InstancePath") = samplePath ∧
    (sampleHyperV.exec (Cmd.getAdapter (lit "vm")) configuredVM).1.output =
      lit "\x7b\n    \"InstancePath\":  \"\\\\\\\\?\\\\PCI#VEN_10DE\\u0026DEV_28A1\\u0026SUBSYS_00000000\",\n    \"MinPartitionVRAM\":  80000000\n\x7d" ∧
    (BackupState sampleHyperV (lit "vm") configuredVM).val.strInstancePath = samplePath :=
  have h := C30_json_round_trip [' '] [' '] [' '] [' '] (lit "InstancePath") samplePath
    (samplePath.flatMap jsonEscapeChar) (by decide) (by decide) (by decide) (by decide)
    (jsonString_escaped samplePath)
  ⟨h.1, by decide!, h.2.2 VM sampleHyperV (lit "vm") configuredVM _ [] rfl⟩

/-! ## The VM list -/

/-- A search whose pattern starts with a char that does not occur in `pre` passes `pre`. -/
theorem find_pre (c : Char) (p Y : Str) : ∀ pre : Str, c ∉ pre →
    find (c :: p) (pre ++ Y) = (find (c :: p) Y).map (fun i => i + pre.length) := by
  intro pre
  induction pre with
  | nil =>
    intro _
    show find (c :: p) Y = _
    cases find (c :: p) Y <;> rfl
  | cons x xs ih =>
    intro hx
    simp only [List.mem_cons, not_or] at hx
    have hnp : (c :: p).isPrefixOf (x :: (xs ++ Y)) = false := by
      simp [List.isPrefixOf, hx.1]
    show find (c :: p) (x :: (xs ++ Y)) = _
    rw [find, if_neg (by simp [hnp]), ih hx.2]
    cases find (c :: p) Y with
    | none => rfl
    | some i =>
      simp only [Option.map_some', List.length_cons, Option.some.injEq]
      omega

/-- A quoted key that starts a text which goes on with a token and a double quote is that
token, when neither holds a double quote. -/
theorem token_eq_key (Y : Str) : ∀ key t : Str, '"' ∉ key → '"' ∉ t →
    (key ++ ['"']) <+: (t ++ '"' :: Y) → key = t := by
  intro key
  induction key with
  | nil =>
    intro t _ ht hp
    cases t with
    | nil => rfl
    | cons a t2 =>
      have h := (List.cons_prefix_cons.mp hp).1
      exact absurd (h ▸ List.mem_cons_self a t2) ht
  | cons k ks ih =>
    intro t hk ht hp
    simp only [List.mem_cons, not_or] at hk
    cases t with
    | nil =>
      have h := (List.cons_prefix_cons.mp hp).1
      exact absurd h.symm hk.1
    | cons a t2 =>
      simp only [List.mem_cons, not_or] at ht
      have h := List.cons_prefix_cons.mp hp
      rw [h.1, ih t2 hk.2 ht.2 h.2]

/-- Quoted tokens followed by a double quote start with a double quote. -/
theorem quoted_head (W : Str) : ∀ ts : List Str, ∃ Y, quoted ts ++ '"' :: W = '"' :: Y := by
  intro ts
  cases ts with
  | nil => exact ⟨W, rfl⟩
  | cons t ts2 => exact ⟨t ++ quoted ts2 ++ '"' :: W, by simp [quoted]⟩

/-- The search for a quoted key passes every quoted token that holds no double quote and
is not the key, and stops at the key. -/
theorem find_tokens (key R : Str) (hkey : '"' ∉ key) : ∀ toks : List Str,
    (∀ t ∈ toks, '"' ∉ t ∧ t ≠ key) →
    find ('"' :: (key ++ ['"'])) (quoted toks ++ '"' :: (key ++ '"' :: R)) =
      some (quoted toks).length := by
  intro toks
  induction toks with
  | nil =>
    intro _
    have h := find_after '"' (key ++ ['"']) R [] (List.not_mem_nil _)
    have e : key ++ ['"'] ++ R = key ++ '"' :: R := by simp
    rw [e] at h
    exact h
  | cons t ts ih =>
    intro ht
    have ht0 := ht t (List.mem_cons_self t ts)
    obtain ⟨Y, hY⟩ := quoted_head (key ++ '"' :: R) ts
    have hnp : ¬ ('"' :: (key ++ ['"'])).isPrefixOf
        ('"' :: (t ++ (quoted ts ++ '"' :: (key ++ '"' :: R)))) = true := by
      rw [isPrefixOf_iff]
      intro hp
      have h2 := (List.cons_prefix_cons.mp hp).2
      rw [hY] at h2
      exact ht0.2 (token_eq_key Y key t hkey ht0.1 h2).symm
    have e : quoted (t :: ts) ++ '"' :: (key ++ '"' :: R) =
        '"' :: (t ++ (quoted ts ++ '"' :: (key ++ '"' :: R))) := by
      simp [quoted]
    rw [e, find, if_neg hnp, find_pre '"' _ _ t ht0.1,
      ih (fun x hx => ht x (List.mem_cons_of_mem t hx))]
    simp only [Option.map_some', Option.some.injEq, quoted, List.length_cons, List.length_append]
    omega

/-- The lower-case hexadecimal digits are alphanumeric. -/
theorem hexDigit_alphanum : ∀ k : Nat, k < 16 → (hexDigit k).isAlphanum = true := by
  decide

/-- The chars `ConvertTo-Json` writes for a char: the char itself, a backslash, letters
and digits, and a double quote only for a double quote. -/
theorem jsonEscapeChar_mem (c y : Char) (hy : y ∈ jsonEscapeChar c) :
    y = c ∨ y = '\\' ∨ y.isAlphanum = true ∨ (y = '"' ∧ c = '"') := by
  unfold jsonEscapeChar at hy
  by_cases h1 : c = '"'
  · rw [if_pos h1] at hy
    simp only [List.mem_cons, List.mem_singleton, List.not_mem_nil, or_false] at hy
    rcases hy with h | h
    · exact Or.inr (Or.inl h)
    · exact Or.inr (Or.inr (Or.inr ⟨h, h1⟩))
  rw [if_neg h1] at hy
  by_cases h2 : c = '\\'
  · rw [if_pos h2] at hy
    simp only [List.mem_cons, List.mem_singleton, List.not_mem_nil, or_false, or_self] at hy
    exact Or.inr (Or.inl hy)
  rw [if_neg h2] at hy
  have two : ∀ x : Char, x.isAlphanum = true → y ∈ ['\\', x] →
      y = c ∨ y = '\\' ∨ y.isAlphanum = true ∨ (y = '"' ∧ c = '"') := by
    intro x hx hm
    simp only [List.mem_cons, List.mem_singleton, List.not_mem_nil, or_false] at hm
    rcases hm with h | h
    · exact Or.inr (Or.inl h)
    · exact Or.inr (Or.inr (Or.inl (h ▸ hx)))
  by_cases h3 : c = '\n'
  · rw [if_pos h3] at hy; exact two _ (by decide) hy
  rw [if_neg h3] at hy
  by_cases h4 : c = '\r'
  · rw [if_pos h4] at hy; exact two _ (by decide) hy
  rw [if_neg h4] at hy
  by_cases h5 : c = '\t'
  · rw [if_pos h5] at hy; exact two _ (by decide) hy
  rw [if_neg h5] at hy
  by_cases h6 : c.toNat = 8
  · rw [if_pos h6] at hy; exact two _ (by decide) hy
  rw [if_neg h6] at hy
  by_cases h7 : c.toNat = 12
  · rw [if_pos h7] at hy; exact two _ (by decide) hy
  rw [if_neg h7] at hy
  by_cases h8 : (decide (c.toNat < 32) || decide (c = '&') || decide (c = '\x27') ||
      decide (c = '<') || decide (c = '>')) = true
  · rw [if_pos h8] at hy
    have hlt : c.toNat < 128 := by
      simp only [Bool.or_eq_true, decide_eq_true_eq] at h8
      rcases h8 with (((h | h) | h) | h) | h
      · omega
      · rw [h]; decide
      · rw [h]; decide
      · rw [h]; decide
      · rw [h]; decide
    have hq : c.toNat / 16 < 16 := by omega
    have hr : c.toNat % 16 < 16 := by omega
    simp only [List.mem_cons, List.mem_singleton, List.not_mem_nil, or_false] at hy
    rcases hy with h | h | h | h | h | h
    · exact Or.inr (Or.inl h)
    · exact Or.inr (Or.inr (Or.inl (h ▸ by decide)))
    · exact Or.inr (Or.inr (Or.inl (h ▸ by decide)))
    · exact Or.inr (Or.inr (Or.inl (h ▸ by decide)))
    · exact Or.inr (Or.inr (Or.inl (h ▸ hexDigit_alphanum _ hq)))
    · exact Or.inr (Or.inr (Or.inl (h ▸ hexDigit_alphanum _ hr)))
  · rw [if_neg h8] at hy
    exact Or.inl (List.mem_singleton.mp hy)

/-- A double quote occurs in the escaped form of a string only if it occurs in the string. -/
theorem escape_no_quote (s : Str) (h : '"' ∉ s) : '"' ∉ s.flatMap jsonEscapeChar := by
  intro hm
  rw [List.mem_flatMap] at hm
  obtain ⟨c, hc, hy⟩ := hm
  rcases jsonEscapeChar_mem c _ hy with e | e | e | e
  · exact h (e ▸ hc)
  · revert e; decide
  · revert e; decide
  · exact h (e.2 ▸ hc)

/-- A closing brace occurs in the escaped form of a string only if it occurs in the string. -/
theorem escape_no_brace (s : Str) (h : '\x7d' ∉ s) : '\x7d' ∉ s.flatMap jsonEscapeChar := by
  intro hm
  rw [List.mem_flatMap] at hm
  obtain ⟨c, hc, hy⟩ := hm
  rcases jsonEscapeChar_mem c _ hy with e | e | e | e
  · exact h (e ▸ hc)
  · revert e; decide
  · revert e; decide
  · exact absurd e.1 (by decide)

/-- The escaped form of a char is the char or starts with a backslash. -/
theorem jsonEscapeChar_head (c : Char) :
    jsonEscapeChar c = [c] ∨ ∃ t, jsonEscapeChar c = '\\' :: t := by
  unfold jsonEscapeChar
  repeat' split
  all_goals first
    | exact Or.inl rfl
    | exact Or.inr ⟨_, rfl⟩

/-- A string whose escaped form is made of letters and digits is that escaped form. -/
theorem escape_eq_key : ∀ (s key : Str), (∀ c ∈ key, c.isAlphanum = true) →
    s.flatMap jsonEscapeChar = key → s = key := by
  intro s
  induction s with
  | nil =>
    intro key _ h
    exact h
  | cons c cs ih =>
    intro key hk h
    rw [List.flatMap_cons] at h
    rcases jsonEscapeChar_head c with e | ⟨t, e⟩
    · rw [e] at h
      cases key with
      | nil => cases h
      | cons k ks =>
        have h2 := List.cons.inj h
        rw [h2.1, ih ks (fun x hx => hk x (List.mem_cons_of_mem k hx)) h2.2]
    · rw [e] at h
      cases key with
      | nil => cases h
      | cons k ks =>
        have h2 := (List.cons.inj h).1
        have h3 := hk k (List.mem_cons_self k ks)
        rw [← h2] at h3
        exact absurd h3 (by decide)

/-- The decimal digits are read back as their values. -/
theorem digitVal_digitChar : ∀ j : Nat, j < 10 →
    digitVal 10 (Nat.digitChar j) = some j ∧ (Nat.digitChar j).isDigit = true := by
  decide

/-- The digits `Nat.toDigits` writes in front of `ds`: there is at least one, all are
decimal digits, and `readDigits` reads them as the number written. -/
theorem toDigitsCore_spec : ∀ (fuel n : Nat) (ds : Str), n < fuel →
    ∃ L : Str, Nat.toDigitsCore 10 fuel n ds = L ++ ds ∧ L ≠ [] ∧
      (∀ c ∈ L, c.isDigit = true) ∧
      ∀ (rest : Str) (acc k : Nat),
        readDigits 10 (L ++ rest) acc k = readDigits 10 rest (acc * 10 ^ L.length + n) (k + L.length) := by
  intro fuel
  induction fuel with
  | zero => intro n ds h; omega
  | succ fuel ih =>
    intro n ds hn
    have hd := digitVal_digitChar (n % 10) (Nat.mod_lt _ (by decide))
    by_cases h0 : n / 10 = 0
    · refine ⟨[Nat.digitChar (n % 10)], ?_, by simp, ?_, ?_⟩
      · simp [Nat.toDigitsCore, h0]
      · intro c hc
        rw [List.mem_singleton.mp hc]
        exact hd.2
      · intro rest acc k
        show readDigits 10 (Nat.digitChar (n % 10) :: rest) acc k = _
        rw [readDigits, hd.1]
        dsimp only
        have e : acc * 10 + n % 10 = acc * 10 ^ [Nat.digitChar (n % 10)].length + n := by
          simp only [List.length_singleton, pow_one]
          omega
        rw [e]
        rfl
    · obtain ⟨L, hL, _, hdig, hread⟩ := ih (n / 10) (Nat.digitChar (n % 10) :: ds) (by omega)
      refine ⟨L ++ [Nat.digitChar (n % 10)], ?_, by simp, ?_, ?_⟩
      · simp [Nat.toDigitsCore, h0, hL]
      · intro c hc
        rcases List.mem_append.mp hc with h | h
        · exact hdig c h
        · rw [List.mem_singleton.mp h]
          exact hd.2
      · intro rest acc k
        rw [List.append_assoc, hread]
        show readDigits 10 (Nat.digitChar (n % 10) :: rest) _ _ = _
        rw [readDigits, hd.1]
        dsimp only
        have e : (acc * 10 ^ L.length + n / 10) * 10 + n % 10 =
            acc * 10 ^ (L ++ [Nat.digitChar (n % 10)]).length + n := by
          simp only [List.length_append, List.length_singleton, pow_succ]
          have := Nat.div_add_mod n 10
          nlinarith
        have e2 : k + L.length + 1 = k + (L ++ [Nat.digitChar (n % 10)]).length := by
          simp only [List.length_append, List.length_singleton]
          omega
        rw [e, e2]

/-- The text `Nat.toDigits 10 n`: at least one char, all decimal digits, read by
`readDigits` as `n`. -/
theorem toDigits_spec (n : Nat) :
    Nat.toDigits 10 n ≠ [] ∧ (∀ c ∈ Nat.toDigits 10 n, c.isDigit = true) ∧
    ∀ (rest : Str) (acc k : Nat),
      readDigits 10 (Nat.toDigits 10 n ++ rest) acc k =
        readDigits 10 rest (acc * 10 ^ (Nat.toDigits 10 n).length + n)
          (k + (Nat.toDigits 10 n).length) := by
  obtain ⟨L, hL, hne, hdig, hread⟩ := toDigitsCore_spec (n + 1) n [] (Nat.lt_succ_self n)
  have e : Nat.toDigits 10 n = L := by
    unfold Nat.toDigits
    rw [hL, List.append_nil]
  rw [e]
  exact ⟨hne, hdig, hread⟩

/-- A decimal digit is none of the chars the scans look for. -/
theorem digit_ne (c : Char) (h : c.isDigit = true) :
    c ∉ blanks ∧ c ≠ '"' ∧ c ≠ '\x7d' ∧ c ≠ '\x7b' ∧ c ≠ ',' ∧ c ≠ '-' ∧ c ≠ '+' ∧
      isspace c = false := by
  have hr : 48 ≤ c.toNat ∧ c.toNat ≤ 57 := by
    unfold Char.isDigit at h
    simp only [Bool.and_eq_true, decide_eq_true_eq] at h
    exact ⟨h.1, h.2⟩
  have hn : ∀ x : Char, (x.toNat < 48 ∨ 57 < x.toNat) → c ≠ x := by
    rintro x hx rfl
    omega
  refine ⟨?_, hn _ (by decide), hn _ (by decide), hn _ (by decide), hn _ (by decide),
    hn _ (by decide), hn _ (by decide), ?_⟩
  · intro hb
    simp only [blanks, List.mem_cons, List.mem_singleton, List.not_mem_nil, or_false] at hb
    rcases hb with e | e | e | e
    · exact hn _ (by decide) e
    · exact hn _ (by decide) e
    · exact hn _ (by decide) e
    · exact hn _ (by decide) e
  · unfold isspace
    simp only [Bool.or_eq_false_iff, decide_eq_false_iff_not]
    refine ⟨⟨⟨⟨⟨hn _ (by decide), hn _ (by decide)⟩, hn _ (by decide)⟩, hn _ (by decide)⟩, ?_⟩, ?_⟩ <;>
      omega

/-- The number `std::stoull` reads from the decimal form of a number below 2^64. -/
theorem stoull_toDigits (n : Nat) (hn : n < 2 ^ 64) : stoull (Nat.toDigits 10 n) = some n := by
  obtain ⟨hne, hdig, hread⟩ := toDigits_spec n
  obtain ⟨d, ds, hd⟩ := List.exists_cons_of_ne_nil hne
  have hd0 := digit_ne d (hdig d (hd ▸ List.mem_cons_self d ds))
  have hs : List.dropWhile isspace (Nat.toDigits 10 n) = Nat.toDigits 10 n := by
    rw [hd, List.dropWhile_cons, hd0.2.2.2.2.2.2.2]
    rfl
  have hsign : readSign (Nat.toDigits 10 n) = (false, Nat.toDigits 10 n) := by
    rw [hd]
    unfold readSign
    split
    · rename_i heq
      exact absurd (List.cons.inj heq).1 hd0.2.2.2.2.2.1
    · rename_i heq
      exact absurd (List.cons.inj heq).1 hd0.2.2.2.2.2.2.1
    · rfl
  have hr := hread [] 0 0
  rw [List.append_nil] at hr
  have hr2 : readDigits 10 (Nat.toDigits 10 n) 0 0 = (n, (Nat.toDigits 10 n).length) := by
    rw [hr]
    simp [readDigits]
  have hlen : (Nat.toDigits 10 n).length ≠ 0 := by
    rw [hd]
    simp
  unfold stoull
  dsimp only
  rw [hs, hsign]
  dsimp only
  rw [hr2]
  dsimp only
  rw [if_neg hlen, if_neg (by omega)]
  rfl

/-- The last offset whose char satisfies `p`, when the last char does. -/
theorem findLastIdx_last (p : Char → Bool) (d : Char) (hd : p d = true) : ∀ init : Str,
    findLastIdx p (init ++ [d]) = some init.length := by
  intro init
  induction init with
  | nil =>
    show (match findLastIdx p [] with
      | some i => some (i + 1)
      | none => if p d = true then some 0 else none) = _
    rw [if_pos hd]
    rfl
  | cons x xs ih =>
    show (match findLastIdx p (xs ++ [d]) with
      | some i => some (i + 1)
      | none => if p x = true then some 0 else none) = _
    rw [ih]
    rfl

/-- The text `Utils::Trim` returns for a text that neither starts nor ends with a blank:
the text itself. -/
theorem Trim_keep (c d : Char) (init rest : Str) (hc : c ∉ blanks) (hd : d ∉ blanks)
    (h : init ++ [d] = c :: rest) : Trim (init ++ [d]) = init ++ [d] := by
  have hpc : (fun x => !blanks.contains x) c = true := by
    simp only [Bool.not_eq_true', ← Bool.not_eq_true]
    exact fun hm => hc (List.elem_iff.mp hm)
  have hpd : (fun x => !blanks.contains x) d = true := by
    simp only [Bool.not_eq_true', ← Bool.not_eq_true]
    exact fun hm => hd (List.elem_iff.mp hm)
  have h1 : find_first_not_of (init ++ [d]) blanks 0 = some 0 := by
    unfold find_first_not_of
    rw [List.drop_zero, h]
    show (if (fun x => !blanks.contains x) c = true then some 0 else _).map _ = _
    rw [if_pos hpc]
    rfl
  have h2 : find_last_not_of (init ++ [d]) blanks = some init.length := by
    unfold find_last_not_of
    exact findLastIdx_last _ d hpd init
  unfold Trim
  rw [h1]
  dsimp only
  rw [h2]
  dsimp only
  unfold substr
  rw [List.drop_zero]
  apply List.take_of_length_le
  simp

/-- The value `ExtractJsonValue` returns for `key` when the first occurrence of the quoted
key starts a member whose value is a number followed by a comma: the digits. -/
theorem ExtractJsonValue_number (S pre key w2 w3 digits rest : Str)
    (hS : S = pre ++ ('"' :: (key ++ '"' :: w2) ++ ':' :: (w3 ++ (digits ++ ',' :: rest))))
    (hfind : find (['"'] ++ key ++ ['"']) S = some pre.length)
    (hkey : ∀ c ∈ key, c.isAlphanum = true)
    (hw2 : ∀ c ∈ w2, c ∈ blanks) (hw3 : ∀ c ∈ w3, c ∈ blanks)
    (hne : digits ≠ []) (hdig : ∀ c ∈ digits, c.isDigit = true) :
    ExtractJsonValue S key = digits := by
  obtain ⟨d0, ds, hd0⟩ := List.exists_cons_of_ne_nil hne
  have hdd := digit_ne d0 (hdig d0 (hd0 ▸ List.mem_cons_self d0 ds))
  have hnc : ':' ∉ ('"' :: (key ++ '"' :: w2)) := by
    simp only [List.mem_cons, List.mem_append, not_or]
    refine ⟨by decide, ?_, by decide, ?_⟩
    · intro hk
      exact (alphanum_ne _ (hkey _ hk)).2 rfl
    · intro hk
      exact (blank_ne _ (hw2 _ hk)).2 rfl
  have hlen : pre.length ≤ S.length := by
    rw [hS, List.length_append]
    omega
  have hcolon : findFrom [':'] S pre.length =
      some (('"' :: (key ++ '"' :: w2)).length + pre.length) := by
    have h : find [':'] ('"' :: (key ++ '"' :: w2) ++ ':' :: (w3 ++ (digits ++ ',' :: rest))) =
        some ('"' :: (key ++ '"' :: w2)).length :=
      find_after ':' [] (w3 ++ (digits ++ ',' :: rest)) _ hnc
    unfold findFrom
    rw [if_pos hlen]
    have hd : S.drop pre.length =
        '"' :: (key ++ '"' :: w2) ++ ':' :: (w3 ++ (digits ++ ',' :: rest)) := by
      rw [hS, List.drop_left]
    rw [hd, h]
    rfl
  have hd3 : S.drop (('"' :: (key ++ '"' :: w2)).length + pre.length + 1) =
      w3 ++ d0 :: (ds ++ ',' :: rest) := by
    have e : S = (pre ++ ('"' :: (key ++ '"' :: w2)) ++ [':']) ++
        (w3 ++ d0 :: (ds ++ ',' :: rest)) := by
      rw [hS, hd0]
      simp only [List.append_assoc, List.cons_append, List.nil_append]
    rw [e]
    apply List.drop_left'
    simp only [List.length_append, List.length_cons, List.length_nil]
    omega
  have hblank : ∀ x ∈ w3, (fun c => !blanks.contains c) x = false := by
    intro x hx
    have := hw3 x hx
    simp only [Bool.not_eq_false']
    exact List.elem_iff.mpr this
  have hpd : (fun c => !blanks.contains c) d0 = true := by
    simp only [Bool.not_eq_true', ← Bool.not_eq_true]
    exact fun hm => hdd.1 (List.elem_iff.mp hm)
  have hstart : find_first_not_of S blanks (('"' :: (key ++ '"' :: w2)).length + pre.length + 1) =
      some (w3.length + (('"' :: (key ++ '"' :: w2)).length + pre.length + 1)) := by
    unfold find_first_not_of
    rw [hd3, findIdx_after _ d0 _ hpd w3 hblank]
    rfl
  have hd4 : S.drop (w3.length + (('"' :: (key ++ '"' :: w2)).length + pre.length + 1)) =
      digits ++ ',' :: rest := by
    rw [Nat.add_comm, ← List.drop_drop, hd3, List.drop_left, hd0]
    rfl
  have hnoend : ∀ x ∈ digits, (fun c => [',', '\x7d', '\r', '\n'].contains c) x = false := by
    intro x hx
    have hx2 := digit_ne x (hdig x hx)
    rw [← Bool.not_eq_true]
    intro hm
    have hm2 := List.elem_iff.mp hm
    simp only [List.mem_cons, List.mem_singleton, List.not_mem_nil, or_false] at hm2
    rcases hm2 with e | e | e | e
    · exact hx2.2.2.2.2.1 e
    · exact hx2.2.2.1 e
    · exact hx2.1 (e ▸ by decide)
    · exact hx2.1 (e ▸ by decide)
  have hend : find_first_of S [',', '\x7d', '\r', '\n']
      (w3.length + (('"' :: (key ++ '"' :: w2)).length + pre.length + 1)) =
      some (digits.length + (w3.length + (('"' :: (key ++ '"' :: w2)).length + pre.length + 1))) := by
    unfold find_first_of
    rw [hd4, findIdx_after _ ',' _ (by decide) digits hnoend]
    rfl
  have hhead : ¬ (digits ++ ',' :: rest).head? = some '"' := by
    rw [hd0]
    intro h
    exact hdd.2.1 (Option.some.inj h)
  unfold ExtractJsonValue
  dsimp only
  rw [hfind]
  dsimp only
  rw [hcolon]
  dsimp only
  rw [hstart]
  dsimp only
  rw [hd4, if_neg hhead, hend]
  dsimp only
  unfold substr
  rw [hd4, Nat.add_sub_cancel, List.take_left]
  obtain ⟨init, d, hlast⟩ : ∃ init d, digits = init ++ [d] := by
    rcases List.eq_nil_or_concat digits with h | ⟨init, d, h⟩
    · exact absurd h hne
    · exact ⟨init, d, by rw [h, List.concat_eq_append]⟩
  have hdl := digit_ne d (hdig d (by rw [hlast]; simp))
  rw [hlast]
  exact Trim_keep d0 d init ds hdd.1 hdl.1 (by rw [← hlast, hd0])

/-- The search for a quoted key in a text that starts with a part without double quote
and quoted tokens other than the key, and goes on with the quoted key. -/
theorem find_key (key R u0 : Str) (toks : List Str) (hu : '"' ∉ u0) (hkey : '"' ∉ key)
    (htoks : ∀ t ∈ toks, '"' ∉ t ∧ t ≠ key) :
    find (['"'] ++ key ++ ['"']) ((u0 ++ quoted toks) ++ '"' :: (key ++ '"' :: R)) =
      some (u0 ++ quoted toks).length := by
  have h := find_tokens key R hkey toks htoks
  have e : ['"'] ++ key ++ ['"'] = '"' :: (key ++ ['"']) := rfl
  rw [e, List.append_assoc, find_pre '"' _ _ u0 hu, h]
  simp only [Option.map_some', List.length_append, Option.some.injEq]
  omega

/-- A key of a VM object holds letters only. -/
theorem vmKeys_alphanum : ∀ key ∈ vmKeys, ∀ c ∈ key, c.isAlphanum = true := by
  decide

/-- A key of a VM object holds no double quote. -/
theorem vmKeys_no_quote : ∀ key ∈ vmKeys, '"' ∉ key := by
  decide

/-- The escaped form of a text that is not a key is not that key. -/
theorem escaped_ne_key (s key : Str) (hk : key ∈ vmKeys) (hs : s ∉ vmKeys) :
    s.flatMap jsonEscapeChar ≠ key := by
  intro h
  have e := escape_eq_key s key (vmKeys_alphanum key hk) h
  exact hs (e ▸ hk)

/-- The text between two members holds no double quote and is no key. -/
theorem sep_token (eol pad tail key : Str) (heol : ∀ c ∈ eol, c ∈ blanks)
    (hpad : ∀ c ∈ pad, c ∈ blanks) (hk : key ∈ vmKeys) (htail : '"' ∉ tail) :
    '"' ∉ (tail ++ (',' :: (eol ++ (pad ++ lit "    ")))) ∧
      tail ++ (',' :: (eol ++ (pad ++ lit "    "))) ≠ key := by
  constructor
  · simp only [List.mem_append, List.mem_cons, not_or]
    refine ⟨htail, by decide, ?_, ?_, by decide⟩
    · intro hm
      exact (blank_ne _ (heol _ hm)).1 rfl
    · intro hm
      exact (blank_ne _ (hpad _ hm)).1 rfl
  · intro h
    have hm : ',' ∈ key := by
      rw [← h]
      simp
    have := vmKeys_alphanum key hk ',' hm
    revert this
    decide

/-- The part of an object before its first member holds no double quote. -/
theorem objectStart_no_quote (eol pad : Str) (heol : ∀ c ∈ eol, c ∈ blanks)
    (hpad : ∀ c ∈ pad, c ∈ blanks) : '"' ∉ (lit "\x7b" ++ eol ++ pad ++ lit "    ") := by
  simp only [List.mem_append, not_or]
  refine ⟨⟨⟨by decide, ?_⟩, ?_⟩, by decide⟩
  · intro hm
    exact (blank_ne _ (heol _ hm)).1 rfl
  · intro hm
    exact (blank_ne _ (hpad _ hm)).1 rfl

/-- The name `ParseVMJson` reads from the text of an object. -/
theorem vmObject_name (eol pad : Str) (vm : VMInfo) (heol : ∀ c ∈ eol, c ∈ blanks)
    (hpad : ∀ c ∈ pad, c ∈ blanks) :
    ExtractJsonValue (vmObject eol pad vm) (lit "Name") = vm.strName := by
  refine ExtractJsonValue_member _ (lit "\x7b" ++ eol ++ pad ++ lit "    ") (lit "Name") []
    (lit "  ") vm.strName (vm.strName.flatMap jsonEscapeChar)
    (lit "," ++ eol ++
      pad ++ lit "    \"State\":  " ++ jsonString vm.strState ++ lit "," ++ eol ++
      pad ++ lit "    \"GpuStatus\":  " ++ jsonString vm.strGPUStatus ++ lit "," ++ eol ++
      pad ++ lit "    \"VRAM\":  " ++ Nat.toDigits 10 vm.ui64VramBytes ++ lit "," ++ eol ++
      pad ++ lit "    \"InstancePath\":  " ++ jsonString vm.strGPUInstancePath ++ eol ++
      pad ++ lit "\x7d") ?_ (objectStart_no_quote eol pad heol hpad) (by decide) (by decide)
    (by decide) (jsonString_escaped vm.strName)
  simp [vmObject, jsonString, lit]

/-- The state `ParseVMJson` reads from the text of an object. -/
theorem vmObject_state (eol pad : Str) (vm : VMInfo) (heol : ∀ c ∈ eol, c ∈ blanks)
    (hpad : ∀ c ∈ pad, c ∈ blanks) (hvm : Readable vm) :
    ExtractJsonValue (vmObject eol pad vm) (lit "State") = vm.strState := by
  have hS : vmObject eol pad vm =
      ((lit "\x7b" ++ eol ++ pad ++ lit "    ") ++
        quoted [lit "Name", lit ":  ", vm.strName.flatMap jsonEscapeChar,
          [] ++ (',' :: (eol ++ (pad ++ lit "    ")))]) ++
      ('"' :: (lit "State" ++ '"' :: []) ++ ':' :: (lit "  " ++
        '"' :: (vm.strState.flatMap jsonEscapeChar ++ '"' ::
          (lit "," ++ eol ++
            pad ++ lit "    \"GpuStatus\":  " ++ jsonString vm.strGPUStatus ++ lit "," ++ eol ++
            pad ++ lit "    \"VRAM\":  " ++ Nat.toDigits 10 vm.ui64VramBytes ++ lit "," ++ eol ++
            pad ++ lit "    \"InstancePath\":  " ++ jsonString vm.strGPUInstancePath ++
            eol ++ pad ++ lit "\x7d")))) := by
    simp [vmObject, jsonString, lit, quoted]
  have hk : lit "State" ∈ vmKeys := by decide
  refine ExtractJsonValue_at _ _ (lit "State") [] (lit "  ") vm.strState _ _ hS ?_
    (by decide) (by decide) (by decide) (jsonString_escaped vm.strState)
  rw [hS]
  refine find_key (lit "State") _ _ _ (objectStart_no_quote eol pad heol hpad) (by decide) ?_
  intro t ht
  simp only [List.mem_cons, List.mem_singleton, List.not_mem_nil, or_false] at ht
  rcases ht with rfl | rfl | rfl | rfl
  · decide
  · decide
  · exact ⟨escape_no_quote _ hvm.nameQuote, escaped_ne_key _ _ hk hvm.nameKey⟩
  · exact sep_token eol pad [] _ heol hpad hk (List.not_mem_nil _)

/-- The GPU status `ParseVMJson` reads from the text of an object. -/
theorem vmObject_status (eol pad : Str) (vm : VMInfo) (heol : ∀ c ∈ eol, c ∈ blanks)
    (hpad : ∀ c ∈ pad, c ∈ blanks) (hvm : Readable vm) :
    ExtractJsonValue (vmObject eol pad vm) (lit "GpuStatus") = vm.strGPUStatus := by
  have hS : vmObject eol pad vm =
      ((lit "\x7b" ++ eol ++ pad ++ lit "    ") ++
        quoted [lit "Name", lit ":  ", vm.strName.flatMap jsonEscapeChar,
          [] ++ (',' :: (eol ++ (pad ++ lit "    "))),
          lit "State", lit ":  ", vm.strState.flatMap jsonEscapeChar,
          [] ++ (',' :: (eol ++ (pad ++ lit "    ")))]) ++
      ('"' :: (lit "GpuStatus" ++ '"' :: []) ++ ':' :: (lit "  " ++
        '"' :: (vm.strGPUStatus.flatMap jsonEscapeChar ++ '"' ::
          (lit "," ++ eol ++
            pad ++ lit "    \"VRAM\":  " ++ Nat.toDigits 10 vm.ui64VramBytes ++ lit "," ++ eol ++
            pad ++ lit "    \"InstancePath\":  " ++ jsonString vm.strGPUInstancePath ++
            eol ++ pad ++ lit "\x7d")))) := by
    simp [vmObject, jsonString, lit, quoted]
  have hk : lit "GpuStatus" ∈ vmKeys := by decide
  refine ExtractJsonValue_at _ _ (lit "GpuStatus") [] (lit "  ") vm.strGPUStatus _ _ hS ?_
    (by decide) (by decide) (by decide) (jsonString_escaped vm.strGPUStatus)
  rw [hS]
  refine find_key (lit "GpuStatus") _ _ _ (objectStart_no_quote eol pad heol hpad) (by decide) ?_
  intro t ht
  simp only [List.mem_cons, List.mem_singleton, List.not_mem_nil, or_false] at ht
  rcases ht with rfl | rfl | rfl | rfl | rfl | rfl | rfl | rfl
  · decide
  · decide
  · exact ⟨escape_no_quote _ hvm.nameQuote, escaped_ne_key _ _ hk hvm.nameKey⟩
  · exact sep_token eol pad [] _ heol hpad hk (List.not_mem_nil _)
  · decide
  · decide
  · exact ⟨escape_no_quote _ hvm.stateQuote, escaped_ne_key _ _ hk hvm.stateKey⟩
  · exact sep_token eol pad [] _ heol hpad hk (List.not_mem_nil _)

/-- The VRAM text `ParseVMJson` reads from the text of an object. -/
theorem vmObject_vram (eol pad : Str) (vm : VMInfo) (heol : ∀ c ∈ eol, c ∈ blanks)
    (hpad : ∀ c ∈ pad, c ∈ blanks) (hvm : Readable vm) :
    ExtractJsonValue (vmObject eol pad vm) (lit "VRAM") = Nat.toDigits 10 vm.ui64VramBytes := by
  have hS : vmObject eol pad vm =
      ((lit "\x7b" ++ eol ++ pad ++ lit "    ") ++
        quoted [lit "Name", lit ":  ", vm.strName.flatMap jsonEscapeChar,
          [] ++ (',' :: (eol ++ (pad ++ lit "    "))),
          lit "State", lit ":  ", vm.strState.flatMap jsonEscapeChar,
          [] ++ (',' :: (eol ++ (pad ++ lit "    "))),
          lit "GpuStatus", lit ":  ", vm.strGPUStatus.flatMap jsonEscapeChar,
          [] ++ (',' :: (eol ++ (pad ++ lit "    ")))]) ++
      ('"' :: (lit "VRAM" ++ '"' :: []) ++ ':' :: (lit "  " ++
        (Nat.toDigits 10 vm.ui64VramBytes ++ ',' ::
          (eol ++
            pad ++ lit "    \"InstancePath\":  " ++ jsonString vm.strGPUInstancePath ++
            eol ++ pad ++ lit "\x7d")))) := by
    simp [vmObject, jsonString, lit, quoted]
  have hk : lit "VRAM" ∈ vmKeys := by decide
  obtain ⟨hne, hdig, _⟩ := toDigits_spec vm.ui64VramBytes
  refine ExtractJsonValue_number _ _ (lit "VRAM") [] (lit "  ") _ _ hS ?_
    (by decide) (by decide) (by decide) hne hdig
  rw [hS]
  refine find_key (lit "VRAM") _ _ _ (objectStart_no_quote eol pad heol hpad) (by decide) ?_
  intro t ht
  simp only [List.mem_cons, List.mem_singleton, List.not_mem_nil, or_false] at ht
  rcases ht with rfl | rfl | rfl | rfl | rfl | rfl | rfl | rfl | rfl | rfl | rfl | rfl
  · decide
  · decide
  · exact ⟨escape_no_quote _ hvm.nameQuote, escaped_ne_key _ _ hk hvm.nameKey⟩
  · exact sep_token eol pad [] _ heol hpad hk (List.not_mem_nil _)
  · decide
  · decide
  · exact ⟨escape_no_quote _ hvm.stateQuote, escaped_ne_key _ _ hk hvm.stateKey⟩
  · exact sep_token eol pad [] _ heol hpad hk (List.not_mem_nil _)
  · decide
  · decide
  · exact ⟨escape_no_quote _ hvm.statusQuote, escaped_ne_key _ _ hk hvm.statusKey⟩
  · exact sep_token eol pad [] _ heol hpad hk (List.not_mem_nil _)

/-- The instance path `ParseVMJson` reads from the text of an object. -/
theorem vmObject_path (eol pad : Str) (vm : VMInfo) (heol : ∀ c ∈ eol, c ∈ blanks)
    (hpad : ∀ c ∈ pad, c ∈ blanks) (hvm : Readable vm) :
    ExtractJsonValue (vmObject eol pad vm) (lit "InstancePath") = vm.strGPUInstancePath := by
  have hS : vmObject eol pad vm =
      ((lit "\x7b" ++ eol ++ pad ++ lit "    ") ++
        quoted [lit "Name", lit ":  ", vm.strName.flatMap jsonEscapeChar,
          [] ++ (',' :: (eol ++ (pad ++ lit "    "))),
          lit "State", lit ":  ", vm.strState.flatMap jsonEscapeChar,
          [] ++ (',' :: (eol ++ (pad ++ lit "    "))),
          lit "GpuStatus", lit ":  ", vm.strGPUStatus.flatMap jsonEscapeChar,
          [] ++ (',' :: (eol ++ (pad ++ lit "    "))),
          lit "VRAM",
          (lit ":  " ++ Nat.toDigits 10 vm.ui64VramBytes) ++
            (',' :: (eol ++ (pad ++ lit "    ")))]) ++
      ('"' :: (lit "InstancePath" ++ '"' :: []) ++ ':' :: (lit "  " ++
        '"' :: (vm.strGPUInstancePath.flatMap jsonEscapeChar ++ '"' ::
          (eol ++ pad ++ lit "\x7d")))) := by
    simp [vmObject, jsonString, lit, quoted]
  have hk : lit "InstancePath" ∈ vmKeys := by decide
  obtain ⟨_, hdig, _⟩ := toDigits_spec vm.ui64VramBytes
  have hdq : '"' ∉ (lit ":  " ++ Nat.toDigits 10 vm.ui64VramBytes) := by
    simp only [List.mem_append, not_or]
    exact ⟨by decide, fun hm => (digit_ne _ (hdig _ hm)).2.1 rfl⟩
  refine ExtractJsonValue_at _ _ (lit "InstancePath") [] (lit "  ") vm.strGPUInstancePath _ _ hS ?_
    (by decide) (by decide) (by decide) (jsonString_escaped vm.strGPUInstancePath)
  rw [hS]
  refine find_key (lit "InstancePath") _ _ _ (objectStart_no_quote eol pad heol hpad) (by decide) ?_
  intro t ht
  simp only [List.mem_cons, List.mem_singleton, List.not_mem_nil, or_false] at ht
  rcases ht with rfl | rfl | rfl | rfl | rfl | rfl | rfl | rfl | rfl | rfl | rfl | rfl | rfl | rfl
  · decide
  · decide
  · exact ⟨escape_no_quote _ hvm.nameQuote, escaped_ne_key _ _ hk hvm.nameKey⟩
  · exact sep_token eol pad [] _ heol hpad hk (List.not_mem_nil _)
  · decide
  · decide
  · exact ⟨escape_no_quote _ hvm.stateQuote, escaped_ne_key _ _ hk hvm.stateKey⟩
  · exact sep_token eol pad [] _ heol hpad hk (List.not_mem_nil _)
  · decide
  · decide
  · exact ⟨escape_no_quote _ hvm.statusQuote, escaped_ne_key _ _ hk hvm.statusKey⟩
  · exact sep_token eol pad [] _ heol hpad hk (List.not_mem_nil _)
  · decide
  · exact sep_token eol pad _ _ heol hpad hk hdq

/-- The record `ParseVMJson` reads from the text of the object of a readable VM. -/
theorem parseVM_vmObject (eol pad : Str) (vm : VMInfo) (heol : ∀ c ∈ eol, c ∈ blanks)
    (hpad : ∀ c ∈ pad, c ∈ blanks) (hvm : Readable vm) :
    parseVM (vmObject eol pad vm) = parsedFields vm := by
  obtain ⟨hne, _, _⟩ := toDigits_spec vm.ui64VramBytes
  have hemp : (!(Nat.toDigits 10 vm.ui64VramBytes).isEmpty) = true := by
    cases h : Nat.toDigits 10 vm.ui64VramBytes with
    | nil => exact absurd h hne
    | cons a b => rfl
  unfold parseVM parsedFields
  rw [vmObject_name eol pad vm heol hpad, vmObject_state eol pad vm heol hpad hvm,
    vmObject_status eol pad vm heol hpad hvm, vmObject_path eol pad vm heol hpad hvm,
    vmObject_vram eol pad vm heol hpad hvm, if_pos hemp, stoull_toDigits _ hvm.vram]

/-- The serialisation of a VM is its indentation and the text of its object. -/
theorem vmJson_eq (eol pad : Str) (vm : VMInfo) :
    vmJson eol pad vm = pad ++ vmObject eol pad vm := by
  simp [vmJson, vmObject]

/-- A blank is no brace. -/
theorem blank_no_brace (w : Str) (hw : ∀ c ∈ w, c ∈ blanks) : '\x7b' ∉ w ∧ '\x7d' ∉ w := by
  constructor
  · intro hm
    have := hw _ hm
    revert this
    decide
  · intro hm
    have := hw _ hm
    revert this
    decide

/-- The text of the object of a readable VM holds one closing brace, its last char. -/
theorem vmObject_brace (eol pad : Str) (vm : VMInfo) (heol : ∀ c ∈ eol, c ∈ blanks)
    (hpad : ∀ c ∈ pad, c ∈ blanks) (hvm : Readable vm) :
    ∃ body : Str, vmObject eol pad vm = '\x7b' :: (body ++ ['\x7d']) ∧
      '\x7d' ∉ ('\x7b' :: body) := by
  obtain ⟨_, hdig, _⟩ := toDigits_spec vm.ui64VramBytes
  have hp : '\x7d' ∉ pad := (blank_no_brace pad hpad).2
  have he : '\x7d' ∉ eol := (blank_no_brace eol heol).2
  have hq : ∀ s : Str, '\x7d' ∉ s → '\x7d' ∉ jsonString s := by
    intro s hs
    unfold jsonString
    simp only [List.mem_append, List.mem_singleton, not_or]
    exact ⟨⟨by decide, escape_no_brace s hs⟩, by decide⟩
  refine ⟨eol ++
      pad ++ lit "    \"Name\":  " ++ jsonString vm.strName ++ lit "," ++ eol ++
      pad ++ lit "    \"State\":  " ++ jsonString vm.strState ++ lit "," ++ eol ++
      pad ++ lit "    \"GpuStatus\":  " ++ jsonString vm.strGPUStatus ++ lit "," ++ eol ++
      pad ++ lit "    \"VRAM\":  " ++ Nat.toDigits 10 vm.ui64VramBytes ++ lit "," ++ eol ++
      pad ++ lit "    \"InstancePath\":  " ++ jsonString vm.strGPUInstancePath ++ eol ++
      pad, ?_, ?_⟩
  · simp [vmObject, lit]
  · have hd : '\x7d' ∉ Nat.toDigits 10 vm.ui64VramBytes :=
      fun hm => (digit_ne _ (hdig _ hm)).2.2.1 rfl
    simp only [List.mem_cons, List.mem_append, not_or]
    repeat' constructor
    all_goals first
      | exact hp
      | exact he
      | exact hd
      | exact hq _ hvm.nameBrace
      | exact hq _ hvm.stateBrace
      | exact hq _ hvm.statusBrace
      | exact hq _ hvm.pathBrace
      | decide

/-- On a text without opening brace the loop of `ParseVMJson` finds no object. -/
theorem parseObjects_none (t : Str) (ht : '\x7b' ∉ t) : ∀ fuel : Nat, parseObjects fuel t = [] := by
  intro fuel
  cases fuel with
  | zero => rfl
  | succ fuel =>
    unfold parseObjects
    split
    · rfl
    · rw [find_char_none '\x7b' t ht]

/-- One round of the loop of `ParseVMJson` on a text that starts with the serialisation of
a readable VM, after a part without opening brace. -/
theorem parseObjects_step (fuel : Nat) (eol w pad tail : Str) (vm : VMInfo)
    (hw : '\x7b' ∉ w) (heol : ∀ c ∈ eol, c ∈ blanks) (hpad : ∀ c ∈ pad, c ∈ blanks)
    (hvm : Readable vm) :
    parseObjects (fuel + 1) (w ++ vmJson eol pad vm ++ tail) =
      parsedFields vm :: parseObjects fuel tail := by
  obtain ⟨body, hbody, hnb⟩ := vmObject_brace eol pad vm heol hpad hvm
  have hwp : '\x7b' ∉ (w ++ pad) := by
    simp only [List.mem_append, not_or]
    exact ⟨hw, (blank_no_brace pad hpad).1⟩
  have htext : w ++ vmJson eol pad vm ++ tail =
      (w ++ pad) ++ '\x7b' :: (body ++ '\x7d' :: tail) := by
    rw [vmJson_eq, hbody]
    simp
  have hstart : find ['\x7b'] ((w ++ pad) ++ '\x7b' :: (body ++ '\x7d' :: tail)) =
      some (w ++ pad).length :=
    find_after '\x7b' [] (body ++ '\x7d' :: tail) (w ++ pad) hwp
  have hdrop : ((w ++ pad) ++ '\x7b' :: (body ++ '\x7d' :: tail)).drop (w ++ pad).length =
      ('\x7b' :: body) ++ '\x7d' :: tail := by
    rw [List.drop_left]
    rfl
  have hend : findFrom ['\x7d'] ((w ++ pad) ++ '\x7b' :: (body ++ '\x7d' :: tail))
      (w ++ pad).length = some (('\x7b' :: body).length + (w ++ pad).length) := by
    unfold findFrom
    rw [if_pos (by simp), hdrop]
    have h : find ['\x7d'] (('\x7b' :: body) ++ '\x7d' :: tail) = some ('\x7b' :: body).length :=
      find_after '\x7d' [] tail ('\x7b' :: body) hnb
    rw [h]
    rfl
  have hobj : substr ((w ++ pad) ++ '\x7b' :: (body ++ '\x7d' :: tail)) (w ++ pad).length
      (('\x7b' :: body).length + (w ++ pad).length - (w ++ pad).length + 1) =
      vmObject eol pad vm := by
    unfold substr
    rw [hdrop, Nat.add_sub_cancel, hbody]
    have e : ('\x7b' :: body) ++ '\x7d' :: tail = ('\x7b' :: (body ++ ['\x7d'])) ++ tail := by simp
    rw [e]
    apply List.take_left'
    simp
  have hrest : ((w ++ pad) ++ '\x7b' :: (body ++ '\x7d' :: tail)).drop
      (('\x7b' :: body).length + (w ++ pad).length + 1) = tail := by
    have e : (w ++ pad) ++ '\x7b' :: (body ++ '\x7d' :: tail) =
        ((w ++ pad) ++ ('\x7b' :: body) ++ ['\x7d']) ++ tail := by simp
    rw [e]
    apply List.drop_left'
    simp only [List.length_append, List.length_cons, List.length_nil]
    omega
  have hname : (!(parsedFields vm).strName.isEmpty) = true := by
    have := hvm.named
    unfold parsedFields
    cases h : vm.strName with
    | nil => exact absurd h this
    | cons a b => rfl
  have hnonempty : ¬ ((w ++ pad) ++ '\x7b' :: (body ++ '\x7d' :: tail)).isEmpty = true := by
    simp
  rw [htext, parseObjects, if_neg hnonempty, hstart]
  dsimp only
  rw [hend]
  dsimp only
  rw [hobj, parseVM_vmObject eol pad vm heol hpad hvm, if_pos hname, hrest]

/-- The loop of `ParseVMJson` on the objects of readable VMs, joined by commas: the
records, in order. -/
theorem parseObjects_join (eol pad t : Str) (heol : ∀ c ∈ eol, c ∈ blanks)
    (hpad : ∀ c ∈ pad, c ∈ blanks) (ht : '\x7b' ∉ t) :
    ∀ (vms : List VMInfo) (fuel : Nat) (w : Str), vms.length ≤ fuel → '\x7b' ∉ w →
      (∀ vm ∈ vms, Readable vm) →
      parseObjects fuel (w ++ joinWith (',' :: eol) (vms.map (vmJson eol pad)) ++ t) =
        vms.map parsedFields := by
  intro vms
  induction vms with
  | nil =>
    intro fuel w _ hw _
    apply parseObjects_none
    simp only [List.map_nil, joinWith, List.append_nil, List.mem_append, not_or]
    exact ⟨hw, ht⟩
  | cons vm rest ih =>
    intro fuel w hf hw hvms
    have hvm := hvms vm (List.mem_cons_self vm rest)
    have hrest : ∀ x ∈ rest, Readable x := fun x hx => hvms x (List.mem_cons_of_mem vm hx)
    cases fuel with
    | zero => simp at hf
    | succ fuel =>
      have hf2 : rest.length ≤ fuel := by
        simp only [List.length_cons] at hf
        omega
      cases rest with
      | nil =>
        have e : w ++ joinWith (',' :: eol) ([vm].map (vmJson eol pad)) ++ t =
            w ++ vmJson eol pad vm ++ t := rfl
        rw [e, parseObjects_step fuel eol w pad t vm hw heol hpad hvm, parseObjects_none t ht]
        rfl
      | cons vm2 rest2 =>
        have e : w ++ joinWith (',' :: eol) ((vm :: vm2 :: rest2).map (vmJson eol pad)) ++ t =
            w ++ vmJson eol pad vm ++
              ((',' :: eol) ++ joinWith (',' :: eol) ((vm2 :: rest2).map (vmJson eol pad)) ++ t) := by
          simp [joinWith]
        have hsep : '\x7b' ∉ (',' :: eol) := by
          simp only [List.mem_cons, not_or]
          exact ⟨by decide, (blank_no_brace eol heol).1⟩
        rw [e, parseObjects_step fuel eol w pad _ vm hw heol hpad hvm,
          ih fuel (',' :: eol) hf2 hsep hrest]
        rfl

/-- The joined text of non-empty objects has at least one char per object. -/
theorem joinWith_length (sep : Str) : ∀ xs : List Str, (∀ x ∈ xs, x ≠ []) →
    xs.length ≤ (joinWith sep xs).length := by
  intro xs
  induction xs with
  | nil => intro _; exact Nat.le_refl _
  | cons x rest ih =>
    intro h
    have hx : 1 ≤ x.length := by
      have := h x (List.mem_cons_self x rest)
      cases x with
      | nil => exact absurd rfl this
      | cons a b => simp
    have hr := ih (fun y hy => h y (List.mem_cons_of_mem x hy))
    cases rest with
    | nil =>
      simp only [joinWith, List.length_singleton]
      exact hx
    | cons y rest2 =>
      simp only [joinWith, List.length_cons, List.length_append] at hr ⊢
      omega

/-- No offset is found when no char satisfies `p`. -/
theorem findIdx_none (p : Char → Bool) : ∀ s : Str, (∀ x ∈ s, p x = false) →
    findIdx p s = none ∧ findLastIdx p s = none := by
  intro s
  induction s with
  | nil => intro _; exact ⟨rfl, rfl⟩
  | cons c cs ih =>
    intro h
    have hc : p c = false := h c (List.mem_cons_self c cs)
    have h2 := ih (fun x hx => h x (List.mem_cons_of_mem c hx))
    constructor
    · show (if p c = true then some 0 else (findIdx p cs).map (fun i => i + 1)) = none
      rw [if_neg (by rw [hc]; decide), h2.1]
      rfl
    · show (match findLastIdx p cs with
        | some i => some (i + 1)
        | none => if p c = true then some 0 else none) = none
      rw [h2.2]
      dsimp only
      rw [if_neg (by rw [hc]; decide)]

/-- Chars that do not satisfy `p`, after the text, do not change the last offset. -/
theorem findLastIdx_trail (p : Char → Bool) (trail : Str) (ht : ∀ x ∈ trail, p x = false) :
    ∀ s : Str, findLastIdx p (s ++ trail) = findLastIdx p s := by
  intro s
  induction s with
  | nil => exact (findIdx_none p trail ht).2
  | cons c cs ih =>
    show (match findLastIdx p (cs ++ trail) with
      | some i => some (i + 1)
      | none => if p c = true then some 0 else none) = findLastIdx p (c :: cs)
    rw [ih]
    rfl

/-- Chars in front of the text shift the last offset. -/
theorem findLastIdx_lead (p : Char → Bool) (X : Str) (i : Nat) (h : findLastIdx p X = some i) :
    ∀ lead : Str, findLastIdx p (lead ++ X) = some (i + lead.length) := by
  intro lead
  induction lead with
  | nil => exact h
  | cons c cs ih =>
    show (match findLastIdx p (cs ++ X) with
      | some j => some (j + 1)
      | none => if p c = true then some 0 else none) = _
    rw [ih]
    rfl

/-- A char that is no blank passes the test of the scans of `Utils::Trim`. -/
theorem not_blank_test (c : Char) (hc : c ∉ blanks) : (fun x => !blanks.contains x) c = true := by
  simp only [Bool.not_eq_true', ← Bool.not_eq_true]
  exact fun hm => hc (List.elem_iff.mp hm)

/-- A blank fails the test of the scans of `Utils::Trim`. -/
theorem blank_test (w : Str) (hw : ∀ c ∈ w, c ∈ blanks) :
    ∀ x ∈ w, (fun c => !blanks.contains c) x = false := by
  intro x hx
  simp only [Bool.not_eq_false']
  exact List.elem_iff.mpr (hw x hx)

/-- The text `Utils::Trim` returns for blanks: nothing. -/
theorem Trim_blank (w : Str) (hw : ∀ c ∈ w, c ∈ blanks) : Trim w = [] := by
  unfold Trim find_first_not_of
  rw [List.drop_zero, (findIdx_none _ w (blank_test w hw)).1]
  rfl

/-- The text `Utils::Trim` returns for a text between blanks that neither starts nor ends
with a blank: that text. -/
theorem Trim_core (c d : Char) (lead init rest trail : Str) (hc : c ∉ blanks) (hd : d ∉ blanks)
    (h : init ++ [d] = c :: rest) (hlead : ∀ x ∈ lead, x ∈ blanks)
    (htrail : ∀ x ∈ trail, x ∈ blanks) :
    Trim (lead ++ (init ++ [d]) ++ trail) = init ++ [d] := by
  have h1 : find_first_not_of (lead ++ (init ++ [d]) ++ trail) blanks 0 = some lead.length := by
    unfold find_first_not_of
    rw [List.drop_zero, h, List.append_assoc, List.cons_append,
      findIdx_after _ c _ (not_blank_test c hc) lead (blank_test lead hlead)]
    rfl
  have h2 : find_last_not_of (lead ++ (init ++ [d]) ++ trail) blanks =
      some (init.length + lead.length) := by
    unfold find_last_not_of
    rw [findLastIdx_trail _ trail (blank_test trail htrail)]
    exact findLastIdx_lead _ _ _ (findLastIdx_last _ d (not_blank_test d hd) init) lead
  unfold Trim
  rw [h1]
  dsimp only
  rw [h2]
  dsimp only
  unfold substr
  rw [List.append_assoc, List.drop_left]
  apply List.take_left'
  simp only [List.length_append, List.length_singleton]
  omega

/-- What `ParseVMJson` returns on the serialisation of readable VMs, between blanks: their
records, in order. -/
theorem ParseVMJson_readable (eol lead trail : Str) (heol : ∀ c ∈ eol, c ∈ blanks)
    (hlead : ∀ c ∈ lead, c ∈ blanks) (htrail : ∀ c ∈ trail, c ∈ blanks)
    (vms : List VMInfo) (h : ∀ vm ∈ vms, Readable vm) :
    ParseVMJson (lead ++ vmsJson eol vms ++ trail) = vms.map parsedFields := by
  have hnil : ∀ c ∈ ([] : Str), c ∈ blanks := fun c hc => absurd hc (List.not_mem_nil c)
  have hfour : ∀ c ∈ lit "    ", c ∈ blanks := by decide
  have hb := blank_no_brace eol heol
  cases vms with
  | nil =>
    have hall : ∀ c ∈ lead ++ vmsJson eol [] ++ trail, c ∈ blanks := by
      intro c hc
      simp only [vmsJson, List.append_nil, List.mem_append] at hc
      rcases hc with hc | hc
      · exact hlead c hc
      · exact htrail c hc
    unfold ParseVMJson
    dsimp only
    rw [Trim_blank _ hall]
    rfl
  | cons vm rest =>
    have hvm := h vm (List.mem_cons_self vm rest)
    cases rest with
    | nil =>
      obtain ⟨body, hbody, _⟩ := vmObject_brace eol [] vm heol hnil hvm
      have htext : vmsJson eol [vm] = ('\x7b' :: body) ++ ['\x7d'] := by
        show vmJson eol [] vm = _
        rw [vmJson_eq, List.nil_append, hbody]
        rfl
      have htrim : Trim (lead ++ vmsJson eol [vm] ++ trail) = vmsJson eol [vm] := by
        rw [htext]
        exact Trim_core '\x7b' '\x7d' lead ('\x7b' :: body) (body ++ ['\x7d']) trail (by decide)
          (by decide) rfl hlead htrail
      have hjoin := parseObjects_join eol [] [] heol hnil (List.not_mem_nil _) [vm]
        (vmsJson eol [vm]).length [] (by rw [htext]; simp) (List.not_mem_nil _) h
      have e : [] ++ joinWith (',' :: eol) ([vm].map (vmJson eol [])) ++ [] = vmsJson eol [vm] := by
        simp [joinWith, vmsJson]
      rw [e] at hjoin
      unfold ParseVMJson
      dsimp only
      rw [htrim]
      rw [htext] at hjoin ⊢
      rw [if_neg (by simp), if_neg (by simp)]
      exact hjoin
    | cons vm2 rest2 =>
      have hJ : vmsJson eol (vm :: vm2 :: rest2) =
          ('[' :: (eol ++ joinWith (',' :: eol)
            ((vm :: vm2 :: rest2).map (vmJson eol (lit "    "))) ++ eol)) ++ [']'] := by
        simp [vmsJson, lit]
      have hlen : (vm :: vm2 :: rest2).length ≤
          (joinWith (',' :: eol) ((vm :: vm2 :: rest2).map (vmJson eol (lit "    ")))).length := by
        have := joinWith_length (',' :: eol)
          ((vm :: vm2 :: rest2).map (vmJson eol (lit "    "))) (by
          intro x hx
          rw [List.mem_map] at hx
          obtain ⟨v, _, rfl⟩ := hx
          rw [vmJson_eq]
          simp [vmObject, lit])
        rw [List.length_map] at this
        exact this
      generalize hg : joinWith (',' :: eol)
        ((vm :: vm2 :: rest2).map (vmJson eol (lit "    "))) = J at hJ hlen
      have htrim : Trim (lead ++ vmsJson eol (vm :: vm2 :: rest2) ++ trail) =
          vmsJson eol (vm :: vm2 :: rest2) := by
        rw [hJ]
        exact Trim_core '[' ']' lead _ _ trail (by decide) (by decide) rfl hlead htrail
      have hlast : findLastIdx (fun c => decide (c = ']')) (('[' :: (eol ++ J ++ eol)) ++ [']']) =
          some ('[' :: (eol ++ J ++ eol)).length :=
        findLastIdx_last _ ']' (by decide) _
      have hsub : substr (('[' :: (eol ++ J ++ eol)) ++ [']']) 1
          (('[' :: (eol ++ J ++ eol)).length - 1) = eol ++ J ++ eol := by
        unfold substr
        have e : (('[' :: (eol ++ J ++ eol)) ++ [']']).drop 1 = (eol ++ J ++ eol) ++ [']'] := rfl
        rw [e]
        apply List.take_left'
        simp
      have hjoin := parseObjects_join eol (lit "    ") eol heol hfour hb.1
        (vm :: vm2 :: rest2) (eol ++ J ++ eol).length eol
        (by simp only [List.length_append]; omega) hb.1 h
      rw [hg] at hjoin
      unfold ParseVMJson
      dsimp only
      rw [htrim, hJ, if_neg (by simp), if_pos (by rfl), hlast]
      dsimp only
      rw [hsub]
      exact hjoin

/-- C28: `ParseVMJson` reads the serialisation of readable VM records back, one record per
VM, in order, with the same name, state, GPU status, VRAM and instance path, whatever
blanks end the lines and surround the text; a record is readable when it has a name, its
VRAM fits 64 bits, its name, state and GPU status hold no double quote and are not the key
of a member, and none of its texts holds a closing brace.  Outside these limits records
are lost or read wrongly.  A VM whose name holds a closing brace is lost: the scan for the
end of its object stops at that brace, no name is read from the cut text and the record is
dropped.  A VM whose name is the key of a later member is read wrongly: the search for
that key finds the name, and the value of the member after it is returned. -/
theorem C28_parse_round_trip_limits :
    (∀ (eol lead trail : Str) (vms : List VMInfo),
      (∀ c ∈ eol, c ∈ blanks) → (∀ c ∈ lead, c ∈ blanks) → (∀ c ∈ trail, c ∈ blanks) →
      (∀ vm ∈ vms, Readable vm) →
      ParseVMJson (lead ++ vmsJson eol vms ++ trail) = vms.map parsedFields) ∧
    Readable sampleVMInfo ∧ Readable plainVMInfo ∧
    ParseVMJson (vmsJson (lit "\r\n") [sampleVMInfo, plainVMInfo] ++ lit "\r\n") =
      [sampleVMInfo, plainVMInfo] ∧
    ParseVMJson (vmsJson (lit "\r\n") [sampleVMInfo] ++ lit "\r\n") = [sampleVMInfo] ∧
    vmsJson (lit "\r\n") [{ plainVMInfo with strName := lit "a\x7db" }] ++ lit "\r\n" =
      lit "\x7b\r\n    \"Name\":  \"a\x7db\",\r\n    \"State\":  \"Off\",\r\n    \"GpuStatus\":  \"Off\",\r\n    \"VRAM\":  0,\r\n    \"InstancePath\":  \"\"\r\n\x7d\r\n" ∧
    ParseVMJson (vmsJson (lit "\r\n") [{ plainVMInfo with strName := lit "a\x7db" }] ++
      lit "\r\n") = [] ∧
    ParseVMJson (vmsJson (lit "\r\n")
      [{ plainVMInfo with strName := lit "a\x7db" }, sampleVMInfo] ++ lit "\r\n") =
      [sampleVMInfo] ∧
    ParseVMJson (vmsJson (lit "\r\n") [{ sampleVMInfo with strName := lit "GpuStatus" }] ++
      lit "\r\n") =
      [{ sampleVMInfo with strName := lit "GpuStatus", strGPUStatus := lit "Running" }] ∧
    ParseVMJson (vmsJson (lit "\r\n") [{ sampleVMInfo with strName := lit "VRAM" }] ++
      lit "\r\n") =
      [{ sampleVMInfo with strName := lit "VRAM", ui64VramBytes := 0 }] := by
  refine ⟨?_, ?_, ?_, ?_, ?_, ?_, ?_, ?_, ?_, ?_⟩
  · intro eol lead trail vms heol hlead htrail hvms
    exact ParseVMJson_readable eol lead trail heol hlead htrail vms hvms
  · exact ⟨by decide, by decide, by decide, by decide, by decide, by decide, by decide,
      by decide, by decide, by decide, by decide, by decide⟩
  · exact ⟨by decide, by decide, by decide, by decide, by decide, by decide, by decide,
      by decide, by decide, by decide, by decide, by decide⟩
  all_goals decide!

end SmartGPUPV
